import Mathlib

/-!
# Artic type table, type algebra and type checker

A shallow embedding of `src/types.cpp` and of parts of `src/check.cpp` of the Artic front-end.

* Part 1 (`Artic.Ty`): type objects of one type table seen as trees of their fields.  Inside one
  table pointer equality `this == other` is equality of these trees: structural kinds are interned
  by `TypeTable::insert`, nominal kinds are leaves that carry the identity of their object.
  `Ty.subtype` is `Type::subtype`.
* Part 2 (`Artic.TypeTable`): the table itself, as a heap of type objects whose children are
  addresses, with `equals`, `hash` and `insert` as in the source.
* Parts 3 and 4: the literal rules of `src/check.cpp` with the state of the checker, and
  `replace`, `order` and `is_sized` on type trees.
* Part 5 (`Artic.Expr`): the expressions that `src/check.cpp` annotates and rewrites, with
  `deref`, `coerce`, `try_coerce`, the operators, `check_filter`, `infer_type_args`,
  `check_fields` and `check_block`.  The virtual methods of the nodes are a parameter of the
  functions of the checker.
* Part 6: `TypeChecker::run`, the guard `enter_decl`/`exit_decl` of the declarations, the match
  and cast expressions and the constructors of tuple-like structures in `Path::infer`.
* Part 7 (`Artic.ast`): the expressions of `src/ast.h` with their pattern-shape predicates.
-/

namespace Artic

/-! ## Part 1: types as trees -/

/-- Tags of `ast::PrimType::Tag`. -/
inductive PrimTag where
  | Bool | I8 | I16 | I32 | I64 | U8 | U16 | U32 | U64 | F32 | F64
deriving DecidableEq

/-- A type object together with everything it points to.  One constructor per class whose
`equals` is defined in `types.cpp`; the argument of a nominal constructor (`typeVar`, `forallTy`,
`struct`, `enum`, `typeAlias`) is the identity of the object, because their `equals` is
`other == this`.  `mod`, `bottom`, `top` and `implicitParam` are the kinds `check.cpp` tests with
`isa` and that `types.cpp` never mentions: `Type::subtype` has no case for them. -/
inductive Ty where
  | prim (tag : PrimTag)
  | tuple (args : List Ty)
  | sizedArray (elem : Ty) (size : Nat) (is_simd : Bool)
  | unsizedArray (elem : Ty)
  | ptr (pointee : Ty) (is_mut : Bool) (addr_space : Nat)
  | ref (pointee : Ty) (is_mut : Bool) (addr_space : Nat)
  | fn (dom codom : Ty)
  | noRet
  | typeError
  | typeVar (obj : Nat)
  | forallTy (obj : Nat)
  | struct (obj : Nat)
  | enum (obj : Nat)
  | typeAlias (obj : Nat)
  | typeApp (applied : Ty) (type_args : List Ty)
  | mod (obj : Nat)
  | bottom
  | top
  | implicitParam (underlying : Ty)

/-- Binary codes with decidable equality, used to decide equality of `Ty`. -/
inductive Code where
  | tag (t : PrimTag)
  | nat (n : Nat)
  | bool (b : Bool)
  | nil
  | node (l r : Code)
deriving DecidableEq

mutual
/-- An injective coding of type trees. -/
def Ty.encode : Ty → Code
  | .prim t => .node (.nat 0) (.tag t)
  | .tuple xs => .node (.nat 1) (Ty.encodeList xs)
  | .sizedArray e n s => .node (.nat 2) (.node (Ty.encode e) (.node (.nat n) (.bool s)))
  | .unsizedArray e => .node (.nat 3) (Ty.encode e)
  | .ptr p m a => .node (.nat 4) (.node (Ty.encode p) (.node (.bool m) (.nat a)))
  | .ref p m a => .node (.nat 5) (.node (Ty.encode p) (.node (.bool m) (.nat a)))
  | .fn d c => .node (.nat 6) (.node (Ty.encode d) (Ty.encode c))
  | .noRet => .node (.nat 7) .nil
  | .typeError => .node (.nat 8) .nil
  | .typeVar i => .node (.nat 9) (.nat i)
  | .forallTy i => .node (.nat 10) (.nat i)
  | .struct i => .node (.nat 11) (.nat i)
  | .enum i => .node (.nat 12) (.nat i)
  | .typeAlias i => .node (.nat 13) (.nat i)
  | .typeApp f xs => .node (.nat 14) (.node (Ty.encode f) (Ty.encodeList xs))
  | .mod i => .node (.nat 15) (.nat i)
  | .bottom => .node (.nat 16) .nil
  | .top => .node (.nat 17) .nil
  | .implicitParam u => .node (.nat 18) (Ty.encode u)
/-- The coding of a list of type trees. -/
def Ty.encodeList : List Ty → Code
  | [] => .nil
  | x :: xs => .node (Ty.encode x) (Ty.encodeList xs)
end

mutual
theorem Ty.encode_inj : ∀ (a b : Ty), Ty.encode a = Ty.encode b → a = b
  | .prim t, b => by cases b <;> simp [Ty.encode]
  | .tuple xs, b => by
      cases b <;> simp [Ty.encode]
      exact Ty.encodeList_inj xs _
  | .sizedArray e n s, b => by
      cases b <;> simp [Ty.encode]
      intro h1 h2 h3
      exact ⟨Ty.encode_inj e _ h1, h2, h3⟩
  | .unsizedArray e, b => by
      cases b <;> simp [Ty.encode]
      exact Ty.encode_inj e _
  | .ptr p m a, b => by
      cases b <;> simp [Ty.encode]
      intro h1 h2 h3
      exact ⟨Ty.encode_inj p _ h1, h2, h3⟩
  | .ref p m a, b => by
      cases b <;> simp [Ty.encode]
      intro h1 h2 h3
      exact ⟨Ty.encode_inj p _ h1, h2, h3⟩
  | .fn d c, b => by
      cases b <;> simp [Ty.encode]
      intro h1 h2
      exact ⟨Ty.encode_inj d _ h1, Ty.encode_inj c _ h2⟩
  | .noRet, b => by cases b <;> simp [Ty.encode]
  | .typeError, b => by cases b <;> simp [Ty.encode]
  | .typeVar i, b => by cases b <;> simp [Ty.encode]
  | .forallTy i, b => by cases b <;> simp [Ty.encode]
  | .struct i, b => by cases b <;> simp [Ty.encode]
  | .enum i, b => by cases b <;> simp [Ty.encode]
  | .typeAlias i, b => by cases b <;> simp [Ty.encode]
  | .typeApp f xs, b => by
      cases b <;> simp [Ty.encode]
      intro h1 h2
      exact ⟨Ty.encode_inj f _ h1, Ty.encodeList_inj xs _ h2⟩
  | .mod i, b => by cases b <;> simp [Ty.encode]
  | .bottom, b => by cases b <;> simp [Ty.encode]
  | .top, b => by cases b <;> simp [Ty.encode]
  | .implicitParam u, b => by
      cases b <;> simp [Ty.encode]
      exact Ty.encode_inj u _
theorem Ty.encodeList_inj : ∀ (xs ys : List Ty), Ty.encodeList xs = Ty.encodeList ys → xs = ys
  | [], ys => by cases ys <;> simp [Ty.encodeList]
  | x :: xs, ys => by
      cases ys <;> simp [Ty.encodeList]
      intro h1 h2
      exact ⟨Ty.encode_inj x _ h1, Ty.encodeList_inj xs _ h2⟩
end

instance : DecidableEq Ty := fun a b =>
  if h : Ty.encode a = Ty.encode b then isTrue (Ty.encode_inj a b h)
  else isFalse (fun e => h (e ▸ rfl))

/-- The test `isa<NoRetType>()`. -/
def Ty.isNoRet : Ty → Bool
  | .noRet => true
  | _ => false

/-- The test `isa<PtrType>()`. -/
def Ty.isPtr : Ty → Bool
  | .ptr _ _ _ => true
  | _ => false

/-- The test `isa<RefType>()`. -/
def Ty.isRef : Ty → Bool
  | .ref _ _ _ => true
  | _ => false

/-- The test `isa<UnsizedArrayType>()`. -/
def Ty.isUnsizedArray : Ty → Bool
  | .unsizedArray _ => true
  | _ => false

/-- The last statements of `Type::subtype` (`[T * N] <= [T]`, then `return false`): reached
whenever no earlier `return` was taken. -/
def Ty.subtypeArray : Ty → Ty → Bool
  | .sizedArray elem _ is_simd, .unsizedArray oelem => decide (elem = oelem) && !is_simd
  | _, _ => false

/-- The function `Type::subtype` (types.cpp:363-390), statement by statement. -/
def Ty.subtype (this other : Ty) : Bool :=
  -- ! is the bottom type
  if this = other ∨ this.isNoRet = true then true
  else match _hthis : this with
    -- ref U <= T if U <= T
    | .ref pointee _ _ => Ty.subtype pointee other
    | _ =>
      match _hother : other with
      | .ptr opointee ois_mut oaddr_space =>
        if opointee.isPtr = true then false
        -- U <= &T if U <= T
        else if ois_mut = false ∧ Ty.subtype this opointee = true then true
        else match _hptr : this with
          | .ptr pointee is_mut addr_space =>
            if addr_space = oaddr_space ∧ (is_mut = true ∨ ois_mut = false) then
              -- &U <= &T if U <= T, &mut U <= &T if U <= T
              Ty.subtype pointee opointee
            else Ty.subtypeArray this other
          | _ => Ty.subtypeArray this other
      | _ => Ty.subtypeArray this other
termination_by sizeOf this + sizeOf other
decreasing_by
  all_goals simp_wf
  all_goals subst_vars
  all_goals first
    | omega
    | (simp; omega)

/-! ## Part 2: the type table -/

/-- The address of a type object allocated with `new`: its rank in the order of allocation. -/
abbrev Addr := Nat

/-- The address of an AST node (`&decl`, `&param`). -/
abbrev NodeAddr := Nat

/-- The number that stands for a tag when it is hashed. -/
def PrimTag.toNat : PrimTag → Nat
  | .Bool => 0 | .I8 => 1 | .I16 => 2 | .I32 => 3 | .I64 => 4 | .U8 => 5
  | .U16 => 6 | .U32 => 7 | .U64 => 8 | .F32 => 9 | .F64 => 10

/-- The fields of one type object, one constructor per class of `types.cpp`; a child is the
address of another type object.  The field `body` of `ForallType`, assigned after construction and
read by neither `equals` nor `hash`, is left out. -/
inductive TypeObj where
  | PrimType (tag : PrimTag)
  | TupleType (args : List Addr)
  | SizedArrayType (elem : Addr) (size : Nat) (is_simd : Bool)
  | UnsizedArrayType (elem : Addr)
  | PtrType (pointee : Addr) (is_mut : Bool) (addr_space : Nat)
  | RefType (pointee : Addr) (is_mut : Bool) (addr_space : Nat)
  | FnType (dom codom : Addr)
  | NoRetType
  | TypeError
  | TypeVar (param : NodeAddr)
  | ForallType (decl : NodeAddr)
  | StructType (decl : NodeAddr)
  | EnumType (decl : NodeAddr)
  | TypeAlias (decl : NodeAddr)
  | TypeApp (applied : Addr) (type_args : List Addr)
deriving DecidableEq

/-- Where an object lives: on the heap at an address, or on the stack, as does the local `t` of
`TypeTable::insert`. -/
inductive Place where
  | heap (addr : Addr)
  | stack
deriving DecidableEq

/-- The virtual `equals` (types.cpp:11-82); `this` and `other` are objects with their place, since
the nominal classes compare the pointers. -/
def TypeObj.equals (this other : Place × TypeObj) : Bool :=
  match this.2 with
  | .PrimType tag =>
    match other.2 with
    | .PrimType otag => decide (otag = tag)
    | _ => false
  | .TupleType args =>
    match other.2 with
    | .TupleType oargs => decide (oargs = args)
    | _ => false
  | .SizedArrayType elem size is_simd =>
    match other.2 with
    | .SizedArrayType oelem osize ois_simd =>
      decide (oelem = elem) && decide (osize = size) && decide (ois_simd = is_simd)
    | _ => false
  | .UnsizedArrayType elem =>
    match other.2 with
    | .UnsizedArrayType oelem => decide (oelem = elem)
    | _ => false
  | .PtrType pointee is_mut addr_space =>
    -- AddrType::equals: `typeid(*other) == typeid(*this)` keeps pointers and references apart
    match other.2 with
    | .PtrType opointee ois_mut oaddr_space =>
      decide (opointee = pointee) && decide (oaddr_space = addr_space) && decide (ois_mut = is_mut)
    | _ => false
  | .RefType pointee is_mut addr_space =>
    match other.2 with
    | .RefType opointee ois_mut oaddr_space =>
      decide (opointee = pointee) && decide (oaddr_space = addr_space) && decide (ois_mut = is_mut)
    | _ => false
  | .FnType dom codom =>
    match other.2 with
    | .FnType odom ocodom => decide (odom = dom) && decide (ocodom = codom)
    | _ => false
  | .NoRetType =>
    match other.2 with
    | .NoRetType => true
    | _ => false
  | .TypeError =>
    match other.2 with
    | .TypeError => true
    | _ => false
  | .TypeVar _ => decide (other.1 = this.1)
  | .ForallType _ => decide (other.1 = this.1)
  | .StructType _ => decide (other.1 = this.1)
  | .EnumType _ => decide (other.1 = this.1)
  | .TypeAlias _ => decide (other.1 = this.1)
  | .TypeApp applied type_args =>
    match other.2 with
    | .TypeApp oapplied otype_args => decide (oapplied = applied) && decide (otype_args = type_args)
    | _ => false

/-- The value of `typeid(*this).hash_code()`: one number per class. -/
def TypeObj.typeid : TypeObj → Nat
  | .PrimType _ => 0
  | .TupleType _ => 1
  | .SizedArrayType _ _ _ => 2
  | .UnsizedArrayType _ => 3
  | .PtrType _ _ _ => 4
  | .RefType _ _ _ => 5
  | .FnType _ _ => 6
  | .NoRetType => 7
  | .TypeError => 8
  | .TypeVar _ => 9
  | .ForallType _ => 10
  | .StructType _ => 11
  | .EnumType _ => 12
  | .TypeAlias _ => 13
  | .TypeApp _ _ => 14

/-- The virtual `hash` (types.cpp:86-158).  `fnv` stands for `fnv::Hash` of `hash.h`, which is
not among the sources: it is applied to the sequence of the combined values. -/
def TypeObj.hash (fnv : List Nat → Nat) (this : TypeObj) : Nat :=
  match this with
  | .PrimType tag => fnv [this.typeid, tag.toNat]
  | .TupleType args => fnv (this.typeid :: args)
  | .SizedArrayType elem size is_simd => fnv [this.typeid, elem, size, is_simd.toNat]
  | .UnsizedArrayType elem => fnv [this.typeid, elem]
  | .PtrType pointee is_mut _ => fnv [this.typeid, pointee, is_mut.toNat]
  | .RefType pointee is_mut _ => fnv [this.typeid, pointee, is_mut.toNat]
  | .FnType dom codom => fnv [this.typeid, dom, codom]
  | .NoRetType => fnv [this.typeid]
  | .TypeError => fnv [this.typeid]
  | .TypeVar param => fnv [param]
  | .ForallType decl => fnv [decl]
  | .StructType decl => fnv [decl]
  | .EnumType decl => fnv [decl]
  | .TypeAlias decl => fnv [decl]
  | .TypeApp applied type_args => fnv (this.typeid :: applied :: type_args)

/-- The classes whose `equals` is `other == this`. -/
def TypeObj.isNominal : TypeObj → Bool
  | .TypeVar _ | .ForallType _ | .StructType _ | .EnumType _ | .TypeAlias _ => true
  | _ => false

/-- The state of a `TypeTable`: the objects allocated with `new` (the object at address `a` is
`heap[a]`), the pointers held by the set `types_`, and the three lazily set singletons. -/
structure TypeTable where
  heap : List TypeObj
  types_ : List Addr
  unit_type_ : Option Addr
  no_ret_type_ : Option Addr
  type_error_ : Option Addr
deriving DecidableEq

/-- A table just constructed. -/
def TypeTable.empty : TypeTable :=
  { heap := [], types_ := [], unit_type_ := none, no_ret_type_ := none, type_error_ := none }

/-- Modelled from the spec: the lookup of the set `types_`, whose declaration (types.h) is not
among the sources.  The table is hash-consed: the set holds one pointer per class of objects that
are `equals`, so looking a key up yields the element that is `equals` to the key, if there is one
(`hash` only selects the bucket, and objects that are `equals` have the same `hash`). -/
def TypeTable.find (tbl : TypeTable) (key : Place × TypeObj) : Option Addr :=
  tbl.types_.find? (fun a =>
    match tbl.heap[a]? with
    | some o => TypeObj.equals key (.heap a, o)
    | none => false)

/-- The template `TypeTable::insert` (types.cpp:545-552): the object `t` is built on the stack and
looked up; when nothing is found it is moved to a new heap object, which `emplace` adds to the set
unless the set holds an equivalent element, and the element the iterator points to is returned. -/
def TypeTable.insert (tbl : TypeTable) (t : TypeObj) : Addr × TypeTable :=
  match tbl.find (.stack, t) with
  | some a => (a, tbl)
  | none =>
    let a := tbl.heap.length
    let tbl1 := { tbl with heap := tbl.heap ++ [t] }
    match tbl1.find (.heap a, t) with
    | some b => (b, tbl1)
    | none => (a, { tbl1 with types_ := tbl1.types_ ++ [a] })

def TypeTable.prim_type (tbl : TypeTable) (tag : PrimTag) : Addr × TypeTable :=
  tbl.insert (.PrimType tag)

def TypeTable.bool_type (tbl : TypeTable) : Addr × TypeTable :=
  tbl.prim_type .Bool

def TypeTable.tuple_type (tbl : TypeTable) (elems : List Addr) : Addr × TypeTable :=
  tbl.insert (.TupleType elems)

def TypeTable.unit_type (tbl : TypeTable) : Addr × TypeTable :=
  match tbl.unit_type_ with
  | some a => (a, tbl)
  | none =>
    let r := tbl.tuple_type []
    (r.1, { r.2 with unit_type_ := some r.1 })

def TypeTable.sized_array_type (tbl : TypeTable) (elem : Addr) (size : Nat) (is_simd : Bool) :
    Addr × TypeTable :=
  tbl.insert (.SizedArrayType elem size is_simd)

def TypeTable.unsized_array_type (tbl : TypeTable) (elem : Addr) : Addr × TypeTable :=
  tbl.insert (.UnsizedArrayType elem)

def TypeTable.ptr_type (tbl : TypeTable) (pointee : Addr) (is_mut : Bool) (addr_space : Nat) :
    Addr × TypeTable :=
  tbl.insert (.PtrType pointee is_mut addr_space)

def TypeTable.ref_type (tbl : TypeTable) (pointee : Addr) (is_mut : Bool) (addr_space : Nat) :
    Addr × TypeTable :=
  tbl.insert (.RefType pointee is_mut addr_space)

def TypeTable.fn_type (tbl : TypeTable) (dom codom : Addr) : Addr × TypeTable :=
  tbl.insert (.FnType dom codom)

def TypeTable.no_ret_type (tbl : TypeTable) : Addr × TypeTable :=
  match tbl.no_ret_type_ with
  | some a => (a, tbl)
  | none =>
    let r := tbl.insert .NoRetType
    (r.1, { r.2 with no_ret_type_ := some r.1 })

def TypeTable.cn_type (tbl : TypeTable) (dom : Addr) : Addr × TypeTable :=
  let r := tbl.no_ret_type
  r.2.fn_type dom r.1

def TypeTable.type_error (tbl : TypeTable) : Addr × TypeTable :=
  match tbl.type_error_ with
  | some a => (a, tbl)
  | none =>
    let r := tbl.insert .TypeError
    (r.1, { r.2 with type_error_ := some r.1 })

def TypeTable.type_var (tbl : TypeTable) (param : NodeAddr) : Addr × TypeTable :=
  tbl.insert (.TypeVar param)

def TypeTable.forall_type (tbl : TypeTable) (decl : NodeAddr) : Addr × TypeTable :=
  tbl.insert (.ForallType decl)

def TypeTable.struct_type (tbl : TypeTable) (decl : NodeAddr) : Addr × TypeTable :=
  tbl.insert (.StructType decl)

def TypeTable.enum_type (tbl : TypeTable) (decl : NodeAddr) : Addr × TypeTable :=
  tbl.insert (.EnumType decl)

def TypeTable.type_alias (tbl : TypeTable) (decl : NodeAddr) : Addr × TypeTable :=
  tbl.insert (.TypeAlias decl)

/-- What `type_app` reads of an `ast::TypeDecl`: the `type` slots of its type parameters
(`type_params->params[i]->type`) and the slot `aliased_type->type`; `none` is a null pointer. -/
structure TypeDecl where
  type_params : Option (List (Option Addr))
  aliased_type : Option Addr
deriving DecidableEq

/-- The loop of `TypeApp::replace_map` (types.cpp:408-411): `emplace` keeps the first binding of a
variable, a parameter without type fails the assertion (`none`). -/
def TypeApp.replace_map.loop :
    List (Option Addr) → List Addr → List (Addr × Addr) → Option (List (Addr × Addr))
  | some v :: params, arg :: type_args, map =>
    TypeApp.replace_map.loop params type_args
      (if (map.lookup v).isSome then map else map ++ [(v, arg)])
  | none :: _, _ :: _, _ => none
  | _, _, map => some map

/-- The function `TypeApp::replace_map` (types.cpp:402-413); a failed assertion is `none`. -/
def TypeApp.replace_map (type_params : List (Option Addr)) (type_args : List Addr) :
    Option (List (Addr × Addr)) :=
  if type_params.length = type_args.length then
    TypeApp.replace_map.loop type_params type_args []
  else none

/-- The loops `new_args[i] = args[i]->replace(map)` of `TupleType::replace` and
`TypeApp::replace`, for a given `replace`. -/
def TypeTable.replaceArgs (replace : TypeTable → Addr → Option (Addr × TypeTable)) :
    TypeTable → List Addr → Option (List Addr × TypeTable)
  | tbl, [] => some ([], tbl)
  | tbl, arg :: args =>
    match replace tbl arg with
    | none => none
    | some (new_arg, tbl1) =>
      match TypeTable.replaceArgs replace tbl1 args with
      | none => none
      | some (new_args, tbl2) => some (new_arg :: new_args, tbl2)

mutual
/-- The virtual `replace` (types.cpp:193-231) on the object at address `this`.  The recursion
follows pointers of the heap and the bodies of aliases, so it is bounded by `fuel`; `none` is lack
of fuel, a dangling pointer or a failed assertion.  The classes without an override keep the
object (the base `Type::replace` of types.h, not among the sources).  The two arguments of
`fn_type` are evaluated from left to right. -/
def TypeTable.replace (ast : NodeAddr → TypeDecl) :
    Nat → TypeTable → List (Addr × Addr) → Addr → Option (Addr × TypeTable)
  | 0, _, _, _ => none
  | fuel + 1, tbl, map, this =>
    match tbl.heap[this]? with
    | none => none
    | some (.TupleType args) =>
      match TypeTable.replaceArgs (fun tbl arg => TypeTable.replace ast fuel tbl map arg) tbl args with
      | none => none
      | some (new_args, tbl1) => some (tbl1.tuple_type new_args)
    | some (.SizedArrayType elem size is_simd) =>
      match TypeTable.replace ast fuel tbl map elem with
      | none => none
      | some (new_elem, tbl1) => some (tbl1.sized_array_type new_elem size is_simd)
    | some (.UnsizedArrayType elem) =>
      match TypeTable.replace ast fuel tbl map elem with
      | none => none
      | some (new_elem, tbl1) => some (tbl1.unsized_array_type new_elem)
    | some (.PtrType pointee is_mut addr_space) =>
      match TypeTable.replace ast fuel tbl map pointee with
      | none => none
      | some (new_pointee, tbl1) => some (tbl1.ptr_type new_pointee is_mut addr_space)
    | some (.RefType pointee is_mut addr_space) =>
      match TypeTable.replace ast fuel tbl map pointee with
      | none => none
      | some (new_pointee, tbl1) => some (tbl1.ref_type new_pointee is_mut addr_space)
    | some (.FnType dom codom) =>
      match TypeTable.replace ast fuel tbl map dom with
      | none => none
      | some (new_dom, tbl1) =>
        match TypeTable.replace ast fuel tbl1 map codom with
        | none => none
        | some (new_codom, tbl2) => some (tbl2.fn_type new_dom new_codom)
    | some (.TypeVar _) =>
      match map.lookup this with
      | some type => some (type, tbl)
      | none => some (this, tbl)
    | some (.TypeApp applied type_args) =>
      match TypeTable.replaceArgs (fun tbl arg => TypeTable.replace ast fuel tbl map arg) tbl
          type_args with
      | none => none
      | some (new_type_args, tbl1) => TypeTable.type_app ast fuel tbl1 applied new_type_args
    | some _ => some (this, tbl)
/-- The function `TypeTable::type_app` (types.cpp:536-543): an alias is expanded by replacing its
parameters in the aliased type, any other applied type gives an interned `TypeApp`. -/
def TypeTable.type_app (ast : NodeAddr → TypeDecl) :
    Nat → TypeTable → Addr → List Addr → Option (Addr × TypeTable)
  | fuel, tbl, applied, type_args =>
    match tbl.heap[applied]? with
    | some (.TypeAlias decl) =>
      match (ast decl).type_params, (ast decl).aliased_type with
      | some type_params, some aliased =>
        match TypeApp.replace_map type_params type_args with
        | none => none
        | some map =>
          match fuel with
          | 0 => none
          | fuel1 + 1 => TypeTable.replace ast fuel1 tbl map aliased
      | _, _ => none
    | _ => some (tbl.insert (.TypeApp applied type_args))
end

/-- The objects at two addresses are objects of a structural class with the same fields. -/
def TypeTable.sameStructural (tbl : TypeTable) (a b : Addr) : Bool :=
  match tbl.heap[a]?, tbl.heap[b]? with
  | some oa, some ob => !oa.isNominal && decide (oa = ob)
  | _, _ => false

/-- The invariant of the tables that `insert` builds: the set holds addresses of allocated objects
only, and no two of its elements are objects of a structural class with the same fields. -/
def TypeTable.WF (tbl : TypeTable) : Prop :=
  (∀ a ∈ tbl.types_, a < tbl.heap.length) ∧
  (∀ a ∈ tbl.types_, ∀ b ∈ tbl.types_, tbl.sameStructural a b = true → a = b)

instance (tbl : TypeTable) : Decidable tbl.WF := by
  unfold TypeTable.WF
  exact inferInstance

/-- The table `tbl2` is a later state of `tbl`: every object allocated in `tbl` is still there
with the same fields, and every element of the set still belongs to it. -/
def TypeTable.Extends (tbl tbl2 : TypeTable) : Prop :=
  (∀ a, a < tbl.heap.length → tbl2.heap[a]? = tbl.heap[a]?) ∧
  (∀ a ∈ tbl.types_, a ∈ tbl2.types_)

instance (tbl tbl2 : TypeTable) : Decidable (tbl.Extends tbl2) := by
  unfold TypeTable.Extends
  exact inferInstance

/-- A call of one of the constructors of the structural classes, with its arguments. -/
inductive CtorCall where
  | prim_type (tag : PrimTag)
  | tuple_type (elems : List Addr)
  | sized_array_type (elem : Addr) (size : Nat) (is_simd : Bool)
  | unsized_array_type (elem : Addr)
  | ptr_type (pointee : Addr) (is_mut : Bool) (addr_space : Nat)
  | ref_type (pointee : Addr) (is_mut : Bool) (addr_space : Nat)
  | fn_type (dom codom : Addr)
  | type_app (applied : Addr) (type_args : List Addr)
deriving DecidableEq

/-- The result of a constructor call on a table. -/
def TypeTable.call (ast : NodeAddr → TypeDecl) (fuel : Nat) (tbl : TypeTable) :
    CtorCall → Option (Addr × TypeTable)
  | .prim_type tag => some (tbl.prim_type tag)
  | .tuple_type elems => some (tbl.tuple_type elems)
  | .sized_array_type elem size is_simd => some (tbl.sized_array_type elem size is_simd)
  | .unsized_array_type elem => some (tbl.unsized_array_type elem)
  | .ptr_type pointee is_mut addr_space => some (tbl.ptr_type pointee is_mut addr_space)
  | .ref_type pointee is_mut addr_space => some (tbl.ref_type pointee is_mut addr_space)
  | .fn_type dom codom => some (tbl.fn_type dom codom)
  | .type_app applied type_args => tbl.type_app ast fuel applied type_args

/-- The test `applied->isa<StructType>() || applied->isa<EnumType>()` on the object at an
address. -/
def TypeTable.isStructOrEnum (tbl : TypeTable) (applied : Addr) : Bool :=
  match tbl.heap[applied]? with
  | some (.StructType _) => true
  | some (.EnumType _) => true
  | _ => false

/-- The calls the interning property is about: any call of a constructor of a structural class,
`type_app` being applied to a struct or enum type of the table. -/
def TypeTable.admits (tbl : TypeTable) : CtorCall → Bool
  | .type_app applied _ => tbl.isStructOrEnum applied
  | _ => true

/-- The object a constructor call describes. -/
def CtorCall.obj : CtorCall → TypeObj
  | .prim_type tag => .PrimType tag
  | .tuple_type elems => .TupleType elems
  | .sized_array_type elem size is_simd => .SizedArrayType elem size is_simd
  | .unsized_array_type elem => .UnsizedArrayType elem
  | .ptr_type pointee is_mut addr_space => .PtrType pointee is_mut addr_space
  | .ref_type pointee is_mut addr_space => .RefType pointee is_mut addr_space
  | .fn_type dom codom => .FnType dom codom
  | .type_app applied type_args => .TypeApp applied type_args

/-- A call of one of the constructors of the nominal classes, with the declaration (or type
parameter) it is given. -/
inductive NominalCall where
  | type_var (param : NodeAddr)
  | forall_type (decl : NodeAddr)
  | struct_type (decl : NodeAddr)
  | enum_type (decl : NodeAddr)
  | type_alias (decl : NodeAddr)
deriving DecidableEq

/-- The result of a call of a constructor of a nominal class on a table. -/
def TypeTable.callNominal (tbl : TypeTable) : NominalCall → Addr × TypeTable
  | .type_var param => tbl.type_var param
  | .forall_type decl => tbl.forall_type decl
  | .struct_type decl => tbl.struct_type decl
  | .enum_type decl => tbl.enum_type decl
  | .type_alias decl => tbl.type_alias decl

/-- The object a call of a constructor of a nominal class describes. -/
def NominalCall.obj : NominalCall → TypeObj
  | .type_var param => .TypeVar param
  | .forall_type decl => .ForallType decl
  | .struct_type decl => .StructType decl
  | .enum_type decl => .EnumType decl
  | .type_alias decl => .TypeAlias decl

/-! ## The lazily set singletons of the table -/

/-- A singleton pointer of the table is either unset or the element of the set that holds the
object `o`. -/
def TypeTable.cacheHolds (tbl : TypeTable) (cache : Option Addr) (o : TypeObj) : Bool :=
  match cache with
  | none => true
  | some a => decide (a ∈ tbl.types_) && decide (tbl.heap[a]? = some o)

/-- The invariant on `unit_type_`, `no_ret_type_` and `type_error_`: once set, each points to the
interned object of its class. -/
def TypeTable.CachesOk (tbl : TypeTable) : Prop :=
  tbl.cacheHolds tbl.unit_type_ (.TupleType []) = true ∧
  tbl.cacheHolds tbl.no_ret_type_ .NoRetType = true ∧
  tbl.cacheHolds tbl.type_error_ .TypeError = true

instance (tbl : TypeTable) : Decidable tbl.CachesOk := by
  unfold TypeTable.CachesOk
  exact inferInstance

/-- A singleton pointer that was set is still set to the same object. -/
def TypeTable.cacheKept (old new : Option Addr) : Bool :=
  match old with
  | none => true
  | some a => decide (new = some a)

/-- The table `tbl2` is a state reached later than `tbl`: it extends `tbl` and the singleton
pointers that were set have not changed (nothing in `types.cpp` assigns them a second time). -/
def TypeTable.Later (tbl tbl2 : TypeTable) : Prop :=
  tbl.Extends tbl2 ∧
  TypeTable.cacheKept tbl.unit_type_ tbl2.unit_type_ = true ∧
  TypeTable.cacheKept tbl.no_ret_type_ tbl2.no_ret_type_ = true ∧
  TypeTable.cacheKept tbl.type_error_ tbl2.type_error_ = true

instance (tbl tbl2 : TypeTable) : Decidable (tbl.Later tbl2) := by
  unfold TypeTable.Later
  exact inferInstance

/-! ## Part 3: helpers on types and the literal rules of the checker -/

mutual
/-- The virtual `contains` (types.cpp:162-189) on type trees.  The classes without an override
take the base `Type::contains` of types.h, which is not among the sources and is modelled as
`this == type`. -/
def Ty.contains : Ty → Ty → Bool
  | .tuple args, type => decide (type = .tuple args) || Ty.containsAny args type
  | .sizedArray elem size is_simd, type =>
    decide (type = .sizedArray elem size is_simd) || Ty.contains elem type
  | .unsizedArray elem, type => decide (type = .unsizedArray elem) || Ty.contains elem type
  | .ptr pointee is_mut addr_space, type =>
    decide (type = .ptr pointee is_mut addr_space) || Ty.contains pointee type
  | .ref pointee is_mut addr_space, type =>
    decide (type = .ref pointee is_mut addr_space) || Ty.contains pointee type
  | .fn dom codom, type =>
    decide (type = .fn dom codom) || Ty.contains dom type || Ty.contains codom type
  | .typeApp applied type_args, type =>
    decide (type = .typeApp applied type_args) || Ty.contains applied type ||
      Ty.containsAny type_args type
  | this, type => decide (this = type)
/-- The call `std::any_of(args.begin(), args.end(), ...)` of `contains`. -/
def Ty.containsAny : List Ty → Ty → Bool
  | [], _ => false
  | a :: args, type => Ty.contains a type || Ty.containsAny args type
end

/-- The function `is_int_type` (types.cpp:417-434). -/
def is_int_type : Ty → Bool
  | .prim .U8 | .prim .U16 | .prim .U32 | .prim .U64
  | .prim .I8 | .prim .I16 | .prim .I32 | .prim .I64 => true
  | _ => false

/-- The function `is_float_type` (types.cpp:436-447). -/
def is_float_type : Ty → Bool
  | .prim .F32 | .prim .F64 => true
  | _ => false

/-- The function `is_int_or_float_type` (types.cpp:449-451). -/
def is_int_or_float_type (type : Ty) : Bool :=
  is_int_type type || is_float_type type

/-- The function `is_prim_type` (types.cpp:453-455). -/
def is_prim_type (type : Ty) (tag : PrimTag) : Bool :=
  match type with
  | .prim t => decide (t = tag)
  | _ => false

/-- The function `is_unit_type` (types.cpp:457-459). -/
def is_unit_type : Ty → Bool
  | .tuple [] => true
  | _ => false

/-- Modelled from the spec: `is_bool_type`, which `check.cpp` calls and whose definition
(types.h) is not among the sources: a boolean literal is accepted by `Bool` only. -/
def is_bool_type (type : Ty) : Bool :=
  is_prim_type type .Bool

/-- A source location; only its presence in the diagnostics matters here. -/
structure Loc where
  first : Nat
  last : Nat
deriving DecidableEq

/-- The severities of the diagnostics sink. -/
inductive Level where
  | error
  | warning
  | note
deriving DecidableEq

/-- The diagnostics this development looks at, one constructor per format string, with the
arguments of the format. -/
inductive Msg where
  /-- The text `expected type '{}', but got type '{}'`. -/
  | expected_type_got_type (expected type : Ty)
  /-- The text `expected type '{}', but got {}`. -/
  | expected_type_got (expected : Ty) (msg : String)
  /-- The text `type '{}' is recursive and not sized`. -/
  | recursive_not_sized (type : Ty)
  /-- The text `expected {} type, but got '{}'`. -/
  | expected_kind_got_type (name : String) (type : Ty)
  /-- The text `no member '{}' in top-level module`. -/
  | no_member_in_top_level_module (member : String)
  /-- The text `no member '{}' in '{}'`. -/
  | no_member_in (member : String) (user_type : Ty)
  /-- The text `cannot infer type for {}`. -/
  | cannot_infer_type_for (msg : String)
  /-- The text `unreachable code`. -/
  | unreachable_code
  /-- The text `after this statement`. -/
  | after_this_statement
  /-- The text `statement with no effect`. -/
  | statement_with_no_effect
  /-- The text `mutable expression expected`. -/
  | mutable_expression_expected
  /-- The text `expected {} argument(s) in {}, but got {}`. -/
  | expected_arguments (expected : Nat) (msg : String) (count : Nat)
  /-- The text `invalid type argument '{}' for type variable '{}'`. -/
  | invalid_type_argument (type_arg var : Ty)
  /-- The text `cannot infer type argument for type variable '{}'`. -/
  | cannot_infer_type_argument (var : Ty)
  /-- The text `type constraint '{} <: {} <: {}' is not satisfiable`. -/
  | constraint_not_satisfiable (lower var upper : Ty)
  /-- The text `type constraint '{} {} {}' is not satisfiable`, where the relation is `>:` when
  `bound_left` is set and `<:` otherwise. -/
  | one_sided_constraint_not_satisfiable (var : Ty) (bound_left : Bool) (bound : Ty)
  /-- The text `field '{}' specified more than once`. -/
  | field_specified_more_than_once (name : String)
  /-- The text `missing field '{}' in structure {}`. -/
  | missing_field (name : String) (msg : String)
  /-- The text `unsupported expression in filter`. -/
  | unsupported_expression_in_filter
  /-- The text `use '|' instead of '||'`. -/
  | use_or_instead
  /-- The text `use '&' instead of '&&'`. -/
  | use_and_instead
  /-- The text `cannot use mutable variables in filters`. -/
  | cannot_use_mutable_variables_in_filters
  /-- The text `cannot dereference non-pointer type '{}'`. -/
  | cannot_dereference_non_pointer (type : Ty)
  /-- The text `summoning a value without a type`. -/
  | summoning_without_type
  /-- The text `cannot infer type for recursive declaration`. -/
  | cannot_infer_recursive_declaration
  /-- The text `only constants are allowed as static variable initializers`. -/
  | only_constants_as_static_initializers
  /-- The text `invalid cast from '{}' to '{}'`. -/
  | invalid_cast (type expected : Ty)
  /-- The text `cast source and destination types are identical`. -/
  | identical_cast
deriving DecidableEq

/-- One reported diagnostic. -/
structure Diag where
  level : Level
  loc : Loc
  msg : Msg
deriving DecidableEq

/-- The state of a `TypeChecker` that the functions below touch: the counter `errors` and the
diagnostics handed to the sink, in order. -/
structure TypeChecker where
  errors : Nat
  diags : List Diag
deriving DecidableEq

/-- Modelled from the spec: `error(loc, ...)` of the logger the checker derives from (log.h is not
among the sources): it hands an error to the sink and counts it in `errors`, the counter that
`TypeChecker::run` compares with zero. -/
def TypeChecker.error (checker : TypeChecker) (loc : Loc) (msg : Msg) : TypeChecker :=
  { errors := checker.errors + 1, diags := checker.diags ++ [⟨.error, loc, msg⟩] }

/-- The function `TypeChecker::should_report_error` (check.cpp:27-29). -/
def TypeChecker.should_report_error (type : Ty) : Bool :=
  !type.contains .typeError

/-- The function `TypeChecker::incompatible_types` (check.cpp:31-35). -/
def TypeChecker.incompatible_types (checker : TypeChecker) (loc : Loc) (type expected : Ty) :
    Ty × TypeChecker :=
  if TypeChecker.should_report_error expected && TypeChecker.should_report_error type then
    (.typeError, checker.error loc (.expected_type_got_type expected type))
  else (.typeError, checker)

/-- The function `TypeChecker::incompatible_type` (check.cpp:37-41). -/
def TypeChecker.incompatible_type (checker : TypeChecker) (loc : Loc) (msg : String)
    (expected : Ty) : Ty × TypeChecker :=
  if TypeChecker.should_report_error expected then
    (.typeError, checker.error loc (.expected_type_got expected msg))
  else (.typeError, checker)

/-- The function `TypeChecker::expect` (check.cpp:132-136). -/
def TypeChecker.expect (checker : TypeChecker) (loc : Loc) (type expected : Ty) :
    Ty × TypeChecker :=
  if type.subtype expected = false then checker.incompatible_types loc type expected
  else (type, checker)

/-- A literal: the kinds that `is_integer`, `is_double`, `is_bool`, `is_char` and `is_string`
tell apart (the class `Literal` is not among the sources).  A string is the list of its
bytes. -/
inductive Literal where
  | integer (value : Nat)
  | double (bits : Nat)
  | bool (value : Bool)
  | char (value : Nat)
  | string (bytes : List Nat)
deriving DecidableEq

/-- The function `TypeChecker::infer(const Loc&, const Literal&)` (check.cpp:289-308) with the
state of the checker, which it leaves alone.  A `std::string` is shorter than `SIZE_MAX`, so
`size() + 1` does not wrap. -/
def TypeChecker.infer_literal (checker : TypeChecker) (_loc : Loc) (lit : Literal) :
    Ty × TypeChecker :=
  match lit with
  | .integer _ => (.prim .I32, checker)
  | .double _ => (.prim .F64, checker)
  | .bool _ => (.prim .Bool, checker)
  | .char _ => (.prim .U8, checker)
  | .string bytes => (.sizedArray (.prim .U8) (bytes.length + 1) false, checker)

/-- The function `TypeChecker::check(const Loc&, const Literal&, const Type*)`
(check.cpp:310-338). -/
def TypeChecker.check_literal (checker : TypeChecker) (loc : Loc) (lit : Literal)
    (expected : Ty) : Ty × TypeChecker :=
  if expected.isNoRet = true then checker.infer_literal loc lit
  else match lit with
    | .integer _ =>
      if is_int_or_float_type expected = false then
        checker.incompatible_type loc "integer literal" expected
      else (expected, checker)
    | .double _ =>
      if is_float_type expected = false then
        checker.incompatible_type loc "floating point literal" expected
      else (expected, checker)
    | .bool _ =>
      if is_bool_type expected = false then
        checker.incompatible_type loc "boolean literal" expected
      else (expected, checker)
    | .char _ =>
      if is_prim_type expected .U8 = false then
        checker.incompatible_type loc "character literal" expected
      else (expected, checker)
    | .string bytes =>
      let r := checker.infer_literal loc (.string bytes)
      if r.1.subtype expected = false then r.2.incompatible_type loc "string literal" expected
      else r

/-- The default `Node::check` (check.cpp:609-615).  The argument `infer` is the call
`checker.infer(*this)` on the node. -/
def Node.check (infer : TypeChecker → Ty × TypeChecker) (checker : TypeChecker) (loc : Loc)
    (expected : Ty) : Ty × TypeChecker :=
  let r := infer checker
  if r.1 ≠ expected then r.2.incompatible_types loc r.1 expected
  else r

/-- The default `Ptrn::check` (check.cpp:621-629), with the subtype relation inverted. -/
def Ptrn.check (infer : TypeChecker → Ty × TypeChecker) (checker : TypeChecker) (loc : Loc)
    (expected : Ty) : Ty × TypeChecker :=
  let r := infer checker
  if expected.subtype r.1 = false then r.2.incompatible_types loc r.1 expected
  else r

/-- The default `Expr::check` (check.cpp:937-939). -/
def Expr.check (infer : TypeChecker → Ty × TypeChecker) (checker : TypeChecker) (loc : Loc)
    (expected : Ty) : Ty × TypeChecker :=
  let r := infer checker
  r.2.expect loc r.1 expected

/-- What `check` on a literal does when the test of the literal's kind fails: `TypeError` is
returned, and the error is reported unless the expected type contains `TypeError`. -/
def TypeChecker.rejects (checker : TypeChecker) (loc : Loc) (msg : String) (expected : Ty)
    (result : Ty × TypeChecker) : Prop :=
  result.1 = .typeError ∧
  result.2 = (if expected.contains .typeError = true then checker
    else checker.error loc (.expected_type_got expected msg))

instance (checker : TypeChecker) (loc : Loc) (msg : String) (expected : Ty)
    (result : Ty × TypeChecker) : Decidable (checker.rejects loc msg expected result) := by
  unfold TypeChecker.rejects
  exact inferInstance

/-! ## Part 4: substitution, order and sizedness on type trees -/

/-- What the type algebra reads of the declarations behind the nominal types, by the identity
`obj` of the type object: the member types of a struct or enum (`member_type(i)` for
`i < member_count()`, all typed), the `type` slots of the type parameters (`type_params()`, `none`
for a null pointer) and, for an alias, the slot `aliased_type->type`. -/
structure Decls where
  members : Nat → List Ty
  type_params : Nat → Option (List (Option Ty))
  aliased_type : Nat → Option Ty

/-- The loop of `TypeApp::replace_map` (types.cpp:408-411) on type trees: `emplace` keeps the
first binding of a variable, a parameter without type fails the assertion (`none`). -/
def Ty.replace_map.loop : List (Option Ty) → List Ty → List (Ty × Ty) → Option (List (Ty × Ty))
  | some v :: params, arg :: type_args, map =>
    Ty.replace_map.loop params type_args
      (if (map.lookup v).isSome then map else map ++ [(v, arg)])
  | none :: _, _ :: _, _ => none
  | _, _, map => some map

/-- The function `TypeApp::replace_map` (types.cpp:402-413) on type trees. -/
def Ty.replace_map (type_params : List (Option Ty)) (type_args : List Ty) :
    Option (List (Ty × Ty)) :=
  if type_params.length = type_args.length then Ty.replace_map.loop type_params type_args []
  else none

/-- The loops `new_args[i] = args[i]->replace(map)` of `TupleType::replace` and
`TypeApp::replace`, for a given `replace`. -/
def Ty.replaceArgs (replace : Ty → Option Ty) : List Ty → Option (List Ty)
  | [] => some []
  | arg :: args =>
    match replace arg with
    | none => none
    | some new_arg =>
      match Ty.replaceArgs replace args with
      | none => none
      | some new_args => some (new_arg :: new_args)

mutual
/-- The virtual `replace` (types.cpp:193-231) on type trees, where a constructor of the table is
the constructor of the tree.  `fuel` bounds the depth of the recursion, which goes through the
bodies of aliases; `none` is lack of fuel or a failed assertion.  The classes without an override
keep the object (the base `Type::replace` of types.h, not among the sources). -/
def Ty.replace (decls : Decls) : Nat → List (Ty × Ty) → Ty → Option Ty
  | 0, _, _ => none
  | fuel + 1, map, this =>
    match this with
    | .tuple args =>
      match Ty.replaceArgs (fun arg => Ty.replace decls fuel map arg) args with
      | none => none
      | some new_args => some (.tuple new_args)
    | .sizedArray elem size is_simd =>
      match Ty.replace decls fuel map elem with
      | none => none
      | some new_elem => some (.sizedArray new_elem size is_simd)
    | .unsizedArray elem =>
      match Ty.replace decls fuel map elem with
      | none => none
      | some new_elem => some (.unsizedArray new_elem)
    | .ptr pointee is_mut addr_space =>
      match Ty.replace decls fuel map pointee with
      | none => none
      | some new_pointee => some (.ptr new_pointee is_mut addr_space)
    | .ref pointee is_mut addr_space =>
      match Ty.replace decls fuel map pointee with
      | none => none
      | some new_pointee => some (.ref new_pointee is_mut addr_space)
    | .fn dom codom =>
      match Ty.replace decls fuel map dom with
      | none => none
      | some new_dom =>
        match Ty.replace decls fuel map codom with
        | none => none
        | some new_codom => some (.fn new_dom new_codom)
    | .typeVar obj =>
      match map.lookup (.typeVar obj) with
      | some type => some type
      | none => some (.typeVar obj)
    | .typeApp applied type_args =>
      match Ty.replaceArgs (fun arg => Ty.replace decls fuel map arg) type_args with
      | none => none
      | some new_type_args => Ty.type_app decls fuel applied new_type_args
    | this => some this
/-- The function `TypeTable::type_app` (types.cpp:536-543) on type trees. -/
def Ty.type_app (decls : Decls) : Nat → Ty → List Ty → Option Ty
  | fuel, applied, type_args =>
    match applied with
    | .typeAlias obj =>
      match decls.type_params obj, decls.aliased_type obj with
      | some type_params, some aliased =>
        match Ty.replace_map type_params type_args with
        | none => none
        | some map =>
          match fuel with
          | 0 => none
          | fuel1 + 1 => Ty.replace decls fuel1 map aliased
      | _, _ => none
    | applied => some (.typeApp applied type_args)
end

/-- Modelled from the spec: `TypeApp::member_type(i)`, which `TypeApp::order` calls and whose
definition (types.h) is not among the sources: the member of the applied type with the type
arguments substituted for its type parameters.  The argument `member` is
`applied->member_type(i)`. -/
def Ty.app_member_type (decls : Decls) (fuel : Nat) (applied : Ty) (type_args : List Ty)
    (member : Ty) : Option Ty :=
  match applied with
  | .struct obj | .enum obj =>
    match decls.type_params obj with
    | none => none
    | some type_params =>
      match Ty.replace_map type_params type_args with
      | none => none
      | some map => Ty.replace decls fuel map member
  | _ => none

/-- The members of a `ComplexType`: of a struct or an enum. -/
def Ty.complex_members (decls : Decls) : Ty → Option (List Ty)
  | .struct obj => some (decls.members obj)
  | .enum obj => some (decls.members obj)
  | _ => none

/-- The loops `max_order = std::max(max_order, ...->order(seen))` of `order`, over the member
types that `member_type` gives, for a given `order`. -/
def Ty.orderLoop (member_type : Ty → Option Ty) (order : List Ty → Ty → Option (Nat × List Ty)) :
    List Ty → Nat → List Ty → Option (Nat × List Ty)
  | seen, max_order, [] => some (max_order, seen)
  | seen, max_order, member :: members =>
    match member_type member with
    | none => none
    | some type =>
      match order seen type with
      | none => none
      | some (o, seen1) => Ty.orderLoop member_type order seen1 (max max_order o) members

/-- The virtual `order` (types.cpp:235-272) on type trees.  The set `seen` is passed along and
returned; `fuel` bounds the depth of the recursion (`none` is lack of fuel, a failed assertion or
cast).  The two arguments of `std::max` in `FnType::order` are evaluated in an unspecified order:
`dom_first` chooses it. -/
def Ty.order (decls : Decls) (dom_first : Bool) : Nat → List Ty → Ty → Option (Nat × List Ty)
  | 0, _, _ => none
  | fuel + 1, seen, this =>
    match this with
    | .fn dom codom =>
      if dom_first then
        match Ty.order decls dom_first fuel seen dom with
        | none => none
        | some (d, seen1) =>
          match Ty.order decls dom_first fuel seen1 codom with
          | none => none
          | some (c, seen2) => some (1 + max d c, seen2)
      else
        match Ty.order decls dom_first fuel seen codom with
        | none => none
        | some (c, seen1) =>
          match Ty.order decls dom_first fuel seen1 dom with
          | none => none
          | some (d, seen2) => some (1 + max d c, seen2)
    | .tuple args =>
      Ty.orderLoop some (fun seen arg => Ty.order decls dom_first fuel seen arg) seen 0 args
    | .sizedArray elem _ _ => Ty.order decls dom_first fuel seen elem
    | .unsizedArray elem => Ty.order decls dom_first fuel seen elem
    | .ptr pointee _ _ => Ty.order decls dom_first fuel seen pointee
    | .ref pointee _ _ => Ty.order decls dom_first fuel seen pointee
    | .struct obj =>
      if Ty.struct obj ∈ seen then some (0, seen)
      else Ty.orderLoop some (fun seen arg => Ty.order decls dom_first fuel seen arg)
        (Ty.struct obj :: seen) 0 (decls.members obj)
    | .enum obj =>
      if Ty.enum obj ∈ seen then some (0, seen)
      else Ty.orderLoop some (fun seen arg => Ty.order decls dom_first fuel seen arg)
        (Ty.enum obj :: seen) 0 (decls.members obj)
    | .typeApp applied type_args =>
      match Ty.complex_members decls applied with
      | none => none
      | some members =>
        Ty.orderLoop (Ty.app_member_type decls fuel applied type_args)
          (fun seen arg => Ty.order decls dom_first fuel seen arg) seen 0 members
    | _ => some (0, seen)

/-- The loops of `is_sized` that return `false` at the first element that is not sized, for a
given `is_sized`. -/
def Ty.sizedLoop (is_sized : List Ty → Ty → Option (Bool × List Ty)) :
    List Ty → List Ty → Option (Bool × List Ty)
  | seen, [] => some (true, seen)
  | seen, arg :: args =>
    match is_sized seen arg with
    | none => none
    | some (false, seen1) => some (false, seen1)
    | some (true, seen1) => Ty.sizedLoop is_sized seen1 args

/-- The virtual `is_sized` (types.cpp:276-317) on type trees, with the set `seen` passed along
and returned; `fuel` bounds the depth of the recursion. -/
def Ty.is_sized (decls : Decls) : Nat → List Ty → Ty → Option (Bool × List Ty)
  | 0, _, _ => none
  | fuel + 1, seen, this =>
    match this with
    | .fn dom codom =>
      match Ty.is_sized decls fuel seen dom with
      | none => none
      | some (false, seen1) => some (false, seen1)
      | some (true, seen1) => Ty.is_sized decls fuel seen1 codom
    | .tuple args => Ty.sizedLoop (fun seen arg => Ty.is_sized decls fuel seen arg) seen args
    | .sizedArray elem _ _ => Ty.is_sized decls fuel seen elem
    | .unsizedArray elem => Ty.is_sized decls fuel seen elem
    | .ptr _ _ _ => some (true, seen)
    | .ref _ _ _ => some (true, seen)
    | .struct obj =>
      if Ty.struct obj ∈ seen then some (false, seen)
      else
        match Ty.sizedLoop (fun seen arg => Ty.is_sized decls fuel seen arg)
            (Ty.struct obj :: seen) (decls.members obj) with
        | none => none
        | some (false, seen1) => some (false, seen1)
        | some (true, seen1) => some (true, seen1.erase (Ty.struct obj))
    | .enum obj =>
      if Ty.enum obj ∈ seen then some (false, seen)
      else
        match Ty.sizedLoop (fun seen arg => Ty.is_sized decls fuel seen arg)
            (Ty.enum obj :: seen) (decls.members obj) with
        | none => none
        | some (false, seen1) => some (false, seen1)
        | some (true, seen1) => some (true, seen1.erase (Ty.enum obj))
    | .typeApp applied type_args =>
      match Ty.is_sized decls fuel seen applied with
      | none => none
      | some (false, seen1) => some (false, seen1)
      | some (true, seen1) =>
        Ty.sizedLoop (fun seen arg => Ty.is_sized decls fuel seen arg) seen1 type_args
    | _ => some (true, seen)

/-- Modelled from the spec: the overload `Type::is_sized()` without argument (types.h, not among
the sources), which starts `is_sized` with an empty visited set. -/
def Ty.is_sized_start (decls : Decls) (fuel : Nat) (type : Ty) : Option Bool :=
  (Ty.is_sized decls fuel [] type).map (fun r => r.1)

/-- Modelled from the spec: the overload `Type::order()` without argument (types.h, not among the
sources), which starts `order` with an empty visited set. -/
def Ty.order_start (decls : Decls) (dom_first : Bool) (fuel : Nat) (type : Ty) : Option Nat :=
  (Ty.order decls dom_first fuel [] type).map (fun r => r.1)

/-- The function `TypeChecker::unsized_type` (check.cpp:126-128). -/
def TypeChecker.unsized_type (checker : TypeChecker) (loc : Loc) (type : Ty) : TypeChecker :=
  checker.error loc (.recursive_not_sized type)

/-- What the second loop of `ModDecl::infer` reads of a declaration of the module, once the first
loop has inferred it: whether it is a `StructDecl` or an `EnumDecl`, its location and its type. -/
structure DeclInfo where
  is_struct_or_enum : Bool
  loc : Loc
  type : Ty
deriving DecidableEq

/-- The second loop of `ModDecl::infer` (check.cpp:1822-1827), which reports the struct and enum
declarations whose type is not sized; `none` when `is_sized` lacks fuel. -/
def ModDecl.infer.sized_loop (decls : Decls) (fuel : Nat) :
    TypeChecker → List DeclInfo → Option TypeChecker
  | checker, [] => some checker
  | checker, decl :: rest =>
    if decl.is_struct_or_enum then
      match Ty.is_sized_start decls fuel decl.type with
      | none => none
      | some false =>
        ModDecl.infer.sized_loop decls fuel (checker.unsized_type decl.loc decl.type) rest
      | some true => ModDecl.infer.sized_loop decls fuel checker rest
    else ModDecl.infer.sized_loop decls fuel checker rest

/-- The declarations of `struct L { next: L }`: the struct type is the object 0 and its only
member has that type. -/
def Scenario.struct_containing_itself : Decls :=
  { members := fun obj => if obj = 0 then [.struct 0] else [],
    type_params := fun _ => none,
    aliased_type := fun _ => none }

/-- The declarations of `struct L { next: &L }` (or `&mut L`, in any address space): the only
member of the struct type, the object 0, is a pointer to it. -/
def Scenario.struct_pointing_to_itself (is_mut : Bool) (addr_space : Nat) : Decls :=
  { members := fun obj => if obj = 0 then [.ptr (.struct 0) is_mut addr_space] else [],
    type_params := fun _ => none,
    aliased_type := fun _ => none }

/-- The declarations of `struct S { f: fn i32 -> i32 }`: the struct type is the object 1. -/
def Scenario.struct_with_fn_member : Decls :=
  { members := fun obj => if obj = 1 then [.fn (.prim .I32) (.prim .I32)] else [],
    type_params := fun _ => none,
    aliased_type := fun _ => none }

/-- The test `isa<TypeVar>()`. -/
def Ty.isTypeVar : Ty → Bool
  | .typeVar _ => true
  | _ => false

/-- The test `isa<StructType>() || isa<EnumType>()`. -/
def Ty.isComplex : Ty → Bool
  | .struct _ => true
  | .enum _ => true
  | _ => false

mutual
/-- The type trees that a table holds: the applied type of every type application is a struct or
an enum (`applied` is a `UserType`, and `type_app` never builds a `TypeApp` over an alias). -/
def Ty.wellFormed : Ty → Bool
  | .tuple args => Ty.wellFormedAll args
  | .sizedArray elem _ _ => Ty.wellFormed elem
  | .unsizedArray elem => Ty.wellFormed elem
  | .ptr pointee _ _ => Ty.wellFormed pointee
  | .ref pointee _ _ => Ty.wellFormed pointee
  | .fn dom codom => Ty.wellFormed dom && Ty.wellFormed codom
  | .typeApp applied type_args => applied.isComplex && Ty.wellFormedAll type_args
  | _ => true
/-- All the types of a list are well formed. -/
def Ty.wellFormedAll : List Ty → Bool
  | [] => true
  | a :: args => Ty.wellFormed a && Ty.wellFormedAll args
end

mutual
/-- The substitution of a map for the type variables of a well-formed type tree, by recursion on
the tree: what `replace` computes when it has fuel. -/
def Ty.subst (map : List (Ty × Ty)) : Ty → Ty
  | .tuple args => .tuple (Ty.substAll map args)
  | .sizedArray elem size is_simd => .sizedArray (Ty.subst map elem) size is_simd
  | .unsizedArray elem => .unsizedArray (Ty.subst map elem)
  | .ptr pointee is_mut addr_space => .ptr (Ty.subst map pointee) is_mut addr_space
  | .ref pointee is_mut addr_space => .ref (Ty.subst map pointee) is_mut addr_space
  | .fn dom codom => .fn (Ty.subst map dom) (Ty.subst map codom)
  | .typeVar obj =>
    match map.lookup (.typeVar obj) with
    | some type => type
    | none => .typeVar obj
  | .typeApp applied type_args => .typeApp applied (Ty.substAll map type_args)
  | this => this
/-- The substitution in every type of a list. -/
def Ty.substAll (map : List (Ty × Ty)) : List Ty → List Ty
  | [] => []
  | a :: args => Ty.subst map a :: Ty.substAll map args
end

/-! ## What `is_sized` decides, and scenarios for `type_app` -/

/-- The types that `is_sized` goes on to from a type: its components held by value.  A pointer or
a reference has none; a type application has its applied type and its type arguments. -/
def Ty.sized_children (decls : Decls) : Ty → List Ty
  | .fn dom codom => [dom, codom]
  | .tuple args => args
  | .sizedArray elem _ _ => [elem]
  | .unsizedArray elem => [elem]
  | .struct obj => decls.members obj
  | .enum obj => decls.members obj
  | .typeApp applied type_args => applied :: type_args
  | _ => []

/-- The type `t` holds the type `u` by value: `is_sized` on `t` goes on to `u`. -/
def Ty.Holds (decls : Decls) (t u : Ty) : Prop :=
  u ∈ Ty.sized_children decls t

instance (decls : Decls) (t u : Ty) : Decidable (Ty.Holds decls t u) := by
  unfold Ty.Holds
  exact inferInstance

/-- The type `N` reaches by value a struct or enum type that holds itself by value, directly or
through other types. -/
def Ty.ReachesCycle (decls : Decls) (N : Ty) : Prop :=
  ∃ M : Ty, M.isComplex = true ∧ Relation.ReflTransGen (Ty.Holds decls) N M ∧
    Relation.TransGen (Ty.Holds decls) M M

/-- The type `t` is found unsized by a traversal that has the struct and enum types `seen` on its
way: it follows by-value components to a type of `seen`, or to a struct or enum that it meets a
second time. -/
inductive Ty.Unsized (decls : Decls) : List Ty → Ty → Prop where
  | seen {seen : List Ty} {t : Ty} : t.isComplex = true → t ∈ seen → Ty.Unsized decls seen t
  | member {seen : List Ty} {t m : Ty} : t.isComplex = true → t ∉ seen →
      m ∈ Ty.sized_children decls t → Ty.Unsized decls (t :: seen) m → Ty.Unsized decls seen t
  | child {seen : List Ty} {t c : Ty} : t.isComplex = false →
      c ∈ Ty.sized_children decls t → Ty.Unsized decls seen c → Ty.Unsized decls seen t

/-- The sequencing of `is_sized`: go on with `next` from the visited set that a sized component
leaves, stop at a component that is not sized or that gives no result. -/
def Ty.sizedThen (r : Option (Bool × List Ty)) (next : List Ty → Option (Bool × List Ty)) :
    Option (Bool × List Ty) :=
  match r with
  | none => none
  | some (false, seen1) => some (false, seen1)
  | some (true, seen1) => next seen1

/-- What a result of `is_sized` says: a sized type leaves `seen` as it was and is not found
unsized; a type that is not sized is found unsized. -/
def Ty.SizedSound (decls : Decls) (seen : List Ty) (t : Ty) (r : Bool × List Ty) : Prop :=
  (r.1 = true → r.2 = seen ∧ ¬ Ty.Unsized decls seen t) ∧
  (r.1 = false → Ty.Unsized decls seen t)

/-- The number of types of `U` that are not in `seen`. -/
def Ty.unseen (U seen : List Ty) : Nat :=
  (U.toFinset \ seen.toFinset).card

/-- The declarations of `struct N { x: P[N] }` and `struct P[T] { p: &T }`: `N` is the object 0,
`P` the object 1 and `T` the object 2. -/
def Scenario.struct_holding_app_of_itself : Decls :=
  { members := fun obj =>
      if obj = 0 then [.typeApp (.struct 1) [.struct 0]]
      else if obj = 1 then [.ptr (.typeVar 2) false 0] else [],
    type_params := fun obj => if obj = 1 then some [some (.typeVar 2)] else none,
    aliased_type := fun _ => none }

/-- The declarations of `struct S[T] { .. }` and `type A[T] = S[T]`: `S` is the object 0, `T` the
object 1 and `A` the object 2. -/
def Scenario.alias_of_struct_app : Decls :=
  { members := fun _ => [],
    type_params := fun obj => if obj = 2 then some [some (.typeVar 1)] else none,
    aliased_type := fun obj => if obj = 2 then some (.typeApp (.struct 0) [.typeVar 1]) else none }

/-- The table of `struct S[T]` and `type A[T] = &T`: the objects are `S` (address 0), `T`
(address 1), `i32` (address 2), `&T` (address 3) and `A` (address 4). -/
def Scenario.alias_of_ptr_table : TypeTable :=
  { heap := [.StructType 0, .TypeVar 1, .PrimType .I32, .PtrType 1 false 0, .TypeAlias 2],
    types_ := [0, 1, 2, 3, 4],
    unit_type_ := none, no_ret_type_ := none, type_error_ := none }

/-- The declaration of `type A[T] = &T`, the node 2: its parameter has the type at address 1 and
its aliased type is at address 3. -/
def Scenario.alias_of_ptr_ast : NodeAddr → TypeDecl :=
  fun decl => if decl = 2 then ⟨some [some 1], some 3⟩ else ⟨none, none⟩


/-! ## Part 5: the expressions that the checker annotates and rewrites -/

/-- The tags of `ast::UnaryExpr` that `check.cpp` names. -/
inductive UnaryTag where
  | Not | Plus | Minus | Known | Forget | AddrOf | AddrOfMut | Deref
  | PreInc | PostInc | PreDec | PostDec
deriving DecidableEq

/-- Modelled from the spec: `UnaryExpr::is_inc` (the ast.h of this version is not among the
sources), the two increment operators. -/
def UnaryTag.is_inc : UnaryTag → Bool
  | .PreInc | .PostInc => true
  | _ => false

/-- Modelled from the spec: `UnaryExpr::is_dec`, the two decrement operators. -/
def UnaryTag.is_dec : UnaryTag → Bool
  | .PreDec | .PostDec => true
  | _ => false

/-- Modelled from the spec: the tags of `ast::BinaryExpr` (the ast.h of this version is not among
the sources): the operators that `check.cpp` names, and the assignment forms that `has_eq` and
`remove_eq` tell apart. -/
inductive BinaryTag where
  | Eq | AddEq | SubEq | MulEq | DivEq | RemEq | AndEq | OrEq | XorEq | LShftEq | RShftEq
  | Add | Sub | Mul | Div | Rem | And | Or | Xor | LShft | RShft | LogicAnd | LogicOr
  | CmpLT | CmpGT | CmpLE | CmpGE | CmpEq | CmpNE
deriving DecidableEq

/-- Modelled from the spec: `BinaryExpr::has_eq`, the assignment and the assignment variants of
the operators. -/
def BinaryTag.has_eq : BinaryTag → Bool
  | .Eq | .AddEq | .SubEq | .MulEq | .DivEq | .RemEq | .AndEq | .OrEq | .XorEq | .LShftEq
  | .RShftEq => true
  | _ => false

/-- Modelled from the spec: `BinaryExpr::remove_eq`, the operator of an assignment variant. -/
def BinaryTag.remove_eq : BinaryTag → BinaryTag
  | .AddEq => .Add
  | .SubEq => .Sub
  | .MulEq => .Mul
  | .DivEq => .Div
  | .RemEq => .Rem
  | .AndEq => .And
  | .OrEq => .Or
  | .XorEq => .Xor
  | .LShftEq => .LShft
  | .RShftEq => .RShft
  | tag => tag

/-- Modelled from the spec: `BinaryExpr::has_cmp`, the six comparison operators. -/
def BinaryTag.has_cmp : BinaryTag → Bool
  | .CmpLT | .CmpGT | .CmpLE | .CmpGE | .CmpEq | .CmpNE => true
  | _ => false

/-- Modelled from the spec: `BinaryExpr::is_logic`, the operators `&&` and `||`. -/
def BinaryTag.is_logic : BinaryTag → Bool
  | .LogicAnd | .LogicOr => true
  | _ => false

/-- A node of the tree with everything it owns: the classes of expressions that the functions
below tell apart with `isa`, the expression statement of a block, and `other` for a node of any
other class (`cls` stands for the class and the fields).  Every node has its location `loc` and
its slot `type`, `none` for a null pointer. -/
inductive Expr where
  | literal (loc : Loc) (type : Option Ty) (lit : Literal)
  | path (loc : Loc) (type : Option Ty) (decl : Nat)
  | tuple (loc : Loc) (type : Option Ty) (args : List Expr)
  | unary (loc : Loc) (type : Option Ty) (tag : UnaryTag) (arg : Expr)
  | binary (loc : Loc) (type : Option Ty) (tag : BinaryTag) (left right : Expr)
  | call (loc : Loc) (type : Option Ty) (callee arg : Expr)
  | proj (loc : Loc) (type : Option Ty) (expr : Expr) (field : Nat)
  | block (loc : Loc) (type : Option Ty) (stmts : List Expr) (last_semi : Bool)
  | exprStmt (loc : Loc) (type : Option Ty) (expr : Expr)
  | implicitCast (loc : Loc) (type : Option Ty) (expr : Expr)
  | summon (loc : Loc) (type : Option Ty)
  | other (loc : Loc) (type : Option Ty) (cls : Nat)

/-- The field `loc` of a node. -/
def Expr.loc : Expr → Loc
  | .literal loc _ _ => loc
  | .path loc _ _ => loc
  | .tuple loc _ _ => loc
  | .unary loc _ _ _ => loc
  | .binary loc _ _ _ _ => loc
  | .call loc _ _ _ => loc
  | .proj loc _ _ _ => loc
  | .block loc _ _ _ => loc
  | .exprStmt loc _ _ => loc
  | .implicitCast loc _ _ => loc
  | .summon loc _ => loc
  | .other loc _ _ => loc

/-- The slot `type` of a node. -/
def Expr.type : Expr → Option Ty
  | .literal _ type _ => type
  | .path _ type _ => type
  | .tuple _ type _ => type
  | .unary _ type _ _ => type
  | .binary _ type _ _ _ => type
  | .call _ type _ _ => type
  | .proj _ type _ _ => type
  | .block _ type _ _ => type
  | .exprStmt _ type _ => type
  | .implicitCast _ type _ => type
  | .summon _ type => type
  | .other _ type _ => type

/-- The assignment `node.type = type`. -/
def Expr.setType (type : Option Ty) : Expr → Expr
  | .literal loc _ lit => .literal loc type lit
  | .path loc _ decl => .path loc type decl
  | .tuple loc _ args => .tuple loc type args
  | .unary loc _ tag arg => .unary loc type tag arg
  | .binary loc _ tag left right => .binary loc type tag left right
  | .call loc _ callee arg => .call loc type callee arg
  | .proj loc _ expr field => .proj loc type expr field
  | .block loc _ stmts last_semi => .block loc type stmts last_semi
  | .exprStmt loc _ expr => .exprStmt loc type expr
  | .implicitCast loc _ expr => .implicitCast loc type expr
  | .summon loc _ => .summon loc type
  | .other loc _ cls => .other loc type cls

/-- Modelled from the spec: the constructor of `ast::ImplicitCastExpr` (the ast.h of this version
is not among the sources): the new node owns the expression and carries the target type in its
slot `type`. -/
def ImplicitCastExpr.mk (loc : Loc) (expr : Expr) (type : Ty) : Expr :=
  .implicitCast loc (some type) expr

/-- The virtual methods of the nodes, which the functions of the checker call back: `infer` and
`check` return the type, the node as the method leaves it and the state of the checker, or `none`
when the method has no result; `attrs_check` is the statement
`if (node.attrs) node.attrs->check(*this, &node)`; `write_to` is the virtual `write_to`. -/
structure Virt where
  infer : TypeChecker → Expr → Option (Ty × Expr × TypeChecker)
  check : TypeChecker → Expr → Ty → Option (Ty × Expr × TypeChecker)
  attrs_check : TypeChecker → Expr → TypeChecker
  write_to : Expr → Expr

/-- Modelled from the spec: `note(loc, ...)` of the logger: a note handed to the sink, which is
not counted in `errors`. -/
def TypeChecker.note (checker : TypeChecker) (loc : Loc) (msg : Msg) : TypeChecker :=
  { checker with diags := checker.diags ++ [⟨.note, loc, msg⟩] }

/-- Modelled from the spec: `note(...)` of the logger without a location; the note is recorded
with the empty location. -/
def TypeChecker.note_text (checker : TypeChecker) (msg : Msg) : TypeChecker :=
  { checker with diags := checker.diags ++ [⟨.note, ⟨0, 0⟩, msg⟩] }

/-- Modelled from the spec: `warn(loc, ...)` of the logger: a warning handed to the sink, which
is not counted in `errors`. -/
def TypeChecker.warn (checker : TypeChecker) (loc : Loc) (msg : Msg) : TypeChecker :=
  { checker with diags := checker.diags ++ [⟨.warning, loc, msg⟩] }

/-- The function `TypeChecker::type_expected` (check.cpp:43-47). -/
def TypeChecker.type_expected (checker : TypeChecker) (loc : Loc) (type : Ty) (name : String) :
    Ty × TypeChecker :=
  if TypeChecker.should_report_error type then
    (.typeError, checker.error loc (.expected_kind_got_type name type))
  else (.typeError, checker)

/-- The function `TypeChecker::unknown_member` (check.cpp:49-55); `top_level` is the test
`mod_type && mod_type->decl.id.name == ""`. -/
def TypeChecker.unknown_member (checker : TypeChecker) (loc : Loc) (user_type : Ty)
    (top_level : Bool) (member : String) : Ty × TypeChecker :=
  if top_level then (.typeError, checker.error loc (.no_member_in_top_level_module member))
  else (.typeError, checker.error loc (.no_member_in member user_type))

/-- The function `TypeChecker::cannot_infer` (check.cpp:57-60). -/
def TypeChecker.cannot_infer (checker : TypeChecker) (loc : Loc) (msg : String) :
    Ty × TypeChecker :=
  (.typeError, checker.error loc (.cannot_infer_type_for msg))

/-- Modelled from the spec: the constructor `Loc(first, last)` (loc.h is not among the sources),
the location from the beginning of `first` to the end of `last`. -/
def Loc.span (first last : Loc) : Loc :=
  ⟨first.first, last.last⟩

/-- Modelled from the spec: `Loc::at_end` (loc.h is not among the sources), the empty location at
the end of a location. -/
def Loc.at_end (loc : Loc) : Loc :=
  ⟨loc.last, loc.last⟩

/-- The function `TypeChecker::unreachable_code` (check.cpp:62-66). -/
def TypeChecker.unreachable_code (checker : TypeChecker) (before first last : Loc) :
    Ty × TypeChecker :=
  (.typeError, ((checker.error (Loc.span first last) .unreachable_code).note before
    .after_this_statement))

/-- The function `TypeChecker::mutable_expected` (check.cpp:68-71). -/
def TypeChecker.mutable_expected (checker : TypeChecker) (loc : Loc) : Ty × TypeChecker :=
  (.typeError, checker.error loc .mutable_expression_expected)

/-- The function `TypeChecker::bad_arguments` (check.cpp:73-76). -/
def TypeChecker.bad_arguments (checker : TypeChecker) (loc : Loc) (msg : String)
    (count expected : Nat) : Ty × TypeChecker :=
  (.typeError, checker.error loc (.expected_arguments expected msg count))

/-- The function `remove_ref` (check.cpp:138-142): the first component is the reference type, or
`none` for the null pointer. -/
def remove_ref (type : Ty) : Option Ty × Ty :=
  match type with
  | .ref pointee is_mut addr_space => (some (.ref pointee is_mut addr_space), pointee)
  | type => (none, type)

/-- The field `is_mut` of a pointer or reference type. -/
def Ty.is_mut : Ty → Bool
  | .ref _ is_mut _ => is_mut
  | .ptr _ is_mut _ => is_mut
  | _ => false

/-- The field `addr_space` of a pointer or reference type. -/
def Ty.addr_space : Ty → Nat
  | .ref _ _ addr_space => addr_space
  | .ptr _ _ addr_space => addr_space
  | _ => 0

/-- The function `TypeChecker::infer(ast::Node&)` (check.cpp:264-271). -/
def TypeChecker.infer (v : Virt) (checker : TypeChecker) (node : Expr) :
    Option (Ty × Expr × TypeChecker) :=
  match node.type with
  | some type => some (type, node, checker)
  | none =>
    match v.infer checker node with
    | none => none
    | some (type, node1, checker1) =>
      some (type, node1.setType (some type), v.attrs_check checker1 (node1.setType (some type)))

/-- The function `TypeChecker::check(ast::Node&, const Type*)` (check.cpp:256-262); a failed
assertion is `none`. -/
def TypeChecker.check (v : Virt) (checker : TypeChecker) (node : Expr) (expected : Ty) :
    Option (Ty × Expr × TypeChecker) :=
  match node.type with
  | some _ => none
  | none =>
    match v.check checker node expected with
    | none => none
    | some (type, node1, checker1) =>
      some (type, node1.setType (some type), v.attrs_check checker1 (node1.setType (some type)))

/-- The function `TypeChecker::deref` (check.cpp:150-155). -/
def TypeChecker.deref (v : Virt) (checker : TypeChecker) (expr : Expr) :
    Option (Ty × Expr × TypeChecker) :=
  match TypeChecker.infer v checker expr with
  | none => none
  | some (t, expr1, checker1) =>
    match remove_ref t with
    | (some _, type) => some (type, ImplicitCastExpr.mk expr1.loc expr1 type, checker1)
    | (none, type) => some (type, expr1, checker1)

/-- The function `is_unit` (check.cpp:157-160). -/
def is_unit : Expr → Bool
  | .tuple _ _ [] => true
  | _ => false

/-- The test `isa<ImplicitParamType>()`. -/
def Ty.isImplicitParam : Ty → Bool
  | .implicitParam _ => true
  | _ => false

/-- The function `is_tuple_type_with_implicits` (check.cpp:162-166). -/
def is_tuple_type_with_implicits : Ty → Bool
  | .tuple args => !is_unit_type (.tuple args) && args.any Ty.isImplicitParam
  | _ => false

/-- Modelled from the spec: the constructor of `ast::SummonExpr` followed by the assignment
`summoned->type = implicit->underlying` (check.cpp:172-173, 196-197). -/
def SummonExpr.mk (loc : Loc) (underlying : Ty) : Expr :=
  .summon loc (some underlying)

/-- The loop of `coerce` over the elements of a tuple type with implicit parameters
(check.cpp:182-202): `deconstructed` holds the arguments of `expr` when it is a tuple expression,
`i` is the index of the first type of the list. -/
def TypeChecker.coerce.loop (loc : Loc) (expr : Expr) (deconstructed : Option (List Expr))
    (size : Nat) : TypeChecker → Nat → List Ty → List Expr × TypeChecker
  | checker, _, [] => ([], checker)
  | checker, i, targ :: targs =>
    let given : Option Expr :=
      match deconstructed with
      | none => if i = 0 && !is_unit expr then some expr else none
      | some dargs => dargs[i]?
    match given with
    | some e =>
      let r := TypeChecker.coerce.loop loc expr deconstructed size checker (i + 1) targs
      (e :: r.1, r.2)
    | none =>
      match targ with
      | .implicitParam underlying =>
        let r := TypeChecker.coerce.loop loc expr deconstructed size checker (i + 1) targs
        (SummonExpr.mk loc underlying :: r.1, r.2)
      | _ =>
        TypeChecker.coerce.loop loc expr deconstructed size
          (checker.bad_arguments loc "non-implicit arguments" i size).2 (i + 1) targs

/-- The statement `auto type = expr->type ? expr->type : check(*expr, expected)` of `coerce`
(check.cpp:206): the type the expression has already, or the one it gets when it is checked
against the expected type. -/
def TypeChecker.coerce.type_of (v : Virt) (checker : TypeChecker) (expr : Expr) (expected : Ty) :
    Option (Ty × Expr × TypeChecker) :=
  match expr.type with
  | some type => some (type, expr, checker)
  | none => TypeChecker.check v checker expr expected

/-- The end of `coerce` (check.cpp:206-215): the expression is checked unless it has a type, and
cast when its type is a proper subtype of the expected type. -/
def TypeChecker.coerce.cast (v : Virt) (checker : TypeChecker) (expr : Expr) (expected : Ty) :
    Option (Ty × Expr × TypeChecker) :=
  match TypeChecker.coerce.type_of v checker expr expected with
  | none => none
  | some (type, expr1, checker1) =>
    if type ≠ expected then
      if type.subtype expected then
        some (expected, ImplicitCastExpr.mk expr1.loc expr1 expected, checker1)
      else
        let r := checker1.incompatible_types expr1.loc type expected
        some (r.1, expr1, r.2)
    else some (type, expr1, checker1)

/-- The function `TypeChecker::coerce` (check.cpp:168-216). -/
def TypeChecker.coerce (v : Virt) (checker : TypeChecker) (expr : Expr) (expected : Ty) :
    Option (Ty × Expr × TypeChecker) :=
  match expected with
  | .implicitParam underlying =>
    if is_unit expr then some (underlying, SummonExpr.mk expr.loc underlying, checker)
    else TypeChecker.coerce.cast v checker expr (.implicitParam underlying)
  | .tuple targs =>
    if is_tuple_type_with_implicits (.tuple targs) then
      let deconstructed : Option (List Expr) :=
        match expr with
        | .tuple _ _ args => some args
        | _ => none
      let r := TypeChecker.coerce.loop expr.loc expr deconstructed targs.length checker 0 targs
      TypeChecker.coerce.cast v r.2 (.tuple expr.loc none r.1) (.tuple targs)
    else TypeChecker.coerce.cast v checker expr (.tuple targs)
  | expected => TypeChecker.coerce.cast v checker expr expected

mutual
/-- Modelled from the spec: the test `expected->variance().empty()` of `try_coerce`
(`Type::variance` is not among the sources): variance maps each free type variable that the type
contains, so the map is empty when the type contains no type variable. -/
def Ty.variance_empty : Ty → Bool
  | .typeVar _ => false
  | .tuple args => Ty.variance_empty_all args
  | .sizedArray elem _ _ => Ty.variance_empty elem
  | .unsizedArray elem => Ty.variance_empty elem
  | .ptr pointee _ _ => Ty.variance_empty pointee
  | .ref pointee _ _ => Ty.variance_empty pointee
  | .fn dom codom => Ty.variance_empty dom && Ty.variance_empty codom
  | .typeApp _ type_args => Ty.variance_empty_all type_args
  | .implicitParam underlying => Ty.variance_empty underlying
  | _ => true
/-- No type of the list contains a type variable. -/
def Ty.variance_empty_all : List Ty → Bool
  | [] => true
  | a :: args => Ty.variance_empty a && Ty.variance_empty_all args
end

mutual
/-- The function `TypeChecker::try_coerce` (check.cpp:218-243). -/
def TypeChecker.try_coerce (v : Virt) (checker : TypeChecker) (expr : Expr) (expected : Ty) :
    Option (Ty × Expr × TypeChecker) :=
  match expr with
  | .tuple loc type args =>
    match expected with
    | .tuple targs =>
      if targs.length = args.length then
        match TypeChecker.try_coerce.loop v checker args targs with
        | none => none
        | some (arg_types, args1, checker1) =>
          some (.tuple arg_types, .tuple loc (some (.tuple arg_types)) args1, checker1)
      else if expected.variance_empty then TypeChecker.coerce v checker (.tuple loc type args) expected
      else TypeChecker.deref v checker (.tuple loc type args)
    | expected =>
      if expected.variance_empty then TypeChecker.coerce v checker (.tuple loc type args) expected
      else TypeChecker.deref v checker (.tuple loc type args)
  | expr =>
    if expected.variance_empty then TypeChecker.coerce v checker expr expected
    else TypeChecker.deref v checker expr
/-- The loop of `try_coerce` over the arguments of a tuple expression and the element types of a
tuple type of the same size (check.cpp:234-235). -/
def TypeChecker.try_coerce.loop (v : Virt) (checker : TypeChecker) (args : List Expr)
    (targs : List Ty) : Option (List Ty × List Expr × TypeChecker) :=
  match args, targs with
  | arg :: args, targ :: targs =>
    match TypeChecker.try_coerce v checker arg targ with
    | none => none
    | some (type, arg1, checker1) =>
      match TypeChecker.try_coerce.loop v checker1 args targs with
      | none => none
      | some (arg_types, args1, checker2) => some (type :: arg_types, arg1 :: args1, checker2)
  | _, _ => some ([], [], checker)
end

/-- The function `TupleExpr::infer` (check.cpp:988-993): the loop. -/
def TupleExpr.infer.loop (v : Virt) :
    TypeChecker → List Expr → Option (List Ty × List Expr × TypeChecker)
  | checker, [] => some ([], [], checker)
  | checker, arg :: args =>
    match TypeChecker.deref v checker arg with
    | none => none
    | some (type, arg1, checker1) =>
      match TupleExpr.infer.loop v checker1 args with
      | none => none
      | some (arg_types, args1, checker2) => some (type :: arg_types, arg1 :: args1, checker2)

/-- The function `TupleExpr::infer` (check.cpp:988-993) on the node `TupleExpr(loc, args)` with
the slot `type`. -/
def TupleExpr.infer (v : Virt) (checker : TypeChecker) (loc : Loc) (type : Option Ty)
    (args : List Expr) : Option (Ty × Expr × TypeChecker) :=
  match TupleExpr.infer.loop v checker args with
  | none => none
  | some (arg_types, args1, checker1) => some (.tuple arg_types, .tuple loc type args1, checker1)

/-- The loop of `TupleExpr::check` (check.cpp:999-1000). -/
def TupleExpr.check.loop (v : Virt) :
    TypeChecker → List Expr → List Ty → Option (List Expr × TypeChecker)
  | checker, arg :: args, targ :: targs =>
    match TypeChecker.coerce v checker arg targ with
    | none => none
    | some (_, arg1, checker1) =>
      match TupleExpr.check.loop v checker1 args targs with
      | none => none
      | some (args1, checker2) => some (arg1 :: args1, checker2)
  | checker, args, _ => some (args, checker)

/-- The function `TupleExpr::check` (check.cpp:995-1004). -/
def TupleExpr.check (v : Virt) (checker : TypeChecker) (loc : Loc) (type : Option Ty)
    (args : List Expr) (expected : Ty) : Option (Ty × Expr × TypeChecker) :=
  match expected with
  | .tuple targs =>
    if args.length ≠ targs.length then
      let r := checker.bad_arguments loc "tuple expression" args.length targs.length
      some (r.1, .tuple loc type args, r.2)
    else
      match TupleExpr.check.loop v checker args targs with
      | none => none
      | some (args1, checker1) => some (.tuple targs, .tuple loc type args1, checker1)
  | expected =>
    let r := checker.incompatible_type loc "tuple expression" expected
    some (r.1, .tuple loc type args, r.2)

/-- Modelled from the spec: `is_simd_type` (types.h is not among the sources): a sized array with
the SIMD flag. -/
def is_simd_type : Ty → Bool
  | .sizedArray _ _ is_simd => is_simd
  | _ => false

/-- The element type that `prim_type->as<SizedArrayType>()->elem` reads of a SIMD type, and the
type itself otherwise (check.cpp:1441-1443, 1514-1516). -/
def simd_elem (type : Ty) : Ty :=
  match type with
  | .sizedArray elem _ true => elem
  | type => type

/-- The test `isa<PrimType>()`. -/
def Ty.isPrim : Ty → Bool
  | .prim _ => true
  | _ => false

/-- The function `UnaryExpr::infer` (check.cpp:1414-1469) on the node `UnaryExpr(loc, tag, arg)`;
the result holds the argument as the function leaves it. -/
def UnaryExpr.infer (v : Virt) (checker : TypeChecker) (loc : Loc) (tag : UnaryTag) (arg : Expr) :
    Option (Ty × Expr × TypeChecker) :=
  match TypeChecker.infer v checker arg with
  | none => none
  | some (t, arg1, checker1) =>
    let ref_type := (remove_ref t).1
    let arg_type := (remove_ref t).2
    let ref_is_mut : Bool :=
      match ref_type with
      | some r => r.is_mut
      | none => false
    if !ref_is_mut && (tag = .AddrOfMut || tag.is_inc || tag.is_dec) then
      let r := checker1.mutable_expected arg1.loc
      some (r.1, arg1, r.2)
    else
      let coerced : Option (Expr × TypeChecker) :=
        if tag = .Plus || tag = .Minus || tag = .Not || tag = .Known || tag = .Deref then
          match TypeChecker.coerce v checker1 arg1 arg_type with
          | none => none
          | some (_, arg2, checker2) => some (arg2, checker2)
        else some (arg1, checker1)
      match coerced with
      | none => none
      | some (arg2, checker2) =>
        match tag with
        | .Known => some (.prim .Bool, arg2, checker2)
        | .Forget =>
          match arg2.type with
          | none => none
          | some type => some (type, arg2, checker2)
        | .AddrOf =>
          some (.ptr arg_type false
            (match ref_type with
              | some r => r.addr_space
              | none => 0), arg2, checker2)
        | .AddrOfMut =>
          match ref_type with
          | none => none
          | some r => some (.ptr arg_type true r.addr_space, v.write_to arg2, checker2)
        | .Deref =>
          match arg_type with
          | .ptr pointee is_mut addr_space => some (.ref pointee is_mut addr_space, arg2, checker2)
          | _ =>
            if TypeChecker.should_report_error arg_type then
              some (.typeError, arg2,
                checker2.error loc (.cannot_dereference_non_pointer arg_type))
            else some (.typeError, arg2, checker2)
        | .Plus | .Minus =>
          if !(simd_elem arg_type).isPrim then
            let r := checker2.type_expected arg2.loc arg_type "primitive or simd"
            some (r.1, arg2, r.2)
          else if !is_int_or_float_type (simd_elem arg_type) then
            let r := checker2.type_expected arg2.loc arg_type "integer or floating-point"
            some (r.1, arg2, r.2)
          else some (arg_type, arg2, checker2)
        | .Not =>
          if !(simd_elem arg_type).isPrim then
            let r := checker2.type_expected arg2.loc arg_type "primitive or simd"
            some (r.1, arg2, r.2)
          else if !is_int_type (simd_elem arg_type) && !is_bool_type (simd_elem arg_type) then
            let r := checker2.type_expected arg2.loc arg_type "integer or boolean"
            some (r.1, arg2, r.2)
          else some (arg_type, arg2, checker2)
        | .PostInc | .PostDec | .PreInc | .PreDec =>
          if !(simd_elem arg_type).isPrim then
            let r := checker2.type_expected arg2.loc arg_type "primitive or simd"
            some (r.1, arg2, r.2)
          else if !is_int_type (simd_elem arg_type) then
            let r := checker2.type_expected (v.write_to arg2).loc arg_type "integer"
            some (r.1, v.write_to arg2, r.2)
          else some (arg_type, v.write_to arg2, checker2)

/-- The function `UnaryExpr::check` (check.cpp:1471-1486). -/
def UnaryExpr.check (v : Virt) (checker : TypeChecker) (loc : Loc) (tag : UnaryTag) (arg : Expr)
    (expected : Ty) : Option (Ty × Expr × TypeChecker) :=
  let coerced : Option (Expr × TypeChecker) :=
    if ((tag = .Plus || tag = .Minus) && is_int_or_float_type expected) ||
        (tag = .Not && (is_int_type expected || is_bool_type expected)) then
      match TypeChecker.coerce v checker arg expected with
      | none => none
      | some (_, arg1, checker1) => some (arg1, checker1)
    else some (arg, checker)
  match coerced with
  | none => none
  | some (arg1, checker1) =>
    match UnaryExpr.infer v checker1 loc tag arg1 with
    | none => none
    | some (type, arg2, checker2) =>
      let r := checker2.expect loc type expected
      some (r.1, arg2, r.2)

mutual
/-- The function `is_untyped_int_or_float_literal` (check.cpp:1245-1266); only the test of its
result against the null pointer is kept. -/
def is_untyped_int_or_float_literal : Expr → Bool
  | .unary _ _ tag arg =>
    if tag ≠ .Plus && tag ≠ .Minus then false else is_untyped_int_or_float_literal arg
  | .block _ _ stmts last_semi =>
    if last_semi || stmts.length ≠ 1 then false else is_untyped_int_or_float_literal.stmt stmts
  | .literal _ _ (.integer _) => true
  | .literal _ _ (.double _) => true
  | _ => false
/-- The step of `is_untyped_int_or_float_literal` into the only statement of a block, when it is
an expression statement. -/
def is_untyped_int_or_float_literal.stmt : List Expr → Bool
  | .exprStmt _ _ expr :: _ => is_untyped_int_or_float_literal expr
  | _ => false
end

/-- The function `is_untyped` (check.cpp:1488-1495). -/
def is_untyped : Expr → Bool
  | .binary loc type tag left right =>
    if !tag.has_eq then is_untyped left && is_untyped right
    else is_untyped_int_or_float_literal (.binary loc type tag left right)
  | expr => is_untyped_int_or_float_literal expr

/-- The tests of `BinaryExpr::infer` on the type of the operands (check.cpp:1512-1554): the
result is the name of the expected kind when the test fails. -/
def BinaryExpr.infer.operand_error (tag : BinaryTag) (left_type : Ty) : Option String :=
  if tag ≠ .Eq then
    if !(simd_elem left_type).isPrim then some "primitive or simd"
    else
      match tag.remove_eq with
      | .Add | .Sub | .Mul | .Div | .Rem | .CmpLT | .CmpGT | .CmpLE | .CmpGE =>
        if !is_int_or_float_type (simd_elem left_type) then some "integer or floating-point"
        else none
      | .LShft | .RShft =>
        if !is_int_type (simd_elem left_type) then some "integer" else none
      | .And | .Or | .Xor =>
        if !is_int_type (simd_elem left_type) && !is_bool_type (simd_elem left_type) then
          some "integer or boolean"
        else none
      | _ => none
  else none

/-- The function `BinaryExpr::infer` (check.cpp:1497-1565) on the node
`BinaryExpr(loc, tag, left, right)`; the result holds the two operands as the function leaves
them. -/
def BinaryExpr.infer (v : Virt) (checker : TypeChecker) (_loc : Loc) (tag : BinaryTag)
    (left right : Expr) : Option (Ty × Expr × Expr × TypeChecker) :=
  let operands : Option (Option Ty × Ty × Ty × Expr × Expr × TypeChecker) :=
    if tag.is_logic then
      match TypeChecker.coerce v checker left (.prim .Bool) with
      | none => none
      | some (left_type, left1, checker1) =>
        match TypeChecker.coerce v checker1 right (.prim .Bool) with
        | none => none
        | some (right_type, right1, checker2) =>
          some (none, left_type, right_type, left1, right1, checker2)
    else if !tag.has_eq && is_untyped left then
      match TypeChecker.deref v checker right with
      | none => none
      | some (right_type, right1, checker1) =>
        match TypeChecker.coerce v checker1 left right_type with
        | none => none
        | some (left_type, left1, checker2) =>
          some (none, left_type, right_type, left1, right1, checker2)
    else
      match TypeChecker.infer v checker left with
      | none => none
      | some (t, left1, checker1) =>
        match TypeChecker.coerce v checker1 right (remove_ref t).2 with
        | none => none
        | some (right_type, right1, checker2) =>
          some ((remove_ref t).1, (remove_ref t).2, right_type, left1, right1, checker2)
  match operands with
  | none => none
  | some (left_ref, left_type, right_type, left1, right1, checker2) =>
    match BinaryExpr.infer.operand_error tag left_type with
    | some name =>
      let r := checker2.type_expected left1.loc left_type name
      some (r.1, left1, right1, r.2)
    | none =>
      if tag.has_eq then
        let left_is_mut : Bool :=
          match left_ref with
          | some r => r.is_mut
          | none => false
        if !left_is_mut then
          let r := checker2.mutable_expected (v.write_to left1).loc
          some (r.1, v.write_to left1, right1, r.2)
        else some (.tuple [], v.write_to left1, right1, checker2)
      else
        match TypeChecker.coerce v checker2 left1 left_type with
        | none => none
        | some (_, left2, checker3) =>
          if tag.has_cmp then some (.prim .Bool, left2, right1, checker3)
          else some (right_type, left2, right1, checker3)

/-- The function `BinaryExpr::check` (check.cpp:1567-1596). -/
def BinaryExpr.check (v : Virt) (checker : TypeChecker) (loc : Loc) (tag : BinaryTag)
    (left right : Expr) (expected : Ty) : Option (Ty × Expr × Expr × TypeChecker) :=
  let wanted : Bool :=
    match tag with
    | .Add | .Sub | .Mul | .Div | .Rem => is_int_or_float_type expected
    | .LShft | .RShft => is_int_type expected
    | .And | .Or | .Xor => is_int_type expected || is_bool_type expected
    | _ => false
  let coerced : Option (Expr × Expr × TypeChecker) :=
    if wanted then
      match TypeChecker.coerce v checker left expected with
      | none => none
      | some (_, left1, checker1) =>
        match TypeChecker.coerce v checker1 right expected with
        | none => none
        | some (_, right1, checker2) => some (left1, right1, checker2)
    else some (left, right, checker)
  match coerced with
  | none => none
  | some (left1, right1, checker2) =>
    match BinaryExpr.infer v checker2 loc tag left1 right1 with
    | none => none
    | some (type, left2, right2, checker3) =>
      let r := checker3.expect loc type expected
      some (r.1, left2, right2, r.2)

/-- The virtual methods of the classes embedded here, for nodes without attributes: `infer` of
`LiteralExpr` (check.cpp:949-951), `TupleExpr`, `UnaryExpr`, `BinaryExpr`, `ExprStmt`
(check.cpp:927-929) and `SummonExpr` without a type expression (check.cpp:957-961); `check` of
`LiteralExpr` (check.cpp:953-955), `TupleExpr`, `UnaryExpr`, `BinaryExpr`, `ExprStmt`
(check.cpp:931-933) and `SummonExpr` (check.cpp:963-971).  The methods call the checker back,
which calls the methods of the children: `fuel` bounds the depth of these calls.  A class that is
not embedded has no result. -/
def Expr.virt : Nat → Virt
  | 0 =>
    { infer := fun _ _ => none,
      check := fun _ _ _ => none,
      attrs_check := fun checker _ => checker,
      write_to := fun expr => expr }
  | fuel + 1 =>
    { infer := fun checker node =>
        match node with
        | .literal loc type lit =>
          some ((checker.infer_literal loc lit).1, .literal loc type lit,
            (checker.infer_literal loc lit).2)
        | .tuple loc type args => TupleExpr.infer (Expr.virt fuel) checker loc type args
        | .unary loc type tag arg =>
          match UnaryExpr.infer (Expr.virt fuel) checker loc tag arg with
          | none => none
          | some (t, arg1, checker1) => some (t, .unary loc type tag arg1, checker1)
        | .binary loc type tag left right =>
          match BinaryExpr.infer (Expr.virt fuel) checker loc tag left right with
          | none => none
          | some (t, left1, right1, checker1) =>
            some (t, .binary loc type tag left1 right1, checker1)
        | .exprStmt loc type expr =>
          match TypeChecker.deref (Expr.virt fuel) checker expr with
          | none => none
          | some (t, expr1, checker1) => some (t, .exprStmt loc type expr1, checker1)
        | .summon loc type =>
          some (.typeError, .summon loc type, checker.error loc .summoning_without_type)
        | _ => none,
      check := fun checker node expected =>
        match node with
        | .literal loc type lit =>
          some ((checker.check_literal loc lit expected).1, .literal loc type lit,
            (checker.check_literal loc lit expected).2)
        | .tuple loc type args => TupleExpr.check (Expr.virt fuel) checker loc type args expected
        | .unary loc type tag arg =>
          match UnaryExpr.check (Expr.virt fuel) checker loc tag arg expected with
          | none => none
          | some (t, arg1, checker1) => some (t, .unary loc type tag arg1, checker1)
        | .binary loc type tag left right =>
          match BinaryExpr.check (Expr.virt fuel) checker loc tag left right expected with
          | none => none
          | some (t, left1, right1, checker1) =>
            some (t, .binary loc type tag left1 right1, checker1)
        | .exprStmt loc type expr =>
          match TypeChecker.coerce (Expr.virt fuel) checker expr expected with
          | none => none
          | some (t, expr1, checker1) => some (t, .exprStmt loc type expr1, checker1)
        | .summon loc type =>
          match type with
          | some _ =>
            match TypeChecker.infer (Expr.virt fuel) checker (.summon loc type) with
            | none => none
            | some (got, node1, checker1) =>
              if !expected.subtype got then
                some ((checker1.incompatible_types loc got expected).1, node1,
                  (checker1.incompatible_types loc got expected).2)
              else some (got, node1, checker1)
          | none => some (expected, .summon loc type, checker)
        | _ => none,
      attrs_check := fun checker _ => checker,
      write_to := fun expr => expr }

/-- The test `isa<ArrayType>()`: a sized or an unsized array. -/
def Ty.isArray : Ty → Bool
  | .sizedArray _ _ _ => true
  | .unsizedArray _ => true
  | _ => false

/-- The end of `check_filter` (check.cpp:433-440): the error and the note that goes with it. -/
def TypeChecker.check_filter.report (checker : TypeChecker) (loc : Loc)
    (is_logic_and is_logic_or is_mutable : Bool) : Option (Bool × TypeChecker) :=
  let checker1 := checker.error loc .unsupported_expression_in_filter
  if is_logic_or then some (false, checker1.note_text .use_or_instead)
  else if is_logic_and then some (false, checker1.note_text .use_and_instead)
  else if is_mutable then some (false, checker1.note_text .cannot_use_mutable_variables_in_filters)
  else some (false, checker1)

/-- The function `TypeChecker::check_filter` (check.cpp:392-441); `none` is the dereference of a
null slot `type`. -/
def TypeChecker.check_filter (checker : TypeChecker) : Expr → Option (Bool × TypeChecker)
  | .binary loc _ tag left right =>
    if !tag.has_eq && !(tag = .LogicAnd) && !(tag = .LogicOr) then
      match TypeChecker.check_filter checker left with
      | none => none
      | some (false, checker1) => some (false, checker1)
      | some (true, checker1) => TypeChecker.check_filter checker1 right
    else
      TypeChecker.check_filter.report checker loc (tag = .LogicAnd) (tag = .LogicOr) false
  | .unary loc _ tag arg =>
    match tag with
    | .Not | .Plus | .Minus | .Known => TypeChecker.check_filter checker arg
    | _ => TypeChecker.check_filter.report checker loc false false false
  | .call _ _ callee arg =>
    match callee.type with
    | none => none
    | some type =>
      if (remove_ref type).2.isArray then
        match TypeChecker.check_filter checker callee with
        | none => none
        | some (false, checker1) => some (false, checker1)
        | some (true, checker1) => TypeChecker.check_filter checker1 arg
      else some (false, checker)
  | .path loc type _ =>
    match type with
    | none => none
    | some (.ref _ true _) => TypeChecker.check_filter.report checker loc false false true
    | some _ => some (true, checker)
  | .literal _ _ _ => some (true, checker)
  | .proj _ _ expr _ => TypeChecker.check_filter checker expr
  | expr => TypeChecker.check_filter.report checker expr.loc false false false

/-- The enumeration `TypeVariance` that `infer_type_args` switches on. -/
inductive TypeVariance where
  | Constant
  | Covariant
  | Contravariant
  | Invariant
deriving DecidableEq

/-- The two fields that `infer_type_args` reads of the bounds of a type variable. -/
structure TypeBounds where
  lower : Ty
  upper : Ty
deriving DecidableEq

/-- The test `isa<BottomType>()`. -/
def Ty.isBottom : Ty → Bool
  | .bottom => true
  | _ => false

/-- The test `isa<TopType>()`. -/
def Ty.isTop : Ty → Bool
  | .top => true
  | _ => false

/-- The test `isa<TypeError>()`. -/
def Ty.isTypeError : Ty → Bool
  | .typeError => true
  | _ => false

/-- The function `TypeChecker::invalid_constraint` (check.cpp:104-120); `type_arg` is `none` for
the null pointer. -/
def TypeChecker.invalid_constraint (checker : TypeChecker) (loc : Loc) (var : Ty)
    (type_arg : Option Ty) (lower upper : Ty) : TypeChecker :=
  let checker1 :=
    match type_arg with
    | some type_arg => checker.error loc (.invalid_type_argument type_arg var)
    | none => checker.error loc (.cannot_infer_type_argument var)
  let bound_left := !lower.isBottom && !lower.isTypeError
  let bound_right := !upper.isTop
  if bound_left || bound_right then
    if bound_left && bound_right then
      checker1.note_text (.constraint_not_satisfiable lower var upper)
    else
      checker1.note_text
        (.one_sided_constraint_not_satisfiable var bound_left (if bound_left then lower else upper))
  else checker1

/-- The index that `std::find_if` gives for a bound variable among the type parameters
(check.cpp:533-537): the position of the first parameter whose slot `type` is the variable, the
number of parameters when there is none. -/
def TypeChecker.infer_type_args.index (params : List (Option Ty)) (var : Ty) : Nat :=
  params.findIdx (fun param => decide (param = some var))

/-- The type argument that `infer_type_args` computes from the bounds and the variance of a type
variable (check.cpp:559-577). -/
def TypeChecker.infer_type_args.choice (variance : TypeVariance) (bounds : TypeBounds) : Ty :=
  match variance with
  | .Constant => bounds.lower
  | .Covariant => bounds.lower
  | .Contravariant => bounds.upper
  | .Invariant => bounds.lower

/-- The first loop of `infer_type_args` (check.cpp:532-578) over the bounds, in the order of
iteration of the map.  The result is `false` with the error reported when the function returns
from inside the loop; `none` is a failed assertion or an access outside `type_args`. -/
def TypeChecker.infer_type_args.loop (loc : Loc) (params : List (Option Ty))
    (variance : Ty → TypeVariance) :
    TypeChecker → List (Ty × TypeBounds) → List (Option Ty) →
      Option (Bool × List (Option Ty) × TypeChecker)
  | checker, [], type_args => some (true, type_args, checker)
  | checker, bound :: bounds, type_args =>
    if TypeChecker.infer_type_args.index params bound.1 < params.length then
      match type_args[TypeChecker.infer_type_args.index params bound.1]? with
      | none => none
      | some (some type_arg) =>
        if !type_arg.subtype bound.2.upper || !bound.2.lower.subtype type_arg then
          some (false, type_args,
            checker.invalid_constraint loc bound.1 (some type_arg) bound.2.lower bound.2.upper)
        else TypeChecker.infer_type_args.loop loc params variance checker bounds type_args
      | some none =>
        if !bound.2.lower.subtype bound.2.upper || bound.2.lower.isTop ||
            bound.2.upper.isBottom then
          some (false, type_args,
            checker.invalid_constraint loc bound.1 none bound.2.lower bound.2.upper)
        else
          TypeChecker.infer_type_args.loop loc params variance checker bounds
            (type_args.set (TypeChecker.infer_type_args.index params bound.1)
              (some (TypeChecker.infer_type_args.choice (variance bound.1) bound.2)))
    else none

/-- The second loop of `infer_type_args` (check.cpp:580-587), from the index `i` of the first
entry of the list on; `none` is the dereference of a null slot `type` of a parameter. -/
def TypeChecker.infer_type_args.unresolved (loc : Loc) (params : List (Option Ty)) :
    TypeChecker → Nat → List (Option Ty) → Option (Bool × TypeChecker)
  | checker, _, [] => some (true, checker)
  | checker, i, some _ :: type_args =>
    TypeChecker.infer_type_args.unresolved loc params checker (i + 1) type_args
  | checker, i, none :: _ =>
    match params[i]? with
    | some (some var) => some (false, checker.error loc (.cannot_infer_type_argument var))
    | _ => none

/-- The function `TypeChecker::infer_type_args` (check.cpp:524-588).  What it reads of the
`ForallType` and of the argument type is given: `params` are the slots `type` of the type
parameters, `bounds` is the map `dom->bounds(arg_type)` as the loop iterates over it, and
`variance` is the lookup `variance[...]` in the map `codom->variance(true)` (`Type::bounds` and
`Type::variance` are not among the sources).  The result holds `type_args` as the function leaves
it. -/
def TypeChecker.infer_type_args (checker : TypeChecker) (loc : Loc) (params : List (Option Ty))
    (bounds : List (Ty × TypeBounds)) (variance : Ty → TypeVariance)
    (type_args : List (Option Ty)) : Option (Bool × List (Option Ty) × TypeChecker) :=
  match TypeChecker.infer_type_args.loop loc params variance checker bounds type_args with
  | none => none
  | some (false, type_args1, checker1) => some (false, type_args1, checker1)
  | some (true, type_args1, checker1) =>
    match TypeChecker.infer_type_args.unresolved loc params checker1 0 type_args1 with
    | none => none
    | some (result, checker2) => some (result, type_args1, checker2)

/-- What `check_fields` reads of a field of the declaration of a struct: its name and whether it
has a default initialiser (`decl.fields[i]->id.name`, `decl.fields[i]->init`). -/
structure FieldDecl where
  name : String
  has_init : Bool
deriving DecidableEq

/-- What `check_fields` reads and writes of an item of the list `fields` (a `FieldExpr` or a
`FieldPtrn`): its location, `is_etc()`, its name and the slot `index`. -/
structure Field where
  loc : Loc
  is_etc : Bool
  name : String
  index : Option Nat
deriving DecidableEq

/-- The function `StructType::find_member` (types.cpp:321-331) on the fields of the
declaration. -/
def StructType.find_member (fields : List FieldDecl) (name : String) : Option Nat :=
  if fields.findIdx (fun f => decide (f.name = name)) ≠ fields.length then
    some (fields.findIdx (fun f => decide (f.name = name)))
  else none

/-- The first loop of `check_fields` (check.cpp:355-368).  The first component of the result is
`none` when the function returns from inside the loop, and holds `seen` and `has_etc` otherwise;
`check_field` is the call `check(*fields[i], member_type(type_app, struct_type, *index))`, of
which the state of the checker is kept. -/
def TypeChecker.check_fields.loop (loc : Loc) (struct_type : Ty) (decl_fields : List FieldDecl)
    (check_field : TypeChecker → Field → Nat → TypeChecker) :
    TypeChecker → List Field → List Bool → Bool →
      Option (List Bool × Bool) × List Field × TypeChecker
  | checker, [], seen, has_etc => (some (seen, has_etc), [], checker)
  | checker, field :: fields, seen, has_etc =>
    if field.is_etc then
      let r := TypeChecker.check_fields.loop loc struct_type decl_fields check_field checker
        fields seen true
      (r.1, field :: r.2.1, r.2.2)
    else
      match StructType.find_member decl_fields field.name with
      | none =>
        (none, field :: fields,
          (checker.unknown_member field.loc struct_type false field.name).2)
      | some index =>
        if seen.getD index false then
          (none, field :: fields,
            checker.error loc (.field_specified_more_than_once field.name))
        else
          let r := TypeChecker.check_fields.loop loc struct_type decl_fields check_field
            (check_field checker { field with index := some index } index) fields
            (seen.set index true) has_etc
          (r.1, { field with index := some index } :: r.2.1, r.2.2)

/-- The second loop of `check_fields` (check.cpp:371-374) over the fields of the declaration and
the entries of `seen`. -/
def TypeChecker.check_fields.missing (loc : Loc) (msg : String) (accept_defaults : Bool) :
    TypeChecker → List FieldDecl → List Bool → TypeChecker
  | checker, decl :: decls, b :: seen =>
    TypeChecker.check_fields.missing loc msg accept_defaults
      (if !b && (!accept_defaults || !decl.has_init) then
        checker.error loc (.missing_field decl.name msg)
      else checker) decls seen
  | checker, _, _ => checker

/-- The function `TypeChecker::check_fields` (check.cpp:348-377) for a struct type with the
fields `decl_fields`; the result holds the items with the slot `index` as the function leaves
it. -/
def TypeChecker.check_fields (checker : TypeChecker) (loc : Loc) (struct_type : Ty)
    (decl_fields : List FieldDecl) (check_field : TypeChecker → Field → Nat → TypeChecker)
    (fields : List Field) (msg : String) (has_etc accept_defaults : Bool) :
    List Field × TypeChecker :=
  match TypeChecker.check_fields.loop loc struct_type decl_fields check_field checker fields
      (List.replicate decl_fields.length false) has_etc with
  | (none, fields1, checker1) => (fields1, checker1)
  | (some (seen, has_etc1), fields1, checker1) =>
    if !has_etc1 && !seen.all (fun b => b) then
      (fields1, TypeChecker.check_fields.missing loc msg accept_defaults checker1 decl_fields seen)
    else (fields1, checker1)

/-- What `check_block` reads of a statement: its location and the results of the virtual
`is_jumping` and `has_side_effect`. -/
structure Stmt where
  loc : Loc
  is_jumping : Bool
  has_side_effect : Bool
deriving DecidableEq

/-- The loop of `check_block` (check.cpp:382-387) over the statements but the last; `last` is
`stmts.back()->loc`. -/
def TypeChecker.check_block.loop (last : Loc) : TypeChecker → List Stmt → TypeChecker
  | checker, stmt :: next :: stmts =>
    TypeChecker.check_block.loop last
      (if stmt.is_jumping then (checker.unreachable_code stmt.loc next.loc last).2
      else if !stmt.has_side_effect then checker.warn stmt.loc .statement_with_no_effect
      else checker) (next :: stmts)
  | checker, _ => checker

/-- The function `TypeChecker::check_block` (check.cpp:379-390); a failed assertion is `none`. -/
def TypeChecker.check_block (checker : TypeChecker) (loc : Loc) (stmts : List Stmt)
    (last_semi : Bool) : Option TypeChecker :=
  match stmts.getLast? with
  | none => none
  | some back =>
    if last_semi && back.is_jumping then
      some ((TypeChecker.check_block.loop back.loc checker stmts).unreachable_code back.loc
        back.loc.at_end loc.at_end).2
    else some (TypeChecker.check_block.loop back.loc checker stmts)

/-- The errors `unreachable code` among the diagnostics. -/
def TypeChecker.unreachable_errors (checker : TypeChecker) : List Diag :=
  checker.diags.filter (fun d => decide (d.level = .error ∧ d.msg = .unreachable_code))

/-- The diagnostic is one of the three errors of `check_fields`: an unknown member, a field
specified more than once or a missing field. -/
def Diag.is_field_error (d : Diag) : Bool :=
  match d.level, d.msg with
  | .error, .no_member_in _ _ => true
  | .error, .field_specified_more_than_once _ => true
  | .error, .missing_field _ _ => true
  | _, _ => false

/-- The errors of `check_fields` among the diagnostics. -/
def TypeChecker.field_errors (checker : TypeChecker) : List Diag :=
  checker.diags.filter Diag.is_field_error

/-- The expression is a tuple expression and the type a tuple type with as many elements: the
case in which `try_coerce` enters the expression. -/
def TypeChecker.try_coerce.enters (expr : Expr) (expected : Ty) : Bool :=
  match expr, expected with
  | .tuple _ _ args, .tuple targs => decide (targs.length = args.length)
  | _, _ => false

/-- The bounds of a type variable are accepted for a variable without a supplied argument
(check.cpp:550-552): the lower bound is a subtype of the upper bound, the lower bound is not
`Top` and the upper bound is not `Bottom`. -/
def TypeBounds.accepted (bounds : TypeBounds) : Prop :=
  bounds.lower.subtype bounds.upper = true ∧ bounds.lower ≠ .top ∧ bounds.upper ≠ .bottom

/-- Condition (a) on the arguments of `infer_type_args`: for every bounded variable with a
supplied argument `A`, `lower <: A` and `A <: upper`. -/
def TypeChecker.infer_type_args.supplied_ok (params : List (Option Ty))
    (bounds : List (Ty × TypeBounds)) (type_args : List (Option Ty)) : Prop :=
  ∀ bound ∈ bounds, ∀ A,
    type_args[TypeChecker.infer_type_args.index params bound.1]? = some (some A) →
    bound.2.lower.subtype A = true ∧ A.subtype bound.2.upper = true

/-- Condition (b) on the arguments of `infer_type_args`: for every bounded variable without a
supplied argument, the bounds are accepted. -/
def TypeChecker.infer_type_args.inferable (params : List (Option Ty))
    (bounds : List (Ty × TypeBounds)) (type_args : List (Option Ty)) : Prop :=
  ∀ bound ∈ bounds,
    type_args[TypeChecker.infer_type_args.index params bound.1]? = some none →
    bound.2.accepted

/-- Condition (c) on the arguments of `infer_type_args`: every type parameter either has a
supplied argument or occurs in the bounds. -/
def TypeChecker.infer_type_args.covered (params : List (Option Ty))
    (bounds : List (Ty × TypeBounds)) (type_args : List (Option Ty)) : Prop :=
  ∀ i, i < params.length →
    (∃ A, type_args[i]? = some (some A)) ∨ (∃ bound ∈ bounds, params[i]? = some (some bound.1))

/-- The errors among the diagnostics. -/
def TypeChecker.error_diags (checker : TypeChecker) : List Diag :=
  checker.diags.filter (fun d => decide (d.level = .error))

/-- The message is that of an invalid type argument or of a type argument that cannot be
inferred. -/
def Msg.is_type_arg_error : Msg → Bool
  | .invalid_type_argument _ _ => true
  | .cannot_infer_type_argument _ => true
  | _ => false

/-- The names of the items of a list of field items that are not `...`, in order. -/
def Field.names (fields : List Field) : List String :=
  (fields.filter (fun f => !f.is_etc)).map (fun f => f.name)

/-- The item with the position of its field in the declaration in the slot `index`, when it is
not `...`. -/
def Field.resolved (decl_fields : List FieldDecl) (field : Field) : Field :=
  if field.is_etc then field
  else { field with index := StructType.find_member decl_fields field.name }

/-- Every item of the list is accepted after items with the names `earlier`: each item that is
not `...` names a field of the declaration, and no two of them, nor one of them and an earlier
item, name the same field. -/
def Field.accepted (decl_fields : List FieldDecl) (earlier : List String)
    (fields : List Field) : Prop :=
  (∀ f ∈ fields, f.is_etc = false → (StructType.find_member decl_fields f.name).isSome = true) ∧
  (earlier ++ Field.names fields).Nodup

/-- The item offends after items with the names `earlier`: it is not `...` and names no field of
the declaration, or a field that an earlier item names. -/
def Field.offends (decl_fields : List FieldDecl) (earlier : List String) (field : Field) : Prop :=
  field.is_etc = false ∧
  (StructType.find_member decl_fields field.name = none ∨ field.name ∈ earlier)

/-- The error that `check_fields` reports for an offending item: an unknown member at the item
when it names no field of the declaration, a field specified more than once otherwise. -/
def TypeChecker.check_fields.offence (loc : Loc) (struct_type : Ty)
    (decl_fields : List FieldDecl) (field : Field) : Diag :=
  if (StructType.find_member decl_fields field.name).isNone then
    ⟨.error, field.loc, .no_member_in field.name struct_type⟩
  else ⟨.error, loc, .field_specified_more_than_once field.name⟩

/-- The errors for the missing fields: one for each field of the declaration, in order, that no
item names, but for the fields with a default initialiser when defaults are accepted. -/
def TypeChecker.check_fields.missing_errors (loc : Loc) (msg : String) (accept_defaults : Bool)
    (decl_fields : List FieldDecl) (names : List String) : List Diag :=
  (decl_fields.filter (fun d =>
    !decide (d.name ∈ names) && (!accept_defaults || !d.has_init))).map
    (fun d => ⟨.error, loc, .missing_field d.name msg⟩)

/-! ## Part 6: the run of the checker, the guard of the declarations, matches, casts and paths -/

/-- The function `ModDecl::infer` (check.cpp:1817-1828).  The first loop, which infers the
declarations of the module, is the parameter `infer_decls`: it returns what the second loop reads
of each declaration; `obj` is the identity of the module. -/
def ModDecl.infer (decls : Decls) (fuel : Nat)
    (infer_decls : TypeChecker → List DeclInfo × TypeChecker) (obj : Nat)
    (checker : TypeChecker) : Option (Ty × TypeChecker) :=
  match ModDecl.infer.sized_loop decls fuel (infer_decls checker).2 (infer_decls checker).1 with
  | none => none
  | some checker1 => some (.mod obj, checker1)

/-- The function `TypeChecker::run` (check.cpp:7-10); `infer` is the call `infer(module)`, which
has no result when the inference of the module lacks fuel. -/
def TypeChecker.run (infer : TypeChecker → Option (Ty × TypeChecker)) (checker : TypeChecker) :
    Option (Bool × TypeChecker) :=
  match infer checker with
  | none => none
  | some (_, checker1) => some (checker1.errors == 0, checker1)

/-- The state of a `TypeChecker` that the inference of a declaration touches: the counter and the
diagnostics above, and the set `decls_` of the declarations whose type is being inferred, held as
the list of the addresses of their nodes, the last one entered first. -/
structure DeclChecker where
  checker : TypeChecker
  decls_ : List NodeAddr
deriving DecidableEq

/-- A call of the checker on a child of a declaration (`infer`, `check`, `coerce` or `deref`),
with the type it returns.  The children are not embedded: such a call is a parameter of the
declaration. -/
abbrev ChildCall := DeclChecker → Ty × DeclChecker

/-- The function `TypeChecker::enter_decl` (check.cpp:12-19); `loc` is `decl->loc`. -/
def TypeChecker.enter_decl (st : DeclChecker) (decl : NodeAddr) (loc : Loc) :
    Bool × DeclChecker :=
  if decl ∈ st.decls_ then
    (false, { st with checker := st.checker.error loc .cannot_infer_recursive_declaration })
  else (true, { st with decls_ := decl :: st.decls_ })

/-- The function `TypeChecker::exit_decl` (check.cpp:21-23). -/
def TypeChecker.exit_decl (st : DeclChecker) (decl : NodeAddr) : DeclChecker :=
  { st with decls_ := st.decls_.erase decl }

/-- The loops `for (auto& param : type_params->params) checker.infer(*param)` of the
declarations. -/
def TypeChecker.infer_params : DeclChecker → List ChildCall → DeclChecker
  | st, [] => st
  | st, param :: params => TypeChecker.infer_params (param st).2 params

/-- The initializer of a static declaration, as `StaticDecl::infer` uses it: its location, the
result of `is_constant()`, and the calls `checker.coerce(init, value_type)` and
`checker.deref(init)`. -/
structure StaticInit where
  loc : Loc
  is_constant : Bool
  coerce : Ty → ChildCall
  deref : ChildCall

/-- The loop of `StaticDecl::infer` over `others` (check.cpp:1706-1711): an element is `none`
when `child->type` is null, and otherwise the location of that type with the call
`checker.infer(*child->type)`. -/
def StaticDecl.infer.others_loop (value_type : Ty) :
    DeclChecker → List (Option (Loc × ChildCall)) → DeclChecker
  | st, [] => st
  | st, none :: others => StaticDecl.infer.others_loop value_type st others
  | st, some (loc, infer) :: others =>
    StaticDecl.infer.others_loop value_type
      { (infer st).2 with
        checker := ((infer st).2.checker.expect loc (infer st).1 value_type).2 } others

/-- The function `StaticDecl::infer` (check.cpp:1692-1714) on the declaration at the address
`this`; `type` is the call `checker.infer(*type)`, `none` when the declaration has no type
annotation, and `init` is `none` when it has no initializer. -/
def StaticDecl.infer (st : DeclChecker) (this : NodeAddr) (loc : Loc) (type : Option ChildCall)
    (init : Option StaticInit) (others : List (Option (Loc × ChildCall))) (is_mut : Bool) :
    Ty × DeclChecker :=
  if !(TypeChecker.enter_decl st this loc).1 then
    (.typeError, (TypeChecker.enter_decl st this loc).2)
  else
    let st0 := (TypeChecker.enter_decl st this loc).2
    let value : Option (Ty × DeclChecker) :=
      match type, init with
      | some infer_type, some init =>
        some ((infer_type st0).1, (init.coerce (infer_type st0).1 (infer_type st0).2).2)
      | some infer_type, none => some (infer_type st0)
      | none, some init => some (init.deref st0)
      | none, none => none
    match value with
    | none =>
      (.typeError, { st0 with checker := (st0.checker.cannot_infer loc "static variable").2 })
    | some (value_type, st1) =>
      let st2 : DeclChecker :=
        match init with
        | some init =>
          if !init.is_constant then
            { st1 with
              checker := st1.checker.error init.loc .only_constants_as_static_initializers }
          else st1
        | none => st1
      (.ref value_type is_mut 0,
        TypeChecker.exit_decl (StaticDecl.infer.others_loop value_type st2 others) this)

/-- The function `FnDecl::infer` (check.cpp:1716-1746) on the declaration at the address `this`.
The children are calls: `type_params` the calls `checker.infer(*param)` (`none` without type
parameters), `ret_type` the call `checker.infer(*fn->ret_type)` (`none` without return type),
`param` the call `checker.infer(*fn->param)`, `filter` the call `checker.check(*fn->filter, ...)`,
`fn` the call `checker.infer(*fn)` and `body` the call `checker.coerce(fn->body, ...)`.  The two
arguments of `fn_type(...)` are evaluated in an unspecified order: `param_first` chooses it. -/
def FnDecl.infer (st : DeclChecker) (this : NodeAddr) (loc : Loc) (param_first : Bool)
    (type_params : Option (List ChildCall)) (ret_type : Option ChildCall) (param : ChildCall)
    (filter : Option (Ty → ChildCall)) (check_refutability : DeclChecker → DeclChecker)
    (fn : ChildCall) (body : Option (Ty → ChildCall)) : Ty × DeclChecker :=
  let forall_type : Option Ty :=
    match type_params with
    | some _ => some (.forallTy this)
    | none => none
  let st0 : DeclChecker :=
    match type_params with
    | some params => TypeChecker.infer_params st params
    | none => st
  if !(TypeChecker.enter_decl st0 this loc).1 then
    (.typeError, (TypeChecker.enter_decl st0 this loc).2)
  else
    let st1 := (TypeChecker.enter_decl st0 this loc).2
    match ret_type with
    | some infer_ret =>
      let dom_codom : Ty × Ty × DeclChecker :=
        if param_first then
          ((param st1).1, (infer_ret (param st1).2).1, (infer_ret (param st1).2).2)
        else
          ((param (infer_ret st1).2).1, (infer_ret st1).1, (param (infer_ret st1).2).2)
      let st2 : DeclChecker :=
        match filter with
        | some check_filter => (check_filter (.prim .Bool) dom_codom.2.2).2
        | none => dom_codom.2.2
      let st3 := check_refutability st2
      let st4 : DeclChecker :=
        match body with
        | some coerce_body => (coerce_body dom_codom.2.1 st3).2
        | none => st3
      (match forall_type with
        | some type => type
        | none => .fn dom_codom.1 dom_codom.2.1,
       TypeChecker.exit_decl st4 this)
    | none =>
      (match forall_type with
        | some type => type
        | none => (fn st1).1,
       TypeChecker.exit_decl (fn st1).2 this)

/-- The function `TypeDecl::infer` (check.cpp:1802-1817) on the alias declaration at the address
`this`; `aliased_type` is the call `checker.infer(*aliased_type)`. -/
def TypeDecl.infer (st : DeclChecker) (this : NodeAddr) (loc : Loc)
    (type_params : Option (List ChildCall)) (aliased_type : ChildCall) : Ty × DeclChecker :=
  if !(TypeChecker.enter_decl st this loc).1 then
    (.typeError, (TypeChecker.enter_decl st this loc).2)
  else
    let st0 := (TypeChecker.enter_decl st this loc).2
    match type_params with
    | some params =>
      (.typeAlias this,
        TypeChecker.exit_decl (aliased_type (TypeChecker.infer_params st0 params)).2 this)
    | none => ((aliased_type st0).1, TypeChecker.exit_decl (aliased_type st0).2 this)

/-- The test `isa<ModType>()`. -/
def Ty.isMod : Ty → Bool
  | .mod _ => true
  | _ => false

/-- The function `UseDecl::infer` (check.cpp:1830-1838) on the declaration at the address `this`;
`path` is the call `checker.infer(path)` and `path_loc` the location of the path. -/
def UseDecl.infer (st : DeclChecker) (this : NodeAddr) (loc : Loc) (path_loc : Loc)
    (path : ChildCall) : Ty × DeclChecker :=
  if !(TypeChecker.enter_decl st this loc).1 then
    (.typeError, (TypeChecker.enter_decl st this loc).2)
  else
    let st0 := (TypeChecker.enter_decl st this loc).2
    let st1 := TypeChecker.exit_decl (path st0).2 this
    if !(path st0).1.isMod then
      ((st1.checker.type_expected path_loc (path st0).1 "module type").1,
        { st1 with
          checker := (st1.checker.type_expected path_loc (path st0).1 "module type").2 })
    else ((path st0).1, st1)

/-- A call of the checker on a child leaves the set `decls_` as it found it. -/
def ChildCall.Balanced (call : ChildCall) : Prop :=
  ∀ st : DeclChecker, (call st).2.decls_ = st.decls_

/-- A case of a match expression: the class `CaseExpr` with its pattern and its expression.  The
patterns are not embedded: `ptrn` is what the call `checker.check(*case_->ptrn, arg_type)` makes
of the checker. -/
structure CaseExpr where
  ptrn : TypeChecker → Ty → TypeChecker
  expr : Expr

/-- The loop of `MatchExpr::check` over the cases (check.cpp:1332-1335); `type` is the variable
of that name, `none` for the null pointer. -/
def MatchExpr.check.loop (v : Virt) (arg_type : Ty) :
    TypeChecker → Option Ty → List CaseExpr → Option (Option Ty × List CaseExpr × TypeChecker)
  | checker, type, [] => some (type, [], checker)
  | checker, type, case_ :: cases =>
    let typed : Option (Ty × Expr × TypeChecker) :=
      match type with
      | some t => TypeChecker.coerce v (case_.ptrn checker arg_type) case_.expr t
      | none => TypeChecker.deref v (case_.ptrn checker arg_type) case_.expr
    match typed with
    | none => none
    | some (t, expr1, checker1) =>
      match MatchExpr.check.loop v arg_type checker1 (some t) cases with
      | none => none
      | some (type1, cases1, checker2) =>
        some (type1, { case_ with expr := expr1 } :: cases1, checker2)

/-- The function `MatchExpr::check` (check.cpp:1329-1337) on the node
`MatchExpr(loc, arg, cases)`, with `expected` possibly the null pointer (`none`); the result
holds the argument and the cases as the function leaves them. -/
def MatchExpr.check (v : Virt) (checker : TypeChecker) (loc : Loc) (arg : Expr)
    (cases : List CaseExpr) (expected : Option Ty) :
    Option (Ty × Expr × List CaseExpr × TypeChecker) :=
  match TypeChecker.deref v checker arg with
  | none => none
  | some (arg_type, arg1, checker1) =>
    match MatchExpr.check.loop v arg_type checker1 expected cases with
    | none => none
    | some (some type, cases1, checker2) => some (type, arg1, cases1, checker2)
    | some (none, cases1, checker2) =>
      some ((checker2.cannot_infer loc "match expression").1, arg1, cases1,
        (checker2.cannot_infer loc "match expression").2)

/-- The function `MatchExpr::infer` (check.cpp:1325-1327). -/
def MatchExpr.infer (v : Virt) (checker : TypeChecker) (loc : Loc) (arg : Expr)
    (cases : List CaseExpr) : Option (Ty × Expr × List CaseExpr × TypeChecker) :=
  MatchExpr.check v checker loc arg cases none

/-- The function `TypeChecker::invalid_cast` (check.cpp:78-82). -/
def TypeChecker.invalid_cast (checker : TypeChecker) (loc : Loc) (type expected : Ty) :
    Ty × TypeChecker :=
  if TypeChecker.should_report_error type && TypeChecker.should_report_error expected then
    (.typeError, checker.error loc (.invalid_cast type expected))
  else (.typeError, checker)

/-- The tests of `CastExpr::infer` behind the flags `allow_ptr`, `allow_int` and `allow_float`
(check.cpp:1611-1630): whether one of the three statements `return expected` is reached for a
value of the type `type`. -/
def CastExpr.infer.allowed (type expected : Ty) : Bool :=
  let allow : Bool × Bool × Bool :=
    if expected.isPtr then (true, true, false)
    else if is_int_type expected then (true, true, true)
    else if is_float_type expected then (false, true, true)
    else (false, false, false)
  if allow.1 && type.isPtr then true
  else if allow.2.1 && is_int_type type then true
  else if allow.2.2 && is_float_type type then true
  else false

/-- The function `CastExpr::infer` (check.cpp:1603-1632) on the node `CastExpr(loc, expr, type)`;
`infer_type` is the call `checker.infer(*type)` on the type annotation.  The result holds the
operand as the function leaves it. -/
def CastExpr.infer (v : Virt) (infer_type : TypeChecker → Ty × TypeChecker)
    (checker : TypeChecker) (loc : Loc) (expr : Expr) : Option (Ty × Expr × TypeChecker) :=
  match TypeChecker.deref v (infer_type checker).2 expr with
  | none => none
  | some (type, expr1, checker1) =>
    if type = (infer_type checker).1 then
      some ((infer_type checker).1, expr1, checker1.warn loc .identical_cast)
    else if CastExpr.infer.allowed type (infer_type checker).1 then
      some ((infer_type checker).1, expr1, checker1)
    else
      some ((checker1.invalid_cast loc type (infer_type checker).1).1, expr1,
        (checker1.invalid_cast loc type (infer_type checker).1).2)

/-- Modelled from the spec: `match_app<StructType>` (types.h is not among the sources): for the
application of a struct type, the application and the struct type; for a struct type, the null
pointer and the struct type; two null pointers otherwise. -/
def match_app_struct : Ty → Option Ty × Option Nat
  | .typeApp (.struct obj) type_args => (some (.typeApp (.struct obj) type_args), some obj)
  | .struct obj => (none, some obj)
  | _ => (none, none)

/-- The function `member_type` of check.cpp (340-346); `member` is
`complex_type->member_type(index)`, and the member type of an application is without result
when `replace` lacks fuel. -/
def member_type (decls : Decls) (fuel : Nat) (type_app : Option Ty) (member : Ty) : Option Ty :=
  match type_app with
  | some (.typeApp applied type_args) => Ty.app_member_type decls fuel applied type_args member
  | some _ => none
  | none => some member

/-- The loop `tuple_args[i] = member_type(type_app, struct_type, i)` of `Path::infer`
(check.cpp:684-685) over the members of the struct type. -/
def Path.infer.tuple_args (decls : Decls) (fuel : Nat) (type_app : Option Ty) :
    List Ty → Option (List Ty)
  | [] => some []
  | member :: members =>
    match member_type decls fuel type_app member with
    | none => none
    | some arg =>
      match Path.infer.tuple_args decls fuel type_app members with
      | none => none
      | some args => some (arg :: args)

/-- The statement of `Path::infer` that treats the constructors of tuple-like structures as
functions (check.cpp:679-692), on the current `type` and `is_value` of the path, which it
returns; `is_tuple_like` is `StructType::is_tuple_like()` on the identity of a struct type. -/
def Path.infer.ctor (decls : Decls) (is_tuple_like : Nat → Bool) (fuel : Nat)
    (is_ctor value_expected : Bool) (type : Ty) (is_value : Bool) : Option (Ty × Bool) :=
  match match_app_struct type with
  | (type_app, some obj) =>
    if is_ctor && value_expected && is_tuple_like obj then
      if (decls.members obj).length > 0 then
        match Path.infer.tuple_args decls fuel type_app (decls.members obj) with
        | none => none
        | some tuple_args =>
          let dom : Ty :=
            match (decls.members obj).length == 1, tuple_args with
            | true, front :: _ => front
            | _, _ => .tuple tuple_args
          some (.fn dom type, true)
      else some (type, true)
    else some (type, is_value)
  | (_, none) => some (type, is_value)

/-- The declarations of `struct L[T] { next: &L[T] }`: the struct type is the object 0, its type
parameter `T` the type variable 1, and its only member a pointer to the application `L[T]`. -/
def Scenario.generic_struct_pointing_to_itself : Decls :=
  { members := fun obj =>
      if obj = 0 then [.ptr (.typeApp (.struct 0) [.typeVar 1]) false 0] else [],
    type_params := fun obj => if obj = 0 then some [some (.typeVar 1)] else none,
    aliased_type := fun _ => none }

/-- The declarations of the tuple-like structures `struct U`, `struct W(i32)` and
`struct P[T](T, &T)`: the objects 0, 1 and 2; the type parameter of `P` is the type variable 3. -/
def Scenario.tuple_like_structs : Decls :=
  { members := fun obj =>
      if obj = 1 then [.prim .I32]
      else if obj = 2 then [.typeVar 3, .ptr (.typeVar 3) false 0]
      else [],
    type_params := fun obj => if obj = 2 then some [some (.typeVar 3)] else none,
    aliased_type := fun _ => none }

/-! ## Part 7: the expressions of `ast.h` and their pattern-shape predicates -/

namespace ast

mutual
/-- The classes derived from `Expr` in `ast.h`, one constructor per class. -/
inductive Expr where
  | IdExpr (loc : Loc) (id : String)
  | LiteralExpr (loc : Loc) (lit : Literal)
  | TupleExpr (loc : Loc) (args : List Expr)
  | LambdaExpr (loc : Loc) (param : Ptrn) (body : Expr)
  | BlockExpr (loc : Loc) (exprs : List Expr)
  | DeclExpr (loc : Loc) (decl : Decl)
  | CallExpr (loc : Loc) (callee arg : Expr)
  | ErrorExpr (loc : Loc)
/-- The class `Ptrn` of `ast.h`: an expression used as a pattern. -/
inductive Ptrn where
  | mk (expr : Expr)
/-- The classes derived from `Decl` in `ast.h`; the pattern of an `ErrorDecl` and the parameter
of a `DefDecl` that is not a function are null pointers. -/
inductive Decl where
  | VarDecl (loc : Loc) (ptrn : Ptrn) (init : Expr)
  | DefDecl (loc : Loc) (ptrn : Ptrn) (param : Option Ptrn) (body : Expr)
  | ErrorDecl (loc : Loc)
end

mutual
/-- The virtual `needs_evaluation` (ast.h:38, 73, 86, 99, 127). -/
def Expr.needs_evaluation : Expr → Bool
  | .IdExpr _ _ => false
  | .LiteralExpr _ _ => false
  | .TupleExpr _ args => Expr.needs_evaluation.if_any args
  | .LambdaExpr _ _ _ => false
  | _ => true
/-- The call `if_any` of `TupleExpr::needs_evaluation` on the arguments. -/
def Expr.needs_evaluation.if_any : List Expr → Bool
  | [] => false
  | e :: args => e.needs_evaluation || Expr.needs_evaluation.if_any args
end

mutual
/-- The virtual `is_valid_pattern` (ast.h:39, 75, 87, 101, 129). -/
def Expr.is_valid_pattern : Expr → Bool
  | .IdExpr _ _ => true
  | .LiteralExpr _ _ => true
  | .TupleExpr _ args => Expr.is_valid_pattern.if_all args
  | .LambdaExpr _ _ _ => false
  | _ => false
/-- The call `if_all` of `TupleExpr::is_valid_pattern` on the arguments. -/
def Expr.is_valid_pattern.if_all : List Expr → Bool
  | [] => true
  | e :: args => e.is_valid_pattern && Expr.is_valid_pattern.if_all args
end

mutual
/-- The virtual `only_identifiers` (ast.h:40, 74, 100, 128); `LiteralExpr` keeps the default. -/
def Expr.only_identifiers : Expr → Bool
  | .IdExpr _ _ => true
  | .TupleExpr _ args => Expr.only_identifiers.if_all args
  | .LambdaExpr _ _ _ => false
  | _ => false
/-- The call `if_all` of `TupleExpr::only_identifiers` on the arguments. -/
def Expr.only_identifiers.if_all : List Expr → Bool
  | [] => true
  | e :: args => e.only_identifiers && Expr.only_identifiers.if_all args
end

/-- The function `Ptrn::is_valid` (ast.h:50). -/
def Ptrn.is_valid : Ptrn → Bool
  | .mk expr => expr.is_valid_pattern

/-- The function `Ptrn::is_binder` (ast.h:51). -/
def Ptrn.is_binder : Ptrn → Bool
  | .mk expr => expr.only_identifiers

end ast

/-! ## Lemmas on `Ty.subtype` -/

theorem Ty.subtype_self (t : Ty) : t.subtype t = true := by
  rw [Ty.subtype.eq_def]; simp

theorem Ty.subtype_noRet_left (u : Ty) : Ty.noRet.subtype u = true := by
  rw [Ty.subtype.eq_def]; simp [Ty.isNoRet]

theorem Ty.subtype_ref_left (p : Ty) (m : Bool) (a : Nat) (u : Ty) :
    (Ty.ref p m a).subtype u = true ↔ (Ty.ref p m a = u ∨ p.subtype u = true) := by
  rw [Ty.subtype.eq_def]
  by_cases h : Ty.ref p m a = u
  · simp [h]
  · simp [h, Ty.isNoRet]

/-- With `this` neither `!` nor a reference and `other` not a pointer, only identity and the
array rule are left. -/
theorem Ty.subtype_of_not_ptr (t u : Ty) (ht : t.isNoRet = false) (hr : t.isRef = false)
    (hu : u.isPtr = false) :
    t.subtype u = true ↔ (t = u ∨ Ty.subtypeArray t u = true) := by
  rw [Ty.subtype.eq_def]
  by_cases h : t = u
  · simp [h]
  · cases t <;> simp_all [Ty.isNoRet, Ty.isRef] <;> cases u <;> simp_all [Ty.isPtr]

theorem Ty.subtypeArray_ptr_right (t p : Ty) (m : Bool) (a : Nat) :
    Ty.subtypeArray t (.ptr p m a) = false := by
  cases t <;> rfl

theorem Ty.subtypeArray_ptr_left (u p : Ty) (m : Bool) (a : Nat) :
    Ty.subtypeArray (.ptr p m a) u = false := by
  cases u <;> rfl

/-- A pointer is a subtype of a type that is not a pointer only when `other` is the pointer. -/
theorem Ty.ptr_subtype_not_ptr (p u : Ty) (m : Bool) (a : Nat) (hu : u.isPtr = false) :
    (Ty.ptr p m a).subtype u = false := by
  have h := Ty.subtype_of_not_ptr (.ptr p m a) u rfl rfl hu
  rw [Ty.subtypeArray_ptr_left] at h
  have hne : Ty.ptr p m a ≠ u := by
    intro e; subst e; simp [Ty.isPtr] at hu
  cases hs : (Ty.ptr p m a).subtype u
  · rfl
  · rcases h.1 hs with h1 | h1
    · exact absurd h1 hne
    · simp at h1

/-- Pointer against pointer. -/
theorem Ty.ptr_subtype_ptr (p op : Ty) (m om : Bool) (a oa : Nat) :
    (Ty.ptr p m a).subtype (.ptr op om oa) = true ↔
      (Ty.ptr p m a = .ptr op om oa ∨
        (op.isPtr = false ∧ a = oa ∧ (m = true ∨ om = false) ∧ p.subtype op = true)) := by
  rw [Ty.subtype.eq_def]
  by_cases h : Ty.ptr p m a = .ptr op om oa
  · simp [h]
  · by_cases hp : op.isPtr = true
    · simp [h, hp, Ty.isNoRet]
    · have hp2 : op.isPtr = false := by simpa using hp
      simp only [h, Ty.isNoRet, hp2, Ty.ptr_subtype_not_ptr p op m a hp2,
        Ty.subtypeArray_ptr_right]
      by_cases hc : a = oa ∧ (m = true ∨ om = false)
      · simp [hc]
      · simp [hc]
        intro h1 h2
        exact absurd ⟨h1, h2⟩ hc

/-- A type that is neither `!`, a reference nor a pointer, against a pointer. -/
theorem Ty.subtype_ptr_right (t op : Ty) (om : Bool) (oa : Nat) (ht : t.isNoRet = false)
    (hr : t.isRef = false) (hp : t.isPtr = false) :
    t.subtype (.ptr op om oa) = true ↔
      (op.isPtr = false ∧ om = false ∧ t.subtype op = true) := by
  rw [Ty.subtype.eq_def]
  have h : t ≠ .ptr op om oa := by
    intro e; subst e; simp [Ty.isPtr] at hp
  by_cases hop : op.isPtr = true
  · cases t <;> simp_all [Ty.isNoRet, Ty.isRef, Ty.isPtr]
  · have hop2 : op.isPtr = false := by simpa using hop
    by_cases h1 : om = false ∧ t.subtype op = true
    · cases t <;> simp_all [Ty.isNoRet, Ty.isRef, Ty.isPtr]
    · cases t <;> simp_all [Ty.isNoRet, Ty.isRef, Ty.isPtr, Ty.subtypeArray_ptr_right]

theorem Ty.eq_noRet_of_isNoRet (t : Ty) (h : t.isNoRet = true) : t = .noRet := by
  cases t <;> simp_all [Ty.isNoRet]

theorem Ty.exists_of_isRef (t : Ty) (h : t.isRef = true) : ∃ p m a, t = .ref p m a := by
  cases t <;> simp_all [Ty.isRef]

theorem Ty.exists_of_isPtr (t : Ty) (h : t.isPtr = true) : ∃ p m a, t = .ptr p m a := by
  cases t <;> simp_all [Ty.isPtr]

theorem Ty.sizeOf_pos (t : Ty) : 0 < sizeOf t := by
  cases t <;> simp

theorem Ty.subtypeArray_unsized_left (e u : Ty) : Ty.subtypeArray (.unsizedArray e) u = false := by
  cases u <;> rfl

theorem Ty.exists_of_subtypeArray (t u : Ty) (h : Ty.subtypeArray t u = true) :
    ∃ e n, t = .sizedArray e n false ∧ u = .unsizedArray e := by
  cases t <;> cases u <;> simp_all [Ty.subtypeArray]

theorem Ty.subtype_trans_aux : ∀ (n : Nat) (a b c : Ty), sizeOf a + sizeOf b + sizeOf c ≤ n →
    a.subtype b = true → b.subtype c = true → a.subtype c = true := by
  intro n
  induction n with
  | zero =>
    intro a b c h
    have := Ty.sizeOf_pos a
    omega
  | succ n ih =>
    intro a b c hsz hab hbc
    by_cases hnr : a.isNoRet = true
    · rw [Ty.eq_noRet_of_isNoRet a hnr]; exact Ty.subtype_noRet_left c
    have hnr2 : a.isNoRet = false := by simpa using hnr
    by_cases hrf : a.isRef = true
    · obtain ⟨p, m, x, rfl⟩ := Ty.exists_of_isRef a hrf
      rcases (Ty.subtype_ref_left p m x b).1 hab with h | h
      · subst h; exact hbc
      · refine (Ty.subtype_ref_left p m x c).2 (Or.inr (ih p b c ?_ h hbc))
        simp at hsz; omega
    have hrf2 : a.isRef = false := by simpa using hrf
    by_cases hbp : b.isPtr = true
    · obtain ⟨U, um, ua, rfl⟩ := Ty.exists_of_isPtr b hbp
      by_cases hcp : c.isPtr = true
      · obtain ⟨V, vm, va, rfl⟩ := Ty.exists_of_isPtr c hcp
        rcases (Ty.ptr_subtype_ptr U V um vm ua va).1 hbc with h | ⟨hV, hua, hm, hUV⟩
        · rw [← h]; exact hab
        · subst hua
          by_cases hap : a.isPtr = true
          · obtain ⟨T, tm, ta, rfl⟩ := Ty.exists_of_isPtr a hap
            rcases (Ty.ptr_subtype_ptr T U tm um ta ua).1 hab with h | ⟨hU, hta, hm2, hTU⟩
            · rw [h]; exact hbc
            · subst hta
              refine (Ty.ptr_subtype_ptr T V tm vm ta ta).2 (Or.inr ⟨hV, rfl, ?_, ?_⟩)
              · cases tm <;> cases um <;> cases vm <;> simp_all
              · apply ih T U V _ hTU hUV
                simp at hsz; omega
          · have hap2 : a.isPtr = false := by simpa using hap
            obtain ⟨hU, hum, haU⟩ := (Ty.subtype_ptr_right a U um ua hnr2 hrf2 hap2).1 hab
            refine (Ty.subtype_ptr_right a V vm ua hnr2 hrf2 hap2).2 ⟨hV, ?_, ?_⟩
            · cases um <;> cases vm <;> simp_all
            · apply ih a U V _ haU hUV
              simp at hsz; omega
      · have hcp2 : c.isPtr = false := by simpa using hcp
        rw [Ty.ptr_subtype_not_ptr U c um ua hcp2] at hbc
        exact absurd hbc (by simp)
    · have hbp2 : b.isPtr = false := by simpa using hbp
      rcases (Ty.subtype_of_not_ptr a b hnr2 hrf2 hbp2).1 hab with h | h
      · subst h; exact hbc
      · obtain ⟨e, k, rfl, rfl⟩ := Ty.exists_of_subtypeArray a b h
        by_cases hcp : c.isPtr = true
        · obtain ⟨V, vm, va, rfl⟩ := Ty.exists_of_isPtr c hcp
          obtain ⟨hV, hvm, hbV⟩ := (Ty.subtype_ptr_right (.unsizedArray e) V vm va rfl rfl rfl).1 hbc
          refine (Ty.subtype_ptr_right (.sizedArray e k false) V vm va rfl rfl rfl).2 ⟨hV, hvm, ?_⟩
          apply ih _ _ V _ hab hbV
          simp at hsz ⊢; omega
        · have hcp2 : c.isPtr = false := by simpa using hcp
          rcases (Ty.subtype_of_not_ptr (.unsizedArray e) c rfl rfl hcp2).1 hbc with h2 | h2
          · subst h2; exact hab
          · rw [Ty.subtypeArray_unsized_left] at h2
            exact absurd h2 (by simp)

/-! ## Claims on `Type::subtype` -/

/-- Claim C1: `Type::subtype` is transitive: `a.subtype(b)` and `b.subtype(c)` imply
`a.subtype(c)`, for all types. -/
theorem subtype_transitive (a b c : Ty) (hab : a.subtype b = true) (hbc : b.subtype c = true) :
    a.subtype c = true :=
  Ty.subtype_trans_aux _ a b c (Nat.le_refl _) hab hbc

/-- Witness of C1: `[i32 * 4] <: [i32] <: &[i32]`, hence `[i32 * 4] <: &[i32]`. -/
theorem subtype_transitive_witness :
    (Ty.sizedArray (.prim .I32) 4 false).subtype (.unsizedArray (.prim .I32)) = true ∧
    (Ty.unsizedArray (.prim .I32)).subtype (.ptr (.unsizedArray (.prim .I32)) false 0) = true ∧
    (Ty.sizedArray (.prim .I32) 4 false).subtype (.ptr (.unsizedArray (.prim .I32)) false 0)
      = true :=
  ⟨by simp [Ty.subtype, Ty.isNoRet, Ty.isPtr, Ty.subtypeArray],
   by simp [Ty.subtype, Ty.isNoRet, Ty.isPtr, Ty.subtypeArray],
   subtype_transitive _ (.unsizedArray (.prim .I32)) _
     (by simp [Ty.subtype, Ty.isNoRet, Ty.isPtr, Ty.subtypeArray])
     (by simp [Ty.subtype, Ty.isNoRet, Ty.isPtr, Ty.subtypeArray])⟩

/-- Claim C2: `Type::subtype` is reflexive: `t.subtype(t)` is true for every type `t`. -/
theorem subtype_reflexive (t : Ty) : t.subtype t = true :=
  Ty.subtype_self t

/-- Claim C3: `NoRet` is a subtype of every type. -/
theorem noRet_subtype_every (u : Ty) : Ty.noRet.subtype u = true :=
  Ty.subtype_noRet_left u

/-- Counterexample to C4 as stated: `ref i32 <: ref i32` holds (identity) although
`i32 <: ref i32` does not. -/
theorem ref_subtype_iff_pointee_counterexample :
    ¬ ((Ty.ref (.prim .I32) false 0).subtype (.ref (.prim .I32) false 0) = true ↔
       (Ty.prim .I32).subtype (.ref (.prim .I32) false 0) = true) := by
  simp [Ty.subtype, Ty.isNoRet, Ty.isPtr, Ty.subtypeArray]

/-- Claim C4, amended: `ref_type(T, is_mut, addr_space).subtype(u)` holds if and only if `u` is
that reference type itself or `T.subtype(u)` holds. -/
theorem ref_subtype_iff (T : Ty) (is_mut : Bool) (addr_space : Nat) (u : Ty) :
    (Ty.ref T is_mut addr_space).subtype u = true ↔
      (u = .ref T is_mut addr_space ∨ T.subtype u = true) := by
  rw [Ty.subtype_ref_left]
  constructor
  · rintro (h | h)
    · exact Or.inl h.symm
    · exact Or.inr h
  · rintro (h | h)
    · exact Or.inl h.symm
    · exact Or.inr h

/-- Counterexample to C5 as stated, in the three ways it fails: `&i32 <: &i32` although
`&i32 <: i32` is false; `i32 <: &i32` although `i32 <: &&i32` is false (no pointer to pointer);
`ref i32 <: ref i32` although `ref i32 <: &(ref i32)` is false (the reference is stripped
first). -/
theorem subtype_nonmut_ptr_iff_counterexample :
    ¬ ((Ty.ptr (.prim .I32) false 0).subtype (.ptr (.prim .I32) false 0) = true ↔
       (Ty.ptr (.prim .I32) false 0).subtype (.prim .I32) = true) ∧
    ¬ ((Ty.prim .I32).subtype (.ptr (.ptr (.prim .I32) false 0) false 0) = true ↔
       (Ty.prim .I32).subtype (.ptr (.prim .I32) false 0) = true) ∧
    ¬ ((Ty.ref (.prim .I32) false 0).subtype (.ptr (.ref (.prim .I32) false 0) false 0) = true ↔
       (Ty.ref (.prim .I32) false 0).subtype (.ref (.prim .I32) false 0) = true) := by
  refine ⟨?_, ?_, ?_⟩ <;> simp [Ty.subtype, Ty.isNoRet, Ty.isPtr, Ty.subtypeArray]

/-- Claim C5, amended: for a non-mutable pointer type `&U` in address space `a` and a type `T`:
if `T` is a reference `ref T'`, `T.subtype(&U)` iff `T'.subtype(&U)`; if `T` is not a reference
and `U` is not a pointer, `T.subtype(&U)` iff `T.subtype(U)` or `T` is a pointer in address
space `a` whose pointee is a subtype of `U`; if `T` is not a reference and `U` is a pointer,
`T.subtype(&U)` iff `T` is `&U` itself or `NoRet`. -/
theorem subtype_nonmut_ptr_iff (T U : Ty) (a : Nat) :
    (∀ T' m x, T = .ref T' m x →
      (T.subtype (.ptr U false a) = true ↔ T'.subtype (.ptr U false a) = true)) ∧
    (T.isRef = false → U.isPtr = false →
      (T.subtype (.ptr U false a) = true ↔
        (T.subtype U = true ∨ ∃ T' m, T = .ptr T' m a ∧ T'.subtype U = true))) ∧
    (T.isRef = false → U.isPtr = true →
      (T.subtype (.ptr U false a) = true ↔ (T = .ptr U false a ∨ T = .noRet))) := by
  refine ⟨?_, ?_, ?_⟩
  · rintro T' m x rfl
    rw [Ty.subtype_ref_left]
    simp
  · intro hT hU
    by_cases hnr : T.isNoRet = true
    · rw [Ty.eq_noRet_of_isNoRet T hnr]
      simp [Ty.subtype_noRet_left]
    have hnr2 : T.isNoRet = false := by simpa using hnr
    by_cases hp : T.isPtr = true
    · obtain ⟨p, m, x, rfl⟩ := Ty.exists_of_isPtr T hp
      rw [Ty.ptr_subtype_ptr, Ty.ptr_subtype_not_ptr p U m x hU]
      constructor
      · rintro (h | ⟨_, h2, _, h4⟩)
        · injection h with h1 h2 h3
          subst h1 h3
          exact Or.inr ⟨p, m, rfl, Ty.subtype_self p⟩
        · subst h2
          exact Or.inr ⟨p, m, rfl, h4⟩
      · rintro (h | ⟨T', m', h1, h2⟩)
        · exact absurd h (by simp)
        · injection h1 with h3 h4 h5
          subst h3 h4 h5
          exact Or.inr ⟨hU, rfl, Or.inr rfl, h2⟩
    · have hp2 : T.isPtr = false := by simpa using hp
      rw [Ty.subtype_ptr_right T U false a hnr2 hT hp2]
      constructor
      · rintro ⟨_, _, h⟩
        exact Or.inl h
      · rintro (h | ⟨T', m', h1, _⟩)
        · exact ⟨hU, rfl, h⟩
        · subst h1
          simp [Ty.isPtr] at hp2
  · intro hT hU
    by_cases hnr : T.isNoRet = true
    · rw [Ty.eq_noRet_of_isNoRet T hnr]
      simp [Ty.subtype_noRet_left]
    have hnr2 : T.isNoRet = false := by simpa using hnr
    have hne : T ≠ .noRet := by
      intro e; subst e; simp [Ty.isNoRet] at hnr2
    by_cases hp : T.isPtr = true
    · obtain ⟨p, m, x, rfl⟩ := Ty.exists_of_isPtr T hp
      rw [Ty.ptr_subtype_ptr]
      simp [hU]
    · have hp2 : T.isPtr = false := by simpa using hp
      rw [Ty.subtype_ptr_right T U false a hnr2 hT hp2]
      have hne2 : T ≠ .ptr U false a := by
        intro e; subst e; simp [Ty.isPtr] at hp2
      simp [hU, hne, hne2]

/-- Witness of the amended C5: `[i32 * 4]` is not a reference, `[i32]` is not a pointer, and
`[i32 * 4] <: [i32]`, so `[i32 * 4] <: &[i32]`. -/
theorem subtype_nonmut_ptr_iff_witness :
    (Ty.sizedArray (.prim .I32) 4 false).subtype (.ptr (.unsizedArray (.prim .I32)) false 0)
      = true :=
  ((subtype_nonmut_ptr_iff (.sizedArray (.prim .I32) 4 false) (.unsizedArray (.prim .I32)) 0).2.1
    rfl rfl).2 (Or.inl (by simp [Ty.subtype, Ty.isNoRet, Ty.isPtr, Ty.subtypeArray]))

/-- Claim C6: for pointer types `p = ptr(T, m1, a1)` and `q = ptr(U, m2, a2)`: when `U` is not a
pointer, `p.subtype(q)` iff `a1 == a2`, (`m1` is mut or `m2` is non-mut) and `T.subtype(U)`; a
non-mut pointer is never a subtype of a mut pointer; when `U` is a pointer, `p.subtype(q)` holds
only for `p == q`. -/
theorem ptr_subtype_ptr_characterised (T U : Ty) (m1 m2 : Bool) (a1 a2 : Nat) :
    (U.isPtr = false →
      ((Ty.ptr T m1 a1).subtype (.ptr U m2 a2) = true ↔
        (a1 = a2 ∧ (m1 = true ∨ m2 = false) ∧ T.subtype U = true))) ∧
    (Ty.ptr T false a1).subtype (.ptr U true a2) = false ∧
    (U.isPtr = true →
      ((Ty.ptr T m1 a1).subtype (.ptr U m2 a2) = true ↔ Ty.ptr T m1 a1 = .ptr U m2 a2)) := by
  refine ⟨?_, ?_, ?_⟩
  · intro hU
    rw [Ty.ptr_subtype_ptr]
    constructor
    · rintro (h | ⟨_, h2, h3, h4⟩)
      · injection h with h1 h2 h3
        subst h1 h2 h3
        refine ⟨rfl, ?_, Ty.subtype_self T⟩
        cases m1 <;> simp
      · exact ⟨h2, h3, h4⟩
    · rintro ⟨h2, h3, h4⟩
      exact Or.inr ⟨hU, h2, h3, h4⟩
  · cases h : (Ty.ptr T false a1).subtype (.ptr U true a2)
    · rfl
    · rw [Ty.ptr_subtype_ptr] at h
      simp at h
  · intro hU
    rw [Ty.ptr_subtype_ptr]
    simp [hU]

/-- Witness of C6: `&mut i32 <: &i32` in one address space, since `i32` is not a pointer. -/
theorem ptr_subtype_ptr_characterised_witness :
    (Ty.ptr (.prim .I32) true 0).subtype (.ptr (.prim .I32) false 0) = true ∧
    ((Ty.ptr (.ptr (.prim .I32) true 0) true 0).subtype (.ptr (.ptr (.prim .I32) false 0) false 0)
        = true ↔
      Ty.ptr (.ptr (.prim .I32) true 0) true 0 = .ptr (.ptr (.prim .I32) false 0) false 0) :=
  ⟨((ptr_subtype_ptr_characterised (.prim .I32) (.prim .I32) true false 0 0).1 rfl).2
      ⟨rfl, Or.inl rfl, by simp [Ty.subtype]⟩,
   (ptr_subtype_ptr_characterised (.ptr (.prim .I32) true 0) (.ptr (.prim .I32) false 0)
      true false 0 0).2.2 rfl⟩

/-- Claim C7: `sized_array_type(T, N, is_simd).subtype(unsized_array_type(U))` iff `T == U` and
`is_simd` is false; so every non-SIMD `[T * N]` is a subtype of `[T]` and a SIMD array is never a
subtype of an unsized array. -/
theorem sizedArray_subtype_unsizedArray (T U : Ty) (N : Nat) (is_simd : Bool) :
    ((Ty.sizedArray T N is_simd).subtype (.unsizedArray U) = true ↔ (T = U ∧ is_simd = false)) ∧
    (Ty.sizedArray T N false).subtype (.unsizedArray T) = true ∧
    (Ty.sizedArray T N true).subtype (.unsizedArray U) = false := by
  have key : ∀ (s : Bool) (V : Ty),
      ((Ty.sizedArray T N s).subtype (.unsizedArray V) = true ↔ (T = V ∧ s = false)) := by
    intro s V
    rw [Ty.subtype_of_not_ptr (.sizedArray T N s) (.unsizedArray V) rfl rfl rfl]
    simp [Ty.subtypeArray]
  refine ⟨key is_simd U, (key false T).2 ⟨rfl, rfl⟩, ?_⟩
  cases h : (Ty.sizedArray T N true).subtype (.unsizedArray U)
  · rfl
  · exact absurd ((key true U).1 h).2 (by simp)

/-- Claim C8: for `t` neither `NoRet` nor a reference and `u` neither a pointer nor an unsized
array, `t.subtype(u)` iff `t == u`; e.g. the tuple `(NoRet)` is not a subtype of `(i32)` and
`fn i32 -> !` is not a subtype of `fn i32 -> i32`. -/
theorem subtype_iff_eq_otherwise (t u : Ty) (ht : t.isNoRet = false) (hr : t.isRef = false)
    (hp : u.isPtr = false) (ha : u.isUnsizedArray = false) :
    (t.subtype u = true ↔ t = u) ∧
    (Ty.tuple [.noRet]).subtype (.tuple [.prim .I32]) = false ∧
    (Ty.fn (.prim .I32) .noRet).subtype (.fn (.prim .I32) (.prim .I32)) = false := by
  have key : ∀ (t u : Ty), t.isNoRet = false → t.isRef = false → u.isPtr = false →
      u.isUnsizedArray = false → (t.subtype u = true ↔ t = u) := by
    intro t u ht hr hp ha
    rw [Ty.subtype_of_not_ptr t u ht hr hp]
    constructor
    · rintro (h | h)
      · exact h
      · obtain ⟨e, n, _, rfl⟩ := Ty.exists_of_subtypeArray t u h
        simp [Ty.isUnsizedArray] at ha
    · exact Or.inl
  refine ⟨key t u ht hr hp ha, ?_, ?_⟩
  · cases h : (Ty.tuple [.noRet]).subtype (.tuple [.prim .I32])
    · rfl
    · exact absurd ((key (.tuple [.noRet]) (.tuple [.prim .I32]) rfl rfl rfl rfl).1 h) (by simp)
  · cases h : (Ty.fn (.prim .I32) .noRet).subtype (.fn (.prim .I32) (.prim .I32))
    · rfl
    · exact absurd
        ((key (.fn (.prim .I32) .noRet) (.fn (.prim .I32) (.prim .I32)) rfl rfl rfl rfl).1 h)
        (by simp)

/-- Witness of C8: a sized array of `NoRet` against a sized array of `i32`; both lie in the
range of the claim and differ, so the first is not a subtype of the second. -/
theorem subtype_iff_eq_otherwise_witness :
    ¬ (Ty.sizedArray .noRet 2 false).subtype (.sizedArray (.prim .I32) 2 false) = true :=
  fun h => absurd
    ((subtype_iff_eq_otherwise (.sizedArray .noRet 2 false) (.sizedArray (.prim .I32) 2 false)
      rfl rfl rfl rfl).1.1 h) (by simp)

/-! ## Lemmas on the type table -/

theorem TypeObj.equals_of_not_nominal (k o : Place × TypeObj) (h : k.2.isNominal = false) :
    TypeObj.equals k o = true ↔ o.2 = k.2 := by
  obtain ⟨kp, kt⟩ := k
  obtain ⟨op, ot⟩ := o
  cases kt <;> simp [TypeObj.isNominal] at h <;> cases ot <;> simp [TypeObj.equals] <;> tauto

theorem TypeObj.equals_of_nominal (k o : Place × TypeObj) (h : k.2.isNominal = true) :
    TypeObj.equals k o = true ↔ o.1 = k.1 := by
  obtain ⟨kp, kt⟩ := k
  obtain ⟨op, ot⟩ := o
  cases kt <;> simp [TypeObj.isNominal] at h <;> simp [TypeObj.equals]

/-- On two distinct objects `equals` gives the same answer in both directions, so it does not
matter which of the key and the element the set passes as `this`. -/
theorem TypeObj.equals_comm (k o : Place × TypeObj) (h : k.1 ≠ o.1) :
    TypeObj.equals k o = TypeObj.equals o k := by
  rw [Bool.eq_iff_iff]
  cases hk : k.2.isNominal <;> cases ho : o.2.isNominal
  · rw [TypeObj.equals_of_not_nominal k o hk, TypeObj.equals_of_not_nominal o k ho]
    exact eq_comm
  · rw [TypeObj.equals_of_not_nominal k o hk, TypeObj.equals_of_nominal o k ho]
    constructor
    · intro e
      rw [e, hk] at ho
      exact absurd ho (by simp)
    · intro e
      exact absurd e h
  · rw [TypeObj.equals_of_nominal k o hk, TypeObj.equals_of_not_nominal o k ho]
    constructor
    · intro e
      exact absurd e.symm h
    · intro e
      rw [e, ho] at hk
      exact absurd hk (by simp)
  · rw [TypeObj.equals_of_nominal k o hk, TypeObj.equals_of_nominal o k ho]
    exact eq_comm

/-- Objects that are `equals` have the same `hash`, whatever `fnv::Hash` computes. -/
theorem TypeObj.hash_eq_of_equals (fnv : List Nat → Nat) (k o : Place × TypeObj)
    (h : k.2.isNominal = false) (he : TypeObj.equals k o = true) :
    TypeObj.hash fnv o.2 = TypeObj.hash fnv k.2 := by
  rw [(TypeObj.equals_of_not_nominal k o h).1 he]

theorem TypeTable.find_some_of_not_nominal (tbl : TypeTable) (p : Place) (t : TypeObj)
    (ht : t.isNominal = false) (a : Addr) (h : tbl.find (p, t) = some a) :
    a ∈ tbl.types_ ∧ tbl.heap[a]? = some t := by
  unfold TypeTable.find at h
  refine ⟨List.mem_of_find?_eq_some h, ?_⟩
  have hp := List.find?_some h
  cases ho : tbl.heap[a]? with
  | none => simp [ho] at hp
  | some o =>
    simp only [ho] at hp
    have := (TypeObj.equals_of_not_nominal (p, t) (.heap a, o) ht).1 hp
    simp at this
    rw [this]

theorem TypeTable.find_none_of_not_nominal (tbl : TypeTable) (p : Place) (t : TypeObj)
    (ht : t.isNominal = false) :
    tbl.find (p, t) = none ↔ ∀ a ∈ tbl.types_, tbl.heap[a]? ≠ some t := by
  unfold TypeTable.find
  rw [List.find?_eq_none]
  constructor
  · intro h a ha hs
    apply h a ha
    simp only [hs]
    exact (TypeObj.equals_of_not_nominal (p, t) (.heap a, t) ht).2 rfl
  · intro h a ha hp
    cases ho : tbl.heap[a]? with
    | none => simp [ho] at hp
    | some o =>
      simp only [ho] at hp
      have := (TypeObj.equals_of_not_nominal (p, t) (.heap a, o) ht).1 hp
      simp at this
      exact h a ha (by rw [ho, this])

theorem TypeTable.WF.unique {tbl : TypeTable} (hwf : tbl.WF) (a : Addr) (ha : a ∈ tbl.types_)
    (b : Addr) (hb : b ∈ tbl.types_) (o : TypeObj) (ho : o.isNominal = false)
    (hao : tbl.heap[a]? = some o) (hbo : tbl.heap[b]? = some o) : a = b := by
  apply hwf.2 a ha b hb
  simp [TypeTable.sameStructural, hao, hbo, ho]

theorem TypeTable.WF_of_unique (tbl : TypeTable) (h1 : ∀ a ∈ tbl.types_, a < tbl.heap.length)
    (h2 : ∀ a ∈ tbl.types_, ∀ b ∈ tbl.types_, ∀ o : TypeObj, o.isNominal = false →
      tbl.heap[a]? = some o → tbl.heap[b]? = some o → a = b) : tbl.WF := by
  refine ⟨h1, ?_⟩
  intro a ha b hb hs
  unfold TypeTable.sameStructural at hs
  cases hao : tbl.heap[a]? with
  | none => simp [hao] at hs
  | some oa =>
    cases hbo : tbl.heap[b]? with
    | none => simp [hao, hbo] at hs
    | some ob =>
      simp only [hao, hbo, Bool.and_eq_true, Bool.not_eq_true', decide_eq_true_eq] at hs
      exact h2 a ha b hb oa hs.1 hao (by rw [hbo, hs.2])

theorem TypeTable.Extends.heap {tbl tbl2 : TypeTable} (h : tbl.Extends tbl2) (a : Addr)
    (o : TypeObj) (ho : tbl.heap[a]? = some o) : tbl2.heap[a]? = some o := by
  obtain ⟨hlt, _⟩ := List.getElem?_eq_some.1 ho
  rw [h.1 a hlt]
  exact ho

theorem TypeTable.find_eq_some_of_mem (tbl : TypeTable) (hwf : tbl.WF) (p : Place) (t : TypeObj)
    (ht : t.isNominal = false) (a : Addr) (ha : a ∈ tbl.types_) (hs : tbl.heap[a]? = some t) :
    tbl.find (p, t) = some a := by
  cases hf : tbl.find (p, t) with
  | none => exact absurd hs ((tbl.find_none_of_not_nominal p t ht).1 hf a ha)
  | some b =>
    obtain ⟨hb, hbs⟩ := tbl.find_some_of_not_nominal p t ht b hf
    rw [hwf.unique b hb a ha t ht hbs hs]

theorem TypeTable.find_none_of_nominal (tbl : TypeTable) (p : Place) (t : TypeObj)
    (ht : t.isNominal = true) (hp : ∀ a ∈ tbl.types_, Place.heap a ≠ p) :
    tbl.find (p, t) = none := by
  unfold TypeTable.find
  rw [List.find?_eq_none]
  intro a ha hq
  cases ho : tbl.heap[a]? with
  | none => simp [ho] at hq
  | some o =>
    simp only [ho] at hq
    exact hp a ha ((TypeObj.equals_of_nominal (p, t) (.heap a, o) ht).1 hq)

/-- When the lookup of `insert` fails, the object is allocated at the next address and added to
the set. -/
theorem TypeTable.insert_of_find_none (tbl : TypeTable) (hwf : tbl.WF) (t : TypeObj)
    (h : tbl.find (.stack, t) = none) :
    tbl.insert t = (tbl.heap.length,
      { tbl with heap := tbl.heap ++ [t], types_ := tbl.types_ ++ [tbl.heap.length] }) := by
  have h2 : ({ tbl with heap := tbl.heap ++ [t] } : TypeTable).find (.heap tbl.heap.length, t)
      = none := by
    cases hn : t.isNominal
    · rw [TypeTable.find_none_of_not_nominal _ _ _ hn] at h ⊢
      intro a ha
      have hlt : a < tbl.heap.length := hwf.1 a ha
      simp only [List.getElem?_append_left hlt]
      exact h a ha
    · apply TypeTable.find_none_of_nominal _ _ _ hn
      intro a ha e
      have hlt : a < tbl.heap.length := hwf.1 a ha
      have e2 : a = tbl.heap.length := by injection e
      rw [e2] at hlt
      exact Nat.lt_irrefl _ hlt
  simp only [TypeTable.insert, h, h2]

theorem TypeTable.insert_of_find_some (tbl : TypeTable) (t : TypeObj) (a : Addr)
    (h : tbl.find (.stack, t) = some a) : tbl.insert t = (a, tbl) := by
  simp only [TypeTable.insert, h]

theorem TypeTable.Extends.refl (tbl : TypeTable) : tbl.Extends tbl :=
  ⟨fun _ _ => rfl, fun _ h => h⟩

theorem TypeTable.Extends.trans {t1 t2 t3 : TypeTable} (h12 : t1.Extends t2)
    (h23 : t2.Extends t3) : t1.Extends t3 :=
  ⟨fun a ha => by
      have h1 : t1.heap[a]? = some t1.heap[a] := List.getElem?_eq_getElem ha
      rw [h23.heap a _ (h12.heap a _ h1), h1],
    fun a h => h23.2 a (h12.2 a h)⟩

theorem TypeTable.Extends.lt_length {t1 t2 : TypeTable} (h : t1.Extends t2) (a : Addr)
    (ha : a < t1.heap.length) : a < t2.heap.length := by
  have h1 : t1.heap[a]? = some t1.heap[a] := List.getElem?_eq_getElem ha
  have h2 := h.heap a _ h1
  obtain ⟨hlt, _⟩ := List.getElem?_eq_some.1 h2
  exact hlt

/-- Allocating an object and adding it to the set keeps the invariant, provided no element of the
set is a structural object with the same fields. -/
theorem TypeTable.WF_push (tbl : TypeTable) (hwf : tbl.WF) (t : TypeObj)
    (hnew : t.isNominal = false → ∀ a ∈ tbl.types_, tbl.heap[a]? ≠ some t) :
    ({ tbl with heap := tbl.heap ++ [t], types_ := tbl.types_ ++ [tbl.heap.length] }
      : TypeTable).WF := by
  have hold : ∀ a ∈ tbl.types_, (tbl.heap ++ [t])[a]? = tbl.heap[a]? := fun a ha =>
    List.getElem?_append_left (hwf.1 a ha)
  apply TypeTable.WF_of_unique
  · intro a ha
    simp only [List.mem_append, List.mem_singleton] at ha
    simp only [List.length_append, List.length_singleton]
    rcases ha with ha | ha
    · exact Nat.lt_succ_of_lt (hwf.1 a ha)
    · rw [ha]; exact Nat.lt_succ_self _
  · intro a ha b hb o ho hao hbo
    simp only [List.mem_append, List.mem_singleton] at ha hb
    simp only at hao hbo
    rcases ha with ha | ha <;> rcases hb with hb | hb
    · rw [hold a ha] at hao
      rw [hold b hb] at hbo
      exact hwf.unique a ha b hb o ho hao hbo
    · rw [hold a ha] at hao
      rw [hb, List.getElem?_concat_length] at hbo
      injection hbo with hbo
      subst hbo
      exact absurd hao (hnew ho a ha)
    · rw [hold b hb] at hbo
      rw [ha, List.getElem?_concat_length] at hao
      injection hao with hao
      subst hao
      exact absurd hbo (hnew ho b hb)
    · rw [ha, hb]

theorem TypeTable.Extends_push (tbl : TypeTable) (t : TypeObj) :
    tbl.Extends { tbl with heap := tbl.heap ++ [t], types_ := tbl.types_ ++ [tbl.heap.length] } := by
  constructor
  · intro a hlt
    simp only [List.getElem?_append_left hlt]
  · intro a ha
    exact List.mem_append_left _ ha

/-- What `insert` does with an object of a structural class. -/
theorem TypeTable.insert_not_nominal (tbl : TypeTable) (hwf : tbl.WF) (t : TypeObj)
    (ht : t.isNominal = false) :
    (tbl.insert t).2.WF ∧ tbl.Extends (tbl.insert t).2 ∧
      (tbl.insert t).1 ∈ (tbl.insert t).2.types_ ∧
      (tbl.insert t).2.heap[(tbl.insert t).1]? = some t := by
  cases hf : tbl.find (.stack, t) with
  | some a =>
    rw [tbl.insert_of_find_some t a hf]
    obtain ⟨h1, h2⟩ := tbl.find_some_of_not_nominal _ t ht a hf
    exact ⟨hwf, TypeTable.Extends.refl tbl, h1, h2⟩
  | none =>
    rw [tbl.insert_of_find_none hwf t hf]
    refine ⟨tbl.WF_push hwf t ?_, tbl.Extends_push t, ?_, ?_⟩
    · intro _
      exact (tbl.find_none_of_not_nominal _ t ht).1 hf
    · simp
    · simp

/-- What `insert` does with an object of a nominal class: it always allocates. -/
theorem TypeTable.insert_nominal (tbl : TypeTable) (hwf : tbl.WF) (t : TypeObj)
    (ht : t.isNominal = true) :
    tbl.insert t = (tbl.heap.length,
      { tbl with heap := tbl.heap ++ [t], types_ := tbl.types_ ++ [tbl.heap.length] }) := by
  apply tbl.insert_of_find_none hwf t
  apply tbl.find_none_of_nominal _ t ht
  intro a _ e
  cases e

theorem TypeTable.WF_empty : TypeTable.empty.WF := by
  decide

/-- The invariant is kept by `insert`, whatever the class of the object. -/
theorem TypeTable.insert_WF (tbl : TypeTable) (hwf : tbl.WF) (t : TypeObj) :
    (tbl.insert t).2.WF := by
  cases hn : t.isNominal
  · exact (tbl.insert_not_nominal hwf t hn).1
  · rw [tbl.insert_nominal hwf t hn]
    apply tbl.WF_push hwf
    intro h
    rw [hn] at h
    exact absurd h (by simp)

/-- The table after `insert` is a later state of the table before. -/
theorem TypeTable.insert_Extends (tbl : TypeTable) (hwf : tbl.WF) (t : TypeObj) :
    tbl.Extends (tbl.insert t).2 := by
  cases hn : t.isNominal
  · exact (tbl.insert_not_nominal hwf t hn).2.1
  · rw [tbl.insert_nominal hwf t hn]
    exact tbl.Extends_push t

theorem CtorCall.obj_not_nominal (c : CtorCall) : c.obj.isNominal = false := by
  cases c <;> rfl

theorem CtorCall.obj_injective (c c' : CtorCall) (h : c.obj = c'.obj) : c = c' := by
  cases c <;> cases c' <;> simp_all [CtorCall.obj]

theorem NominalCall.obj_nominal (c : NominalCall) : c.obj.isNominal = true := by
  cases c <;> rfl

theorem TypeTable.callNominal_eq_insert (tbl : TypeTable) (c : NominalCall) :
    tbl.callNominal c = tbl.insert c.obj := by
  cases c <;> rfl

theorem TypeTable.type_app_of_isStructOrEnum (ast : NodeAddr → TypeDecl) (fuel : Nat)
    (tbl : TypeTable) (applied : Addr) (type_args : List Addr)
    (h : tbl.isStructOrEnum applied = true) :
    tbl.type_app ast fuel applied type_args = some (tbl.insert (.TypeApp applied type_args)) := by
  unfold TypeTable.isStructOrEnum at h
  unfold TypeTable.type_app
  cases ho : tbl.heap[applied]? with
  | none => simp [ho] at h
  | some o => cases o <;> simp_all

theorem TypeTable.call_eq_insert (ast : NodeAddr → TypeDecl) (fuel : Nat) (tbl : TypeTable)
    (c : CtorCall) (h : tbl.admits c = true) :
    tbl.call ast fuel c = some (tbl.insert c.obj) := by
  cases c with
  | type_app applied type_args =>
    exact tbl.type_app_of_isStructOrEnum ast fuel applied type_args h
  | _ => rfl

theorem TypeTable.admits_of_extends {tbl tbl' : TypeTable} (he : tbl.Extends tbl') (c : CtorCall)
    (h : tbl.admits c = true) : tbl'.admits c = true := by
  cases c with
  | type_app applied type_args =>
    simp only [TypeTable.admits, TypeTable.isStructOrEnum] at h ⊢
    cases ho : tbl.heap[applied]? with
    | none => simp [ho] at h
    | some o =>
      rw [he.heap applied o ho]
      rw [ho] at h
      exact h
  | _ => rfl

/-! ## Claims on the type table -/

/-- Claim C9: on a table built by `insert`, a call of a constructor of a structural class
(`prim_type`, `tuple_type`, `sized_array_type`, `unsized_array_type`, `ptr_type`, `ref_type`,
`fn_type`, `type_app` on a struct or enum) returns an object `a` such that every later call with
equal arguments returns the identical object `a` and leaves the table as it is, and every later
call with a different constructor or an argument differing in any component returns an object
distinct from `a`. -/
theorem structural_constructors_intern (ast : NodeAddr → TypeDecl) (fuel : Nat)
    (tbl : TypeTable) (hwf : tbl.WF) (c : CtorCall) (hc : tbl.admits c = true) :
    ∃ (a : Addr) (tbl1 : TypeTable), tbl.call ast fuel c = some (a, tbl1) ∧ tbl1.WF ∧
      tbl.Extends tbl1 ∧
      (∀ tbl2 : TypeTable, tbl2.WF → tbl1.Extends tbl2 →
        tbl2.call ast fuel c = some (a, tbl2)) ∧
      (∀ (tbl2 : TypeTable) (c' : CtorCall), tbl2.WF → tbl1.Extends tbl2 →
        tbl2.admits c' = true → c' ≠ c →
        ∃ (b : Addr) (tbl3 : TypeTable), tbl2.call ast fuel c' = some (b, tbl3) ∧ b ≠ a) := by
  obtain ⟨h1, h2, h3, h4⟩ := tbl.insert_not_nominal hwf c.obj c.obj_not_nominal
  refine ⟨(tbl.insert c.obj).1, (tbl.insert c.obj).2, tbl.call_eq_insert ast fuel c hc, h1, h2,
    ?_, ?_⟩
  · intro tbl2 hwf2 he
    rw [tbl2.call_eq_insert ast fuel c (TypeTable.admits_of_extends (h2.trans he) c hc)]
    rw [tbl2.insert_of_find_some c.obj _ (tbl2.find_eq_some_of_mem hwf2 _ c.obj
      c.obj_not_nominal _ (he.2 _ h3) (he.heap _ _ h4))]
  · intro tbl2 c' hwf2 he hc' hne
    refine ⟨(tbl2.insert c'.obj).1, (tbl2.insert c'.obj).2, tbl2.call_eq_insert ast fuel c' hc', ?_⟩
    obtain ⟨_, k2, _, k4⟩ := tbl2.insert_not_nominal hwf2 c'.obj c'.obj_not_nominal
    intro e
    have k5 := k2.heap _ _ (he.heap _ _ h4)
    rw [e, k5] at k4
    injection k4 with k4
    exact hne (CtorCall.obj_injective _ _ k4.symm)

/-- Witness of C9 on the empty table: `ptr_type(0, false, 0)` called twice returns the same object
and the second call leaves the table as it is; `ref_type(0, false, 0)` then returns another
object. -/
theorem structural_constructors_intern_witness :
    ∃ (a : Addr) (tbl1 : TypeTable),
      TypeTable.empty.call (fun _ => ⟨none, none⟩) 0 (.ptr_type 0 false 0) = some (a, tbl1) ∧
      tbl1.call (fun _ => ⟨none, none⟩) 0 (.ptr_type 0 false 0) = some (a, tbl1) ∧
      ∃ (b : Addr) (tbl3 : TypeTable),
        tbl1.call (fun _ => ⟨none, none⟩) 0 (.ref_type 0 false 0) = some (b, tbl3) ∧ b ≠ a := by
  obtain ⟨a, tbl1, h1, hwf1, _, h4, h5⟩ :=
    structural_constructors_intern (fun _ => ⟨none, none⟩) 0 TypeTable.empty TypeTable.WF_empty
      (.ptr_type 0 false 0) rfl
  exact ⟨a, tbl1, h1, h4 tbl1 hwf1 (TypeTable.Extends.refl tbl1),
    h5 tbl1 (.ref_type 0 false 0) hwf1 (TypeTable.Extends.refl tbl1) rfl (by decide)⟩

/-- Counterexample to C10 as stated: on the empty table the second call of each constructor of a
nominal class, for the same declaration `7`, returns the object at address 1, the first call the
object at address 0. -/
theorem nominal_constructors_same_object_counterexample :
    ((TypeTable.empty.struct_type 7).2.struct_type 7).1 ≠ (TypeTable.empty.struct_type 7).1 ∧
    ((TypeTable.empty.enum_type 7).2.enum_type 7).1 ≠ (TypeTable.empty.enum_type 7).1 ∧
    ((TypeTable.empty.type_alias 7).2.type_alias 7).1 ≠ (TypeTable.empty.type_alias 7).1 ∧
    ((TypeTable.empty.forall_type 7).2.forall_type 7).1 ≠ (TypeTable.empty.forall_type 7).1 ∧
    ((TypeTable.empty.type_var 7).2.type_var 7).1 ≠ (TypeTable.empty.type_var 7).1 := by
  decide

/-- Claim C10, amended: on a table built by `insert`, every call of `struct_type(d)` (resp.
`enum_type`, `type_alias`, `forall_type`, `type_var`) allocates a new type object for the
declaration and adds it to the table; the object returned is none of the objects the table held,
so a later call for the same declaration on the same table returns a distinct object. -/
theorem nominal_constructors_allocate (tbl : TypeTable) (hwf : tbl.WF) (c : NominalCall) :
    (tbl.callNominal c).1 = tbl.heap.length ∧
    (tbl.callNominal c).1 ∉ tbl.types_ ∧
    (tbl.callNominal c).2.heap = tbl.heap ++ [c.obj] ∧
    (tbl.callNominal c).2.types_ = tbl.types_ ++ [(tbl.callNominal c).1] ∧
    (tbl.callNominal c).2.WF ∧
    (∀ tbl2 : TypeTable, tbl2.WF → (tbl.callNominal c).2.Extends tbl2 →
      (tbl2.callNominal c).1 ≠ (tbl.callNominal c).1) := by
  have hins : ∀ t : TypeTable, t.WF → t.callNominal c = (t.heap.length,
      { t with heap := t.heap ++ [c.obj], types_ := t.types_ ++ [t.heap.length] }) := by
    intro t ht
    rw [t.callNominal_eq_insert c]
    exact t.insert_nominal ht c.obj c.obj_nominal
  rw [hins tbl hwf]
  refine ⟨rfl, ?_, rfl, rfl, ?_, ?_⟩
  · intro hmem
    exact Nat.lt_irrefl _ (hwf.1 _ hmem)
  · apply tbl.WF_push hwf
    intro hn
    rw [c.obj_nominal] at hn
    exact absurd hn (by simp)
  · intro tbl2 hwf2 he
    rw [hins tbl2 hwf2]
    have hlt : tbl.heap.length < tbl2.heap.length := by
      apply he.lt_length
      simp
    exact Nat.ne_of_gt hlt

/-- Witness of the amended C10: the first `struct_type(7)` on the empty table is the object at
address 0, and a second call on the resulting table returns another object. -/
theorem nominal_constructors_allocate_witness :
    (TypeTable.empty.callNominal (.struct_type 7)).1 = 0 ∧
    ((TypeTable.empty.callNominal (.struct_type 7)).2.callNominal (.struct_type 7)).1 ≠
      (TypeTable.empty.callNominal (.struct_type 7)).1 :=
  ⟨(nominal_constructors_allocate TypeTable.empty TypeTable.WF_empty (.struct_type 7)).1,
   (nominal_constructors_allocate TypeTable.empty TypeTable.WF_empty (.struct_type 7)).2.2.2.2.2
     _ (nominal_constructors_allocate TypeTable.empty TypeTable.WF_empty (.struct_type 7)).2.2.2.2.1
     (TypeTable.Extends.refl _)⟩

/-! ## Lemmas on the singletons -/

theorem TypeTable.cacheHolds_some {tbl : TypeTable} {a : Addr} {o : TypeObj}
    (h : tbl.cacheHolds (some a) o = true) : a ∈ tbl.types_ ∧ tbl.heap[a]? = some o := by
  simpa [TypeTable.cacheHolds] using h

theorem TypeTable.cacheHolds_of_extends {tbl tbl2 : TypeTable} (he : tbl.Extends tbl2)
    (cache : Option Addr) (o : TypeObj) (h : tbl.cacheHolds cache o = true) :
    tbl2.cacheHolds cache o = true := by
  cases cache with
  | none => rfl
  | some a =>
    obtain ⟨h1, h2⟩ := TypeTable.cacheHolds_some h
    simp [TypeTable.cacheHolds, he.2 a h1, he.heap a o h2]

theorem TypeTable.cacheKept_self (c : Option Addr) : TypeTable.cacheKept c c = true := by
  cases c <;> simp [TypeTable.cacheKept]

theorem TypeTable.cacheKept_some {a : Addr} {new : Option Addr}
    (h : TypeTable.cacheKept (some a) new = true) : new = some a := by
  simpa [TypeTable.cacheKept] using h

theorem TypeTable.cacheKept_trans {a b c : Option Addr} (h1 : TypeTable.cacheKept a b = true)
    (h2 : TypeTable.cacheKept b c = true) : TypeTable.cacheKept a c = true := by
  cases a with
  | none => rfl
  | some x =>
    rw [TypeTable.cacheKept_some h1] at h2
    exact h2

theorem TypeTable.Later_refl (tbl : TypeTable) : tbl.Later tbl :=
  ⟨TypeTable.Extends.refl tbl, TypeTable.cacheKept_self _, TypeTable.cacheKept_self _,
    TypeTable.cacheKept_self _⟩

theorem TypeTable.Later_trans {t1 t2 t3 : TypeTable} (h12 : t1.Later t2) (h23 : t2.Later t3) :
    t1.Later t3 :=
  ⟨h12.1.trans h23.1, TypeTable.cacheKept_trans h12.2.1 h23.2.1,
    TypeTable.cacheKept_trans h12.2.2.1 h23.2.2.1, TypeTable.cacheKept_trans h12.2.2.2 h23.2.2.2⟩

/-- The function `insert` does not touch the singleton pointers. -/
theorem TypeTable.insert_caches (tbl : TypeTable) (t : TypeObj) :
    (tbl.insert t).2.unit_type_ = tbl.unit_type_ ∧
    (tbl.insert t).2.no_ret_type_ = tbl.no_ret_type_ ∧
    (tbl.insert t).2.type_error_ = tbl.type_error_ := by
  unfold TypeTable.insert
  cases tbl.find (.stack, t) with
  | some a => exact ⟨rfl, rfl, rfl⟩
  | none =>
    simp only
    split <;> exact ⟨rfl, rfl, rfl⟩

theorem TypeTable.insert_Later (tbl : TypeTable) (hwf : tbl.WF) (t : TypeObj) :
    tbl.Later (tbl.insert t).2 := by
  obtain ⟨h1, h2, h3⟩ := tbl.insert_caches t
  refine ⟨tbl.insert_Extends hwf t, ?_, ?_, ?_⟩
  · rw [h1]; exact TypeTable.cacheKept_self _
  · rw [h2]; exact TypeTable.cacheKept_self _
  · rw [h3]; exact TypeTable.cacheKept_self _

theorem TypeTable.insert_CachesOk (tbl : TypeTable) (hwf : tbl.WF) (hc : tbl.CachesOk)
    (t : TypeObj) : (tbl.insert t).2.CachesOk := by
  obtain ⟨h1, h2, h3⟩ := tbl.insert_caches t
  have he := tbl.insert_Extends hwf t
  unfold TypeTable.CachesOk
  rw [h1, h2, h3]
  exact ⟨TypeTable.cacheHolds_of_extends he _ _ hc.1,
    TypeTable.cacheHolds_of_extends he _ _ hc.2.1,
    TypeTable.cacheHolds_of_extends he _ _ hc.2.2⟩

/-- In a table that satisfies the invariant, `insert` of a structural object returns the element
of the set that holds this object, when there is one, and leaves the table as it is. -/
theorem TypeTable.insert_of_mem (tbl : TypeTable) (hwf : tbl.WF) (t : TypeObj)
    (ht : t.isNominal = false) (a : Addr) (ha : a ∈ tbl.types_) (hs : tbl.heap[a]? = some t) :
    tbl.insert t = (a, tbl) :=
  tbl.insert_of_find_some t a (tbl.find_eq_some_of_mem hwf _ t ht a ha hs)

/-- What `unit_type` returns and how it leaves the table. -/
theorem TypeTable.unit_type_spec (tbl : TypeTable) (hwf : tbl.WF) (hc : tbl.CachesOk) :
    (tbl.unit_type).2.WF ∧ (tbl.unit_type).2.CachesOk ∧ tbl.Later (tbl.unit_type).2 ∧
    (tbl.unit_type).2.unit_type_ = some (tbl.unit_type).1 ∧
    (tbl.unit_type).1 ∈ (tbl.unit_type).2.types_ ∧
    (tbl.unit_type).2.heap[(tbl.unit_type).1]? = some (.TupleType []) ∧
    (tbl.unit_type).1 = (tbl.tuple_type []).1 := by
  unfold TypeTable.unit_type
  cases hu : tbl.unit_type_ with
  | some a =>
    have hca := hc.1
    rw [hu] at hca
    obtain ⟨h1, h2⟩ := TypeTable.cacheHolds_some hca
    refine ⟨hwf, hc, TypeTable.Later_refl tbl, hu, h1, h2, ?_⟩
    simp only [TypeTable.tuple_type]
    rw [tbl.insert_of_mem hwf (.TupleType []) rfl a h1 h2]
  | none =>
    simp only [TypeTable.tuple_type]
    obtain ⟨k1, k2, k3, k4⟩ := tbl.insert_not_nominal hwf (.TupleType []) rfl
    have hl := tbl.insert_Later hwf (.TupleType [])
    have hco := tbl.insert_CachesOk hwf hc (.TupleType [])
    refine ⟨k1, ?_, ?_, trivial, k3, k4, trivial⟩
    · refine ⟨?_, hco.2.1, hco.2.2⟩
      simp [TypeTable.cacheHolds, k3, k4]
    · refine ⟨hl.1, ?_, hl.2.2.1, hl.2.2.2⟩
      rw [hu]
      rfl

/-- What `no_ret_type` returns and how it leaves the table. -/
theorem TypeTable.no_ret_type_spec (tbl : TypeTable) (hwf : tbl.WF) (hc : tbl.CachesOk) :
    (tbl.no_ret_type).2.WF ∧ (tbl.no_ret_type).2.CachesOk ∧ tbl.Later (tbl.no_ret_type).2 ∧
    (tbl.no_ret_type).2.no_ret_type_ = some (tbl.no_ret_type).1 := by
  unfold TypeTable.no_ret_type
  cases hu : tbl.no_ret_type_ with
  | some a => exact ⟨hwf, hc, TypeTable.Later_refl tbl, hu⟩
  | none =>
    obtain ⟨k1, k2, k3, k4⟩ := tbl.insert_not_nominal hwf .NoRetType rfl
    have hl := tbl.insert_Later hwf .NoRetType
    have hco := tbl.insert_CachesOk hwf hc .NoRetType
    refine ⟨k1, ?_, ?_, rfl⟩
    · refine ⟨hco.1, ?_, hco.2.2⟩
      simp [TypeTable.cacheHolds, k3, k4]
    · refine ⟨hl.1, hl.2.1, ?_, hl.2.2.2⟩
      rw [hu]
      rfl

/-- What `type_error` returns and how it leaves the table. -/
theorem TypeTable.type_error_spec (tbl : TypeTable) (hwf : tbl.WF) (hc : tbl.CachesOk) :
    (tbl.type_error).2.WF ∧ (tbl.type_error).2.CachesOk ∧ tbl.Later (tbl.type_error).2 ∧
    (tbl.type_error).2.type_error_ = some (tbl.type_error).1 := by
  unfold TypeTable.type_error
  cases hu : tbl.type_error_ with
  | some a => exact ⟨hwf, hc, TypeTable.Later_refl tbl, hu⟩
  | none =>
    obtain ⟨k1, k2, k3, k4⟩ := tbl.insert_not_nominal hwf .TypeError rfl
    have hl := tbl.insert_Later hwf .TypeError
    have hco := tbl.insert_CachesOk hwf hc .TypeError
    refine ⟨k1, ?_, ?_, rfl⟩
    · refine ⟨hco.1, hco.2.1, ?_⟩
      simp [TypeTable.cacheHolds, k3, k4]
    · refine ⟨hl.1, hl.2.1, hl.2.2.1, ?_⟩
      rw [hu]
      rfl

/-- In a later state the interned empty tuple at `u` is what both `unit_type` and
`tuple_type([])` return. -/
theorem TypeTable.unit_in_later (tbl2 : TypeTable) (hwf2 : tbl2.WF) (hc2 : tbl2.CachesOk)
    (u : Addr) (hu : u ∈ tbl2.types_) (hh : tbl2.heap[u]? = some (.TupleType [])) :
    (tbl2.unit_type).1 = u ∧ tbl2.tuple_type [] = (u, tbl2) := by
  have ht : tbl2.tuple_type [] = (u, tbl2) := tbl2.insert_of_mem hwf2 (.TupleType []) rfl u hu hh
  refine ⟨?_, ht⟩
  rw [(tbl2.unit_type_spec hwf2 hc2).2.2.2.2.2.2, ht]

/-! ## Claim on the singletons -/

/-- Claim C11: on a table built by the constructors, `unit_type()` and `tuple_type([])` return the
identical object: on one state of the table, and, whichever of the two is called first, in every
later state, however often they are called; `no_ret_type()` and `type_error()` return in every
later state the object of their first call and then leave the table as it is. -/
theorem singletons_unique (tbl : TypeTable) (hwf : tbl.WF) (hc : tbl.CachesOk) :
    (tbl.unit_type).1 = (tbl.tuple_type []).1 ∧
    (∀ first ∈ [tbl.unit_type, tbl.tuple_type []],
      first.2.WF ∧ first.2.CachesOk ∧ tbl.Later first.2 ∧
      ∀ tbl2 : TypeTable, tbl2.WF → tbl2.CachesOk → first.2.Later tbl2 →
        (tbl2.unit_type).1 = first.1 ∧ tbl2.tuple_type [] = (first.1, tbl2)) ∧
    ((tbl.no_ret_type).2.WF ∧ (tbl.no_ret_type).2.CachesOk ∧ tbl.Later (tbl.no_ret_type).2 ∧
      ∀ tbl2 : TypeTable, (tbl.no_ret_type).2.Later tbl2 →
        tbl2.no_ret_type = ((tbl.no_ret_type).1, tbl2)) ∧
    ((tbl.type_error).2.WF ∧ (tbl.type_error).2.CachesOk ∧ tbl.Later (tbl.type_error).2 ∧
      ∀ tbl2 : TypeTable, (tbl.type_error).2.Later tbl2 →
        tbl2.type_error = ((tbl.type_error).1, tbl2)) := by
  obtain ⟨u1, u2, u3, _, u5, u6, u7⟩ := tbl.unit_type_spec hwf hc
  obtain ⟨n1, n2, n3, n4⟩ := tbl.no_ret_type_spec hwf hc
  obtain ⟨e1, e2, e3, e4⟩ := tbl.type_error_spec hwf hc
  refine ⟨u7, ?_, ⟨n1, n2, n3, ?_⟩, ⟨e1, e2, e3, ?_⟩⟩
  · intro first hfirst
    simp only [List.mem_cons, List.mem_singleton, List.not_mem_nil, or_false] at hfirst
    rcases hfirst with rfl | rfl
    · refine ⟨u1, u2, u3, ?_⟩
      intro tbl2 hwf2 hc2 hl
      exact tbl2.unit_in_later hwf2 hc2 _ (hl.1.2 _ u5) (hl.1.heap _ _ u6)
    · obtain ⟨k1, _, k3, k4⟩ := tbl.insert_not_nominal hwf (.TupleType []) rfl
      refine ⟨k1, tbl.insert_CachesOk hwf hc _, tbl.insert_Later hwf _, ?_⟩
      intro tbl2 hwf2 hc2 hl
      exact tbl2.unit_in_later hwf2 hc2 _ (hl.1.2 _ k3) (hl.1.heap _ _ k4)
  · intro tbl2 hl
    have h := hl.2.2.1
    rw [n4] at h
    simp only [TypeTable.no_ret_type, TypeTable.cacheKept_some h]
  · intro tbl2 hl
    have h := hl.2.2.2
    rw [e4] at h
    simp only [TypeTable.type_error, TypeTable.cacheKept_some h]

/-- Witness of C11 on the empty table: `tuple_type([])` first, then `unit_type()` twice; and
`no_ret_type()` twice. -/
theorem singletons_unique_witness :
    ((TypeTable.empty.tuple_type []).2.unit_type).1 = (TypeTable.empty.tuple_type []).1 ∧
    (((TypeTable.empty.tuple_type []).2.unit_type).2.unit_type).1 =
      (TypeTable.empty.tuple_type []).1 ∧
    (TypeTable.empty.no_ret_type).2.no_ret_type =
      ((TypeTable.empty.no_ret_type).1, (TypeTable.empty.no_ret_type).2) := by
  have h := singletons_unique TypeTable.empty TypeTable.WF_empty (by decide)
  have ht := h.2.1 (TypeTable.empty.tuple_type []) (by simp)
  refine ⟨(ht.2.2.2 _ ht.1 ht.2.1 (TypeTable.Later_refl _)).1, ?_, ?_⟩
  · have hs := TypeTable.unit_type_spec _ ht.1 ht.2.1
    exact (ht.2.2.2 _ hs.1 hs.2.1 hs.2.2.1).1
  · exact h.2.2.1.2.2.2 _ (TypeTable.Later_refl _)

/-! ## Claims on literals and on the default `check` -/

/-- Claim C18: `TypeChecker::infer` on a literal returns `I32` for an integer literal, `F64` for a
floating-point literal, `Bool` for a boolean literal, `U8` for a character literal and, for a
string literal, the non-SIMD sized array of `U8` of size (byte length) + 1; the state of the
checker is unchanged, so no error is reported. -/
theorem literal_defaulting (checker : TypeChecker) (loc : Loc) :
    (∀ v, checker.infer_literal loc (.integer v) = (.prim .I32, checker)) ∧
    (∀ v, checker.infer_literal loc (.double v) = (.prim .F64, checker)) ∧
    (∀ v, checker.infer_literal loc (.bool v) = (.prim .Bool, checker)) ∧
    (∀ v, checker.infer_literal loc (.char v) = (.prim .U8, checker)) ∧
    (∀ bytes, checker.infer_literal loc (.string bytes) =
      (.sizedArray (.prim .U8) (bytes.length + 1) false, checker)) :=
  ⟨fun _ => rfl, fun _ => rfl, fun _ => rfl, fun _ => rfl, fun _ => rfl⟩

/-- Counterexample to C19 as stated.  Against the expected type `!` an integer literal is neither
accepted nor rejected with `TypeError`: `I32` is returned and nothing is reported; likewise a
string literal gets its default type although that is not a subtype of `!`.  Against the
expected type `TypeError`, which is no integer or floating-point type, the integer literal
"returns expected and reports nothing". -/
theorem check_literal_counterexample :
    (TypeChecker.check_literal ⟨0, []⟩ ⟨0, 0⟩ (.integer 1) .noRet = (.prim .I32, ⟨0, []⟩) ∧
      is_int_or_float_type .noRet = false) ∧
    (TypeChecker.check_literal ⟨0, []⟩ ⟨0, 0⟩ (.string [97]) .noRet =
        (.sizedArray (.prim .U8) 2 false, ⟨0, []⟩) ∧
      (Ty.sizedArray (.prim .U8) 2 false).subtype .noRet = false) ∧
    (TypeChecker.check_literal ⟨0, []⟩ ⟨0, 0⟩ (.integer 1) .typeError = (.typeError, ⟨0, []⟩) ∧
      is_int_or_float_type .typeError = false) := by
  refine ⟨⟨by decide, by decide⟩, ⟨by decide, ?_⟩, ⟨by decide, by decide⟩⟩
  simp [Ty.subtype, Ty.isNoRet, Ty.subtypeArray]

theorem TypeChecker.incompatible_type_rejects (checker : TypeChecker) (loc : Loc) (msg : String)
    (expected : Ty) :
    checker.rejects loc msg expected (checker.incompatible_type loc msg expected) := by
  unfold TypeChecker.rejects TypeChecker.incompatible_type TypeChecker.should_report_error
  cases h : expected.contains .typeError <;> simp

/-- Claim C19, amended: when `expected` is `!`, `check(loc, lit, expected)` returns the default
type of the literal, as `infer` does, and reports nothing.  Otherwise an integer literal returns
`expected` and reports nothing if `expected` is an integer or floating-point primitive type, a
floating-point literal if it is `F32` or `F64`, a boolean literal if it is `Bool`, a character
literal if it is `U8`, and a string literal returns its default array type `[U8 * (len+1)]` and
reports nothing if that type is a subtype of `expected`; in every other case `TypeError` is
returned, and an error is reported unless `expected` contains `TypeError`. -/
theorem check_literal_spec (checker : TypeChecker) (loc : Loc) (lit : Literal) (expected : Ty) :
    (expected.isNoRet = true →
      checker.check_literal loc lit expected = checker.infer_literal loc lit) ∧
    (expected.isNoRet = false →
      (∀ v, lit = .integer v →
        (is_int_or_float_type expected = true →
          checker.check_literal loc lit expected = (expected, checker)) ∧
        (is_int_or_float_type expected = false →
          checker.rejects loc "integer literal" expected
            (checker.check_literal loc lit expected))) ∧
      (∀ v, lit = .double v →
        (is_float_type expected = true →
          checker.check_literal loc lit expected = (expected, checker)) ∧
        (is_float_type expected = false →
          checker.rejects loc "floating point literal" expected
            (checker.check_literal loc lit expected))) ∧
      (∀ v, lit = .bool v →
        (expected = .prim .Bool →
          checker.check_literal loc lit expected = (expected, checker)) ∧
        (expected ≠ .prim .Bool →
          checker.rejects loc "boolean literal" expected
            (checker.check_literal loc lit expected))) ∧
      (∀ v, lit = .char v →
        (expected = .prim .U8 →
          checker.check_literal loc lit expected = (expected, checker)) ∧
        (expected ≠ .prim .U8 →
          checker.rejects loc "character literal" expected
            (checker.check_literal loc lit expected))) ∧
      (∀ bytes, lit = .string bytes →
        ((Ty.sizedArray (.prim .U8) (bytes.length + 1) false).subtype expected = true →
          checker.check_literal loc lit expected =
            (.sizedArray (.prim .U8) (bytes.length + 1) false, checker)) ∧
        ((Ty.sizedArray (.prim .U8) (bytes.length + 1) false).subtype expected = false →
          checker.rejects loc "string literal" expected
            (checker.check_literal loc lit expected)))) := by
  have hprim : ∀ tag, is_prim_type expected tag = true ↔ expected = .prim tag := by
    intro tag
    cases expected <;> simp [is_prim_type]
  constructor
  · intro h
    simp [TypeChecker.check_literal, h]
  · intro h
    refine ⟨?_, ?_, ?_, ?_, ?_⟩
    · rintro v rfl
      constructor
      · intro hp
        simp [TypeChecker.check_literal, h, hp]
      · intro hp
        simp only [TypeChecker.check_literal, h, hp]
        exact checker.incompatible_type_rejects loc _ expected
    · rintro v rfl
      constructor
      · intro hp
        simp [TypeChecker.check_literal, h, hp]
      · intro hp
        simp only [TypeChecker.check_literal, h, hp]
        exact checker.incompatible_type_rejects loc _ expected
    · rintro v rfl
      constructor
      · intro hp
        have := (hprim .Bool).2 hp
        simp [TypeChecker.check_literal, h, is_bool_type, this]
      · intro hp
        have hb : is_bool_type expected = false := by
          cases hq : is_bool_type expected
          · rfl
          · exact absurd ((hprim .Bool).1 hq) hp
        simp only [TypeChecker.check_literal, h, hb]
        exact checker.incompatible_type_rejects loc _ expected
    · rintro v rfl
      constructor
      · intro hp
        have := (hprim .U8).2 hp
        simp [TypeChecker.check_literal, h, this]
      · intro hp
        have hb : is_prim_type expected .U8 = false := by
          cases hq : is_prim_type expected .U8
          · rfl
          · exact absurd ((hprim .U8).1 hq) hp
        simp only [TypeChecker.check_literal, h, hb]
        exact checker.incompatible_type_rejects loc _ expected
    · rintro bytes rfl
      constructor
      · intro hp
        simp [TypeChecker.check_literal, h, TypeChecker.infer_literal, hp]
      · intro hp
        simp only [TypeChecker.check_literal, h, TypeChecker.infer_literal, hp]
        exact checker.incompatible_type_rejects loc _ expected

/-- Witness of the amended C19: the integer literal `1` against `u64` and against `bool`. -/
theorem check_literal_spec_witness :
    TypeChecker.check_literal ⟨0, []⟩ ⟨0, 0⟩ (.integer 1) (.prim .U64) = (.prim .U64, ⟨0, []⟩) ∧
    (TypeChecker.check_literal ⟨0, []⟩ ⟨0, 0⟩ (.integer 1) (.prim .Bool)).1 = .typeError :=
  ⟨((check_literal_spec ⟨0, []⟩ ⟨0, 0⟩ (.integer 1) (.prim .U64)).2 rfl).1 1 rfl |>.1 rfl,
   (((check_literal_spec ⟨0, []⟩ ⟨0, 0⟩ (.integer 1) (.prim .Bool)).2 rfl).1 1 rfl |>.2 rfl).1⟩

/-- Counterexample to C20 as stated.  The base `Node::check` compares with `!=`: a node whose
inferred type is `!`, a subtype of `i32`, checked against `i32` gives `TypeError` and one error.
The default `Expr::check` on a node whose inferred type is `TypeError`, not a subtype of `i32`,
returns `TypeError` but reports nothing. -/
theorem default_check_counterexample :
    (Ty.noRet.subtype (.prim .I32) = true ∧
      Node.check (fun c => (.noRet, c)) ⟨0, []⟩ ⟨0, 0⟩ (.prim .I32) =
        (.typeError, ⟨1, [⟨.error, ⟨0, 0⟩, .expected_type_got_type (.prim .I32) .noRet⟩]⟩)) ∧
    (Ty.typeError.subtype (.prim .I32) = false ∧
      Expr.check (fun c => (.typeError, c)) ⟨0, []⟩ ⟨0, 0⟩ (.prim .I32) =
        (.typeError, ⟨0, []⟩)) := by
  refine ⟨⟨Ty.subtype_noRet_left _, by decide⟩, ?_⟩
  have h : Ty.typeError.subtype (.prim .I32) = false := by
    simp [Ty.subtype, Ty.isNoRet, Ty.subtypeArray]
  refine ⟨h, ?_⟩
  simp only [Expr.check, TypeChecker.expect, h]
  decide

theorem TypeChecker.incompatible_types_eq (checker : TypeChecker) (loc : Loc)
    (type expected : Ty) :
    checker.incompatible_types loc type expected =
      (.typeError,
        if expected.contains .typeError = true ∨ type.contains .typeError = true then checker
        else checker.error loc (.expected_type_got_type expected type)) := by
  unfold TypeChecker.incompatible_types TypeChecker.should_report_error
  cases h1 : expected.contains .typeError <;> cases h2 : type.contains .typeError <;> simp

/-- Claim C20, amended: let `T` be the type `check` infers for the node.  The default
`Expr::check` returns `T` without an error whenever `T` is a subtype of `expected` (also when
`T != expected`, e.g. `T = NoRet`); otherwise it returns `TypeError`.  The base `Node::check`
returns `T` without an error only when `T == expected`; whenever `T != expected`, also when `T`
is a subtype of `expected`, it returns `TypeError`.  In both, the incompatible-types error is
reported with `TypeError` unless `T` or `expected` contains `TypeError`. -/
theorem default_check_spec (infer : TypeChecker → Ty × TypeChecker) (checker : TypeChecker)
    (loc : Loc) (expected : Ty) :
    ((infer checker).1.subtype expected = true →
      Expr.check infer checker loc expected = infer checker) ∧
    ((infer checker).1.subtype expected = false →
      Expr.check infer checker loc expected =
        (.typeError,
          if expected.contains .typeError = true ∨ (infer checker).1.contains .typeError = true
          then (infer checker).2
          else (infer checker).2.error loc (.expected_type_got_type expected (infer checker).1))) ∧
    ((infer checker).1 = expected →
      Node.check infer checker loc expected = infer checker) ∧
    ((infer checker).1 ≠ expected →
      Node.check infer checker loc expected =
        (.typeError,
          if expected.contains .typeError = true ∨ (infer checker).1.contains .typeError = true
          then (infer checker).2
          else (infer checker).2.error loc (.expected_type_got_type expected (infer checker).1))) := by
  refine ⟨?_, ?_, ?_, ?_⟩
  · intro h
    simp [Expr.check, TypeChecker.expect, h]
  · intro h
    simp only [Expr.check, TypeChecker.expect, h]
    exact TypeChecker.incompatible_types_eq _ _ _ _
  · intro h
    simp [Node.check, h]
  · intro h
    simp only [Node.check, ne_eq, h, not_false_eq_true, if_true]
    exact TypeChecker.incompatible_types_eq _ _ _ _

/-- Witness of the amended C20: an expression of type `!` checked against `i32` keeps the type
`!` and reports nothing. -/
theorem default_check_spec_witness :
    Expr.check (fun c => (.noRet, c)) ⟨0, []⟩ ⟨0, 0⟩ (.prim .I32) = (.noRet, ⟨0, []⟩) :=
  (default_check_spec (fun c => (.noRet, c)) ⟨0, []⟩ ⟨0, 0⟩ (.prim .I32)).1
    (Ty.subtype_noRet_left _)

/-! ## Claims on `order` and on the unsized-recursion scenario -/

/-- Claim C15, at the inputs where the code departs from it.  With
`struct S { f: fn i32 -> i32 }`, `order(S) = 1` and `order(fn S -> ()) = 2`, so the claim gives
`fn S -> (fn S -> ())` and `fn (fn S -> ()) -> S` the order `1 + max(1, 2) = 3`.  The code
returns 2 for the first when the domain is evaluated first, and 2 for the second when the
codomain is evaluated first: `S`, once in `seen`, counts 0 in the component evaluated second.
Without a struct the code agrees with the claim: `fn (fn i32 -> i32) -> i32` has order 2 and
`(i32, &[u8])` has order 0. -/
theorem order_fn_shared_struct (fuel : Nat) (dom_first : Bool) :
    Ty.order_start Scenario.struct_with_fn_member dom_first (fuel + 4) (.struct 1) = some 1 ∧
    Ty.order_start Scenario.struct_with_fn_member dom_first (fuel + 4)
      (.fn (.struct 1) (.tuple [])) = some 2 ∧
    Ty.order_start Scenario.struct_with_fn_member true (fuel + 4)
      (.fn (.struct 1) (.fn (.struct 1) (.tuple []))) = some 2 ∧
    Ty.order_start Scenario.struct_with_fn_member false (fuel + 4)
      (.fn (.fn (.struct 1) (.tuple [])) (.struct 1)) = some 2 ∧
    Ty.order_start Scenario.struct_with_fn_member dom_first (fuel + 4)
      (.fn (.fn (.prim .I32) (.prim .I32)) (.prim .I32)) = some 2 ∧
    Ty.order_start Scenario.struct_with_fn_member dom_first (fuel + 4)
      (.tuple [.prim .I32, .ptr (.unsizedArray (.prim .U8)) false 0]) = some 0 := by
  cases dom_first <;>
    simp [Ty.order_start, Ty.order, Ty.orderLoop, Scenario.struct_with_fn_member]

/-- Claim C17: for `struct L { next: L }`, `L.is_sized()` is false and the loop of
`ModDecl::infer` reports the error "type L is recursive and not sized" for the declaration; for
`struct L { next: &L }`, `L.is_sized()` is true and the loop reports nothing. -/
theorem unsized_recursion_scenario (fuel : Nat) (checker : TypeChecker) (loc : Loc)
    (is_mut : Bool) (addr_space : Nat) :
    Ty.is_sized_start Scenario.struct_containing_itself (fuel + 2) (.struct 0) = some false ∧
    ModDecl.infer.sized_loop Scenario.struct_containing_itself (fuel + 2) checker
      [⟨true, loc, .struct 0⟩] = some (checker.error loc (.recursive_not_sized (.struct 0))) ∧
    Ty.is_sized_start (Scenario.struct_pointing_to_itself is_mut addr_space) (fuel + 2)
      (.struct 0) = some true ∧
    ModDecl.infer.sized_loop (Scenario.struct_pointing_to_itself is_mut addr_space) (fuel + 2)
      checker [⟨true, loc, .struct 0⟩] = some checker := by
  have h1 : Ty.is_sized_start Scenario.struct_containing_itself (fuel + 2) (.struct 0)
      = some false := by
    simp [Ty.is_sized_start, Ty.is_sized, Ty.sizedLoop, Scenario.struct_containing_itself]
  have h2 : Ty.is_sized_start (Scenario.struct_pointing_to_itself is_mut addr_space) (fuel + 2)
      (.struct 0) = some true := by
    simp [Ty.is_sized_start, Ty.is_sized, Ty.sizedLoop, Scenario.struct_pointing_to_itself]
  refine ⟨h1, ?_, h2, ?_⟩
  · simp [ModDecl.infer.sized_loop, h1, TypeChecker.unsized_type]
  · simp [ModDecl.infer.sized_loop, h2]

/-! ## Lemmas on `replace` -/

theorem Ty.replaceArgs_eq_of_forall (f : Ty → Option Ty) (g : Ty → Ty) :
    ∀ (args : List Ty), (∀ a ∈ args, f a = some (g a)) →
      Ty.replaceArgs f args = some (args.map g)
  | [], _ => rfl
  | a :: args, h => by
    simp only [Ty.replaceArgs, h a (List.mem_cons_self _ _),
      Ty.replaceArgs_eq_of_forall f g args (fun b hb => h b (List.mem_cons_of_mem _ hb)),
      List.map_cons]

theorem Ty.substAll_eq_map (map : List (Ty × Ty)) :
    ∀ args : List Ty, Ty.substAll map args = args.map (Ty.subst map)
  | [] => rfl
  | a :: args => by simp [Ty.substAll, Ty.substAll_eq_map map args]

theorem Ty.wellFormedAll_iff : ∀ args : List Ty,
    Ty.wellFormedAll args = true ↔ ∀ a ∈ args, a.wellFormed = true
  | [] => by simp [Ty.wellFormedAll]
  | a :: args => by simp [Ty.wellFormedAll, Ty.wellFormedAll_iff args]

theorem Ty.sizeOf_lt_of_mem {a : Ty} {args : List Ty} (h : a ∈ args) :
    sizeOf a < sizeOf args := List.sizeOf_lt_of_mem h

/-- With fuel for the size of a well-formed tree, `replace` is the substitution. -/
theorem Ty.replace_eq_subst (decls : Decls) (map : List (Ty × Ty)) :
    ∀ (fuel : Nat) (t : Ty), sizeOf t ≤ fuel → t.wellFormed = true →
      Ty.replace decls fuel map t = some (Ty.subst map t) := by
  intro fuel
  induction fuel with
  | zero =>
    intro t h
    have := Ty.sizeOf_pos t
    omega
  | succ n ih =>
    intro t hsz hwf
    cases t with
    | tuple args =>
      have hall := (Ty.wellFormedAll_iff args).1 (by simpa [Ty.wellFormed] using hwf)
      have : Ty.replaceArgs (fun arg => Ty.replace decls n map arg) args
          = some (args.map (Ty.subst map)) := by
        apply Ty.replaceArgs_eq_of_forall
        intro a ha
        apply ih a _ (hall a ha)
        have := Ty.sizeOf_lt_of_mem ha
        simp at hsz
        omega
      simp [Ty.replace, this, Ty.subst, Ty.substAll_eq_map]
    | sizedArray e s b =>
      have h1 : Ty.replace decls n map e = some (Ty.subst map e) := by
        apply ih e _ (by simpa [Ty.wellFormed] using hwf)
        simp at hsz; omega
      simp [Ty.replace, h1, Ty.subst]
    | unsizedArray e =>
      have h1 : Ty.replace decls n map e = some (Ty.subst map e) := by
        apply ih e _ (by simpa [Ty.wellFormed] using hwf)
        simp at hsz; omega
      simp [Ty.replace, h1, Ty.subst]
    | ptr e m a =>
      have h1 : Ty.replace decls n map e = some (Ty.subst map e) := by
        apply ih e _ (by simpa [Ty.wellFormed] using hwf)
        simp at hsz; omega
      simp [Ty.replace, h1, Ty.subst]
    | ref e m a =>
      have h1 : Ty.replace decls n map e = some (Ty.subst map e) := by
        apply ih e _ (by simpa [Ty.wellFormed] using hwf)
        simp at hsz; omega
      simp [Ty.replace, h1, Ty.subst]
    | fn d c =>
      have hw : d.wellFormed = true ∧ c.wellFormed = true := by
        simpa [Ty.wellFormed] using hwf
      have h1 : Ty.replace decls n map d = some (Ty.subst map d) := by
        apply ih d _ hw.1
        simp at hsz; omega
      have h2 : Ty.replace decls n map c = some (Ty.subst map c) := by
        apply ih c _ hw.2
        simp at hsz; omega
      simp [Ty.replace, h1, h2, Ty.subst]
    | typeVar v =>
      cases h : List.lookup (Ty.typeVar v) map <;> simp [Ty.replace, Ty.subst, h]
    | typeApp applied args =>
      have hw : applied.isComplex = true ∧ Ty.wellFormedAll args = true := by
        simpa [Ty.wellFormed] using hwf
      have hall := (Ty.wellFormedAll_iff args).1 hw.2
      have : Ty.replaceArgs (fun arg => Ty.replace decls n map arg) args
          = some (args.map (Ty.subst map)) := by
        apply Ty.replaceArgs_eq_of_forall
        intro a ha
        apply ih a _ (hall a ha)
        have := Ty.sizeOf_lt_of_mem ha
        simp at hsz
        omega
      have happ : ∀ xs, Ty.type_app decls n applied xs = some (.typeApp applied xs) := by
        intro xs
        cases applied <;> simp [Ty.isComplex] at hw <;> simp [Ty.type_app]
      simp [Ty.replace, this, happ, Ty.subst, Ty.substAll_eq_map]
    | _ => simp [Ty.replace, Ty.subst]

theorem Ty.substAll_length (map : List (Ty × Ty)) (args : List Ty) :
    (Ty.substAll map args).length = args.length := by
  simp [Ty.substAll_eq_map]

mutual
/-- A variable of the domain is not contained in the result of the substitution, when no type of
the range contains it. -/
theorem Ty.subst_not_contains (map : List (Ty × Ty)) (k : Ty) (hk : k.isTypeVar = true)
    (hkey : ∃ x, (k, x) ∈ map) (hrange : ∀ kv ∈ map, kv.2.contains k = false) :
    ∀ t : Ty, t.wellFormed = true → (Ty.subst map t).contains k = false
  | .tuple args, hwf => by
    have h := Ty.substAll_not_containsAny map k hk hkey hrange args
      (by simpa [Ty.wellFormed] using hwf)
    cases k <;> simp [Ty.isTypeVar] at hk
    simp [Ty.subst, Ty.contains, h]
  | .sizedArray e n s, hwf => by
    have h := Ty.subst_not_contains map k hk hkey hrange e (by simpa [Ty.wellFormed] using hwf)
    cases k <;> simp [Ty.isTypeVar] at hk
    simp [Ty.subst, Ty.contains, h]
  | .unsizedArray e, hwf => by
    have h := Ty.subst_not_contains map k hk hkey hrange e (by simpa [Ty.wellFormed] using hwf)
    cases k <;> simp [Ty.isTypeVar] at hk
    simp [Ty.subst, Ty.contains, h]
  | .ptr e m a, hwf => by
    have h := Ty.subst_not_contains map k hk hkey hrange e (by simpa [Ty.wellFormed] using hwf)
    cases k <;> simp [Ty.isTypeVar] at hk
    simp [Ty.subst, Ty.contains, h]
  | .ref e m a, hwf => by
    have h := Ty.subst_not_contains map k hk hkey hrange e (by simpa [Ty.wellFormed] using hwf)
    cases k <;> simp [Ty.isTypeVar] at hk
    simp [Ty.subst, Ty.contains, h]
  | .fn d c, hwf => by
    have hw : d.wellFormed = true ∧ c.wellFormed = true := by simpa [Ty.wellFormed] using hwf
    have h1 := Ty.subst_not_contains map k hk hkey hrange d hw.1
    have h2 := Ty.subst_not_contains map k hk hkey hrange c hw.2
    cases k <;> simp [Ty.isTypeVar] at hk
    simp [Ty.subst, Ty.contains, h1, h2]
  | .typeApp applied args, hwf => by
    have hw : applied.isComplex = true ∧ Ty.wellFormedAll args = true := by
      simpa [Ty.wellFormed] using hwf
    have h := Ty.substAll_not_containsAny map k hk hkey hrange args hw.2
    cases k <;> simp [Ty.isTypeVar] at hk
    cases applied <;> simp [Ty.isComplex] at hw <;> simp [Ty.subst, Ty.contains, h]
  | .typeVar v, _ => by
    cases hl : List.lookup (Ty.typeVar v) map with
    | some x =>
      simp only [Ty.subst, hl]
      obtain ⟨l1, l2, rfl, _⟩ := List.lookup_eq_some_iff.1 hl
      exact hrange (Ty.typeVar v, x) (by simp)
    | none =>
      simp only [Ty.subst, hl]
      obtain ⟨x, hx⟩ := hkey
      have := List.lookup_eq_none_iff.1 hl (k, x) hx
      simp only [bne_iff_ne, ne_eq] at this
      simp [Ty.contains, this]
  | .prim _, _ | .noRet, _ | .typeError, _ | .forallTy _, _ | .struct _, _ | .enum _, _
  | .typeAlias _, _ | .mod _, _ | .bottom, _ | .top, _ | .implicitParam _, _ => by
    cases k <;> simp [Ty.isTypeVar] at hk
    simp [Ty.subst, Ty.contains]
/-- The same for the types of a list. -/
theorem Ty.substAll_not_containsAny (map : List (Ty × Ty)) (k : Ty) (hk : k.isTypeVar = true)
    (hkey : ∃ x, (k, x) ∈ map) (hrange : ∀ kv ∈ map, kv.2.contains k = false) :
    ∀ args : List Ty, Ty.wellFormedAll args = true →
      Ty.containsAny (Ty.substAll map args) k = false
  | [], _ => rfl
  | a :: args, hwf => by
    have hw : a.wellFormed = true ∧ Ty.wellFormedAll args = true := by
      simpa [Ty.wellFormedAll] using hwf
    simp [Ty.substAll, Ty.containsAny, Ty.subst_not_contains map k hk hkey hrange a hw.1,
      Ty.substAll_not_containsAny map k hk hkey hrange args hw.2]
end

/-! ## Claim on `replace` -/

/-- Claim C14: for a type `t` of the table and a map `sigma` from type variables to types such
that no type in its range contains a variable of its domain, `t.replace(sigma)` returns (given
fuel for the size of `t`) a type that contains, in the sense of `Type::contains`, no variable of
the domain; and `replace` preserves the structure: a tuple stays a tuple of the same arity, an
array keeps its size and SIMD flag, a pointer or reference its mutability and address space, a
function type stays one, a type application keeps its applied type and arity. -/
theorem replace_eliminates_domain (decls : Decls) (map : List (Ty × Ty)) (t : Ty)
    (hkeys : ∀ kv ∈ map, kv.1.isTypeVar = true)
    (hrange : ∀ kv ∈ map, ∀ kv' ∈ map, kv.2.contains kv'.1 = false)
    (hwf : t.wellFormed = true) :
    ∃ t' : Ty, (∀ fuel, sizeOf t ≤ fuel → Ty.replace decls fuel map t = some t') ∧
      (∀ kv ∈ map, t'.contains kv.1 = false) ∧
      (∀ args, t = .tuple args → ∃ args', t' = .tuple args' ∧ args'.length = args.length) ∧
      (∀ e n s, t = .sizedArray e n s → ∃ e', t' = .sizedArray e' n s) ∧
      (∀ e, t = .unsizedArray e → ∃ e', t' = .unsizedArray e') ∧
      (∀ p m a, t = .ptr p m a → ∃ p', t' = .ptr p' m a) ∧
      (∀ p m a, t = .ref p m a → ∃ p', t' = .ref p' m a) ∧
      (∀ d c, t = .fn d c → ∃ d' c', t' = .fn d' c') ∧
      (∀ f args, t = .typeApp f args →
        ∃ args', t' = .typeApp f args' ∧ args'.length = args.length) := by
  refine ⟨Ty.subst map t, fun fuel h => Ty.replace_eq_subst decls map fuel t h hwf, ?_, ?_, ?_,
    ?_, ?_, ?_, ?_, ?_⟩
  · intro kv hkv
    exact Ty.subst_not_contains map kv.1 (hkeys kv hkv) ⟨kv.2, hkv⟩
      (fun kv' h' => hrange kv' h' kv hkv) t hwf
  · rintro args rfl
    exact ⟨Ty.substAll map args, by simp [Ty.subst], Ty.substAll_length map args⟩
  · rintro e n s rfl
    exact ⟨Ty.subst map e, by simp [Ty.subst]⟩
  · rintro e rfl
    exact ⟨Ty.subst map e, by simp [Ty.subst]⟩
  · rintro p m a rfl
    exact ⟨Ty.subst map p, by simp [Ty.subst]⟩
  · rintro p m a rfl
    exact ⟨Ty.subst map p, by simp [Ty.subst]⟩
  · rintro d c rfl
    exact ⟨Ty.subst map d, Ty.subst map c, by simp [Ty.subst]⟩
  · rintro f args rfl
    exact ⟨Ty.substAll map args, by simp [Ty.subst], Ty.substAll_length map args⟩

/-- Witness of C14: `T -> u8` in `&mut (T, S[T])`, where `T` is the type variable 1 and `S` the
struct 2. -/
theorem replace_eliminates_domain_witness :
    ∃ t' : Ty,
      Ty.replace ⟨fun _ => [], fun _ => none, fun _ => none⟩ 20 [(.typeVar 1, .prim .U8)]
        (.ptr (.tuple [.typeVar 1, .typeApp (.struct 2) [.typeVar 1]]) true 3) = some t' ∧
      t'.contains (.typeVar 1) = false ∧ ∃ p', t' = .ptr p' true 3 := by
  obtain ⟨t', h1, h2, _, _, _, h6, _⟩ :=
    replace_eliminates_domain ⟨fun _ => [], fun _ => none, fun _ => none⟩
      [(.typeVar 1, .prim .U8)]
      (.ptr (.tuple [.typeVar 1, .typeApp (.struct 2) [.typeVar 1]]) true 3)
      (by decide) (by decide) (by decide)
  exact ⟨t', h1 20 (by decide), h2 (.typeVar 1, .prim .U8) (by simp), h6 _ _ _ rfl⟩

/-! ## Lemmas on `is_sized` -/

theorem Ty.sizedLoop_cons (f : List Ty → Ty → Option (Bool × List Ty)) (seen : List Ty)
    (a : Ty) (l : List Ty) :
    Ty.sizedLoop f seen (a :: l) = Ty.sizedThen (f seen a) (fun seen1 => Ty.sizedLoop f seen1 l) := by
  rw [Ty.sizedLoop]
  cases h : f seen a with
  | none => rfl
  | some r =>
    obtain ⟨b, s⟩ := r
    cases b <;> rfl

theorem Ty.sizedThen_pure (r : Option (Bool × List Ty)) :
    Ty.sizedThen r (fun seen1 => some (true, seen1)) = r := by
  cases r with
  | none => rfl
  | some r =>
    obtain ⟨b, s⟩ := r
    cases b <;> rfl

theorem Ty.sizedLoop_singleton (f : List Ty → Ty → Option (Bool × List Ty)) (seen : List Ty)
    (a : Ty) : Ty.sizedLoop f seen [a] = f seen a := by
  rw [Ty.sizedLoop_cons]
  simp only [Ty.sizedLoop]
  exact Ty.sizedThen_pure _

/-- The function `is_sized` on a type that is no struct and no enum: the loop over its
components. -/
theorem Ty.is_sized_succ_of_not_complex (decls : Decls) (fuel : Nat) (seen : List Ty) (t : Ty)
    (h : t.isComplex = false) :
    Ty.is_sized decls (fuel + 1) seen t =
      Ty.sizedLoop (fun seen arg => Ty.is_sized decls fuel seen arg) seen
        (Ty.sized_children decls t) := by
  cases t with
  | fn d c =>
    simp only [Ty.is_sized, Ty.sized_children]
    rw [Ty.sizedLoop_cons]
    cases h1 : Ty.is_sized decls fuel seen d with
    | none => rfl
    | some r =>
      obtain ⟨b, s⟩ := r
      cases b
      · rfl
      · simp only [Ty.sizedThen, Ty.sizedLoop_singleton]
  | typeApp f args =>
    simp only [Ty.is_sized, Ty.sized_children]
    rw [Ty.sizedLoop_cons]
    cases h1 : Ty.is_sized decls fuel seen f with
    | none => rfl
    | some r =>
      obtain ⟨b, s⟩ := r
      cases b <;> rfl
  | sizedArray e n s =>
    simp only [Ty.is_sized, Ty.sized_children]
    rw [Ty.sizedLoop_singleton]
  | unsizedArray e =>
    simp only [Ty.is_sized, Ty.sized_children]
    rw [Ty.sizedLoop_singleton]
  | struct o => simp [Ty.isComplex] at h
  | enum o => simp [Ty.isComplex] at h
  | _ => simp [Ty.is_sized, Ty.sized_children, Ty.sizedLoop]

/-- The function `is_sized` on a struct or an enum. -/
theorem Ty.is_sized_succ_of_complex (decls : Decls) (fuel : Nat) (seen : List Ty) (t : Ty)
    (h : t.isComplex = true) :
    Ty.is_sized decls (fuel + 1) seen t =
      if t ∈ seen then some (false, seen)
      else Ty.sizedThen
        (Ty.sizedLoop (fun seen arg => Ty.is_sized decls fuel seen arg) (t :: seen)
          (Ty.sized_children decls t))
        (fun seen1 => some (true, seen1.erase t)) := by
  cases t <;> simp [Ty.isComplex] at h <;> simp only [Ty.is_sized, Ty.sized_children] <;>
    split <;> try rfl

theorem Ty.sizedLoop_sound (decls : Decls) (f : List Ty → Ty → Option (Bool × List Ty))
    (hf : ∀ seen a r, f seen a = some r → Ty.SizedSound decls seen a r) :
    ∀ (l : List Ty) (seen : List Ty) (r : Bool × List Ty), Ty.sizedLoop f seen l = some r →
      (r.1 = true → r.2 = seen ∧ ∀ a ∈ l, ¬ Ty.Unsized decls seen a) ∧
      (r.1 = false → ∃ a ∈ l, Ty.Unsized decls seen a) := by
  intro l
  induction l with
  | nil =>
    intro seen r h
    simp only [Ty.sizedLoop, Option.some.injEq] at h
    subst h
    simp
  | cons a l ih =>
    intro seen r h
    rw [Ty.sizedLoop_cons] at h
    cases hfa : f seen a with
    | none => simp [hfa, Ty.sizedThen] at h
    | some ra =>
      obtain ⟨b, s⟩ := ra
      have hs := hf seen a (b, s) hfa
      cases b with
      | false =>
        simp only [hfa, Ty.sizedThen, Option.some.injEq] at h
        subst h
        exact ⟨fun e => absurd e (by simp), fun _ => ⟨a, List.mem_cons_self _ _, hs.2 rfl⟩⟩
      | true =>
        simp only [hfa, Ty.sizedThen] at h
        obtain ⟨hseen, hna⟩ := hs.1 rfl
        simp only at hseen
        subst hseen
        obtain ⟨h1, h2⟩ := ih s r h
        constructor
        · intro e
          obtain ⟨k1, k2⟩ := h1 e
          refine ⟨k1, ?_⟩
          intro x hx
          rcases List.mem_cons.1 hx with rfl | hx
          · exact hna
          · exact k2 x hx
        · intro e
          obtain ⟨x, hx, hu⟩ := h2 e
          exact ⟨x, List.mem_cons_of_mem _ hx, hu⟩

/-- Every result of `is_sized` is sound. -/
theorem Ty.is_sized_sound (decls : Decls) :
    ∀ (fuel : Nat) (seen : List Ty) (t : Ty) (r : Bool × List Ty),
      Ty.is_sized decls fuel seen t = some r → Ty.SizedSound decls seen t r := by
  intro fuel
  induction fuel with
  | zero =>
    intro seen t r h
    simp [Ty.is_sized] at h
  | succ n ih =>
    intro seen t r h
    cases hc : t.isComplex with
    | false =>
      rw [Ty.is_sized_succ_of_not_complex decls n seen t hc] at h
      obtain ⟨h1, h2⟩ := Ty.sizedLoop_sound decls _ (fun s a r => ih s a r) _ seen r h
      constructor
      · intro e
        obtain ⟨k1, k2⟩ := h1 e
        refine ⟨k1, ?_⟩
        intro hu
        cases hu with
        | seen hcx _ => rw [hc] at hcx; exact absurd hcx (by simp)
        | member hcx _ _ _ => rw [hc] at hcx; exact absurd hcx (by simp)
        | child _ hmem hcu => exact k2 _ hmem hcu
      · intro e
        obtain ⟨x, hx, hu⟩ := h2 e
        exact Ty.Unsized.child hc hx hu
    | true =>
      rw [Ty.is_sized_succ_of_complex decls n seen t hc] at h
      by_cases hmem : t ∈ seen
      · simp only [hmem, if_true, Option.some.injEq] at h
        subst h
        exact ⟨fun e => absurd e (by simp), fun _ => Ty.Unsized.seen hc hmem⟩
      · simp only [hmem, if_false] at h
        cases hl : Ty.sizedLoop (fun seen arg => Ty.is_sized decls n seen arg) (t :: seen)
            (Ty.sized_children decls t) with
        | none => simp [hl, Ty.sizedThen] at h
        | some rl =>
          obtain ⟨h1, h2⟩ := Ty.sizedLoop_sound decls _ (fun s a r => ih s a r) _ _ rl hl
          obtain ⟨b, s⟩ := rl
          cases b with
          | false =>
            simp only [hl, Ty.sizedThen, Option.some.injEq] at h
            subst h
            obtain ⟨x, hx, hu⟩ := h2 rfl
            exact ⟨fun e => absurd e (by simp), fun _ => Ty.Unsized.member hc hmem hx hu⟩
          | true =>
            simp only [hl, Ty.sizedThen, Option.some.injEq] at h
            subst h
            obtain ⟨k1, k2⟩ := h1 rfl
            simp only at k1
            subst k1
            refine ⟨fun _ => ⟨by simp, ?_⟩, fun e => absurd e (by simp)⟩
            intro hu
            cases hu with
            | seen _ hm => exact hmem hm
            | member _ _ hx hxu => exact k2 _ hx hxu
            | child hcx _ _ => rw [hc] at hcx; exact absurd hcx (by simp)

theorem Ty.sizedLoop_mono (f g : List Ty → Ty → Option (Bool × List Ty))
    (h : ∀ s a r, f s a = some r → g s a = some r) :
    ∀ (l : List Ty) (s : List Ty) (r : Bool × List Ty),
      Ty.sizedLoop f s l = some r → Ty.sizedLoop g s l = some r := by
  intro l
  induction l with
  | nil => intro s r hr; simpa [Ty.sizedLoop] using hr
  | cons a l ih =>
    intro s r hr
    rw [Ty.sizedLoop_cons] at hr ⊢
    cases hfa : f s a with
    | none => simp [hfa, Ty.sizedThen] at hr
    | some ra =>
      rw [h s a ra hfa]
      rw [hfa] at hr
      obtain ⟨b, s1⟩ := ra
      cases b with
      | false => exact hr
      | true => exact ih s1 r hr

/-- More fuel does not change a result of `is_sized`. -/
theorem Ty.is_sized_mono_succ (decls : Decls) :
    ∀ (fuel : Nat) (seen : List Ty) (t : Ty) (r : Bool × List Ty),
      Ty.is_sized decls fuel seen t = some r → Ty.is_sized decls (fuel + 1) seen t = some r := by
  intro fuel
  induction fuel with
  | zero =>
    intro seen t r h
    simp [Ty.is_sized] at h
  | succ n ih =>
    intro seen t r h
    cases hc : t.isComplex with
    | false =>
      rw [Ty.is_sized_succ_of_not_complex decls _ seen t hc] at h ⊢
      exact Ty.sizedLoop_mono _ _ (fun s a r => ih s a r) _ _ _ h
    | true =>
      rw [Ty.is_sized_succ_of_complex decls _ seen t hc] at h ⊢
      by_cases hmem : t ∈ seen
      · simpa [hmem] using h
      · simp only [hmem, if_false] at h ⊢
        cases hl : Ty.sizedLoop (fun seen arg => Ty.is_sized decls n seen arg) (t :: seen)
            (Ty.sized_children decls t) with
        | none => simp [hl, Ty.sizedThen] at h
        | some rl =>
          rw [Ty.sizedLoop_mono _ _ (fun s a r => ih s a r) _ _ _ hl]
          rw [hl] at h
          exact h

theorem Ty.is_sized_mono (decls : Decls) (fuel fuel' : Nat) (hle : fuel ≤ fuel')
    (seen : List Ty) (t : Ty) (r : Bool × List Ty)
    (h : Ty.is_sized decls fuel seen t = some r) : Ty.is_sized decls fuel' seen t = some r := by
  induction hle with
  | refl => exact h
  | step _ ih => exact Ty.is_sized_mono_succ decls _ seen t r ih

/-- A loop of `is_sized` has a result when each of its components has one. -/
theorem Ty.sizedLoop_total (decls : Decls) (seen : List Ty) :
    ∀ (l : List Ty), (∀ a ∈ l, ∃ fuel r, Ty.is_sized decls fuel seen a = some r) →
      ∃ fuel r, Ty.sizedLoop (fun s a => Ty.is_sized decls fuel s a) seen l = some r := by
  intro l
  induction l with
  | nil => intro _; exact ⟨0, (true, seen), rfl⟩
  | cons a l ih =>
    intro h
    obtain ⟨fa, ra, hra⟩ := h a (List.mem_cons_self _ _)
    obtain ⟨fl, rl, hrl⟩ := ih (fun x hx => h x (List.mem_cons_of_mem _ hx))
    obtain ⟨b, s⟩ := ra
    cases b with
    | false =>
      refine ⟨fa, (false, s), ?_⟩
      rw [Ty.sizedLoop_cons, hra]
      rfl
    | true =>
      have hs : s = seen := ((Ty.is_sized_sound decls fa seen a _ hra).1 rfl).1
      subst hs
      refine ⟨max fa fl, rl, ?_⟩
      rw [Ty.sizedLoop_cons,
        Ty.is_sized_mono decls fa _ (Nat.le_max_left _ _) _ _ _ hra]
      simp only [Ty.sizedThen]
      exact Ty.sizedLoop_mono _ _
        (fun s a r hr => Ty.is_sized_mono decls fl _ (Nat.le_max_right _ _) s a r hr) _ _ _ hrl

theorem Ty.sizeOf_lt_of_sized_child (decls : Decls) (t c : Ty) (h : t.isComplex = false)
    (hc : c ∈ Ty.sized_children decls t) : sizeOf c < sizeOf t := by
  cases t <;> simp [Ty.isComplex] at h
  all_goals simp [Ty.sized_children] at hc
  · have := List.sizeOf_lt_of_mem hc
    simp; omega
  · subst hc; simp; omega
  · subst hc; simp
  · rcases hc with rfl | rfl
    · simp; omega
    · simp
  · rcases hc with rfl | hc
    · simp; omega
    · have := List.sizeOf_lt_of_mem hc
      simp; omega

theorem Ty.unseen_cons_lt (U seen : List Ty) (t : Ty) (hU : t ∈ U) (hs : t ∉ seen) :
    Ty.unseen U (t :: seen) < Ty.unseen U seen := by
  unfold Ty.unseen
  rw [List.toFinset_cons, Finset.sdiff_insert]
  apply Finset.card_erase_lt_of_mem
  simp [hU, hs]

theorem Ty.is_sized_total_of (decls : Decls) (U : List Ty) (k : Nat)
    (H : ∀ (seen : List Ty) (t : Ty), t.isComplex = true → t ∉ seen → Ty.unseen U seen ≤ k →
      (∀ u, Relation.ReflTransGen (Ty.Holds decls) t u → u.isComplex = true → u ∈ U) →
      ∀ m ∈ Ty.sized_children decls t, ∃ fuel r, Ty.is_sized decls fuel (t :: seen) m = some r) :
    ∀ (n : Nat) (seen : List Ty) (t : Ty), Ty.unseen U seen ≤ k → sizeOf t ≤ n →
      (∀ u, Relation.ReflTransGen (Ty.Holds decls) t u → u.isComplex = true → u ∈ U) →
      ∃ fuel r, Ty.is_sized decls fuel seen t = some r := by
  intro n
  induction n with
  | zero =>
    intro seen t _ hsz
    have := Ty.sizeOf_pos t
    omega
  | succ n ih =>
    intro seen t hk hsz hU
    cases hc : t.isComplex with
    | true =>
      by_cases hmem : t ∈ seen
      · refine ⟨1, (false, seen), ?_⟩
        rw [Ty.is_sized_succ_of_complex decls 0 seen t hc]
        simp [hmem]
      · obtain ⟨fuel, r, hr⟩ := Ty.sizedLoop_total decls (t :: seen) _ (H seen t hc hmem hk hU)
        obtain ⟨b, s⟩ := r
        cases b with
        | false =>
          refine ⟨fuel + 1, (false, s), ?_⟩
          rw [Ty.is_sized_succ_of_complex decls fuel seen t hc]
          simp [hmem, hr, Ty.sizedThen]
        | true =>
          refine ⟨fuel + 1, (true, s.erase t), ?_⟩
          rw [Ty.is_sized_succ_of_complex decls fuel seen t hc]
          simp [hmem, hr, Ty.sizedThen]
    | false =>
      have hch : ∀ c ∈ Ty.sized_children decls t,
          ∃ fuel r, Ty.is_sized decls fuel seen c = some r := by
        intro c hcm
        apply ih seen c hk
        · have := Ty.sizeOf_lt_of_sized_child decls t c hc hcm
          omega
        · intro u hu
          exact hU u (Relation.ReflTransGen.head hcm hu)
      obtain ⟨fuel, r, hr⟩ := Ty.sizedLoop_total decls seen _ hch
      refine ⟨fuel + 1, r, ?_⟩
      rw [Ty.is_sized_succ_of_not_complex decls fuel seen t hc]
      exact hr

/-- The function `is_sized` has a result, given fuel, when the struct and enum types that can be
reached by value are finitely many. -/
theorem Ty.is_sized_total (decls : Decls) (U : List Ty) :
    ∀ (k : Nat) (seen : List Ty) (t : Ty), Ty.unseen U seen ≤ k →
      (∀ u, Relation.ReflTransGen (Ty.Holds decls) t u → u.isComplex = true → u ∈ U) →
      ∃ fuel r, Ty.is_sized decls fuel seen t = some r := by
  intro k
  induction k with
  | zero =>
    intro seen t hk hU
    apply Ty.is_sized_total_of decls U 0 _ (sizeOf t) seen t hk (Nat.le_refl _) hU
    intro seen' t' hc hmem hk' hU'
    have := Ty.unseen_cons_lt U seen' t' (hU' t' Relation.ReflTransGen.refl hc) hmem
    omega
  | succ k ihk =>
    intro seen t hk hU
    apply Ty.is_sized_total_of decls U (k + 1) _ (sizeOf t) seen t hk (Nat.le_refl _) hU
    intro seen' t' hc hmem hk' hU' m hm
    apply ihk (t' :: seen') m
    · have := Ty.unseen_cons_lt U seen' t' (hU' t' Relation.ReflTransGen.refl hc) hmem
      omega
    · intro u hu
      exact hU' u (Relation.ReflTransGen.head hm hu)

theorem Ty.Unsized.of_step (decls : Decls) (t c : Ty) (h : Ty.Holds decls t c)
    (hc : ∀ seen, Ty.Unsized decls seen c) : ∀ seen, Ty.Unsized decls seen t := by
  intro seen
  cases hx : t.isComplex with
  | true =>
    by_cases hmem : t ∈ seen
    · exact Ty.Unsized.seen hx hmem
    · exact Ty.Unsized.member hx hmem h (hc _)
  | false => exact Ty.Unsized.child hx h (hc _)

theorem Ty.Unsized.of_reaches_seen (decls : Decls) (M : Ty) (hM : M.isComplex = true) (t : Ty)
    (h : Relation.ReflTransGen (Ty.Holds decls) t M) :
    ∀ seen, M ∈ seen → Ty.Unsized decls seen t := by
  induction h using Relation.ReflTransGen.head_induction_on with
  | refl => exact fun seen hs => Ty.Unsized.seen hM hs
  | @head a c hstep _ ih =>
    intro seen hs
    cases hx : a.isComplex with
    | true =>
      by_cases hmem : a ∈ seen
      · exact Ty.Unsized.seen hx hmem
      · exact Ty.Unsized.member hx hmem hstep (ih _ (List.mem_cons_of_mem _ hs))
    | false => exact Ty.Unsized.child hx hstep (ih _ hs)

theorem Ty.Unsized.of_reachesCycle (decls : Decls) (t : Ty) (h : Ty.ReachesCycle decls t) :
    ∀ seen, Ty.Unsized decls seen t := by
  obtain ⟨M, hM, hreach, hcyc⟩ := h
  have hMu : ∀ seen, Ty.Unsized decls seen M := by
    intro seen
    by_cases hmem : M ∈ seen
    · exact Ty.Unsized.seen hM hmem
    · obtain ⟨c, hstep, hc⟩ := Relation.TransGen.head'_iff.1 hcyc
      exact Ty.Unsized.member hM hmem hstep
        (Ty.Unsized.of_reaches_seen decls M hM c hc _ (List.mem_cons_self _ _))
  induction hreach using Relation.ReflTransGen.head_induction_on with
  | refl => exact hMu
  | head hstep _ ih => exact Ty.Unsized.of_step decls _ _ hstep ih

theorem Ty.ReachesCycle_of_step (decls : Decls) (t c : Ty) (h : Ty.Holds decls t c)
    (hc : Ty.ReachesCycle decls c) : Ty.ReachesCycle decls t := by
  obtain ⟨M, hM, hreach, hcyc⟩ := hc
  exact ⟨M, hM, Relation.ReflTransGen.head h hreach, hcyc⟩

theorem Ty.Unsized.reaches (decls : Decls) (seen : List Ty) (t : Ty)
    (h : Ty.Unsized decls seen t) :
    (∃ u ∈ seen, Relation.ReflTransGen (Ty.Holds decls) t u) ∨ Ty.ReachesCycle decls t := by
  induction h with
  | seen _ hmem => exact Or.inl ⟨_, hmem, Relation.ReflTransGen.refl⟩
  | member hx _ hstep _ ih =>
    rcases ih with ⟨u, hu, hr⟩ | hcyc
    · rcases List.mem_cons.1 hu with rfl | hu
      · exact Or.inr ⟨_, hx, Relation.ReflTransGen.refl,
          Relation.TransGen.head'_iff.2 ⟨_, hstep, hr⟩⟩
      · exact Or.inl ⟨u, hu, Relation.ReflTransGen.head hstep hr⟩
    · exact Or.inr (Ty.ReachesCycle_of_step decls _ _ hstep hcyc)
  | child _ hstep _ ih =>
    rcases ih with ⟨u, hu, hr⟩ | hcyc
    · exact Or.inl ⟨u, hu, Relation.ReflTransGen.head hstep hr⟩
    · exact Or.inr (Ty.ReachesCycle_of_step decls _ _ hstep hcyc)

theorem Ty.unsized_nil_iff (decls : Decls) (t : Ty) :
    Ty.Unsized decls [] t ↔ Ty.ReachesCycle decls t := by
  constructor
  · intro h
    rcases Ty.Unsized.reaches decls [] t h with ⟨u, hu, _⟩ | hcyc
    · exact absurd hu (List.not_mem_nil _)
    · exact hcyc
  · intro h
    exact Ty.Unsized.of_reachesCycle decls t h []

theorem Ty.reaches_mem_of_closed (decls : Decls) (S : List Ty)
    (hclosed : ∀ t ∈ S, ∀ c ∈ Ty.sized_children decls t, c ∈ S) (N : Ty) (hN : N ∈ S) :
    ∀ u, Relation.ReflTransGen (Ty.Holds decls) N u → u ∈ S := by
  intro u h
  induction h with
  | refl => exact hN
  | tail _ hstep ih => exact hclosed _ ih _ hstep


/-! ## Claim on `is_sized` -/

/-- What `is_sized` decides: for every type `N` (in particular a struct or enum type whose
members are typed) from which finitely many struct and enum types are reached by value,
`N.is_sized()`, started with an empty visited set, returns (given enough fuel) a result, and this
result is false if and only if `N` reaches by value a struct or enum type that holds itself by
value, directly or through other types.  Reaching by value follows the domain and codomain of a
function type, the components of a tuple, the element of an array, the members of a struct or
enum and, for a type application, the applied type (with its members as declared, not
substituted) and the type arguments; it does not go through a pointer or a reference. -/
theorem Ty.is_sized_decides (decls : Decls) (U : List Ty) (N : Ty)
    (hU : ∀ u, Relation.ReflTransGen (Ty.Holds decls) N u → u.isComplex = true → u ∈ U) :
    ∃ b : Bool, (∃ fuel0, ∀ fuel, fuel0 ≤ fuel → Ty.is_sized_start decls fuel N = some b) ∧
      (b = false ↔ Ty.ReachesCycle decls N) := by
  obtain ⟨fuel0, r, hr⟩ := Ty.is_sized_total decls U _ [] N (Nat.le_refl _) hU
  refine ⟨r.1, ⟨fuel0, ?_⟩, ?_⟩
  · intro fuel hle
    simp [Ty.is_sized_start, Ty.is_sized_mono decls fuel0 fuel hle [] N r hr]
  · obtain ⟨h1, h2⟩ := Ty.is_sized_sound decls fuel0 [] N r hr
    rw [← Ty.unsized_nil_iff]
    constructor
    · exact h2
    · intro hu
      cases hb : r.1 with
      | false => rfl
      | true => exact absurd hu (h1 hb).2

/-- The types reached by value from `N`, with `struct N { x: P[N] }` and
`struct P[T] { p: &T }`, are `N`, `P[N]`, `P` and `&T`: `is_sized` returns on `N`, and returns
false exactly when a cycle by value is reached. -/
theorem Ty.is_sized_decides_scenario :
    ∃ b : Bool,
      (∃ fuel0, ∀ fuel, fuel0 ≤ fuel →
        Ty.is_sized_start Scenario.struct_holding_app_of_itself fuel (.struct 0) = some b) ∧
      (b = false ↔ Ty.ReachesCycle Scenario.struct_holding_app_of_itself (.struct 0)) :=
  Ty.is_sized_decides Scenario.struct_holding_app_of_itself
    [.struct 0, .typeApp (.struct 1) [.struct 0], .struct 1, .ptr (.typeVar 2) false 0]
    (.struct 0)
    (fun u hu _ => Ty.reaches_mem_of_closed Scenario.struct_holding_app_of_itself
      [.struct 0, .typeApp (.struct 1) [.struct 0], .struct 1, .ptr (.typeVar 2) false 0]
      (by decide) (.struct 0) (by decide) u hu)

/-- Claim C16, refuted by the code: with `struct P[T] { p: &T }` and `struct N { x: P[N] }`,
`N.is_sized()` returns false and the loop of `ModDecl::infer` reports
`type 'N' is recursive and not sized`, although the only member of `N` is `P[N]`, whose only
member with the type argument substituted is the pointer `&N`, which is sized whatever the
visited set is: no member of `N` reaches `N` again without a pointer.  `TypeApp::is_sized` does
not substitute: it asks the applied type `P` and then the type argument `N` itself, which is met
while `N` is in the visited set.  `TypeApp::order`, on the same type, does go through the
substituted member and returns. -/
theorem is_sized_type_app_not_substituted (fuel : Nat) (checker : TypeChecker) (loc : Loc)
    (dom_first : Bool) :
    Ty.is_sized_start Scenario.struct_holding_app_of_itself (fuel + 4) (.struct 0) = some false ∧
    ModDecl.infer.sized_loop Scenario.struct_holding_app_of_itself (fuel + 4) checker
      [⟨true, loc, .struct 0⟩] = some (checker.error loc (.recursive_not_sized (.struct 0))) ∧
    Scenario.struct_holding_app_of_itself.members 0 = [.typeApp (.struct 1) [.struct 0]] ∧
    Scenario.struct_holding_app_of_itself.members 1 = [.ptr (.typeVar 2) false 0] ∧
    Ty.app_member_type Scenario.struct_holding_app_of_itself (fuel + 2) (.struct 1) [.struct 0]
      (.ptr (.typeVar 2) false 0) = some (.ptr (.struct 0) false 0) ∧
    (∀ seen : List Ty,
      Ty.is_sized Scenario.struct_holding_app_of_itself (fuel + 1) seen
        (.ptr (.struct 0) false 0) = some (true, seen)) ∧
    Ty.is_sized Scenario.struct_holding_app_of_itself (fuel + 3) [.struct 0]
      (.typeApp (.struct 1) [.struct 0]) = some (false, [.struct 0]) ∧
    Ty.order_start Scenario.struct_holding_app_of_itself dom_first (fuel + 5) (.struct 0) =
      some 0 := by
  have h1 : Ty.is_sized_start Scenario.struct_holding_app_of_itself (fuel + 4) (.struct 0) =
      some false := by
    simp [Ty.is_sized_start, Ty.is_sized, Ty.sizedLoop, Scenario.struct_holding_app_of_itself]
  refine ⟨h1, ?_, rfl, rfl, ?_, ?_, ?_, ?_⟩
  · simp [ModDecl.infer.sized_loop, h1, TypeChecker.unsized_type]
  · simp [Ty.app_member_type, Scenario.struct_holding_app_of_itself, Ty.replace_map,
      Ty.replace_map.loop, Ty.replace, List.lookup]
  · intro seen
    simp [Ty.is_sized]
  · simp [Ty.is_sized, Ty.sizedLoop, Scenario.struct_holding_app_of_itself]
  · simp [Ty.order_start, Ty.order, Ty.orderLoop, Ty.complex_members, Ty.app_member_type,
      Scenario.struct_holding_app_of_itself, Ty.replace_map, Ty.replace_map.loop, Ty.replace,
      List.lookup]


/-! ## Lemmas on `type_app` -/

theorem Ty.replace_map.loop_spec : ∀ (type_params : List (Option Ty)) (type_args : List Ty)
    (map : List (Ty × Ty)), type_params.length = type_args.length →
    (∀ p ∈ type_params, p ≠ none) →
    ∃ map', Ty.replace_map.loop type_params type_args map = some map' ∧
      ∀ kv ∈ map', kv ∈ map ∨ kv.2 ∈ type_args
  | [], [], map, _, _ => ⟨map, rfl, fun kv h => Or.inl h⟩
  | [], _ :: _, _, h, _ => by simp at h
  | _ :: _, [], _, h, _ => by simp at h
  | none :: _, _ :: _, _, _, h => absurd rfl (h none (List.mem_cons_self _ _))
  | some v :: ps, a :: args, map, hlen, htyped => by
    obtain ⟨map', h1, h2⟩ := Ty.replace_map.loop_spec ps args
      (if (map.lookup v).isSome then map else map ++ [(v, a)])
      (by simpa using hlen) (fun p hp => htyped p (List.mem_cons_of_mem _ hp))
    refine ⟨map', by simpa [Ty.replace_map.loop] using h1, ?_⟩
    intro kv hkv
    rcases h2 kv hkv with h | h
    · split at h
      · exact Or.inl h
      · rcases List.mem_append.1 h with h | h
        · exact Or.inl h
        · simp only [List.mem_singleton] at h
          subst h
          exact Or.inr (List.mem_cons_self _ _)
    · exact Or.inr (List.mem_cons_of_mem _ h)

mutual
/-- The substitution of well-formed types in a well-formed type is well formed. -/
theorem Ty.subst_wellFormed (map : List (Ty × Ty)) (hmap : ∀ kv ∈ map, kv.2.wellFormed = true) :
    ∀ t : Ty, t.wellFormed = true → (Ty.subst map t).wellFormed = true
  | .tuple args, hwf => by
    have h := Ty.substAll_wellFormed map hmap args (by simpa [Ty.wellFormed] using hwf)
    simpa [Ty.subst, Ty.wellFormed] using h
  | .sizedArray e n s, hwf => by
    have h := Ty.subst_wellFormed map hmap e (by simpa [Ty.wellFormed] using hwf)
    simpa [Ty.subst, Ty.wellFormed] using h
  | .unsizedArray e, hwf => by
    have h := Ty.subst_wellFormed map hmap e (by simpa [Ty.wellFormed] using hwf)
    simpa [Ty.subst, Ty.wellFormed] using h
  | .ptr e m a, hwf => by
    have h := Ty.subst_wellFormed map hmap e (by simpa [Ty.wellFormed] using hwf)
    simpa [Ty.subst, Ty.wellFormed] using h
  | .ref e m a, hwf => by
    have h := Ty.subst_wellFormed map hmap e (by simpa [Ty.wellFormed] using hwf)
    simpa [Ty.subst, Ty.wellFormed] using h
  | .fn d c, hwf => by
    have hw : d.wellFormed = true ∧ c.wellFormed = true := by simpa [Ty.wellFormed] using hwf
    have h1 := Ty.subst_wellFormed map hmap d hw.1
    have h2 := Ty.subst_wellFormed map hmap c hw.2
    simp [Ty.subst, Ty.wellFormed, h1, h2]
  | .typeApp applied args, hwf => by
    have hw : applied.isComplex = true ∧ Ty.wellFormedAll args = true := by
      simpa [Ty.wellFormed] using hwf
    have h := Ty.substAll_wellFormed map hmap args hw.2
    simp [Ty.subst, Ty.wellFormed, h, hw.1]
  | .typeVar v, _ => by
    cases hl : List.lookup (Ty.typeVar v) map with
    | some x =>
      simp only [Ty.subst, hl]
      obtain ⟨l1, l2, rfl, _⟩ := List.lookup_eq_some_iff.1 hl
      exact hmap (Ty.typeVar v, x) (by simp)
    | none => simp [Ty.subst, hl, Ty.wellFormed]
  | .prim _, _ | .noRet, _ | .typeError, _ | .forallTy _, _ | .struct _, _ | .enum _, _
  | .typeAlias _, _ | .mod _, _ | .bottom, _ | .top, _ | .implicitParam _, _ => by
    simp [Ty.subst, Ty.wellFormed]
/-- The same for the types of a list. -/
theorem Ty.substAll_wellFormed (map : List (Ty × Ty))
    (hmap : ∀ kv ∈ map, kv.2.wellFormed = true) :
    ∀ args : List Ty, Ty.wellFormedAll args = true →
      Ty.wellFormedAll (Ty.substAll map args) = true
  | [], _ => rfl
  | a :: args, hwf => by
    have hw : a.wellFormed = true ∧ Ty.wellFormedAll args = true := by
      simpa [Ty.wellFormedAll] using hwf
    simp [Ty.substAll, Ty.wellFormedAll, Ty.subst_wellFormed map hmap a hw.1,
      Ty.substAll_wellFormed map hmap args hw.2]
end

theorem TypeApp.replace_map.loop_zip : ∀ (type_params : List Addr) (type_args : List Addr)
    (map : List (Addr × Addr)), type_params.length = type_args.length → type_params.Nodup →
    (∀ kv ∈ map, kv.1 ∉ type_params) →
    TypeApp.replace_map.loop (type_params.map some) type_args map =
      some (map ++ type_params.zip type_args)
  | [], [], map, _, _, _ => by simp [TypeApp.replace_map.loop]
  | [], _ :: _, _, h, _, _ => by simp at h
  | _ :: _, [], _, h, _, _ => by simp at h
  | v :: ps, a :: args, map, hlen, hnd, hkeys => by
    have hv : List.lookup v map = none := by
      rw [List.lookup_eq_none_iff]
      intro kv hkv
      have := hkeys kv hkv
      simp only [List.mem_cons, not_or] at this
      simpa using fun e => this.1 e.symm
    have hnd2 := List.nodup_cons.1 hnd
    have ih := TypeApp.replace_map.loop_zip ps args (map ++ [(v, a)]) (by simpa using hlen)
      hnd2.2 (by
        intro kv hkv
        rcases List.mem_append.1 hkv with h | h
        · exact fun hm => hkeys kv h (List.mem_cons_of_mem _ hm)
        · simp only [List.mem_singleton] at h
          subst h
          exact hnd2.1)
    simp [TypeApp.replace_map.loop, hv, ih]

/-- With distinct typed parameters and as many arguments, `replace_map` maps each parameter to
the argument at its position. -/
theorem TypeApp.replace_map_eq_zip (type_params : List Addr) (type_args : List Addr)
    (hlen : type_params.length = type_args.length) (hnd : type_params.Nodup) :
    TypeApp.replace_map (type_params.map some) type_args =
      some (type_params.zip type_args) := by
  simp [TypeApp.replace_map, hlen,
    TypeApp.replace_map.loop_zip type_params type_args [] hlen hnd (by simp)]


/-! ## Claims on `type_app` -/

/-- Counterexample to C12 as stated: with `struct S[T]` and `type A[T] = S[T]`, the call
`type_app(A, [i32])` returns the type application `S[i32]`, an instance of `TypeApp`. -/
theorem type_app_alias_counterexample :
    Ty.type_app Scenario.alias_of_struct_app 5 (.typeAlias 2) [.prim .I32] =
      some (.typeApp (.struct 0) [.prim .I32]) := by
  decide

/-- Claim C12, amended: for a type alias `A` whose parameters are typed and whose aliased type is
a type of the table, and arguments of the table of matching length, `type_app(A, args)` returns
(given fuel for the size of the aliased type) a type of the table that is never a `TypeApp` whose
applied type is an alias: if it is a type application, its applied type is a struct or an enum. -/
theorem type_app_alias_eliminated (decls : Decls) (obj : Nat) (type_params : List (Option Ty))
    (aliased : Ty) (type_args : List Ty)
    (hparams : decls.type_params obj = some type_params)
    (haliased : decls.aliased_type obj = some aliased)
    (hlen : type_params.length = type_args.length)
    (htyped : ∀ p ∈ type_params, p ≠ none)
    (hwf : aliased.wellFormed = true)
    (hargs : ∀ a ∈ type_args, a.wellFormed = true) :
    ∃ r : Ty,
      (∀ fuel, sizeOf aliased < fuel →
        Ty.type_app decls fuel (.typeAlias obj) type_args = some r) ∧
      r.wellFormed = true ∧
      (∀ applied args, r = .typeApp applied args → applied.isComplex = true) ∧
      (∀ obj1 args, r ≠ .typeApp (.typeAlias obj1) args) := by
  obtain ⟨map, h1, h2⟩ := Ty.replace_map.loop_spec type_params type_args [] hlen htyped
  have hmap : ∀ kv ∈ map, kv.2.wellFormed = true := by
    intro kv hkv
    rcases h2 kv hkv with h | h
    · simp at h
    · exact hargs _ h
  have hr := Ty.subst_wellFormed map hmap aliased hwf
  have happ : ∀ applied args, Ty.subst map aliased = .typeApp applied args →
      applied.isComplex = true := by
    intro applied args e
    rw [e] at hr
    simp only [Ty.wellFormed, Bool.and_eq_true] at hr
    exact hr.1
  refine ⟨Ty.subst map aliased, ?_, hr, happ, ?_⟩
  · intro fuel hf
    cases fuel with
    | zero => omega
    | succ n =>
      unfold Ty.type_app
      simp only [hparams, haliased, Ty.replace_map, hlen, if_true, h1]
      exact Ty.replace_eq_subst decls map n aliased (by omega) hwf
  · intro obj1 args e
    have := happ _ _ e
    simp [Ty.isComplex] at this

/-- Witness of C12: `type_app(A, [i32])` for `struct S[T]` and `type A[T] = S[T]`. -/
theorem type_app_alias_eliminated_witness :
    ∃ r : Ty, Ty.type_app Scenario.alias_of_struct_app 10 (.typeAlias 2) [.prim .I32] = some r ∧
      ∀ obj1 args, r ≠ .typeApp (.typeAlias obj1) args := by
  obtain ⟨r, h1, _, _, h4⟩ :=
    type_app_alias_eliminated Scenario.alias_of_struct_app 2 [some (.typeVar 1)]
      (.typeApp (.struct 0) [.typeVar 1]) [.prim .I32] rfl rfl rfl (by decide) (by decide)
      (by decide)
  exact ⟨r, h1 10 (by decide), h4⟩

/-- Claim C13: `TypeTable::type_app(applied, args)`: when `applied` is a type alias with the
distinct parameters `p1..pn` and the aliased type `B`, the result is that of
`B.replace(map)` for the map `p_i -> args_i`; when `applied` is a struct or enum type, the result is the
interned `TypeApp` whose applied field is that type and whose `type_args` equal `args`: an element
of the set of the table, the only one with these fields. -/
theorem type_app_spec (ast : NodeAddr → TypeDecl) (fuel : Nat) (tbl : TypeTable) (hwf : tbl.WF)
    (applied : Addr) (type_args : List Addr) :
    (∀ (decl : NodeAddr) (type_params : List Addr) (aliased : Addr),
      tbl.heap[applied]? = some (.TypeAlias decl) →
      (ast decl).type_params = some (type_params.map some) →
      (ast decl).aliased_type = some aliased →
      type_params.Nodup → type_params.length = type_args.length →
      TypeTable.type_app ast (fuel + 1) tbl applied type_args =
        TypeTable.replace ast fuel tbl (type_params.zip type_args) aliased) ∧
    (tbl.isStructOrEnum applied = true →
      ∃ (r : Addr) (tbl1 : TypeTable),
        TypeTable.type_app ast fuel tbl applied type_args = some (r, tbl1) ∧
        tbl1.heap[r]? = some (.TypeApp applied type_args) ∧ r ∈ tbl1.types_ ∧
        tbl1.WF ∧ tbl.Extends tbl1 ∧
        ∀ b ∈ tbl1.types_, tbl1.heap[b]? = some (.TypeApp applied type_args) → b = r) := by
  constructor
  · intro decl type_params aliased ho hp ha hnd hlen
    unfold TypeTable.type_app
    simp only [ho, hp, ha, TypeApp.replace_map_eq_zip type_params type_args hlen hnd]
  · intro hs
    obtain ⟨h1, h2, h3, h4⟩ := tbl.insert_not_nominal hwf (.TypeApp applied type_args) rfl
    refine ⟨_, _, tbl.type_app_of_isStructOrEnum ast fuel applied type_args hs, h4, h3, h1, h2, ?_⟩
    intro b hb hbo
    exact h1.unique b hb _ h3 (.TypeApp applied type_args) rfl hbo h4

/-- Witness of C13 on the table of `struct S[T]` and `type A[T] = &T`: `type_app(A, [i32])` is
`(&T).replace(T -> i32)`, the new object `&i32` at address 5, and `type_app(S, [i32])` is
a `TypeApp` object of the table. -/
theorem type_app_spec_witness :
    TypeTable.type_app Scenario.alias_of_ptr_ast 4 Scenario.alias_of_ptr_table 4 [2] =
      TypeTable.replace Scenario.alias_of_ptr_ast 3 Scenario.alias_of_ptr_table [(1, 2)] 3 ∧
    (TypeTable.replace Scenario.alias_of_ptr_ast 3 Scenario.alias_of_ptr_table [(1, 2)] 3).map
      (fun r => (r.1, r.2.heap[r.1]?)) = some (5, some (.PtrType 2 false 0)) ∧
    ∃ (r : Addr) (tbl1 : TypeTable),
      TypeTable.type_app Scenario.alias_of_ptr_ast 3 Scenario.alias_of_ptr_table 0 [2] =
        some (r, tbl1) ∧
      tbl1.heap[r]? = some (.TypeApp 0 [2]) ∧ r ∈ tbl1.types_ := by
  refine ⟨(type_app_spec Scenario.alias_of_ptr_ast 3 Scenario.alias_of_ptr_table (by decide)
    4 [2]).1 2 [1] 3 rfl rfl rfl (by decide) rfl, by decide, ?_⟩
  obtain ⟨r, tbl1, h1, h2, h3, _⟩ :=
    (type_app_spec Scenario.alias_of_ptr_ast 3 Scenario.alias_of_ptr_table (by decide)
      0 [2]).2 (by decide)
  exact ⟨r, tbl1, h1, h2, h3⟩


/-! ## Lemmas on the expressions -/

theorem Expr.type_setType (type : Option Ty) (node : Expr) : (node.setType type).type = type := by
  cases node <;> rfl

theorem TypeChecker.infer_type (v : Virt) (checker : TypeChecker) (node : Expr) (t : Ty)
    (node1 : Expr) (checker1 : TypeChecker)
    (h : TypeChecker.infer v checker node = some (t, node1, checker1)) : node1.type = some t := by
  unfold TypeChecker.infer at h
  split at h
  · rename_i type hty
    simp only [Option.some.injEq, Prod.mk.injEq] at h
    obtain ⟨rfl, rfl, _⟩ := h
    exact hty
  · split at h
    · simp at h
    · simp only [Option.some.injEq, Prod.mk.injEq] at h
      obtain ⟨rfl, rfl, _⟩ := h
      exact Expr.type_setType _ _

theorem TypeChecker.infer_of_typed (v : Virt) (checker : TypeChecker) (node : Expr) (type : Ty)
    (h : node.type = some type) : TypeChecker.infer v checker node = some (type, node, checker) := by
  unfold TypeChecker.infer
  simp [h]

/-! ## Claims on `deref`, `coerce` and `try_coerce` -/

/-- Claim C21: `TypeChecker::deref(expr)`, when `infer(expr)` is `ref T` (any mutability and
address space), returns `T` and replaces `expr` by an `ImplicitCastExpr` whose child is the
original expression (as `infer` leaves it, with the type `ref T` in its slot) and whose target
type is `T`; when `infer(expr)` is not a reference it returns that type and leaves `expr` as
`infer` leaves it.  An expression that has its type already is not touched by `infer`. -/
theorem deref_spec (v : Virt) (checker : TypeChecker) (expr : Expr) (t : Ty) (expr1 : Expr)
    (checker1 : TypeChecker) (h : TypeChecker.infer v checker expr = some (t, expr1, checker1)) :
    (∀ T is_mut addr_space, t = .ref T is_mut addr_space →
      TypeChecker.deref v checker expr =
        some (T, .implicitCast expr1.loc (some T) expr1, checker1)) ∧
    ((∀ T is_mut addr_space, t ≠ .ref T is_mut addr_space) →
      TypeChecker.deref v checker expr = some (t, expr1, checker1)) ∧
    expr1.type = some t ∧
    (expr.type.isSome = true → expr1 = expr ∧ checker1 = checker) := by
  refine ⟨?_, ?_, TypeChecker.infer_type v checker expr t expr1 checker1 h, ?_⟩
  · rintro T is_mut addr_space rfl
    simp [TypeChecker.deref, h, remove_ref, ImplicitCastExpr.mk]
  · intro hne
    unfold TypeChecker.deref
    rw [h]
    cases t <;> simp [remove_ref] at hne ⊢
  · intro hs
    obtain ⟨type, hty⟩ := Option.isSome_iff_exists.1 hs
    rw [TypeChecker.infer_of_typed v checker expr type hty] at h
    simp only [Option.some.injEq, Prod.mk.injEq] at h
    exact ⟨h.2.1.symm, h.2.2.symm⟩

/-- Witness of C21: a path with the type `ref mut i32` in its slot is wrapped in a cast to `i32`,
and a literal is left as it is, with its type `i32`. -/
theorem deref_spec_witness :
    TypeChecker.deref (Expr.virt 1) ⟨0, []⟩ (.path ⟨3, 4⟩ (some (.ref (.prim .I32) true 0)) 7) =
      some (.prim .I32,
        .implicitCast ⟨3, 4⟩ (some (.prim .I32)) (.path ⟨3, 4⟩ (some (.ref (.prim .I32) true 0)) 7),
        ⟨0, []⟩) ∧
    TypeChecker.deref (Expr.virt 1) ⟨0, []⟩ (.literal ⟨3, 4⟩ none (.integer 1)) =
      some (.prim .I32, .literal ⟨3, 4⟩ (some (.prim .I32)) (.integer 1), ⟨0, []⟩) :=
  ⟨(deref_spec (Expr.virt 1) ⟨0, []⟩ (.path ⟨3, 4⟩ (some (.ref (.prim .I32) true 0)) 7)
      (.ref (.prim .I32) true 0) (.path ⟨3, 4⟩ (some (.ref (.prim .I32) true 0)) 7) ⟨0, []⟩
      rfl).1 (.prim .I32) true 0 rfl,
   (deref_spec (Expr.virt 1) ⟨0, []⟩ (.literal ⟨3, 4⟩ none (.integer 1))
      (.prim .I32) (.literal ⟨3, 4⟩ (some (.prim .I32)) (.integer 1)) ⟨0, []⟩
      rfl).2.1 (by intro T m a; simp)⟩

theorem TypeChecker.coerce_eq_cast (v : Virt) (checker : TypeChecker) (expr : Expr)
    (expected : Ty) (himp : expected.isImplicitParam = false)
    (htup : is_tuple_type_with_implicits expected = false) :
    TypeChecker.coerce v checker expr expected =
      TypeChecker.coerce.cast v checker expr expected := by
  unfold TypeChecker.coerce
  cases expected <;> simp [Ty.isImplicitParam] at himp ⊢
  simp [htup]

/-- Claim C22: for `expected` that is neither an implicit-parameter type nor a tuple type
containing implicit parameters, let `T` be the type of `expr` obtained by checking it against
`expected` (or its already-assigned type).  `coerce(expr, expected)` returns `expected` and
leaves `expr` unchanged if `T == expected`; returns `expected` and wraps `expr` in an
`ImplicitCastExpr` to `expected` if `T != expected` and `T` is a subtype of `expected`; otherwise
returns `TypeError` (reporting incompatible types unless `T` or `expected` contains `TypeError`).
Hence the result is always `expected` or `TypeError`. -/
theorem coerce_spec (v : Virt) (checker : TypeChecker) (expr : Expr) (expected : Ty) (T : Ty)
    (expr1 : Expr) (checker1 : TypeChecker)
    (himp : expected.isImplicitParam = false)
    (htup : is_tuple_type_with_implicits expected = false)
    (h : TypeChecker.coerce.type_of v checker expr expected = some (T, expr1, checker1)) :
    (T = expected →
      TypeChecker.coerce v checker expr expected = some (expected, expr1, checker1)) ∧
    (T ≠ expected → T.subtype expected = true →
      TypeChecker.coerce v checker expr expected =
        some (expected, .implicitCast expr1.loc (some expected) expr1, checker1)) ∧
    (T ≠ expected → T.subtype expected = false →
      TypeChecker.coerce v checker expr expected =
        some (.typeError, expr1,
          if T.contains .typeError = true ∨ expected.contains .typeError = true then checker1
          else checker1.error expr1.loc (.expected_type_got_type expected T))) ∧
    (∃ r, TypeChecker.coerce v checker expr expected = some r ∧
      (r.1 = expected ∨ r.1 = .typeError)) := by
  rw [TypeChecker.coerce_eq_cast v checker expr expected himp htup]
  unfold TypeChecker.coerce.cast
  rw [h]
  by_cases hT : T = expected
  · subst hT
    simp
  · cases hs : T.subtype expected
    · simp only [ne_eq, hT, not_false_eq_true, if_true, hs, Bool.false_eq_true, if_false,
        false_implies, true_implies, implies_true, true_and]
      have hr : (checker1.incompatible_types expr1.loc T expected) =
          (Ty.typeError,
            if T.contains .typeError = true ∨ expected.contains .typeError = true then checker1
            else checker1.error expr1.loc (.expected_type_got_type expected T)) := by
        unfold TypeChecker.incompatible_types TypeChecker.should_report_error
        cases h1 : T.contains .typeError <;> cases h2 : expected.contains .typeError <;> simp
      rw [hr]
      exact ⟨rfl, _, rfl, Or.inr rfl⟩
    · simp [hT, hs, ImplicitCastExpr.mk]

/-- Witness of C22: the literal `2` checked against `u64` has the type `u64` and is left as it
is; a path of type `ref mut u64` is cast to `u64`. -/
theorem coerce_spec_witness :
    TypeChecker.coerce (Expr.virt 1) ⟨0, []⟩ (.literal ⟨3, 4⟩ none (.integer 2)) (.prim .U64) =
      some (.prim .U64, .literal ⟨3, 4⟩ (some (.prim .U64)) (.integer 2), ⟨0, []⟩) ∧
    TypeChecker.coerce (Expr.virt 1) ⟨0, []⟩ (.path ⟨3, 4⟩ (some (.ref (.prim .U64) true 0)) 7)
        (.prim .U64) =
      some (.prim .U64,
        .implicitCast ⟨3, 4⟩ (some (.prim .U64)) (.path ⟨3, 4⟩ (some (.ref (.prim .U64) true 0)) 7),
        ⟨0, []⟩) :=
  ⟨(coerce_spec (Expr.virt 1) ⟨0, []⟩ (.literal ⟨3, 4⟩ none (.integer 2)) (.prim .U64)
      (.prim .U64) (.literal ⟨3, 4⟩ (some (.prim .U64)) (.integer 2)) ⟨0, []⟩ rfl rfl rfl).1 rfl,
   (coerce_spec (Expr.virt 1) ⟨0, []⟩ (.path ⟨3, 4⟩ (some (.ref (.prim .U64) true 0)) 7)
      (.prim .U64) (.ref (.prim .U64) true 0)
      (.path ⟨3, 4⟩ (some (.ref (.prim .U64) true 0)) 7) ⟨0, []⟩ rfl rfl rfl).2.1
      (by decide) (by simp [Ty.subtype, Ty.isNoRet, Ty.isPtr, Ty.subtypeArray])⟩

theorem TypeChecker.try_coerce_of_not_enters (v : Virt) (checker : TypeChecker) (expr : Expr)
    (expected : Ty) (h : TypeChecker.try_coerce.enters expr expected = false) :
    TypeChecker.try_coerce v checker expr expected =
      if expected.variance_empty then TypeChecker.coerce v checker expr expected
      else TypeChecker.deref v checker expr := by
  cases expr with
  | tuple loc type args =>
    cases expected with
    | tuple targs =>
      have hne : ¬ targs.length = args.length := by
        simpa [TypeChecker.try_coerce.enters] using h
      rw [TypeChecker.try_coerce]
      simp [hne]
    | _ =>
      rw [TypeChecker.try_coerce]
      all_goals simp
  | _ =>
    rw [TypeChecker.try_coerce]
    all_goals simp

theorem TypeChecker.try_coerce_loop_length (v : Virt) :
    ∀ (args : List Expr) (targs : List Ty) (checker : TypeChecker)
      (r : List Ty × List Expr × TypeChecker), targs.length = args.length →
      TypeChecker.try_coerce.loop v checker args targs = some r →
      r.1.length = args.length ∧ r.2.1.length = args.length
  | [], [], checker, r, _, h => by
    simp only [TypeChecker.try_coerce.loop, Option.some.injEq] at h
    subst h
    simp
  | [], _ :: _, _, _, hlen, _ => by simp at hlen
  | _ :: _, [], _, _, hlen, _ => by simp at hlen
  | arg :: args, targ :: targs, checker, r, hlen, h => by
    rw [TypeChecker.try_coerce.loop] at h
    cases h1 : TypeChecker.try_coerce v checker arg targ with
    | none => simp [h1] at h
    | some r1 =>
      obtain ⟨type, arg1, checker1⟩ := r1
      simp only [h1] at h
      cases h2 : TypeChecker.try_coerce.loop v checker1 args targs with
      | none => simp [h2] at h
      | some r2 =>
        obtain ⟨arg_types, args1, checker2⟩ := r2
        simp only [h2, Option.some.injEq] at h
        subst h
        have ih := TypeChecker.try_coerce_loop_length v args targs checker1 _
          (by simpa using hlen) h2
        simp [ih.1, ih.2]

/-- Counterexample to C23 as stated: against `((T, u64), u64)` the first element of
`((1, 2), 3)` has an expected type with a free type variable, but it is not only dereferenced:
`try_coerce` gives it the type `(i32, u64)`, where `deref` gives `(i32, i32)`. -/
theorem try_coerce_nested_counterexample :
    (TypeChecker.try_coerce (Expr.virt 3) ⟨0, []⟩
      (.tuple ⟨0, 11⟩ none
        [.tuple ⟨1, 6⟩ none
          [.literal ⟨2, 2⟩ none (.integer 1), .literal ⟨5, 5⟩ none (.integer 2)],
         .literal ⟨9, 9⟩ none (.integer 3)])
      (.tuple [.tuple [.typeVar 0, .prim .U64], .prim .U64])).map (fun r => r.1) =
      some (.tuple [.tuple [.prim .I32, .prim .U64], .prim .U64]) ∧
    Ty.variance_empty (.tuple [.typeVar 0, .prim .U64]) = false ∧
    (TypeChecker.deref (Expr.virt 3) ⟨0, []⟩
      (.tuple ⟨1, 6⟩ none
        [.literal ⟨2, 2⟩ none (.integer 1), .literal ⟨5, 5⟩ none (.integer 2)])).map
      (fun r => r.1) = some (.tuple [.prim .I32, .prim .I32]) :=
  ⟨rfl, rfl, rfl⟩

/-- Claim C23, amended: for a tuple expression and an expected tuple type of the same arity,
`try_coerce` returns the tuple of the types that `try_coerce` returns for the elements, taken in
order, each in the state that the elements before it leave, and assigns it to the tuple
expression, whose arguments are the elements as `try_coerce` leaves them.  An element that is
itself a tuple expression against a tuple type of the same arity is entered in the same way,
whatever its expected type contains; any other element is coerced to its expected type when that
has no free type variable and is only dereferenced when it has. -/
theorem try_coerce_tuple (v : Virt) (checker : TypeChecker) (loc : Loc) (type : Option Ty)
    (args : List Expr) (targs : List Ty) (hlen : targs.length = args.length) :
    (TypeChecker.try_coerce v checker (.tuple loc type args) (.tuple targs) =
      (TypeChecker.try_coerce.loop v checker args targs).map
        (fun r => (.tuple r.1, .tuple loc (some (.tuple r.1)) r.2.1, r.2.2))) ∧
    (∀ r, TypeChecker.try_coerce.loop v checker args targs = some r →
      r.1.length = args.length ∧ r.2.1.length = args.length) ∧
    (∀ checker0, TypeChecker.try_coerce.loop v checker0 [] [] = some ([], [], checker0)) ∧
    (∀ checker0 arg rest targ trest,
      TypeChecker.try_coerce.loop v checker0 (arg :: rest) (targ :: trest) =
        (TypeChecker.try_coerce v checker0 arg targ).bind (fun r1 =>
          (TypeChecker.try_coerce.loop v r1.2.2 rest trest).map (fun r2 =>
            (r1.1 :: r2.1, r1.2.1 :: r2.2.1, r2.2.2)))) ∧
    (∀ checker0 arg targ, TypeChecker.try_coerce.enters arg targ = false →
      TypeChecker.try_coerce v checker0 arg targ =
        if targ.variance_empty then TypeChecker.coerce v checker0 arg targ
        else TypeChecker.deref v checker0 arg) := by
  refine ⟨?_, ?_, ?_, ?_, ?_⟩
  · rw [TypeChecker.try_coerce]
    simp only [hlen, if_true]
    cases TypeChecker.try_coerce.loop v checker args targs with
    | none => rfl
    | some r => rfl
  · intro r h
    exact TypeChecker.try_coerce_loop_length v args targs checker r hlen h
  · intro checker0
    simp [TypeChecker.try_coerce.loop]
  · intro checker0 arg rest targ trest
    rw [TypeChecker.try_coerce.loop]
    cases h1 : TypeChecker.try_coerce v checker0 arg targ with
    | none => rfl
    | some r1 =>
      obtain ⟨t1, a1, c1⟩ := r1
      cases h2 : TypeChecker.try_coerce.loop v c1 rest trest with
      | none => simp [h2]
      | some r2 => simp [h2]
  · intro checker0 arg targ h
    exact TypeChecker.try_coerce_of_not_enters v checker0 arg targ h

/-- Witness of C23: the argument `(1, 2)` against the domain `(T, u64)` of
`fn foo[T](x: T, y: u64)` gets the type `(i32, u64)`: the literal `2` gets the type `u64` and the
literal `1` defaults to `i32`. -/
theorem try_coerce_tuple_witness :
    TypeChecker.try_coerce (Expr.virt 1) ⟨0, []⟩
      (.tuple ⟨0, 6⟩ none
        [.literal ⟨1, 1⟩ none (.integer 1), .literal ⟨4, 4⟩ none (.integer 2)])
      (.tuple [.typeVar 0, .prim .U64]) =
      some (.tuple [.prim .I32, .prim .U64],
        .tuple ⟨0, 6⟩ (some (.tuple [.prim .I32, .prim .U64]))
          [.literal ⟨1, 1⟩ (some (.prim .I32)) (.integer 1),
           .literal ⟨4, 4⟩ (some (.prim .U64)) (.integer 2)], ⟨0, []⟩) :=
  ((try_coerce_tuple (Expr.virt 1) ⟨0, []⟩ ⟨0, 6⟩ none
    [.literal ⟨1, 1⟩ none (.integer 1), .literal ⟨4, 4⟩ none (.integer 2)]
    [.typeVar 0, .prim .U64] rfl).1).trans rfl

/-! ## Lemmas on `check_filter` -/

theorem TypeChecker.check_filter_report_spec (checker : TypeChecker) (loc : Loc)
    (a o m : Bool) (r : Bool × TypeChecker)
    (h : TypeChecker.check_filter.report checker loc a o m = some r) :
    r.1 = false ∧ r.2.errors = checker.errors + 1 := by
  unfold TypeChecker.check_filter.report at h
  simp only [] at h
  split at h
  · simp only [Option.some.injEq] at h; subst h; exact ⟨rfl, rfl⟩
  · split at h
    · simp only [Option.some.injEq] at h; subst h; exact ⟨rfl, rfl⟩
    · split at h
      · simp only [Option.some.injEq] at h; subst h; exact ⟨rfl, rfl⟩
      · simp only [Option.some.injEq] at h; subst h; exact ⟨rfl, rfl⟩

/-- A result `true` of `check_filter` comes without a report, a result `false` with one error at
most. -/
theorem TypeChecker.check_filter_errors :
    ∀ (expr : Expr) (checker : TypeChecker) (r : Bool × TypeChecker),
      TypeChecker.check_filter checker expr = some r →
      (r.1 = true → r.2 = checker) ∧
      (r.1 = false → r.2.errors = checker.errors ∨ r.2.errors = checker.errors + 1)
  | .binary loc type tag left right, checker, r, h => by
    simp only [TypeChecker.check_filter] at h
    split at h
    · cases h1 : TypeChecker.check_filter checker left with
      | none => simp [h1] at h
      | some r1 =>
        obtain ⟨b1, c1⟩ := r1
        have ih1 := TypeChecker.check_filter_errors left checker (b1, c1) h1
        cases b1 with
        | false =>
          simp only [h1, Option.some.injEq] at h
          subst h
          exact ⟨fun e => by simp at e, fun _ => ih1.2 rfl⟩
        | true =>
          simp only [h1] at h
          have ih2 := TypeChecker.check_filter_errors right c1 r h
          have e : c1 = checker := ih1.1 rfl
          rw [e] at ih2
          exact ih2
    · obtain ⟨k1, k2⟩ := TypeChecker.check_filter_report_spec _ _ _ _ _ r h
      exact ⟨fun e => by rw [k1] at e; simp at e, fun _ => Or.inr k2⟩
  | .unary loc type tag arg, checker, r, h => by
    cases tag <;> simp only [TypeChecker.check_filter] at h
    all_goals first
      | exact TypeChecker.check_filter_errors arg checker r h
      | (obtain ⟨k1, k2⟩ := TypeChecker.check_filter_report_spec _ _ _ _ _ r h
         exact ⟨fun e => by rw [k1] at e; simp at e, fun _ => Or.inr k2⟩)
  | .call loc type callee arg, checker, r, h => by
    simp only [TypeChecker.check_filter] at h
    cases hty : callee.type with
    | none => simp [hty] at h
    | some t =>
      simp only [hty] at h
      split at h
      · cases h1 : TypeChecker.check_filter checker callee with
        | none => simp [h1] at h
        | some r1 =>
          obtain ⟨b1, c1⟩ := r1
          have ih1 := TypeChecker.check_filter_errors callee checker (b1, c1) h1
          cases b1 with
          | false =>
            simp only [h1, Option.some.injEq] at h
            subst h
            exact ⟨fun e => by simp at e, fun _ => ih1.2 rfl⟩
          | true =>
            simp only [h1] at h
            have ih2 := TypeChecker.check_filter_errors arg c1 r h
            have e : c1 = checker := ih1.1 rfl
            rw [e] at ih2
            exact ih2
      · simp only [Option.some.injEq] at h
        subst h
        exact ⟨fun e => by simp at e, fun _ => Or.inl rfl⟩
  | .path loc type decl, checker, r, h => by
    simp only [TypeChecker.check_filter] at h
    split at h
    · simp at h
    · obtain ⟨k1, k2⟩ := TypeChecker.check_filter_report_spec _ _ _ _ _ r h
      exact ⟨fun e => by rw [k1] at e; simp at e, fun _ => Or.inr k2⟩
    · simp only [Option.some.injEq] at h
      subst h
      exact ⟨fun _ => rfl, fun e => by simp at e⟩
  | .literal loc type lit, checker, r, h => by
    simp only [TypeChecker.check_filter] at h
    simp only [Option.some.injEq] at h
    subst h
    exact ⟨fun _ => rfl, fun e => by simp at e⟩
  | .proj loc type expr field, checker, r, h => by
    simp only [TypeChecker.check_filter] at h
    exact TypeChecker.check_filter_errors expr checker r h
  | .tuple loc type args, checker, r, h => by
    simp only [TypeChecker.check_filter] at h
    obtain ⟨k1, k2⟩ := TypeChecker.check_filter_report_spec _ _ _ _ _ r h
    exact ⟨fun e => by rw [k1] at e; simp at e, fun _ => Or.inr k2⟩
  | .block loc type stmts last_semi, checker, r, h => by
    simp only [TypeChecker.check_filter] at h
    obtain ⟨k1, k2⟩ := TypeChecker.check_filter_report_spec _ _ _ _ _ r h
    exact ⟨fun e => by rw [k1] at e; simp at e, fun _ => Or.inr k2⟩
  | .exprStmt loc type expr, checker, r, h => by
    simp only [TypeChecker.check_filter] at h
    obtain ⟨k1, k2⟩ := TypeChecker.check_filter_report_spec _ _ _ _ _ r h
    exact ⟨fun e => by rw [k1] at e; simp at e, fun _ => Or.inr k2⟩
  | .implicitCast loc type expr, checker, r, h => by
    simp only [TypeChecker.check_filter] at h
    obtain ⟨k1, k2⟩ := TypeChecker.check_filter_report_spec _ _ _ _ _ r h
    exact ⟨fun e => by rw [k1] at e; simp at e, fun _ => Or.inr k2⟩
  | .summon loc type, checker, r, h => by
    simp only [TypeChecker.check_filter] at h
    obtain ⟨k1, k2⟩ := TypeChecker.check_filter_report_spec _ _ _ _ _ r h
    exact ⟨fun e => by rw [k1] at e; simp at e, fun _ => Or.inr k2⟩
  | .other loc type cls, checker, r, h => by
    simp only [TypeChecker.check_filter] at h
    obtain ⟨k1, k2⟩ := TypeChecker.check_filter_report_spec _ _ _ _ _ r h
    exact ⟨fun e => by rw [k1] at e; simp at e, fun _ => Or.inr k2⟩

/-! ## Claims on `check_filter`, on the address-of operator and on comparisons -/

/-- Claim C26, refuted by the code: for every call expression whose callee has a type that,
after stripping a reference, is not an array type, `check_filter` returns false and leaves the
checker as it is: no error is reported, where the claim says that an
`unsupported expression in filter` error is.  So a result false does not tell that an error was
reported: in general a result true comes without a report, and a result false with one error or
with none. -/
theorem check_filter_call_not_array (checker : TypeChecker) (loc : Loc) (type : Option Ty)
    (callee arg : Expr) (callee_type : Ty) (hty : callee.type = some callee_type)
    (harr : (remove_ref callee_type).2.isArray = false) :
    TypeChecker.check_filter checker (.call loc type callee arg) = some (false, checker) ∧
    (∀ (expr : Expr) (r : Bool × TypeChecker), TypeChecker.check_filter checker expr = some r →
      (r.1 = true → r.2 = checker) ∧
      (r.1 = false → r.2.errors = checker.errors ∨ r.2.errors = checker.errors + 1)) := by
  refine ⟨?_, fun expr r h => TypeChecker.check_filter_errors expr checker r h⟩
  rw [TypeChecker.check_filter]
  simp [hty, harr]

/-- Witness of C26: the call `f(1)` of a path of type `fn i32 -> i32`. -/
theorem check_filter_call_not_array_witness :
    TypeChecker.check_filter ⟨0, []⟩
      (.call ⟨0, 4⟩ (some (.prim .I32))
        (.path ⟨0, 1⟩ (some (.fn (.prim .I32) (.prim .I32))) 7)
        (.literal ⟨2, 3⟩ (some (.prim .I32)) (.integer 1))) = some (false, ⟨0, []⟩) :=
  (check_filter_call_not_array ⟨0, []⟩ ⟨0, 4⟩ (some (.prim .I32))
    (.path ⟨0, 1⟩ (some (.fn (.prim .I32) (.prim .I32))) 7)
    (.literal ⟨2, 3⟩ (some (.prim .I32)) (.integer 1)) (.fn (.prim .I32) (.prim .I32)) rfl
    rfl).1

/-- Counterexample to C29 as stated: `&1` on a literal reports no error and has the type
`&i32`, a pointer in the address space 0. -/
theorem addr_of_literal_counterexample :
    UnaryExpr.infer (Expr.virt 1) ⟨0, []⟩ ⟨0, 2⟩ .AddrOf (.literal ⟨1, 2⟩ none (.integer 1)) =
      some (.ptr (.prim .I32) false 0, .literal ⟨1, 2⟩ (some (.prim .I32)) (.integer 1),
        ⟨0, []⟩) :=
  rfl

/-- Claim C29, amended: `UnaryExpr::infer` for `&e` reports nothing itself and returns the
non-mut pointer `ptr(T, false, a)` when the inferred type of `e` is `ref T` in the address space
`a`, and the non-mut pointer `ptr(U, false, 0)` in the address space 0 when the inferred type `U`
of `e` is not a reference type; the operand is left as `infer` leaves it. -/
theorem addr_of_spec (v : Virt) (checker : TypeChecker) (loc : Loc) (arg : Expr) (t : Ty)
    (arg1 : Expr) (checker1 : TypeChecker)
    (h : TypeChecker.infer v checker arg = some (t, arg1, checker1)) :
    (∀ T is_mut a, t = .ref T is_mut a →
      UnaryExpr.infer v checker loc .AddrOf arg = some (.ptr T false a, arg1, checker1)) ∧
    ((∀ T is_mut a, t ≠ .ref T is_mut a) →
      UnaryExpr.infer v checker loc .AddrOf arg = some (.ptr t false 0, arg1, checker1)) := by
  constructor
  · rintro T is_mut a rfl
    simp [UnaryExpr.infer, h, remove_ref, UnaryTag.is_inc, UnaryTag.is_dec, Ty.addr_space]
  · intro hne
    unfold UnaryExpr.infer
    rw [h]
    cases t <;> simp [remove_ref, UnaryTag.is_inc, UnaryTag.is_dec] at hne ⊢

/-- Witness of C29: `&x` for a path `x` of type `ref mut i32` in the address space 1, and `&1`. -/
theorem addr_of_spec_witness :
    UnaryExpr.infer (Expr.virt 1) ⟨0, []⟩ ⟨0, 2⟩ .AddrOf
      (.path ⟨1, 2⟩ (some (.ref (.prim .I32) true 1)) 7) =
      some (.ptr (.prim .I32) false 1, .path ⟨1, 2⟩ (some (.ref (.prim .I32) true 1)) 7,
        ⟨0, []⟩) ∧
    UnaryExpr.infer (Expr.virt 1) ⟨5, []⟩ ⟨0, 2⟩ .AddrOf (.literal ⟨1, 2⟩ none (.integer 1)) =
      some (.ptr (.prim .I32) false 0, .literal ⟨1, 2⟩ (some (.prim .I32)) (.integer 1),
        ⟨5, []⟩) :=
  ⟨(addr_of_spec (Expr.virt 1) ⟨0, []⟩ ⟨0, 2⟩ (.path ⟨1, 2⟩ (some (.ref (.prim .I32) true 1)) 7)
      (.ref (.prim .I32) true 1) (.path ⟨1, 2⟩ (some (.ref (.prim .I32) true 1)) 7) ⟨0, []⟩
      rfl).1 (.prim .I32) true 1 rfl,
   (addr_of_spec (Expr.virt 1) ⟨5, []⟩ ⟨0, 2⟩ (.literal ⟨1, 2⟩ none (.integer 1))
      (.prim .I32) (.literal ⟨1, 2⟩ (some (.prim .I32)) (.integer 1)) ⟨5, []⟩
      rfl).2 (by intro T m a; simp)⟩

theorem TypeChecker.coerce_of_typed (v : Virt) (checker : TypeChecker) (expr : Expr)
    (expected : Ty) (himp : expected.isImplicitParam = false)
    (htup : is_tuple_type_with_implicits expected = false) (h : expr.type = some expected) :
    TypeChecker.coerce v checker expr expected = some (expected, expr, checker) := by
  rw [TypeChecker.coerce_eq_cast v checker expr expected himp htup]
  simp [TypeChecker.coerce.cast, TypeChecker.coerce.type_of, h]

theorem TypeChecker.type_expected_fst (checker : TypeChecker) (loc : Loc) (type : Ty)
    (name : String) : (checker.type_expected loc type name).1 = .typeError := by
  unfold TypeChecker.type_expected
  split <;> rfl

/-- Claim C30, refuted by the code: `BinaryExpr::infer` for a comparison operator
(`==`, `!=`, `<`, `>`, `<=`, `>=`) never returns a SIMD array of `Bool`: every result is `Bool`
or `TypeError`.  On two operands whose type is a SIMD array `simd[p * lanes]` of integers or
floating-point numbers, which it accepts without an error, it returns the scalar `Bool`, where
the claim says a SIMD array of `Bool` with `lanes` lanes. -/
theorem cmp_simd_returns_bool (v : Virt) (checker : TypeChecker) (loc : Loc) (tag : BinaryTag)
    (htag : tag.has_cmp = true) :
    (∀ left right r, BinaryExpr.infer v checker loc tag left right = some r →
      r.1 = .prim .Bool ∨ r.1 = .typeError) ∧
    (∀ (p : PrimTag) (lanes : Nat) (l1 l2 : Loc) (d1 d2 : Nat),
      is_int_or_float_type (.prim p) = true →
      BinaryExpr.infer v checker loc tag
        (.path l1 (some (.sizedArray (.prim p) lanes true)) d1)
        (.path l2 (some (.sizedArray (.prim p) lanes true)) d2) =
        some (.prim .Bool, .path l1 (some (.sizedArray (.prim p) lanes true)) d1,
          .path l2 (some (.sizedArray (.prim p) lanes true)) d2, checker)) := by
  have hlogic : tag.is_logic = false := by cases tag <;> simp_all [BinaryTag.has_cmp, BinaryTag.is_logic]
  have heq : tag.has_eq = false := by cases tag <;> simp_all [BinaryTag.has_cmp, BinaryTag.has_eq]
  constructor
  · intro left right r h
    unfold BinaryExpr.infer at h
    simp only [hlogic, heq, htag, Bool.false_eq_true, if_false, if_true] at h
    split at h
    · simp at h
    · split at h
      · simp only [Option.some.injEq] at h
        subst h
        exact Or.inr (TypeChecker.type_expected_fst _ _ _ _)
      · split at h
        · simp at h
        · simp only [Option.some.injEq] at h
          subst h
          exact Or.inl rfl
  · intro p lanes l1 l2 d1 d2 hp
    have hc : ∀ (c : TypeChecker) (l : Loc) (d : Nat),
        TypeChecker.coerce v c (.path l (some (.sizedArray (.prim p) lanes true)) d)
          (.sizedArray (.prim p) lanes true) =
          some (.sizedArray (.prim p) lanes true,
            .path l (some (.sizedArray (.prim p) lanes true)) d, c) :=
      fun c l d => TypeChecker.coerce_of_typed v c _ _ rfl rfl rfl
    have hi : TypeChecker.infer v checker (.path l1 (some (.sizedArray (.prim p) lanes true)) d1)
        = some (.sizedArray (.prim p) lanes true,
            .path l1 (some (.sizedArray (.prim p) lanes true)) d1, checker) :=
      TypeChecker.infer_of_typed v checker _ _ rfl
    have herr : BinaryExpr.infer.operand_error tag (.sizedArray (.prim p) lanes true) = none := by
      cases tag <;> simp [BinaryTag.has_cmp] at htag <;>
        simp [BinaryExpr.infer.operand_error, simd_elem, Ty.isPrim, BinaryTag.remove_eq, hp]
    unfold BinaryExpr.infer
    simp only [hlogic, heq, htag, Bool.false_eq_true, if_false, if_true, is_untyped,
      is_untyped_int_or_float_literal, Bool.not_false, Bool.and_false, hi, remove_ref, hc, herr]

/-- Witness of C30: `a < b` on two paths of type `simd[i32 * 4]` has the type `Bool`. -/
theorem cmp_simd_returns_bool_witness :
    BinaryExpr.infer (Expr.virt 1) ⟨0, []⟩ ⟨0, 5⟩ .CmpLT
      (.path ⟨0, 1⟩ (some (.sizedArray (.prim .I32) 4 true)) 7)
      (.path ⟨4, 5⟩ (some (.sizedArray (.prim .I32) 4 true)) 8) =
      some (.prim .Bool, .path ⟨0, 1⟩ (some (.sizedArray (.prim .I32) 4 true)) 7,
        .path ⟨4, 5⟩ (some (.sizedArray (.prim .I32) 4 true)) 8, ⟨0, []⟩) :=
  (cmp_simd_returns_bool (Expr.virt 1) ⟨0, []⟩ ⟨0, 5⟩ .CmpLT rfl).2 .I32 4 ⟨0, 1⟩ ⟨4, 5⟩ 7 8 rfl

/-! ## Claim on `check_block` -/

theorem TypeChecker.unreachable_code_errors (checker : TypeChecker) (before first last : Loc) :
    (checker.unreachable_code before first last).2.unreachable_errors =
      checker.unreachable_errors ++ [⟨.error, Loc.span first last, .unreachable_code⟩] ∧
    (checker.unreachable_code before first last).2.errors = checker.errors + 1 := by
  simp [TypeChecker.unreachable_code, TypeChecker.unreachable_errors, TypeChecker.error,
    TypeChecker.note, List.filter_append]

theorem TypeChecker.warn_unreachable_errors (checker : TypeChecker) (loc : Loc) (msg : Msg) :
    (checker.warn loc msg).unreachable_errors = checker.unreachable_errors ∧
    (checker.warn loc msg).errors = checker.errors := by
  simp [TypeChecker.warn, TypeChecker.unreachable_errors, List.filter_append]

/-- The errors that the loop of `check_block` reports: one for each statement but the last that
is jumping, from the statement after it to the last one. -/
theorem TypeChecker.check_block_loop_errors (last : Loc) :
    ∀ (stmts : List Stmt) (checker : TypeChecker),
      (TypeChecker.check_block.loop last checker stmts).unreachable_errors =
        checker.unreachable_errors ++
          ((stmts.zip stmts.tail).filter (fun p => p.1.is_jumping)).map
            (fun p => ⟨.error, Loc.span p.2.loc last, .unreachable_code⟩) ∧
      (TypeChecker.check_block.loop last checker stmts).errors =
        checker.errors + ((stmts.zip stmts.tail).filter (fun p => p.1.is_jumping)).length
  | [], checker => by simp [TypeChecker.check_block.loop]
  | [_], checker => by simp [TypeChecker.check_block.loop]
  | stmt :: next :: stmts, checker => by
    rw [TypeChecker.check_block.loop]
    have ih := TypeChecker.check_block_loop_errors last (next :: stmts)
    cases hj : stmt.is_jumping with
    | true =>
      obtain ⟨h1, h2⟩ := checker.unreachable_code_errors stmt.loc next.loc last
      obtain ⟨k1, k2⟩ := ih (checker.unreachable_code stmt.loc next.loc last).2
      simp only [if_true, k1, k2, h1, h2]
      simp [hj, List.filter_cons]
      omega
    | false =>
      cases hs : stmt.has_side_effect with
      | true =>
        obtain ⟨k1, k2⟩ := ih checker
        simp only [Bool.false_eq_true, if_false, Bool.not_true, k1, k2]
        simp [hj, List.filter_cons]
      | false =>
        obtain ⟨h1, h2⟩ := checker.warn_unreachable_errors stmt.loc .statement_with_no_effect
        obtain ⟨k1, k2⟩ := ih (checker.warn stmt.loc .statement_with_no_effect)
        simp only [Bool.false_eq_true, if_false, Bool.not_false, if_true, k1, k2, h1, h2]
        simp [hj, List.filter_cons]

/-- Claim C28: `check_block` on a non-empty statement list of length `n` reports an
`unreachable code` error for each index `i < n - 1` whose statement is jumping (the error spans
`stmts[i+1]` through the last statement), plus one more if `last_semi` is set and the last
statement is jumping, and reports no `unreachable code` error otherwise. -/
theorem check_block_unreachable (checker : TypeChecker) (loc : Loc) (stmts : List Stmt)
    (last_semi : Bool) (hne : stmts ≠ []) :
    ∃ checker1, checker.check_block loc stmts last_semi = some checker1 ∧
      checker1.unreachable_errors =
        checker.unreachable_errors ++
          ((stmts.zip stmts.tail).filter (fun p => p.1.is_jumping)).map
            (fun p => ⟨.error, Loc.span p.2.loc (stmts.getLast hne).loc, .unreachable_code⟩) ++
          (if last_semi = true ∧ (stmts.getLast hne).is_jumping = true then
            [⟨.error, Loc.span (stmts.getLast hne).loc.at_end loc.at_end, .unreachable_code⟩]
          else []) ∧
      checker1.errors =
        checker.errors + ((stmts.zip stmts.tail).filter (fun p => p.1.is_jumping)).length +
          (if last_semi = true ∧ (stmts.getLast hne).is_jumping = true then 1 else 0) := by
  have hlast : stmts.getLast? = some (stmts.getLast hne) := List.getLast?_eq_getLast _ hne
  obtain ⟨k1, k2⟩ := TypeChecker.check_block_loop_errors (stmts.getLast hne).loc stmts checker
  unfold TypeChecker.check_block
  rw [hlast]
  by_cases hc : last_semi = true ∧ (stmts.getLast hne).is_jumping = true
  · obtain ⟨h1, h2⟩ := (TypeChecker.check_block.loop (stmts.getLast hne).loc checker
      stmts).unreachable_code_errors (stmts.getLast hne).loc (stmts.getLast hne).loc.at_end
      loc.at_end
    refine ⟨((TypeChecker.check_block.loop (stmts.getLast hne).loc checker
      stmts).unreachable_code (stmts.getLast hne).loc (stmts.getLast hne).loc.at_end
      loc.at_end).2, by simp [hc.1, hc.2], ?_, ?_⟩
    · rw [h1, k1, if_pos hc]
    · rw [h2, k2, if_pos hc]
  · have hc2 : (last_semi && (stmts.getLast hne).is_jumping) = false := by
      cases last_semi <;> cases h : (stmts.getLast hne).is_jumping <;> simp_all
    refine ⟨TypeChecker.check_block.loop (stmts.getLast hne).loc checker stmts,
      by simp [hc2], ?_, ?_⟩
    · rw [k1, if_neg hc]; simp
    · rw [k2, if_neg hc]; simp

/-- Witness of C28: in the block `return 0; let x = 1; x`, where the `return` statement is
jumping, one error is reported, which spans the `let` and the trailing `x`. -/
theorem check_block_unreachable_witness :
    ∃ checker1,
      TypeChecker.check_block ⟨0, []⟩ ⟨0, 26⟩
        [⟨⟨2, 10⟩, true, true⟩, ⟨⟨12, 22⟩, false, true⟩, ⟨⟨24, 24⟩, false, false⟩] false =
        some checker1 ∧
      checker1.unreachable_errors = [⟨.error, ⟨12, 24⟩, .unreachable_code⟩] ∧
      checker1.errors = 1 := by
  obtain ⟨checker1, h1, h2, h3⟩ := check_block_unreachable ⟨0, []⟩ ⟨0, 26⟩
    [⟨⟨2, 10⟩, true, true⟩, ⟨⟨12, 22⟩, false, true⟩, ⟨⟨24, 24⟩, false, false⟩] false (by simp)
  exact ⟨checker1, h1, by simpa [TypeChecker.unreachable_errors, Loc.span] using h2,
    by simpa using h3⟩

/-! ## Lemmas on `infer_type_args` -/

theorem TypeChecker.infer_type_args.index_lt (params : List (Option Ty)) (var : Ty)
    (h : some var ∈ params) : TypeChecker.infer_type_args.index params var < params.length := by
  unfold TypeChecker.infer_type_args.index
  exact List.findIdx_lt_length_of_exists ⟨some var, h, by simp⟩

theorem TypeChecker.infer_type_args.index_get (params : List (Option Ty)) (var : Ty)
    (h : TypeChecker.infer_type_args.index params var < params.length) :
    params[TypeChecker.infer_type_args.index params var]? = some (some var) := by
  unfold TypeChecker.infer_type_args.index at h ⊢
  have := @List.findIdx_getElem _ (fun param => decide (param = some var)) params h
  rw [List.getElem?_eq_getElem h]
  simpa using this

theorem TypeChecker.infer_type_args.index_ne (params : List (Option Ty)) (v1 v2 : Ty)
    (h1 : some v1 ∈ params) (h2 : some v2 ∈ params) (hne : v1 ≠ v2) :
    TypeChecker.infer_type_args.index params v1 ≠ TypeChecker.infer_type_args.index params v2 := by
  intro e
  have g1 := TypeChecker.infer_type_args.index_get params v1
    (TypeChecker.infer_type_args.index_lt params v1 h1)
  have g2 := TypeChecker.infer_type_args.index_get params v2
    (TypeChecker.infer_type_args.index_lt params v2 h2)
  rw [e, g2] at g1
  simp only [Option.some.injEq] at g1
  exact hne g1.symm

theorem TypeChecker.infer_type_args.index_eq_of_get (params : List (Option Ty))
    (hnd : params.Nodup) (var : Ty) (i : Nat) (h : params[i]? = some (some var)) :
    TypeChecker.infer_type_args.index params var = i := by
  have hi : i < params.length := by
    rcases Nat.lt_or_ge i params.length with hlt | hge
    · exact hlt
    · rw [List.getElem?_eq_none hge] at h
      simp at h
  have hmem : some var ∈ params := List.getElem?_mem h
  have hj := TypeChecker.infer_type_args.index_lt params var hmem
  have g := TypeChecker.infer_type_args.index_get params var hj
  rw [List.getElem?_eq_getElem hj] at g
  rw [List.getElem?_eq_getElem hi] at h
  simp only [Option.some.injEq] at g h
  exact (hnd.getElem_inj_iff).1 (g.trans h.symm)

theorem TypeChecker.invalid_constraint_errors (checker : TypeChecker) (loc : Loc) (var : Ty)
    (type_arg : Option Ty) (lower upper : Ty) :
    (checker.invalid_constraint loc var type_arg lower upper).errors = checker.errors + 1 ∧
    ∃ d : Diag, d.msg.is_type_arg_error = true ∧
      (checker.invalid_constraint loc var type_arg lower upper).error_diags =
        checker.error_diags ++ [d] := by
  unfold TypeChecker.invalid_constraint
  cases type_arg with
  | none =>
    refine ⟨?_, ⟨.error, loc, .cannot_infer_type_argument var⟩, rfl, ?_⟩
    · simp only []
      split
      · split <;> rfl
      · rfl
    · simp only []
      split
      · split <;> simp [TypeChecker.error_diags, TypeChecker.error, TypeChecker.note_text,
          List.filter_append]
      · simp [TypeChecker.error_diags, TypeChecker.error, List.filter_append]
  | some a =>
    refine ⟨?_, ⟨.error, loc, .invalid_type_argument a var⟩, rfl, ?_⟩
    · simp only []
      split
      · split <;> rfl
      · rfl
    · simp only []
      split
      · split <;> simp [TypeChecker.error_diags, TypeChecker.error, TypeChecker.note_text,
          List.filter_append]
      · simp [TypeChecker.error_diags, TypeChecker.error, List.filter_append]

theorem TypeBounds.accepted_iff (bounds : TypeBounds) :
    bounds.accepted ↔
      (!bounds.lower.subtype bounds.upper || bounds.lower.isTop || bounds.upper.isBottom) =
        false := by
  unfold TypeBounds.accepted
  cases h1 : bounds.lower.subtype bounds.upper <;> cases h2 : bounds.lower <;>
    cases h3 : bounds.upper <;> simp [Ty.isTop, Ty.isBottom]

theorem TypeChecker.infer_type_args.choice_eq (variance : TypeVariance) (bounds : TypeBounds) :
    TypeChecker.infer_type_args.choice variance bounds =
      if variance = .Contravariant then bounds.upper else bounds.lower := by
  cases variance <;> simp [TypeChecker.infer_type_args.choice]

/-- What the first loop of `infer_type_args` does. -/
theorem TypeChecker.infer_type_args_loop_spec (loc : Loc) (params : List (Option Ty))
    (variance : Ty → TypeVariance) :
    ∀ (bounds : List (Ty × TypeBounds)) (type_args : List (Option Ty)) (checker : TypeChecker),
      (bounds.map (fun bound => bound.1)).Nodup →
      (∀ bound ∈ bounds, some bound.1 ∈ params) →
      type_args.length = params.length →
      ∃ (b : Bool) (type_args1 : List (Option Ty)) (checker1 : TypeChecker),
        TypeChecker.infer_type_args.loop loc params variance checker bounds type_args =
          some (b, type_args1, checker1) ∧
        type_args1.length = type_args.length ∧
        (b = true ↔ TypeChecker.infer_type_args.supplied_ok params bounds type_args ∧
          TypeChecker.infer_type_args.inferable params bounds type_args) ∧
        (b = true → checker1 = checker) ∧
        (b = false → checker1.errors = checker.errors + 1 ∧
          ∃ d : Diag, d.msg.is_type_arg_error = true ∧
            checker1.error_diags = checker.error_diags ++ [d]) ∧
        (∀ (i : Nat) (A : Ty), type_args[i]? = some (some A) → type_args1[i]? = some (some A)) ∧
        (∀ i : Nat, (∀ bound ∈ bounds, TypeChecker.infer_type_args.index params bound.1 ≠ i) →
          type_args1[i]? = type_args[i]?) ∧
        (b = true → ∀ bound ∈ bounds,
          type_args[TypeChecker.infer_type_args.index params bound.1]? = some none →
          type_args1[TypeChecker.infer_type_args.index params bound.1]? =
            some (some (TypeChecker.infer_type_args.choice (variance bound.1) bound.2))) ∧
        (∀ (i : Nat) (A : Ty), type_args[i]? = some none → type_args1[i]? = some (some A) →
          ∃ bound ∈ bounds, TypeChecker.infer_type_args.index params bound.1 = i ∧
            bound.2.accepted ∧
            A = TypeChecker.infer_type_args.choice (variance bound.1) bound.2)
  | [], type_args, checker, _, _, _ => by
    refine ⟨true, type_args, checker, rfl, rfl, ?_, fun _ => rfl, fun h => by simp at h,
      fun i A h => h, fun i _ => rfl, fun _ bound hb => by simp at hb, ?_⟩
    · simp [TypeChecker.infer_type_args.supplied_ok, TypeChecker.infer_type_args.inferable]
    · intro i A h1 h2
      rw [h1] at h2
      simp at h2
  | bound :: bounds, type_args, checker, hnd, hin, hlen => by
    have hidx := TypeChecker.infer_type_args.index_lt params bound.1
      (hin bound (List.mem_cons_self _ _))
    have hnd2 := List.nodup_cons.1 (by simpa using hnd : (bound.1 :: bounds.map
      (fun bound => bound.1)).Nodup)
    have hin2 : ∀ b ∈ bounds, some b.1 ∈ params :=
      fun b hb => hin b (List.mem_cons_of_mem _ hb)
    have hne : ∀ b ∈ bounds, TypeChecker.infer_type_args.index params b.1 ≠
        TypeChecker.infer_type_args.index params bound.1 := by
      intro b hb
      apply TypeChecker.infer_type_args.index_ne params b.1 bound.1 (hin2 b hb)
        (hin bound (List.mem_cons_self _ _))
      intro e
      exact hnd2.1 (e ▸ List.mem_map_of_mem (fun bound => bound.1) hb)
    have hlt : TypeChecker.infer_type_args.index params bound.1 < type_args.length := by
      rw [hlen]; exact hidx
    rw [TypeChecker.infer_type_args.loop]
    simp only [hidx, if_true]
    rw [List.getElem?_eq_getElem hlt]
    cases hx : type_args[TypeChecker.infer_type_args.index params bound.1] with
    | some A =>
      have hxs : type_args[TypeChecker.infer_type_args.index params bound.1]? = some (some A) := by
        rw [List.getElem?_eq_getElem hlt, hx]
      simp only []
      by_cases hrej : (!A.subtype bound.2.upper || !bound.2.lower.subtype A) = true
      · simp only [hrej, if_true]
        obtain ⟨e1, e2⟩ := checker.invalid_constraint_errors loc bound.1 (some A) bound.2.lower
          bound.2.upper
        refine ⟨false, type_args, _, rfl, rfl, ?_, fun h => by simp at h, fun _ => ⟨e1, e2⟩,
          fun i A h => h, fun i _ => rfl, fun h => by simp at h, ?_⟩
        · constructor
          · intro h; simp at h
          · rintro ⟨hs, _⟩
            have := hs bound (List.mem_cons_self _ _) A hxs
            rw [this.1, this.2] at hrej
            simp at hrej
        · intro i B h1 h2
          rw [h1] at h2
          simp at h2
      · simp only [hrej, if_false]
        simp only [Bool.or_eq_true, Bool.not_eq_true', not_or, Bool.not_eq_false] at hrej
        obtain ⟨b, ta1, c1, h1, h2, h3, h4, h5, h6, h7, h8, h9⟩ :=
          TypeChecker.infer_type_args_loop_spec loc params variance bounds type_args checker
            hnd2.2 hin2 hlen
        refine ⟨b, ta1, c1, h1, h2, ?_, h4, h5, h6, ?_, ?_, ?_⟩
        · rw [h3]
          constructor
          · rintro ⟨k1, k2⟩
            constructor
            · intro bd hbd B hB
              rcases List.mem_cons.1 hbd with rfl | hbd
              · rw [hxs] at hB
                simp only [Option.some.injEq] at hB
                subst hB
                exact ⟨hrej.2, hrej.1⟩
              · exact k1 bd hbd B hB
            · intro bd hbd hB
              rcases List.mem_cons.1 hbd with rfl | hbd
              · rw [hxs] at hB
                simp at hB
              · exact k2 bd hbd hB
          · rintro ⟨k1, k2⟩
            exact ⟨fun bd hbd => k1 bd (List.mem_cons_of_mem _ hbd),
              fun bd hbd => k2 bd (List.mem_cons_of_mem _ hbd)⟩
        · intro i hi
          exact h7 i (fun bd hbd => hi bd (List.mem_cons_of_mem _ hbd))
        · intro hb bd hbd hB
          rcases List.mem_cons.1 hbd with rfl | hbd
          · rw [hxs] at hB
            simp at hB
          · exact h8 hb bd hbd hB
        · intro i B k1 k2
          obtain ⟨bd, hbd, k3⟩ := h9 i B k1 k2
          exact ⟨bd, List.mem_cons_of_mem _ hbd, k3⟩
    | none =>
      have hxs : type_args[TypeChecker.infer_type_args.index params bound.1]? = some none := by
        rw [List.getElem?_eq_getElem hlt, hx]
      simp only []
      by_cases hrej : (!bound.2.lower.subtype bound.2.upper || bound.2.lower.isTop ||
          bound.2.upper.isBottom) = true
      · simp only [hrej, if_true]
        obtain ⟨e1, e2⟩ := checker.invalid_constraint_errors loc bound.1 none bound.2.lower
          bound.2.upper
        refine ⟨false, type_args, _, rfl, rfl, ?_, fun h => by simp at h, fun _ => ⟨e1, e2⟩,
          fun i A h => h, fun i _ => rfl, fun h => by simp at h, ?_⟩
        · constructor
          · intro h; simp at h
          · rintro ⟨_, hs⟩
            have := (TypeBounds.accepted_iff bound.2).1 (hs bound (List.mem_cons_self _ _) hxs)
            rw [this] at hrej
            simp at hrej
        · intro i B h1 h2
          rw [h1] at h2
          simp at h2
      · simp only [hrej, if_false]
        have hacc : bound.2.accepted :=
          (TypeBounds.accepted_iff bound.2).2 (by simpa using hrej)
        have hset : ∀ i, i ≠ TypeChecker.infer_type_args.index params bound.1 →
            (type_args.set (TypeChecker.infer_type_args.index params bound.1)
              (some (TypeChecker.infer_type_args.choice (variance bound.1) bound.2)))[i]? =
              type_args[i]? := by
          intro i hi
          exact List.getElem?_set_ne (Ne.symm hi)
        obtain ⟨b, ta1, c1, h1, h2, h3, h4, h5, h6, h7, h8, h9⟩ :=
          TypeChecker.infer_type_args_loop_spec loc params variance bounds
            (type_args.set (TypeChecker.infer_type_args.index params bound.1)
              (some (TypeChecker.infer_type_args.choice (variance bound.1) bound.2))) checker
            hnd2.2 hin2 (by simpa using hlen)
        have hhead : ta1[TypeChecker.infer_type_args.index params bound.1]? =
            some (some (TypeChecker.infer_type_args.choice (variance bound.1) bound.2)) := by
          rw [h7 _ hne]
          exact List.getElem?_set_self hlt
        refine ⟨b, ta1, c1, h1, by simpa using h2, ?_, h4, h5, ?_, ?_, ?_, ?_⟩
        · rw [h3]
          constructor
          · rintro ⟨k1, k2⟩
            constructor
            · intro bd hbd B hB
              rcases List.mem_cons.1 hbd with rfl | hbd
              · rw [hxs] at hB
                simp at hB
              · exact k1 bd hbd B (by rw [hset _ (hne bd hbd)]; exact hB)
            · intro bd hbd hB
              rcases List.mem_cons.1 hbd with rfl | hbd
              · exact hacc
              · exact k2 bd hbd (by rw [hset _ (hne bd hbd)]; exact hB)
          · rintro ⟨k1, k2⟩
            constructor
            · intro bd hbd B hB
              exact k1 bd (List.mem_cons_of_mem _ hbd) B (by rw [← hset _ (hne bd hbd)]; exact hB)
            · intro bd hbd hB
              exact k2 bd (List.mem_cons_of_mem _ hbd) (by rw [← hset _ (hne bd hbd)]; exact hB)
        · intro i B hB
          apply h6
          rw [hset]
          · exact hB
          · intro e
            rw [e, hxs] at hB
            simp at hB
        · intro i hi
          rw [h7 i (fun bd hbd => hi bd (List.mem_cons_of_mem _ hbd))]
          exact hset i (Ne.symm (hi bound (List.mem_cons_self _ _)))
        · intro hb bd hbd hB
          rcases List.mem_cons.1 hbd with rfl | hbd
          · exact hhead
          · exact h8 hb bd hbd (by rw [hset _ (hne bd hbd)]; exact hB)
        · intro i B k1 k2
          by_cases hi : i = TypeChecker.infer_type_args.index params bound.1
          · subst hi
            rw [hhead] at k2
            simp only [Option.some.injEq] at k2
            exact ⟨bound, List.mem_cons_self _ _, rfl, hacc, k2.symm⟩
          · obtain ⟨bd, hbd, k3⟩ := h9 i B (by rw [hset i hi]; exact k1) k2
            exact ⟨bd, List.mem_cons_of_mem _ hbd, k3⟩

/-- What the second loop of `infer_type_args` does. -/
theorem TypeChecker.infer_type_args_unresolved_spec (loc : Loc) (params : List (Option Ty))
    (htyped : ∀ p ∈ params, p ≠ none) :
    ∀ (type_args : List (Option Ty)) (i : Nat) (checker : TypeChecker),
      i + type_args.length ≤ params.length →
      ∃ (b : Bool) (checker1 : TypeChecker),
        TypeChecker.infer_type_args.unresolved loc params checker i type_args =
          some (b, checker1) ∧
        (b = true ↔ ∀ x ∈ type_args, x ≠ none) ∧
        (b = true → checker1 = checker) ∧
        (b = false → checker1.errors = checker.errors + 1 ∧
          ∃ d : Diag, d.msg.is_type_arg_error = true ∧
            checker1.error_diags = checker.error_diags ++ [d])
  | [], i, checker, _ => ⟨true, checker, rfl, by simp, fun _ => rfl, fun h => by simp at h⟩
  | some A :: type_args, i, checker, hle => by
    obtain ⟨b, c1, h1, h2, h3, h4⟩ :=
      TypeChecker.infer_type_args_unresolved_spec loc params htyped type_args (i + 1) checker
        (by simp only [List.length_cons] at hle; omega)
    refine ⟨b, c1, ?_, ?_, h3, h4⟩
    · rw [TypeChecker.infer_type_args.unresolved]
      exact h1
    · rw [h2]
      simp
  | none :: type_args, i, checker, hle => by
    have hi : i < params.length := by simp only [List.length_cons] at hle; omega
    have hp := htyped params[i] (List.getElem_mem hi)
    cases hx : params[i] with
    | none => exact absurd hx hp
    | some var =>
      refine ⟨false, checker.error loc (.cannot_infer_type_argument var), ?_, by simp,
        fun h => by simp at h, fun _ => ⟨rfl, ⟨.error, loc, .cannot_infer_type_argument var⟩,
          rfl, ?_⟩⟩
      · rw [TypeChecker.infer_type_args.unresolved, List.getElem?_eq_getElem hi, hx]
      · simp [TypeChecker.error_diags, TypeChecker.error, List.filter_append]

/-! ## Claims on `infer_type_args` -/

/-- Claim C24: in `infer_type_args`, for each type variable with computed bounds
`[lower, upper]` and no user-supplied argument, when the bounds are accepted the chosen type
argument is `lower` if the variable's variance in the codomain is Constant, Covariant or
Invariant, and `upper` if it is Contravariant; a user-supplied argument is never overwritten.
The bounds are a map, so no variable has two entries, and every bound variable is the type of a
type parameter. -/
theorem infer_type_args_choice (checker : TypeChecker) (loc : Loc) (params : List (Option Ty))
    (bounds : List (Ty × TypeBounds)) (variance : Ty → TypeVariance)
    (type_args : List (Option Ty))
    (hkeys : (bounds.map (fun bound => bound.1)).Nodup)
    (hin : ∀ bound ∈ bounds, some bound.1 ∈ params)
    (hlen : type_args.length = params.length)
    (b : Bool) (type_args1 : List (Option Ty)) (checker1 : TypeChecker)
    (h : checker.infer_type_args loc params bounds variance type_args =
      some (b, type_args1, checker1)) :
    (∀ (i : Nat) (A : Ty), type_args[i]? = some (some A) → type_args1[i]? = some (some A)) ∧
    (b = true → ∀ bound ∈ bounds,
      type_args[TypeChecker.infer_type_args.index params bound.1]? = some none →
      type_args1[TypeChecker.infer_type_args.index params bound.1]? =
        some (some (if variance bound.1 = .Contravariant then bound.2.upper
          else bound.2.lower))) ∧
    (∀ (i : Nat) (A : Ty), type_args[i]? = some none → type_args1[i]? = some (some A) →
      ∃ bound ∈ bounds, TypeChecker.infer_type_args.index params bound.1 = i ∧
        bound.2.accepted ∧
        A = if variance bound.1 = .Contravariant then bound.2.upper else bound.2.lower) := by
  obtain ⟨b0, ta1, c1, h1, _, _, _, _, h6, _, h8, h9⟩ :=
    TypeChecker.infer_type_args_loop_spec loc params variance bounds type_args checker hkeys hin
      hlen
  have hta : type_args1 = ta1 ∧ (b = true → b0 = true) := by
    unfold TypeChecker.infer_type_args at h
    rw [h1] at h
    cases b0 with
    | false =>
      simp only [Option.some.injEq, Prod.mk.injEq] at h
      exact ⟨h.2.1.symm, fun hb => by rw [hb] at h; exact absurd h.1 (by simp)⟩
    | true =>
      simp only [] at h
      split at h
      · simp at h
      · simp only [Option.some.injEq, Prod.mk.injEq] at h
        exact ⟨h.2.1.symm, fun _ => rfl⟩
  obtain ⟨rfl, hb0⟩ := hta
  refine ⟨h6, ?_, ?_⟩
  · intro hb bound hbound hnone
    rw [← TypeChecker.infer_type_args.choice_eq]
    exact h8 (hb0 hb) bound hbound hnone
  · intro i A k1 k2
    obtain ⟨bound, hbound, k3, k4, k5⟩ := h9 i A k1 k2
    exact ⟨bound, hbound, k3, k4, by rw [← TypeChecker.infer_type_args.choice_eq]; exact k5⟩

/-- Witness of C24: with three type parameters `T`, `U`, `V`, the argument `i64` supplied for
`V`, and the bounds `[&mut i32, &i32]` for `T` and for `U`, the covariant `T` gets the lower
bound `&mut i32`, the contravariant `U` gets the upper bound `&i32`, and `V` keeps `i64`. -/
theorem infer_type_args_choice_witness :
    TypeChecker.infer_type_args ⟨0, []⟩ ⟨0, 0⟩
      [some (.typeVar 0), some (.typeVar 1), some (.typeVar 2)]
      [(.typeVar 1, ⟨.ptr (.prim .I32) true 0, .ptr (.prim .I32) false 0⟩),
       (.typeVar 0, ⟨.ptr (.prim .I32) true 0, .ptr (.prim .I32) false 0⟩)]
      (fun var => if var = .typeVar 1 then .Contravariant else .Covariant)
      [none, none, some (.prim .I64)] =
      some (true, [some (.ptr (.prim .I32) true 0), some (.ptr (.prim .I32) false 0),
        some (.prim .I64)], ⟨0, []⟩) ∧
    ([some (.ptr (.prim .I32) true 0), some (.ptr (.prim .I32) false 0),
        some (.prim .I64)] : List (Option Ty))[2]? = some (some (.prim .I64)) := by
  have h : TypeChecker.infer_type_args ⟨0, []⟩ ⟨0, 0⟩
      [some (.typeVar 0), some (.typeVar 1), some (.typeVar 2)]
      [(.typeVar 1, ⟨.ptr (.prim .I32) true 0, .ptr (.prim .I32) false 0⟩),
       (.typeVar 0, ⟨.ptr (.prim .I32) true 0, .ptr (.prim .I32) false 0⟩)]
      (fun var => if var = .typeVar 1 then .Contravariant else .Covariant)
      [none, none, some (.prim .I64)] =
      some (true, [some (.ptr (.prim .I32) true 0), some (.ptr (.prim .I32) false 0),
        some (.prim .I64)], ⟨0, []⟩) := by
    simp [TypeChecker.infer_type_args, TypeChecker.infer_type_args.loop,
      TypeChecker.infer_type_args.index, TypeChecker.infer_type_args.unresolved,
      TypeChecker.infer_type_args.choice, List.findIdx_cons, Ty.subtype, Ty.isNoRet, Ty.isPtr,
      Ty.subtypeArray, Ty.isTop, Ty.isBottom, Ty.isRef]
  exact ⟨h, (infer_type_args_choice ⟨0, []⟩ ⟨0, 0⟩
      [some (.typeVar 0), some (.typeVar 1), some (.typeVar 2)]
      [(.typeVar 1, ⟨.ptr (.prim .I32) true 0, .ptr (.prim .I32) false 0⟩),
       (.typeVar 0, ⟨.ptr (.prim .I32) true 0, .ptr (.prim .I32) false 0⟩)]
      (fun var => if var = .typeVar 1 then .Contravariant else .Covariant)
      [none, none, some (.prim .I64)] (by decide) (by decide) rfl
      true _ ⟨0, []⟩ h).1 2 (.prim .I64) rfl⟩

/-- Claim C25: `infer_type_args` returns true if and only if (a) for every bounded variable with
a user-supplied argument `A`, `lower <: A` and `A <: upper`, (b) for every bounded variable
without a supplied argument, `lower <: upper` and `lower` is not `Top` and `upper` is not
`Bottom`, and (c) every type parameter either has a supplied argument or occurs in the bounds;
when it returns true every entry of `type_args` is set, and when it returns false exactly one
error (an invalid-constraint or cannot-infer-type-argument error) has been reported.  The bounds
are a map over the types of the type parameters, which are distinct type variables, and there is
one entry of `type_args` for each type parameter. -/
theorem infer_type_args_spec (checker : TypeChecker) (loc : Loc) (params : List (Option Ty))
    (bounds : List (Ty × TypeBounds)) (variance : Ty → TypeVariance)
    (type_args : List (Option Ty))
    (hkeys : (bounds.map (fun bound => bound.1)).Nodup)
    (hin : ∀ bound ∈ bounds, some bound.1 ∈ params)
    (hparams : params.Nodup) (htyped : ∀ p ∈ params, p ≠ none)
    (hlen : type_args.length = params.length) :
    ∃ (b : Bool) (type_args1 : List (Option Ty)) (checker1 : TypeChecker),
      checker.infer_type_args loc params bounds variance type_args =
        some (b, type_args1, checker1) ∧
      (b = true ↔ TypeChecker.infer_type_args.supplied_ok params bounds type_args ∧
        TypeChecker.infer_type_args.inferable params bounds type_args ∧
        TypeChecker.infer_type_args.covered params bounds type_args) ∧
      (b = true → (∀ x ∈ type_args1, x ≠ none) ∧ checker1 = checker) ∧
      (b = false → checker1.errors = checker.errors + 1 ∧
        ∃ d : Diag, d.msg.is_type_arg_error = true ∧
          checker1.error_diags = checker.error_diags ++ [d]) := by
  obtain ⟨b0, ta1, c1, h1, h2, h3, h4, h5, h6, h7, h8, h9⟩ :=
    TypeChecker.infer_type_args_loop_spec loc params variance bounds type_args checker hkeys hin
      hlen
  unfold TypeChecker.infer_type_args
  rw [h1]
  cases b0 with
  | false =>
    refine ⟨false, ta1, c1, rfl, ?_, fun h => by simp at h, fun _ => h5 rfl⟩
    constructor
    · intro h; simp at h
    · rintro ⟨k1, k2, _⟩
      exact absurd (h3.2 ⟨k1, k2⟩) (by simp)
  | true =>
    obtain ⟨b, c2, u1, u2, u3, u4⟩ :=
      TypeChecker.infer_type_args_unresolved_spec loc params htyped ta1 0 c1
        (by rw [h2, hlen]; omega)
    have hc1 := h4 rfl
    have hok := h3.1 rfl
    have hcov : (∀ x ∈ ta1, x ≠ none) ↔
        TypeChecker.infer_type_args.covered params bounds type_args := by
      constructor
      · intro hall i hi
        have hi1 : i < type_args.length := by rw [hlen]; exact hi
        have hi2 : i < ta1.length := by rw [h2]; exact hi1
        cases hx : type_args[i] with
        | some A => exact Or.inl ⟨A, by rw [List.getElem?_eq_getElem hi1, hx]⟩
        | none =>
          right
          have hy := hall ta1[i] (List.getElem_mem hi2)
          cases hz : ta1[i] with
          | none => exact absurd hz hy
          | some B =>
            obtain ⟨bound, hbound, k3, _⟩ := h9 i B
              (by rw [List.getElem?_eq_getElem hi1, hx])
              (by rw [List.getElem?_eq_getElem hi2, hz])
            refine ⟨bound, hbound, ?_⟩
            rw [← k3]
            exact TypeChecker.infer_type_args.index_get params bound.1
              (TypeChecker.infer_type_args.index_lt params bound.1 (hin bound hbound))
      · intro hcov x hx
        obtain ⟨i, hi2, rfl⟩ := List.getElem_of_mem hx
        have hi1 : i < type_args.length := by rw [← h2]; exact hi2
        have hi : i < params.length := by rw [← hlen]; exact hi1
        have hget : ∃ B, ta1[i]? = some (some B) := by
          rcases hcov i hi with ⟨A, hA⟩ | ⟨bound, hbound, hb⟩
          · exact ⟨A, h6 i A hA⟩
          · have hidx := TypeChecker.infer_type_args.index_eq_of_get params hparams bound.1 i hb
            cases hx : type_args[i] with
            | some A => exact ⟨A, h6 i A (by rw [List.getElem?_eq_getElem hi1, hx])⟩
            | none =>
              have := h8 rfl bound hbound
                (by rw [hidx, List.getElem?_eq_getElem hi1, hx])
              rw [hidx] at this
              exact ⟨_, this⟩
        obtain ⟨B, hB⟩ := hget
        rw [List.getElem?_eq_getElem hi2] at hB
        simp only [Option.some.injEq] at hB
        rw [hB]
        simp
    simp only [u1]
    refine ⟨b, ta1, c2, rfl, ?_, ?_, ?_⟩
    · rw [u2, hcov]
      exact ⟨fun h => ⟨hok.1, hok.2, h⟩, fun h => h.2.2⟩
    · intro hb
      exact ⟨u2.1 hb, (u3 hb).trans hc1⟩
    · intro hb
      rw [← hc1]
      exact u4 hb

/-- Witness of C25: for one type parameter `T` without a supplied argument, the bounds
`[bool, bool]` give `T = bool` and no error; when nothing bounds `T` the function returns false
with one error. -/
theorem infer_type_args_spec_witness :
    TypeChecker.infer_type_args ⟨0, []⟩ ⟨0, 0⟩ [some (.typeVar 0)]
      [(.typeVar 0, ⟨.prim .Bool, .prim .Bool⟩)] (fun _ => .Covariant) [none] =
      some (true, [some (.prim .Bool)], ⟨0, []⟩) ∧
    ∃ (type_args1 : List (Option Ty)) (checker1 : TypeChecker),
      TypeChecker.infer_type_args ⟨0, []⟩ ⟨0, 0⟩ [some (.typeVar 0)] [] (fun _ => .Covariant)
        [none] = some (false, type_args1, checker1) ∧ checker1.errors = 1 := by
  constructor
  · simp [TypeChecker.infer_type_args, TypeChecker.infer_type_args.loop,
      TypeChecker.infer_type_args.index, TypeChecker.infer_type_args.unresolved,
      TypeChecker.infer_type_args.choice, List.findIdx_cons, Ty.subtype, Ty.isNoRet, Ty.isPtr,
      Ty.subtypeArray, Ty.isTop, Ty.isBottom, Ty.isRef]
  · obtain ⟨b, ta1, c1, h1, h2, _, h4⟩ :=
      infer_type_args_spec ⟨0, []⟩ ⟨0, 0⟩ [some (.typeVar 0)] [] (fun _ => .Covariant) [none]
        (by decide) (by simp) (by decide) (by decide) rfl
    have hb : b = false := by
      cases b with
      | false => rfl
      | true =>
        have := (h2.1 rfl).2.2 0 (by simp)
        simp at this
    subst hb
    exact ⟨ta1, c1, h1, by simpa using (h4 rfl).1⟩

/-! ## Lemmas on `check_fields` -/

theorem StructType.find_member_some (fields : List FieldDecl) (name : String) (i : Nat)
    (h : StructType.find_member fields name = some i) :
    ∃ hi : i < fields.length, fields[i].name = name := by
  unfold StructType.find_member at h
  split at h
  · rename_i hne
    simp only [Option.some.injEq] at h
    subst h
    have hlt : fields.findIdx (fun f => decide (f.name = name)) < fields.length :=
      Nat.lt_of_le_of_ne (List.findIdx_le_length _) hne
    refine ⟨hlt, ?_⟩
    have := @List.findIdx_getElem _ (fun f => decide (f.name = name)) fields hlt
    simpa using this
  · simp at h

theorem StructType.find_member_none (fields : List FieldDecl) (name : String)
    (h : StructType.find_member fields name = none) : ∀ d ∈ fields, d.name ≠ name := by
  unfold StructType.find_member at h
  split at h
  · simp at h
  · rename_i heq
    simp only [ne_eq, Decidable.not_not] at heq
    intro d hd
    have := (List.findIdx_eq_length.1 heq) d hd
    simpa using this

theorem TypeChecker.field_errors_error (checker : TypeChecker) (loc : Loc) (msg : Msg) :
    (checker.error loc msg).field_errors =
      checker.field_errors ++ (if Diag.is_field_error ⟨.error, loc, msg⟩ then
        [⟨.error, loc, msg⟩] else []) := by
  unfold TypeChecker.field_errors TypeChecker.error
  simp only [List.filter_append, List.filter_cons, List.filter_nil]

/-- The entries of `seen` after an item names the field at `index`. -/
theorem TypeChecker.check_fields.seen_set (decl_fields : List FieldDecl)
    (hdecl : (decl_fields.map (fun d => d.name)).Nodup) (names : List String) (name : String)
    (index : Nat) (h : StructType.find_member decl_fields name = some index) :
    (decl_fields.map (fun d => decide (d.name ∈ names))).set index true =
      decl_fields.map (fun d => decide (d.name ∈ names ++ [name])) ∧
    (decl_fields.map (fun d => decide (d.name ∈ names))).getD index false =
      decide (name ∈ names) := by
  obtain ⟨hi, hname⟩ := StructType.find_member_some decl_fields name index h
  constructor
  · apply List.ext_getElem
    · simp
    · intro j h1 h2
      simp only [List.length_set, List.length_map] at h1
      by_cases hj : index = j
      · subst hj
        simp [hname]
      · rw [List.getElem_set_ne hj]
        simp only [List.getElem_map, List.mem_append, List.mem_singleton]
        have hne : decl_fields[j].name ≠ name := by
          intro e
          apply hj
          have hinj := (List.nodup_iff_injective_get.1 hdecl)
          have := @hinj ⟨index, by simpa using hi⟩ ⟨j, by simpa using h1⟩
            (by simp [hname, e])
          simpa using this
        simp [hne]
  · rw [List.getD_eq_getElem?_getD, List.getElem?_eq_getElem (by simpa using hi)]
    simp [hname]

theorem Field.names_cons_etc (field : Field) (fields : List Field) (h : field.is_etc = true) :
    Field.names (field :: fields) = Field.names fields := by
  simp [Field.names, List.filter_cons, h]

theorem Field.names_cons (field : Field) (fields : List Field) (h : field.is_etc = false) :
    Field.names (field :: fields) = field.name :: Field.names fields := by
  simp [Field.names, List.filter_cons, h]

theorem TypeChecker.check_fields.loop_cons_etc (loc : Loc) (struct_type : Ty)
    (decl_fields : List FieldDecl) (check_field : TypeChecker → Field → Nat → TypeChecker)
    (checker : TypeChecker) (field : Field) (fields : List Field) (seen : List Bool)
    (has_etc : Bool) (hetc : field.is_etc = true) :
    TypeChecker.check_fields.loop loc struct_type decl_fields check_field checker
        (field :: fields) seen has_etc =
      ((TypeChecker.check_fields.loop loc struct_type decl_fields check_field checker fields seen
          true).1,
        field :: (TypeChecker.check_fields.loop loc struct_type decl_fields check_field checker
          fields seen true).2.1,
        (TypeChecker.check_fields.loop loc struct_type decl_fields check_field checker fields seen
          true).2.2) := by
  rw [TypeChecker.check_fields.loop]
  simp only [hetc, if_true]

theorem TypeChecker.check_fields.loop_cons_unknown (loc : Loc) (struct_type : Ty)
    (decl_fields : List FieldDecl) (check_field : TypeChecker → Field → Nat → TypeChecker)
    (checker : TypeChecker) (field : Field) (fields : List Field) (seen : List Bool)
    (has_etc : Bool) (hetc : field.is_etc = false)
    (hf : StructType.find_member decl_fields field.name = none) :
    TypeChecker.check_fields.loop loc struct_type decl_fields check_field checker
        (field :: fields) seen has_etc =
      (none, field :: fields,
        checker.error field.loc (.no_member_in field.name struct_type)) := by
  rw [TypeChecker.check_fields.loop]
  simp only [hetc, Bool.false_eq_true, if_false, hf]
  rfl

theorem TypeChecker.check_fields.loop_cons_named (loc : Loc) (struct_type : Ty)
    (decl_fields : List FieldDecl) (check_field : TypeChecker → Field → Nat → TypeChecker)
    (checker : TypeChecker) (field : Field) (fields : List Field) (seen : List Bool)
    (has_etc : Bool) (index : Nat) (hetc : field.is_etc = false)
    (hf : StructType.find_member decl_fields field.name = some index) :
    TypeChecker.check_fields.loop loc struct_type decl_fields check_field checker
        (field :: fields) seen has_etc =
      if seen.getD index false = true then
        (none, field :: fields, checker.error loc (.field_specified_more_than_once field.name))
      else
        ((TypeChecker.check_fields.loop loc struct_type decl_fields check_field
            (check_field checker (Field.resolved decl_fields field) index) fields
            (seen.set index true) has_etc).1,
          Field.resolved decl_fields field ::
            (TypeChecker.check_fields.loop loc struct_type decl_fields check_field
              (check_field checker (Field.resolved decl_fields field) index) fields
              (seen.set index true) has_etc).2.1,
          (TypeChecker.check_fields.loop loc struct_type decl_fields check_field
            (check_field checker (Field.resolved decl_fields field) index) fields
            (seen.set index true) has_etc).2.2) := by
  rw [TypeChecker.check_fields.loop]
  simp only [Field.resolved, hetc, Bool.false_eq_true, if_false, hf]

/-- The first loop of `check_fields` on items that are all accepted. -/
theorem TypeChecker.check_fields_loop_accepted (loc : Loc) (struct_type : Ty)
    (decl_fields : List FieldDecl) (check_field : TypeChecker → Field → Nat → TypeChecker)
    (hcheck : ∀ c f i, (check_field c f i).field_errors = c.field_errors)
    (hdecl : (decl_fields.map (fun d => d.name)).Nodup) :
    ∀ (fields : List Field) (names : List String) (has_etc : Bool) (checker : TypeChecker),
      Field.accepted decl_fields names fields →
      ∃ checker1,
        TypeChecker.check_fields.loop loc struct_type decl_fields check_field checker fields
          (decl_fields.map (fun d => decide (d.name ∈ names))) has_etc =
          (some (decl_fields.map (fun d => decide (d.name ∈ names ++ Field.names fields)),
            has_etc || fields.any (fun f => f.is_etc)),
            fields.map (Field.resolved decl_fields), checker1) ∧
        checker1.field_errors = checker.field_errors
  | [], names, has_etc, checker, _ => by
    exact ⟨checker, by simp [TypeChecker.check_fields.loop, Field.names], rfl⟩
  | field :: fields, names, has_etc, checker, hacc => by
    rcases Bool.eq_false_or_eq_true field.is_etc with hetc | hetc
    · have hacc2 : Field.accepted decl_fields names fields := by
        refine ⟨fun f hf => hacc.1 f (List.mem_cons_of_mem _ hf), ?_⟩
        have := hacc.2
        rwa [Field.names_cons_etc field fields hetc] at this
      obtain ⟨c1, h1, h2⟩ := TypeChecker.check_fields_loop_accepted loc struct_type decl_fields
        check_field hcheck hdecl fields names true checker hacc2
      refine ⟨c1, ?_, h2⟩
      rw [TypeChecker.check_fields.loop_cons_etc _ _ _ _ _ _ _ _ _ hetc, h1,
        Field.names_cons_etc field fields hetc]
      simp [Field.resolved, hetc]
    · have hres := hacc.1 field (List.mem_cons_self _ _) hetc
      obtain ⟨index, hindex⟩ := Option.isSome_iff_exists.1 hres
      have hnd := hacc.2
      rw [Field.names_cons field fields hetc] at hnd
      have hnotin : field.name ∉ names := by
        intro hin
        have := (List.nodup_append.1 hnd).2.2
        exact this hin (List.mem_cons_self _ _)
      obtain ⟨s1, s2⟩ := TypeChecker.check_fields.seen_set decl_fields hdecl names field.name
        index hindex
      have hacc2 : Field.accepted decl_fields (names ++ [field.name]) fields := by
        refine ⟨fun f hf => hacc.1 f (List.mem_cons_of_mem _ hf), ?_⟩
        simpa using hnd
      obtain ⟨c1, h1, h2⟩ := TypeChecker.check_fields_loop_accepted loc struct_type decl_fields
        check_field hcheck hdecl fields (names ++ [field.name]) has_etc
        (check_field checker (Field.resolved decl_fields field) index) hacc2
      refine ⟨c1, ?_, by rw [h2, hcheck]⟩
      rw [TypeChecker.check_fields.loop_cons_named _ _ _ _ _ _ _ _ _ index hetc hindex, s2]
      simp only [hnotin, decide_False, Bool.false_eq_true, if_false, s1, h1,
        Field.names_cons field fields hetc]
      simp [hetc]

/-- The first loop of `check_fields` on items of which one offends after accepted ones. -/
theorem TypeChecker.check_fields_loop_offending (loc : Loc) (struct_type : Ty)
    (decl_fields : List FieldDecl) (check_field : TypeChecker → Field → Nat → TypeChecker)
    (hcheck : ∀ c f i, (check_field c f i).field_errors = c.field_errors)
    (hdecl : (decl_fields.map (fun d => d.name)).Nodup) (bad : Field) (post : List Field) :
    ∀ (pre : List Field) (names : List String) (has_etc : Bool) (checker : TypeChecker),
      Field.accepted decl_fields names pre →
      Field.offends decl_fields (names ++ Field.names pre) bad →
      ∃ checker1,
        TypeChecker.check_fields.loop loc struct_type decl_fields check_field checker
          (pre ++ bad :: post) (decl_fields.map (fun d => decide (d.name ∈ names))) has_etc =
          (none, pre.map (Field.resolved decl_fields) ++ bad :: post, checker1) ∧
        checker1.field_errors = checker.field_errors ++
          [TypeChecker.check_fields.offence loc struct_type decl_fields bad]
  | [], names, has_etc, checker, _, hoff => by
    obtain ⟨hetc, hbad⟩ := hoff
    simp only [Field.names, List.filter_nil, List.map_nil, List.append_nil] at hbad
    simp only [List.nil_append, List.map_nil]
    cases hf : StructType.find_member decl_fields bad.name with
    | none =>
      refine ⟨_, TypeChecker.check_fields.loop_cons_unknown _ _ _ _ _ _ _ _ _ hetc hf, ?_⟩
      simp [TypeChecker.field_errors_error, Diag.is_field_error,
        TypeChecker.check_fields.offence, hf]
    | some index =>
      have hin : bad.name ∈ names := by
        rcases hbad with h | h
        · rw [hf] at h; simp at h
        · exact h
      obtain ⟨_, s2⟩ := TypeChecker.check_fields.seen_set decl_fields hdecl names bad.name
        index hf
      refine ⟨checker.error loc (.field_specified_more_than_once bad.name), ?_, ?_⟩
      · rw [TypeChecker.check_fields.loop_cons_named _ _ _ _ _ _ _ _ _ index hetc hf, s2]
        simp [hin]
      · simp [TypeChecker.field_errors_error, Diag.is_field_error,
          TypeChecker.check_fields.offence, hf]
  | field :: pre, names, has_etc, checker, hacc, hoff => by
    simp only [List.cons_append, List.map_cons]
    rcases Bool.eq_false_or_eq_true field.is_etc with hetc | hetc
    · have hacc2 : Field.accepted decl_fields names pre := by
        refine ⟨fun f hf => hacc.1 f (List.mem_cons_of_mem _ hf), ?_⟩
        have := hacc.2
        rwa [Field.names_cons_etc field pre hetc] at this
      rw [Field.names_cons_etc field pre hetc] at hoff
      obtain ⟨c1, h1, h2⟩ := TypeChecker.check_fields_loop_offending loc struct_type decl_fields
        check_field hcheck hdecl bad post pre names true checker hacc2 hoff
      refine ⟨c1, ?_, h2⟩
      rw [TypeChecker.check_fields.loop_cons_etc _ _ _ _ _ _ _ _ _ hetc, h1]
      simp [Field.resolved, hetc]
    · have hres := hacc.1 field (List.mem_cons_self _ _) hetc
      obtain ⟨index, hindex⟩ := Option.isSome_iff_exists.1 hres
      have hnd := hacc.2
      rw [Field.names_cons field pre hetc] at hnd
      have hnotin : field.name ∉ names := by
        intro hin
        have := (List.nodup_append.1 hnd).2.2
        exact this hin (List.mem_cons_self _ _)
      obtain ⟨s1, s2⟩ := TypeChecker.check_fields.seen_set decl_fields hdecl names field.name
        index hindex
      have hacc2 : Field.accepted decl_fields (names ++ [field.name]) pre := by
        refine ⟨fun f hf => hacc.1 f (List.mem_cons_of_mem _ hf), ?_⟩
        simpa using hnd
      rw [Field.names_cons field pre hetc] at hoff
      obtain ⟨c1, h1, h2⟩ := TypeChecker.check_fields_loop_offending loc struct_type decl_fields
        check_field hcheck hdecl bad post pre (names ++ [field.name]) has_etc
        (check_field checker (Field.resolved decl_fields field) index) hacc2
        (by simpa using hoff)
      refine ⟨c1, ?_, by rw [h2, hcheck]⟩
      rw [TypeChecker.check_fields.loop_cons_named _ _ _ _ _ _ _ _ _ index hetc hindex, s2]
      simp only [hnotin, decide_False, Bool.false_eq_true, if_false, s1, h1]

/-- The second loop of `check_fields`, when `seen` tells which fields the items name. -/
theorem TypeChecker.check_fields_missing_spec (loc : Loc) (msg : String) (accept_defaults : Bool)
    (names : List String) :
    ∀ (decl_fields : List FieldDecl) (checker : TypeChecker),
      (TypeChecker.check_fields.missing loc msg accept_defaults checker decl_fields
        (decl_fields.map (fun d => decide (d.name ∈ names)))).field_errors =
        checker.field_errors ++
          TypeChecker.check_fields.missing_errors loc msg accept_defaults decl_fields names
  | [], checker => by
    simp [TypeChecker.check_fields.missing, TypeChecker.check_fields.missing_errors]
  | d :: ds, checker => by
    simp only [List.map_cons]
    rw [TypeChecker.check_fields.missing, TypeChecker.check_fields_missing_spec loc msg
      accept_defaults names ds]
    by_cases hc : (!decide (d.name ∈ names) && (!accept_defaults || !d.has_init)) = true
    · simp only [hc, if_true, TypeChecker.field_errors_error]
      simp [TypeChecker.check_fields.missing_errors, List.filter_cons, hc, Diag.is_field_error]
    · simp only [hc, if_false]
      simp [TypeChecker.check_fields.missing_errors, List.filter_cons, hc]

/-- Either every item is accepted, or there is a first item that offends. -/
theorem Field.accepted_or_offends (decl_fields : List FieldDecl) :
    ∀ (fields : List Field) (names : List String), names.Nodup →
      Field.accepted decl_fields names fields ∨
      ∃ pre bad post, fields = pre ++ bad :: post ∧ Field.accepted decl_fields names pre ∧
        Field.offends decl_fields (names ++ Field.names pre) bad
  | [], names, hnd => Or.inl ⟨fun f hf => by simp at hf, by simpa [Field.names] using hnd⟩
  | field :: fields, names, hnd => by
    rcases Bool.eq_false_or_eq_true field.is_etc with hetc | hetc
    · rcases Field.accepted_or_offends decl_fields fields names hnd with h | ⟨pre, bad, post, h1,
        h2, h3⟩
      · left
        refine ⟨?_, by rw [Field.names_cons_etc field fields hetc]; exact h.2⟩
        intro f hf hfe
        rcases List.mem_cons.1 hf with rfl | hf
        · rw [hetc] at hfe; simp at hfe
        · exact h.1 f hf hfe
      · right
        refine ⟨field :: pre, bad, post, by simp [h1], ⟨?_, ?_⟩, ?_⟩
        · intro f hf hfe
          rcases List.mem_cons.1 hf with rfl | hf
          · rw [hetc] at hfe; simp at hfe
          · exact h2.1 f hf hfe
        · rw [Field.names_cons_etc field pre hetc]; exact h2.2
        · rw [Field.names_cons_etc field pre hetc]; exact h3
    · by_cases hbad : StructType.find_member decl_fields field.name = none ∨ field.name ∈ names
      · right
        exact ⟨[], field, fields, rfl, ⟨fun f hf => by simp at hf,
          by simpa [Field.names] using hnd⟩, hetc, by simpa [Field.names] using hbad⟩
      · simp only [not_or] at hbad
        have hnd2 : (names ++ [field.name]).Nodup := by
          rw [List.nodup_append]
          refine ⟨hnd, by simp, ?_⟩
          intro a ha hb
          simp only [List.mem_singleton] at hb
          subst hb
          exact hbad.2 ha
        have hsome : (StructType.find_member decl_fields field.name).isSome = true := by
          cases h : StructType.find_member decl_fields field.name with
          | none => exact absurd h hbad.1
          | some i => rfl
        rcases Field.accepted_or_offends decl_fields fields (names ++ [field.name]) hnd2 with
          h | ⟨pre, bad, post, h1, h2, h3⟩
        · left
          refine ⟨?_, ?_⟩
          · intro f hf hfe
            rcases List.mem_cons.1 hf with rfl | hf
            · exact hsome
            · exact h.1 f hf hfe
          · rw [Field.names_cons field fields hetc]
            simpa using h.2
        · right
          refine ⟨field :: pre, bad, post, by simp [h1], ⟨?_, ?_⟩, ?_⟩
          · intro f hf hfe
            rcases List.mem_cons.1 hf with rfl | hf
            · exact hsome
            · exact h2.1 f hf hfe
          · rw [Field.names_cons field pre hetc]
            simpa using h2.2
          · rw [Field.names_cons field pre hetc]
            simpa using h3

theorem TypeChecker.check_fields.missing_errors_eq_nil (loc : Loc) (msg : String)
    (accept_defaults : Bool) (decl_fields : List FieldDecl) (names : List String) :
    TypeChecker.check_fields.missing_errors loc msg accept_defaults decl_fields names = [] ↔
      ∀ d ∈ decl_fields, d.name ∈ names ∨ (accept_defaults = true ∧ d.has_init = true) := by
  unfold TypeChecker.check_fields.missing_errors
  rw [List.map_eq_nil_iff, List.filter_eq_nil_iff]
  constructor
  · intro h d hd
    have := h d hd
    by_cases hn : d.name ∈ names
    · exact Or.inl hn
    · right
      cases ha : accept_defaults <;> cases hi : d.has_init <;> simp_all
  · intro h d hd
    rcases h d hd with hn | ⟨ha, hi⟩
    · simp [hn]
    · simp [ha, hi]

/-- What `check_fields` does when an item offends after accepted ones. -/
theorem TypeChecker.check_fields_of_offends (checker : TypeChecker) (loc : Loc) (struct_type : Ty)
    (decl_fields : List FieldDecl) (check_field : TypeChecker → Field → Nat → TypeChecker)
    (msg : String) (has_etc accept_defaults : Bool)
    (hcheck : ∀ c f i, (check_field c f i).field_errors = c.field_errors)
    (hdecl : (decl_fields.map (fun d => d.name)).Nodup) (pre : List Field) (bad : Field)
    (post : List Field) (hacc : Field.accepted decl_fields [] pre)
    (hoff : Field.offends decl_fields (Field.names pre) bad) :
    (checker.check_fields loc struct_type decl_fields check_field (pre ++ bad :: post) msg has_etc
        accept_defaults).1 = pre.map (Field.resolved decl_fields) ++ bad :: post ∧
    (checker.check_fields loc struct_type decl_fields check_field (pre ++ bad :: post) msg has_etc
        accept_defaults).2.field_errors =
      checker.field_errors ++ [TypeChecker.check_fields.offence loc struct_type decl_fields bad] := by
  obtain ⟨c1, h1, h2⟩ := TypeChecker.check_fields_loop_offending loc struct_type decl_fields
    check_field hcheck hdecl bad post pre [] has_etc checker hacc (by simpa using hoff)
  have hseen : List.replicate decl_fields.length false =
      decl_fields.map (fun d => decide (d.name ∈ ([] : List String))) := by
    simp [List.map_const']
  unfold TypeChecker.check_fields
  rw [hseen, h1]
  exact ⟨rfl, h2⟩

/-- What `check_fields` does when every item is accepted. -/
theorem TypeChecker.check_fields_of_accepted (checker : TypeChecker) (loc : Loc)
    (struct_type : Ty) (decl_fields : List FieldDecl)
    (check_field : TypeChecker → Field → Nat → TypeChecker) (fields : List Field) (msg : String)
    (has_etc accept_defaults : Bool)
    (hcheck : ∀ c f i, (check_field c f i).field_errors = c.field_errors)
    (hdecl : (decl_fields.map (fun d => d.name)).Nodup)
    (hacc : Field.accepted decl_fields [] fields) :
    (checker.check_fields loc struct_type decl_fields check_field fields msg has_etc
        accept_defaults).1 = fields.map (Field.resolved decl_fields) ∧
    (checker.check_fields loc struct_type decl_fields check_field fields msg has_etc
        accept_defaults).2.field_errors =
      checker.field_errors ++
        (if has_etc = true ∨ ∃ f ∈ fields, f.is_etc = true then []
        else TypeChecker.check_fields.missing_errors loc msg accept_defaults decl_fields
          (Field.names fields)) := by
  obtain ⟨c1, h1, h2⟩ := TypeChecker.check_fields_loop_accepted loc struct_type decl_fields
    check_field hcheck hdecl fields [] has_etc checker hacc
  have hseen : List.replicate decl_fields.length false =
      decl_fields.map (fun d => decide (d.name ∈ ([] : List String))) := by
    simp [List.map_const']
  unfold TypeChecker.check_fields
  rw [hseen, h1]
  simp only [List.nil_append]
  by_cases hetc : has_etc = true ∨ ∃ f ∈ fields, f.is_etc = true
  · have : (has_etc || fields.any (fun f => f.is_etc)) = true := by
      rcases hetc with h | ⟨f, hf, hfe⟩
      · simp [h]
      · simp only [Bool.or_eq_true, List.any_eq_true]
        exact Or.inr ⟨f, hf, hfe⟩
    simp only [this, Bool.not_true, Bool.false_and, Bool.false_eq_true, if_false, if_pos hetc,
      List.append_nil]
    exact ⟨trivial, h2⟩
  · have : (has_etc || fields.any (fun f => f.is_etc)) = false := by
      simp only [not_or, not_exists, not_and, Bool.not_eq_true] at hetc
      simp only [Bool.or_eq_false_iff, List.any_eq_false, Bool.not_eq_true]
      exact ⟨hetc.1, fun f hf => by simpa using hetc.2 f hf⟩
    simp only [this, Bool.not_false, Bool.true_and, if_neg hetc]
    split
    · refine ⟨rfl, ?_⟩
      rw [TypeChecker.check_fields_missing_spec, h2]
    · rename_i hall
      refine ⟨rfl, ?_⟩
      simp only [Bool.not_eq_true', Bool.not_eq_false] at hall
      rw [h2]
      have : TypeChecker.check_fields.missing_errors loc msg accept_defaults decl_fields
          (Field.names fields) = [] := by
        rw [TypeChecker.check_fields.missing_errors_eq_nil]
        intro d hd
        left
        have := (List.all_eq_true.1 hall) (decide (d.name ∈ Field.names fields))
          (List.mem_map_of_mem _ hd)
        simpa using this
      rw [this]
      simp

/-! ## Claim on `check_fields` -/

/-- Counterexample to C27 as stated: over a struct with the fields `a` and `b`, the only item
`c` names no field, there is no `...` and `has_etc` is not set; `check_fields` reports the
unknown member and returns, so no `missing field` error is reported for `a` and `b`, which no
item names. -/
theorem check_fields_unknown_counterexample :
    ((TypeChecker.check_fields ⟨0, []⟩ ⟨0, 9⟩ (.struct 0) [⟨"a", false⟩, ⟨"b", false⟩]
      (fun c _ _ => c) [⟨⟨2, 3⟩, false, "c", none⟩] "expression" false false).2.diags =
      [⟨.error, ⟨2, 3⟩, .no_member_in "c" (.struct 0)⟩]) ∧
    ¬ "a" ∈ Field.names [⟨⟨2, 3⟩, false, "c", none⟩] := by
  decide

/-- Claim C27, amended: `check_fields` over a struct whose fields `F` have distinct names goes
through the items in order.  At the first item, not `...`, that names a field outside `F` it
reports an unknown-member error, at the first one that names a field named by an item before it
a `specified more than once` error; in both cases it returns at once: this is the only one of
these errors that it reports, the items before got their index and no `missing field` error is
reported.  When no item offends, every item that is not `...` gets index = position of its field
in `F`, and, when neither `has_etc` is set nor a `...` item is present, a `missing field` error
is reported for each field of `F` that no item names (except, when `accept_defaults` is true,
fields with a default initialiser).  It reports none of these errors iff every named item
resolves to a distinct field of `F` and every unnamed field is excused by `...`/`has_etc` or by
an accepted default.  The errors that checking the items themselves reports are left aside. -/
theorem check_fields_spec (checker : TypeChecker) (loc : Loc) (struct_type : Ty)
    (decl_fields : List FieldDecl) (check_field : TypeChecker → Field → Nat → TypeChecker)
    (fields : List Field) (msg : String) (has_etc accept_defaults : Bool)
    (hcheck : ∀ c f i, (check_field c f i).field_errors = c.field_errors)
    (hdecl : (decl_fields.map (fun d => d.name)).Nodup) :
    (∀ pre bad post, fields = pre ++ bad :: post → Field.accepted decl_fields [] pre →
      Field.offends decl_fields (Field.names pre) bad →
      (checker.check_fields loc struct_type decl_fields check_field fields msg has_etc
          accept_defaults).1 = pre.map (Field.resolved decl_fields) ++ bad :: post ∧
      (checker.check_fields loc struct_type decl_fields check_field fields msg has_etc
          accept_defaults).2.field_errors =
        checker.field_errors ++
          [TypeChecker.check_fields.offence loc struct_type decl_fields bad]) ∧
    (Field.accepted decl_fields [] fields →
      (checker.check_fields loc struct_type decl_fields check_field fields msg has_etc
          accept_defaults).1 = fields.map (Field.resolved decl_fields) ∧
      (checker.check_fields loc struct_type decl_fields check_field fields msg has_etc
          accept_defaults).2.field_errors =
        checker.field_errors ++
          (if has_etc = true ∨ ∃ f ∈ fields, f.is_etc = true then []
          else TypeChecker.check_fields.missing_errors loc msg accept_defaults decl_fields
            (Field.names fields))) ∧
    ((checker.check_fields loc struct_type decl_fields check_field fields msg has_etc
          accept_defaults).2.field_errors = checker.field_errors ↔
      Field.accepted decl_fields [] fields ∧
        (has_etc = true ∨ (∃ f ∈ fields, f.is_etc = true) ∨
          ∀ d ∈ decl_fields, d.name ∈ Field.names fields ∨
            (accept_defaults = true ∧ d.has_init = true))) := by
  refine ⟨?_, ?_, ?_⟩
  · rintro pre bad post rfl hacc hoff
    exact TypeChecker.check_fields_of_offends checker loc struct_type decl_fields check_field msg
      has_etc accept_defaults hcheck hdecl pre bad post hacc hoff
  · intro hacc
    exact TypeChecker.check_fields_of_accepted checker loc struct_type decl_fields check_field
      fields msg has_etc accept_defaults hcheck hdecl hacc
  · rcases Field.accepted_or_offends decl_fields fields [] List.nodup_nil with hacc |
      ⟨pre, bad, post, rfl, hacc, hoff⟩
    · obtain ⟨_, h2⟩ := TypeChecker.check_fields_of_accepted checker loc struct_type decl_fields
        check_field fields msg has_etc accept_defaults hcheck hdecl hacc
      rw [h2]
      by_cases hetc : has_etc = true ∨ ∃ f ∈ fields, f.is_etc = true
      · simp only [if_pos hetc, List.append_nil, true_iff]
        refine ⟨hacc, ?_⟩
        rcases hetc with h | h
        · exact Or.inl h
        · exact Or.inr (Or.inl h)
      · simp only [if_neg hetc, List.append_right_eq_self,
          TypeChecker.check_fields.missing_errors_eq_nil]
        simp only [not_or] at hetc
        constructor
        · intro h
          exact ⟨hacc, Or.inr (Or.inr h)⟩
        · rintro ⟨_, h | h | h⟩
          · exact absurd h hetc.1
          · exact absurd h hetc.2
          · exact h
    · obtain ⟨_, h2⟩ := TypeChecker.check_fields_of_offends checker loc struct_type decl_fields
        check_field msg has_etc accept_defaults hcheck hdecl pre bad post hacc
        (by simpa using hoff)
      rw [h2]
      simp only [List.append_right_eq_self, List.cons_ne_self, false_iff, not_and]
      intro hacc2
      exfalso
      obtain ⟨hetc, hbad⟩ := hoff
      simp only [List.nil_append] at hbad
      have hnames : Field.names (pre ++ bad :: post) =
          Field.names pre ++ bad.name :: Field.names post := by
        simp [Field.names, List.filter_append, List.filter_cons, hetc]
      rcases hbad with h | h
      · have := hacc2.1 bad (by simp) hetc
        rw [h] at this
        simp at this
      · have hnd := hacc2.2
        rw [List.nil_append, hnames] at hnd
        have := (List.nodup_append.1 hnd).2.2
        exact this h (List.mem_cons_self _ _)

/-- Witness of C27: over a struct with the fields `a` and `b`, the items `b` and `...` are
accepted: `b` gets the index 1 and nothing is reported. -/
theorem check_fields_spec_witness :
    (TypeChecker.check_fields ⟨0, []⟩ ⟨0, 9⟩ (.struct 0) [⟨"a", false⟩, ⟨"b", false⟩]
      (fun c _ _ => c) [⟨⟨2, 3⟩, false, "b", none⟩, ⟨⟨5, 7⟩, true, "", none⟩] "expression" false
      false).1 = [⟨⟨2, 3⟩, false, "b", some 1⟩, ⟨⟨5, 7⟩, true, "", none⟩] ∧
    (TypeChecker.check_fields ⟨0, []⟩ ⟨0, 9⟩ (.struct 0) [⟨"a", false⟩, ⟨"b", false⟩]
      (fun c _ _ => c) [⟨⟨2, 3⟩, false, "b", none⟩, ⟨⟨5, 7⟩, true, "", none⟩] "expression" false
      false).2.field_errors = [] := by
  have hacc : Field.accepted [⟨"a", false⟩, ⟨"b", false⟩] []
      [⟨⟨2, 3⟩, false, "b", none⟩, ⟨⟨5, 7⟩, true, "", none⟩] := by
    unfold Field.accepted
    decide
  obtain ⟨h1, h2⟩ := (check_fields_spec ⟨0, []⟩ ⟨0, 9⟩ (.struct 0) [⟨"a", false⟩, ⟨"b", false⟩]
    (fun c _ _ => c) [⟨⟨2, 3⟩, false, "b", none⟩, ⟨⟨5, 7⟩, true, "", none⟩] "expression" false
    false (fun _ _ _ => rfl) (by decide)).2.1 hacc
  refine ⟨h1.trans (by decide), h2.trans (by decide)⟩

/-! ## Claims on assignments and on unary operators -/

theorem BinaryTag.not_logic_of_has_eq (tag : BinaryTag) (h : tag.has_eq = true) :
    tag.is_logic = false := by
  cases tag <;> simp_all [BinaryTag.has_eq, BinaryTag.is_logic]

/-- Claim C31: `BinaryExpr::infer` for `=` or a compound `op=`, when the type of the operands is
accepted, returns the unit type if the inferred type of the left operand is a mutable reference,
and otherwise reports `mutable expression expected` at the left operand and returns `TypeError`.
Whatever the operands are, the type it returns for such an operator is the unit type or
`TypeError`: the type of the operands is not passed on as the type of the assignment. -/
theorem assignment_spec (v : Virt) (checker : TypeChecker) (loc : Loc) (tag : BinaryTag)
    (left right : Expr) (htag : tag.has_eq = true) :
    (∀ (t right_type : Ty) (left1 right1 : Expr) (checker1 checker2 : TypeChecker),
      TypeChecker.infer v checker left = some (t, left1, checker1) →
      TypeChecker.coerce v checker1 right (remove_ref t).2 =
        some (right_type, right1, checker2) →
      BinaryExpr.infer.operand_error tag (remove_ref t).2 = none →
      ((∃ T a, t = .ref T true a) →
        BinaryExpr.infer v checker loc tag left right =
          some (.tuple [], v.write_to left1, right1, checker2)) ∧
      ((∀ T a, t ≠ .ref T true a) →
        BinaryExpr.infer v checker loc tag left right =
          some (.typeError, v.write_to left1, right1,
            checker2.error (v.write_to left1).loc .mutable_expression_expected))) ∧
    (∀ r, BinaryExpr.infer v checker loc tag left right = some r →
      r.1 = .tuple [] ∨ r.1 = .typeError) := by
  have hlogic := BinaryTag.not_logic_of_has_eq tag htag
  constructor
  · intro t right_type left1 right1 checker1 checker2 hleft hright hok
    constructor
    · rintro ⟨T, a, rfl⟩
      simp only [remove_ref] at hright hok
      unfold BinaryExpr.infer
      simp [hlogic, htag, hleft, hright, hok, remove_ref, Ty.is_mut]
    · intro hne
      have hmut : (match (remove_ref t).1 with
          | some r => r.is_mut
          | none => false) = false := by
        cases t with
        | ref p m a =>
          cases m with
          | false => rfl
          | true => exact absurd rfl (hne p a)
        | _ => rfl
      unfold BinaryExpr.infer
      simp [hlogic, htag, hleft, hright, hok, TypeChecker.mutable_expected]
      exact hmut
  · intro r h
    unfold BinaryExpr.infer at h
    simp only [hlogic, htag, Bool.false_eq_true, if_false, Bool.not_true, Bool.false_and,
      if_true] at h
    split at h
    · simp at h
    · split at h
      · simp only [Option.some.injEq] at h
        subst h
        exact Or.inr (TypeChecker.type_expected_fst _ _ _ _)
      · split at h
        · simp only [Option.some.injEq] at h
          subst h
          exact Or.inr rfl
        · simp only [Option.some.injEq] at h
          subst h
          exact Or.inl rfl

/-- Witness of C31: `x += 1` for a path `x` of type `ref mut i32` has the unit type, and for a
path `y` of type `ref i32` it reports the error and has the type `TypeError`. -/
theorem assignment_spec_witness :
    BinaryExpr.infer (Expr.virt 1) ⟨0, []⟩ ⟨0, 5⟩ .AddEq
      (.path ⟨0, 1⟩ (some (.ref (.prim .I32) true 0)) 7) (.literal ⟨4, 5⟩ none (.integer 1)) =
      some (.tuple [], .path ⟨0, 1⟩ (some (.ref (.prim .I32) true 0)) 7,
        .literal ⟨4, 5⟩ (some (.prim .I32)) (.integer 1), ⟨0, []⟩) ∧
    BinaryExpr.infer (Expr.virt 1) ⟨0, []⟩ ⟨0, 5⟩ .AddEq
      (.path ⟨0, 1⟩ (some (.ref (.prim .I32) false 0)) 8) (.literal ⟨4, 5⟩ none (.integer 1)) =
      some (.typeError, .path ⟨0, 1⟩ (some (.ref (.prim .I32) false 0)) 8,
        .literal ⟨4, 5⟩ (some (.prim .I32)) (.integer 1),
        ⟨1, [⟨.error, ⟨0, 1⟩, .mutable_expression_expected⟩]⟩) :=
  ⟨((assignment_spec (Expr.virt 1) ⟨0, []⟩ ⟨0, 5⟩ .AddEq
      (.path ⟨0, 1⟩ (some (.ref (.prim .I32) true 0)) 7) (.literal ⟨4, 5⟩ none (.integer 1))
      rfl).1 (.ref (.prim .I32) true 0) (.prim .I32)
      (.path ⟨0, 1⟩ (some (.ref (.prim .I32) true 0)) 7)
      (.literal ⟨4, 5⟩ (some (.prim .I32)) (.integer 1)) ⟨0, []⟩ ⟨0, []⟩ rfl rfl rfl).1
      ⟨.prim .I32, 0, rfl⟩,
   ((assignment_spec (Expr.virt 1) ⟨0, []⟩ ⟨0, 5⟩ .AddEq
      (.path ⟨0, 1⟩ (some (.ref (.prim .I32) false 0)) 8) (.literal ⟨4, 5⟩ none (.integer 1))
      rfl).1 (.ref (.prim .I32) false 0) (.prim .I32)
      (.path ⟨0, 1⟩ (some (.ref (.prim .I32) false 0)) 8)
      (.literal ⟨4, 5⟩ (some (.prim .I32)) (.integer 1)) ⟨0, []⟩ ⟨0, []⟩ rfl rfl rfl).2
      (by intro T a; simp)⟩

/-- Counterexample to C32 as stated, on a path `e` whose type is `TypeError`: `?e` has the type
`Bool` and `&e` the type of the pointers to `TypeError`; neither is `TypeError`. -/
theorem unary_type_error_counterexample :
    UnaryExpr.infer (Expr.virt 1) ⟨0, []⟩ ⟨0, 5⟩ .Known (.path ⟨4, 5⟩ (some .typeError) 7) =
      some (.prim .Bool, .path ⟨4, 5⟩ (some .typeError) 7, ⟨0, []⟩) ∧
    UnaryExpr.infer (Expr.virt 1) ⟨0, []⟩ ⟨0, 5⟩ .AddrOf (.path ⟨4, 5⟩ (some .typeError) 7) =
      some (.ptr .typeError false 0, .path ⟨4, 5⟩ (some .typeError) 7, ⟨0, []⟩) :=
  ⟨rfl, rfl⟩

/-- On an argument whose inferred type is `TypeError`, the operators that write to their
argument (`&mut`, `++` and `--`, prefix or postfix) report `mutable expression expected`:
`mutable_expected` does not consult `should_report_error`, which `type_expected` and the branch
of the dereference in the same function do. -/
theorem UnaryExpr.infer_type_error_mutable_expected (v : Virt) (checker : TypeChecker)
    (loc : Loc) (tag : UnaryTag) (arg arg1 : Expr) (checker1 : TypeChecker)
    (h : TypeChecker.infer v checker arg = some (.typeError, arg1, checker1))
    (htag : tag = .AddrOfMut ∨ tag.is_inc = true ∨ tag.is_dec = true) :
    UnaryExpr.infer v checker loc tag arg =
      some (.typeError, arg1, checker1.error arg1.loc .mutable_expression_expected) := by
  unfold UnaryExpr.infer
  cases tag <;>
    simp [UnaryTag.is_inc, UnaryTag.is_dec] at htag <;>
    simp [h, remove_ref, UnaryTag.is_inc, UnaryTag.is_dec, TypeChecker.mutable_expected]

/-- Claim C32, amended: on an argument whose inferred type is `TypeError`, `UnaryExpr::infer`
reports no additional error for the operators that do not write to their argument: it returns
`TypeError` for `!`, `+`, `-`, the dereference `*` and `forget`, `Bool` for `?` (known) and the
type of the pointers to `TypeError` for `&`, and leaves the checker as the inference of the
argument leaves it. -/
theorem unary_type_error_spec (v : Virt) (checker : TypeChecker) (loc : Loc) (arg arg1 : Expr)
    (checker1 : TypeChecker)
    (h : TypeChecker.infer v checker arg = some (.typeError, arg1, checker1)) :
    (∀ tag : UnaryTag,
      tag = .Not ∨ tag = .Plus ∨ tag = .Minus ∨ tag = .Deref ∨ tag = .Forget →
      UnaryExpr.infer v checker loc tag arg = some (.typeError, arg1, checker1)) ∧
    UnaryExpr.infer v checker loc .Known arg = some (.prim .Bool, arg1, checker1) ∧
    UnaryExpr.infer v checker loc .AddrOf arg = some (.ptr .typeError false 0, arg1, checker1) := by
  have hty : arg1.type = some .typeError := TypeChecker.infer_type v checker arg _ _ _ h
  have hc : TypeChecker.coerce v checker1 arg1 .typeError = some (.typeError, arg1, checker1) :=
    TypeChecker.coerce_of_typed v checker1 arg1 .typeError rfl rfl hty
  refine ⟨?_, ?_, ?_⟩
  · intro tag htag
    unfold UnaryExpr.infer
    rcases htag with rfl | rfl | rfl | rfl | rfl <;>
      simp [h, remove_ref, UnaryTag.is_inc, UnaryTag.is_dec, hc, hty,
        TypeChecker.should_report_error, Ty.contains, simd_elem, Ty.isPrim,
        TypeChecker.type_expected]
  · unfold UnaryExpr.infer
    simp [h, remove_ref, UnaryTag.is_inc, UnaryTag.is_dec, hc]
  · unfold UnaryExpr.infer
    simp [h, remove_ref, UnaryTag.is_inc, UnaryTag.is_dec]

/-- Witness of C32: `-e` and `*e` on a path `e` whose type is `TypeError`. -/
theorem unary_type_error_spec_witness :
    UnaryExpr.infer (Expr.virt 1) ⟨0, []⟩ ⟨0, 5⟩ .Minus (.path ⟨4, 5⟩ (some .typeError) 7) =
      some (.typeError, .path ⟨4, 5⟩ (some .typeError) 7, ⟨0, []⟩) ∧
    UnaryExpr.infer (Expr.virt 1) ⟨0, []⟩ ⟨0, 5⟩ .Deref (.path ⟨4, 5⟩ (some .typeError) 7) =
      some (.typeError, .path ⟨4, 5⟩ (some .typeError) 7, ⟨0, []⟩) :=
  ⟨(unary_type_error_spec (Expr.virt 1) ⟨0, []⟩ ⟨0, 5⟩ (.path ⟨4, 5⟩ (some .typeError) 7)
      (.path ⟨4, 5⟩ (some .typeError) 7) ⟨0, []⟩ rfl).1 .Minus (Or.inr (Or.inr (Or.inl rfl))),
   (unary_type_error_spec (Expr.virt 1) ⟨0, []⟩ ⟨0, 5⟩ (.path ⟨4, 5⟩ (some .typeError) 7)
      (.path ⟨4, 5⟩ (some .typeError) 7) ⟨0, []⟩ rfl).1 .Deref
      (Or.inr (Or.inr (Or.inr (Or.inl rfl))))⟩

/-! ## Claim on `run` -/

/-- Claim C33: `TypeChecker::run(module)` returns true if and only if the error count is zero
after the module has been inferred; the checker is left as the inference leaves it. -/
theorem run_spec (infer : TypeChecker → Option (Ty × TypeChecker)) (checker : TypeChecker)
    (type : Ty) (checker1 : TypeChecker) (h : infer checker = some (type, checker1)) :
    ∃ r : Bool, TypeChecker.run infer checker = some (r, checker1) ∧
      (r = true ↔ checker1.errors = 0) := by
  refine ⟨checker1.errors == 0, ?_, ?_⟩
  · simp [TypeChecker.run, h]
  · simp

/-- Witness of C33: the module with the only declaration `struct L { next: L }`, whose
inference reports that the type is not sized, so that `run` returns false. -/
theorem run_spec_witness :
    ∃ r : Bool,
      TypeChecker.run
        (ModDecl.infer Scenario.struct_containing_itself 2
          (fun checker => ([⟨true, ⟨0, 9⟩, .struct 0⟩], checker)) 5) ⟨0, []⟩ =
        some (r, ⟨1, [⟨.error, ⟨0, 9⟩, .recursive_not_sized (.struct 0)⟩]⟩) ∧
      (r = true ↔ (1 : Nat) = 0) :=
  run_spec
    (ModDecl.infer Scenario.struct_containing_itself 2
      (fun checker => ([⟨true, ⟨0, 9⟩, .struct 0⟩], checker)) 5) ⟨0, []⟩ (.mod 5)
    ⟨1, [⟨.error, ⟨0, 9⟩, .recursive_not_sized (.struct 0)⟩]⟩ (by decide)

/-! ## Claims on the composition and on the termination of `order` -/

/-- Claim C37, at the input where the code departs from it.  With
`struct S { f: fn i32 -> i32 }`, `order(S) = 1` and `order(fn S -> ()) = 2` from an empty visited
set, so the claim gives the tuple `(S, fn S -> ())` the order `max(1, 2) = 2`.  The code returns
1: the components share the visited set, and `S`, which the first component left in it, counts 0
inside the second one, whose order comes out as 1.  The order of the tuple depends on the order
of its components: `(fn S -> (), S)` has order 2. -/
theorem order_tuple_shared_struct (fuel : Nat) (dom_first : Bool) :
    Ty.order_start Scenario.struct_with_fn_member dom_first (fuel + 5) (.struct 1) = some 1 ∧
    Ty.order_start Scenario.struct_with_fn_member dom_first (fuel + 5)
      (.fn (.struct 1) (.tuple [])) = some 2 ∧
    Ty.order_start Scenario.struct_with_fn_member dom_first (fuel + 5)
      (.tuple [.struct 1, .fn (.struct 1) (.tuple [])]) = some 1 ∧
    Ty.order Scenario.struct_with_fn_member dom_first (fuel + 5) [.struct 1]
      (.fn (.struct 1) (.tuple [])) = some (1, [.struct 1]) ∧
    Ty.order_start Scenario.struct_with_fn_member dom_first (fuel + 5)
      (.tuple [.fn (.struct 1) (.tuple []), .struct 1]) = some 2 := by
  cases dom_first <;>
    simp [Ty.order_start, Ty.order, Ty.orderLoop, Scenario.struct_with_fn_member]

theorem Scenario.generic_struct_member_type (fuel : Nat) :
    Ty.app_member_type Scenario.generic_struct_pointing_to_itself fuel (.struct 0) [.prim .I32]
        (.ptr (.typeApp (.struct 0) [.typeVar 1]) false 0) = none ∨
    Ty.app_member_type Scenario.generic_struct_pointing_to_itself fuel (.struct 0) [.prim .I32]
        (.ptr (.typeApp (.struct 0) [.typeVar 1]) false 0) =
      some (.ptr (.typeApp (.struct 0) [.prim .I32]) false 0) := by
  match fuel with
  | 0 => left; rfl
  | 1 => left; rfl
  | 2 => left; rfl
  | fuel + 3 =>
    right
    simp [Ty.app_member_type, Scenario.generic_struct_pointing_to_itself, Ty.replace_map,
      Ty.replace_map.loop, Ty.replace, Ty.replaceArgs, Ty.type_app, List.lookup]

theorem Scenario.generic_struct_order_none (dom_first : Bool) :
    ∀ (fuel : Nat) (seen : List Ty),
      Ty.order Scenario.generic_struct_pointing_to_itself dom_first fuel seen
        (.typeApp (.struct 0) [.prim .I32]) = none := by
  intro fuel
  induction fuel using Nat.strong_induction_on with
  | _ fuel ih =>
    intro seen
    match fuel with
    | 0 => rfl
    | fuel + 1 =>
      have hm : Ty.complex_members Scenario.generic_struct_pointing_to_itself (.struct 0) =
          some [.ptr (.typeApp (.struct 0) [.typeVar 1]) false 0] := rfl
      rw [Ty.order]
      simp only [hm, Ty.orderLoop]
      rcases Scenario.generic_struct_member_type fuel with h | h
      · rw [h]
      · rw [h]
        match fuel with
        | 0 => rfl
        | fuel + 1 =>
          have := ih fuel (by omega) seen
          simp only [Ty.order, this]

/-- Claim C39, refuted by the code: with `struct L[T] { next: &L[T] }`, `order` returns no value
for the application `L[i32]`, whatever the depth allowed to the recursion and whatever the
visited set: `TypeApp::order` asks for the order of the member type `&L[i32]`, which
`AddrType::order` passes on to its pointee `L[i32]`, and no visited set is consulted on the way.
The recursion through a pointer to a struct type without parameters stops:
`struct L { next: &L }` has order 0. -/
theorem order_type_app_diverges (dom_first : Bool) :
    (∀ (fuel : Nat) (seen : List Ty),
      Ty.order Scenario.generic_struct_pointing_to_itself dom_first fuel seen
        (.typeApp (.struct 0) [.prim .I32]) = none) ∧
    (∀ fuel : Nat,
      Ty.app_member_type Scenario.generic_struct_pointing_to_itself (fuel + 3) (.struct 0)
        [.prim .I32] (.ptr (.typeApp (.struct 0) [.typeVar 1]) false 0) =
        some (.ptr (.typeApp (.struct 0) [.prim .I32]) false 0)) ∧
    (∀ (fuel : Nat) (is_mut : Bool) (addr_space : Nat),
      Ty.order_start (Scenario.struct_pointing_to_itself is_mut addr_space) dom_first (fuel + 3)
        (.struct 0) = some 0) := by
  refine ⟨Scenario.generic_struct_order_none dom_first, ?_, ?_⟩
  · intro fuel
    simp [Ty.app_member_type, Scenario.generic_struct_pointing_to_itself, Ty.replace_map,
      Ty.replace_map.loop, Ty.replace, Ty.replaceArgs, Ty.type_app, List.lookup]
  · intro fuel is_mut addr_space
    simp [Ty.order_start, Ty.order, Ty.orderLoop, Scenario.struct_pointing_to_itself]

/-! ## Lemmas on the guard of the declarations -/

theorem TypeChecker.enter_decl_of_mem (st : DeclChecker) (decl : NodeAddr) (loc : Loc)
    (h : decl ∈ st.decls_) :
    TypeChecker.enter_decl st decl loc =
      (false, { st with checker := st.checker.error loc .cannot_infer_recursive_declaration }) := by
  simp [TypeChecker.enter_decl, h]

theorem TypeChecker.enter_decl_of_not_mem (st : DeclChecker) (decl : NodeAddr) (loc : Loc)
    (h : decl ∉ st.decls_) :
    TypeChecker.enter_decl st decl loc = (true, { st with decls_ := decl :: st.decls_ }) := by
  simp [TypeChecker.enter_decl, h]

theorem TypeChecker.exit_decl_decls (st : DeclChecker) (decl : NodeAddr) (s : List NodeAddr)
    (h : st.decls_ = decl :: s) : (TypeChecker.exit_decl st decl).decls_ = s := by
  simp [TypeChecker.exit_decl, h]

theorem TypeChecker.infer_params_decls (params : List ChildCall)
    (h : ∀ param ∈ params, ChildCall.Balanced param) :
    ∀ st : DeclChecker, (TypeChecker.infer_params st params).decls_ = st.decls_ := by
  induction params with
  | nil => intro st; rfl
  | cons param params ih =>
    intro st
    rw [TypeChecker.infer_params, ih (fun p hp => h p (List.mem_cons_of_mem _ hp))]
    exact h param (List.mem_cons_self _ _) st

theorem StaticDecl.infer.others_loop_decls (value_type : Ty)
    (others : List (Option (Loc × ChildCall)))
    (h : ∀ (loc : Loc) (infer : ChildCall), some (loc, infer) ∈ others → ChildCall.Balanced infer) :
    ∀ st : DeclChecker,
      (StaticDecl.infer.others_loop value_type st others).decls_ = st.decls_ := by
  induction others with
  | nil => intro st; rfl
  | cons other others ih =>
    intro st
    have ih1 := ih (fun loc infer hm => h loc infer (List.mem_cons_of_mem _ hm))
    cases other with
    | none => rw [StaticDecl.infer.others_loop, ih1]
    | some other =>
      obtain ⟨loc, infer⟩ := other
      rw [StaticDecl.infer.others_loop, ih1]
      exact h loc infer (List.mem_cons_self _ _) st

/-- A declaration that is met again while its type is being inferred: `enter_decl` fails, so
each of the four guarded kinds reports `cannot infer type for recursive declaration`, returns
`TypeError` and leaves the set `decls_` as it is. -/
theorem TypeChecker.reentered (st : DeclChecker) (this : NodeAddr) (loc : Loc)
    (h : this ∈ st.decls_) :
    (∀ type init others is_mut,
      StaticDecl.infer st this loc type init others is_mut =
        (.typeError,
          { st with checker := st.checker.error loc .cannot_infer_recursive_declaration })) ∧
    (∀ param_first type_params ret_type param filter check_refutability fn body,
      (∀ params, type_params = some params → ∀ p ∈ params, ChildCall.Balanced p) →
      FnDecl.infer st this loc param_first type_params ret_type param filter check_refutability
        fn body =
        (.typeError,
          { decls_ := st.decls_,
            checker :=
              (match type_params with
                | some params => TypeChecker.infer_params st params
                | none => st).checker.error loc .cannot_infer_recursive_declaration })) ∧
    (∀ type_params aliased_type,
      TypeDecl.infer st this loc type_params aliased_type =
        (.typeError,
          { st with checker := st.checker.error loc .cannot_infer_recursive_declaration })) ∧
    (∀ path_loc path,
      UseDecl.infer st this loc path_loc path =
        (.typeError,
          { st with checker := st.checker.error loc .cannot_infer_recursive_declaration })) := by
  have he := TypeChecker.enter_decl_of_mem st this loc h
  refine ⟨?_, ?_, ?_, ?_⟩
  · intro type init others is_mut
    simp [StaticDecl.infer, he]
  · intro param_first type_params ret_type param filter check_refutability fn body hparams
    cases type_params with
    | none => simp [FnDecl.infer, he]
    | some params =>
      have hp := TypeChecker.infer_params_decls params (hparams params rfl) st
      simp [FnDecl.infer, TypeChecker.enter_decl, hp, h]
  · intro type_params aliased_type
    simp [TypeDecl.infer, he]
  · intro path_loc path
    simp [UseDecl.infer, he]

/-- The function `StaticDecl::infer` on a declaration with a type annotation or an initializer
releases the guard: the set `decls_` is the same after as before, when the calls on the
children keep it. -/
theorem StaticDecl_infer_decls (st : DeclChecker) (this : NodeAddr) (loc : Loc)
    (type : Option ChildCall) (init : Option StaticInit)
    (others : List (Option (Loc × ChildCall))) (is_mut : Bool) (h : this ∉ st.decls_)
    (hsome : type.isSome = true ∨ init.isSome = true)
    (htype : ∀ infer_type, type = some infer_type → ChildCall.Balanced infer_type)
    (hcoerce : ∀ i, type.isSome = true → init = some i → ∀ t, ChildCall.Balanced (i.coerce t))
    (hderef : ∀ i, type = none → init = some i → ChildCall.Balanced i.deref)
    (hothers : ∀ (l : Loc) (infer : ChildCall), some (l, infer) ∈ others →
      ChildCall.Balanced infer) :
    (StaticDecl.infer st this loc type init others is_mut).2.decls_ = st.decls_ := by
  have he := TypeChecker.enter_decl_of_not_mem st this loc h
  have hloop := StaticDecl.infer.others_loop_decls
  unfold StaticDecl.infer
  simp only [he, Bool.not_true, Bool.false_eq_true, if_false]
  cases type with
  | none =>
    cases init with
    | none => simp at hsome
    | some i =>
      simp only
      apply TypeChecker.exit_decl_decls
      rw [hloop _ others hothers]
      have hd := hderef i rfl rfl { st with decls_ := this :: st.decls_ }
      split <;> simp [hd]
  | some infer_type =>
    have ht := htype infer_type rfl { st with decls_ := this :: st.decls_ }
    cases init with
    | none =>
      simp only
      apply TypeChecker.exit_decl_decls
      rw [hloop _ others hothers]
      exact ht
    | some i =>
      simp only
      apply TypeChecker.exit_decl_decls
      rw [hloop _ others hothers]
      have hc := hcoerce i rfl rfl (infer_type { st with decls_ := this :: st.decls_ }).1
        (infer_type { st with decls_ := this :: st.decls_ }).2
      split <;> simp [hc, ht]

/-- The function `FnDecl::infer` releases the guard on every path: the set `decls_` is the same
after as before, when the calls on the children keep it. -/
theorem FnDecl_infer_decls (st : DeclChecker) (this : NodeAddr) (loc : Loc) (param_first : Bool)
    (type_params : Option (List ChildCall)) (ret_type : Option ChildCall) (param : ChildCall)
    (filter : Option (Ty → ChildCall)) (check_refutability : DeclChecker → DeclChecker)
    (fn : ChildCall) (body : Option (Ty → ChildCall)) (h : this ∉ st.decls_)
    (hparams : ∀ params, type_params = some params → ∀ p ∈ params, ChildCall.Balanced p)
    (hret : ∀ infer_ret, ret_type = some infer_ret → ChildCall.Balanced infer_ret)
    (hparam : ChildCall.Balanced param)
    (hfilter : ∀ f, filter = some f → ∀ t, ChildCall.Balanced (f t))
    (hrefut : ∀ s, (check_refutability s).decls_ = s.decls_)
    (hfn : ChildCall.Balanced fn)
    (hbody : ∀ b, body = some b → ∀ t, ChildCall.Balanced (b t)) :
    (FnDecl.infer st this loc param_first type_params ret_type param filter check_refutability
      fn body).2.decls_ = st.decls_ := by
  have hn : ∀ params, type_params = some params →
      this ∉ (TypeChecker.infer_params st params).decls_ := by
    intro params hp
    rw [TypeChecker.infer_params_decls params (hparams params hp) st]
    exact h
  have hp : ∀ params, type_params = some params →
      (TypeChecker.infer_params st params).decls_ = st.decls_ :=
    fun params hp => TypeChecker.infer_params_decls params (hparams params hp) st
  unfold ChildCall.Balanced at hret hparam hfilter hfn hbody
  unfold FnDecl.infer
  cases type_params with
  | none =>
    cases ret_type with
    | none => simp [TypeChecker.enter_decl, TypeChecker.exit_decl, h, hfn]
    | some infer_ret =>
      have hr := hret infer_ret rfl
      cases filter with
      | none =>
        cases body with
        | none =>
          cases param_first <;>
            simp [TypeChecker.enter_decl, TypeChecker.exit_decl, h, hr, hparam, hrefut]
        | some b =>
          have hb := hbody b rfl
          cases param_first <;>
            simp [TypeChecker.enter_decl, TypeChecker.exit_decl, h, hr, hparam, hrefut, hb]
      | some f =>
        have hf := hfilter f rfl
        cases body with
        | none =>
          cases param_first <;>
            simp [TypeChecker.enter_decl, TypeChecker.exit_decl, h, hr, hparam, hrefut, hf]
        | some b =>
          have hb := hbody b rfl
          cases param_first <;>
            simp [TypeChecker.enter_decl, TypeChecker.exit_decl, h, hr, hparam, hrefut, hf, hb]
  | some params =>
    have hn1 := hn params rfl
    have hp1 := hp params rfl
    cases ret_type with
    | none => simp [TypeChecker.enter_decl, TypeChecker.exit_decl, hn1, hp1, h, hfn]
    | some infer_ret =>
      have hr := hret infer_ret rfl
      cases filter with
      | none =>
        cases body with
        | none =>
          cases param_first <;>
            simp [TypeChecker.enter_decl, TypeChecker.exit_decl, hn1, hp1, h, hr, hparam, hrefut]
        | some b =>
          have hb := hbody b rfl
          cases param_first <;>
            simp [TypeChecker.enter_decl, TypeChecker.exit_decl, hn1, hp1, h, hr, hparam, hrefut,
              hb]
      | some f =>
        have hf := hfilter f rfl
        cases body with
        | none =>
          cases param_first <;>
            simp [TypeChecker.enter_decl, TypeChecker.exit_decl, hn1, hp1, h, hr, hparam, hrefut,
              hf]
        | some b =>
          have hb := hbody b rfl
          cases param_first <;>
            simp [TypeChecker.enter_decl, TypeChecker.exit_decl, hn1, hp1, h, hr, hparam, hrefut,
              hf, hb]

/-- The function `TypeDecl::infer` releases the guard on every path: the set `decls_` is the
same after as before, when the calls on the children keep it. -/
theorem TypeDecl_infer_decls (st : DeclChecker) (this : NodeAddr) (loc : Loc)
    (type_params : Option (List ChildCall)) (aliased_type : ChildCall) (h : this ∉ st.decls_)
    (hparams : ∀ params, type_params = some params → ∀ p ∈ params, ChildCall.Balanced p)
    (haliased : ChildCall.Balanced aliased_type) :
    (TypeDecl.infer st this loc type_params aliased_type).2.decls_ = st.decls_ := by
  have he := TypeChecker.enter_decl_of_not_mem st this loc h
  unfold TypeDecl.infer
  simp only [he, Bool.not_true, Bool.false_eq_true, if_false]
  cases type_params with
  | none =>
    simp only
    apply TypeChecker.exit_decl_decls
    exact haliased _
  | some params =>
    simp only
    apply TypeChecker.exit_decl_decls
    rw [haliased _, TypeChecker.infer_params_decls params (hparams params rfl)]

/-- The function `UseDecl::infer` releases the guard on every path, also when the path is not a
module: the set `decls_` is the same after as before, when the inference of the path keeps it. -/
theorem UseDecl_infer_decls (st : DeclChecker) (this : NodeAddr) (loc : Loc) (path_loc : Loc)
    (path : ChildCall) (h : this ∉ st.decls_) (hpath : ChildCall.Balanced path) :
    (UseDecl.infer st this loc path_loc path).2.decls_ = st.decls_ := by
  have he := TypeChecker.enter_decl_of_not_mem st this loc h
  have hd := hpath { st with decls_ := this :: st.decls_ }
  unfold UseDecl.infer
  simp only [he, Bool.not_true, Bool.false_eq_true, if_false]
  split <;> simp [TypeChecker.exit_decl, hd]

/-! ## Claim on the guard of the declarations -/

/-- Claim C34, refuted by the code on the path it names: `StaticDecl::infer` on a static with
neither a type annotation nor an initializer, not yet in the set of the declarations in progress,
reports `cannot infer type for static variable`, returns `TypeError` and leaves through that
`return` without calling `exit_decl`: the declaration stays in the set, which is not the set
from before.  With a type annotation or an initializer the same function restores the set, as
`FnDecl::infer`, `TypeDecl::infer` and `UseDecl::infer` do on every path; an initializer that is
not a constant is an error path that restores it. -/
theorem static_decl_guard_not_released (st : DeclChecker) (this : NodeAddr) (loc : Loc)
    (others : List (Option (Loc × ChildCall))) (is_mut : Bool) (h : this ∉ st.decls_) :
    StaticDecl.infer st this loc none none others is_mut =
      (.typeError,
        { checker := st.checker.error loc (.cannot_infer_type_for "static variable"),
          decls_ := this :: st.decls_ }) ∧
    (StaticDecl.infer st this loc none none others is_mut).2.decls_ ≠ st.decls_ ∧
    (∀ (init : StaticInit), ChildCall.Balanced init.deref →
      (StaticDecl.infer st this loc none (some init) [] is_mut).2.decls_ = st.decls_) := by
  have he := TypeChecker.enter_decl_of_not_mem st this loc h
  have h1 : StaticDecl.infer st this loc none none others is_mut =
      (.typeError,
        { checker := st.checker.error loc (.cannot_infer_type_for "static variable"),
          decls_ := this :: st.decls_ }) := by
    simp [StaticDecl.infer, he, TypeChecker.cannot_infer]
  refine ⟨h1, ?_, ?_⟩
  · rw [h1]
    intro hc
    have := congrArg List.length hc
    simp at this
  · intro init hinit
    exact StaticDecl_infer_decls st this loc none (some init) [] is_mut h (Or.inr rfl)
      (fun _ hn => by cases hn) (fun _ hn => by cases hn)
      (fun i _ hi => by cases hi; exact hinit) (fun _ _ hm => by cases hm)

/-- Witness of C34: the static `3` without type and initializer, inferred with an empty set. -/
theorem static_decl_guard_not_released_witness :
    StaticDecl.infer ⟨⟨0, []⟩, []⟩ 3 ⟨0, 9⟩ none none [] false =
      (.typeError,
        { checker := ⟨1, [⟨.error, ⟨0, 9⟩, .cannot_infer_type_for "static variable"⟩]⟩,
          decls_ := [3] }) ∧
    (StaticDecl.infer ⟨⟨0, []⟩, []⟩ 3 ⟨0, 9⟩ none none [] false).2.decls_ ≠ [] :=
  ⟨(static_decl_guard_not_released ⟨⟨0, []⟩, []⟩ 3 ⟨0, 9⟩ [] false (by decide)).1,
   (static_decl_guard_not_released ⟨⟨0, []⟩, []⟩ 3 ⟨0, 9⟩ [] false (by decide)).2.1⟩

/-! ## Claim on the arms of a match expression -/

/-- Claim C35, refuted by the code: `MatchExpr::infer` does not join the types of the arms.  The
type of the first arm becomes the type every later arm is coerced to, so the result depends on
the order of the arms.  With an arm of type `NoRet` followed by an arm of type `i32`, it reports
`expected type '!', but got type 'i32'` at the second arm and returns `TypeError`, where the
claim says `i32` without an error; with the same arms in the other order it returns `i32`
without an error, the first arm being cast. -/
theorem match_arms_order_dependent (v : Virt) (checker : TypeChecker) (loc : Loc) (arg : Expr)
    (arg_type : Ty) (arg1 : Expr) (checker1 : TypeChecker)
    (p q : TypeChecker → Ty → TypeChecker) (diverging number : Expr)
    (harg : TypeChecker.deref v checker arg = some (arg_type, arg1, checker1))
    (hd : diverging.type = some .noRet) (hn : number.type = some (.prim .I32)) :
    MatchExpr.infer v checker loc arg [⟨p, diverging⟩, ⟨q, number⟩] =
      some (.typeError, arg1, [⟨p, diverging⟩, ⟨q, number⟩],
        (q (p checker1 arg_type) arg_type).error number.loc
          (.expected_type_got_type .noRet (.prim .I32))) ∧
    MatchExpr.infer v checker loc arg [⟨q, number⟩, ⟨p, diverging⟩] =
      some (.prim .I32, arg1,
        [⟨q, number⟩, ⟨p, ImplicitCastExpr.mk diverging.loc diverging (.prim .I32)⟩],
        p (q checker1 arg_type) arg_type) := by
  have hdi : ∀ c, TypeChecker.deref v c diverging = some (.noRet, diverging, c) := by
    intro c
    simp [TypeChecker.deref, TypeChecker.infer_of_typed v c diverging .noRet hd, remove_ref]
  have hni : ∀ c, TypeChecker.deref v c number = some (.prim .I32, number, c) := by
    intro c
    simp [TypeChecker.deref, TypeChecker.infer_of_typed v c number (.prim .I32) hn, remove_ref]
  have hnc : ∀ c, TypeChecker.coerce v c number .noRet =
      some (.typeError, number,
        c.error number.loc (.expected_type_got_type .noRet (.prim .I32))) := by
    intro c
    rw [TypeChecker.coerce_eq_cast v c number .noRet rfl rfl]
    simp [TypeChecker.coerce.cast, TypeChecker.coerce.type_of, hn, Ty.subtype, Ty.isNoRet,
      Ty.isPtr, Ty.subtypeArray, Ty.isRef, TypeChecker.incompatible_types,
      TypeChecker.should_report_error, Ty.contains]
  have hdc : ∀ c, TypeChecker.coerce v c diverging (.prim .I32) =
      some (.prim .I32, ImplicitCastExpr.mk diverging.loc diverging (.prim .I32), c) := by
    intro c
    rw [TypeChecker.coerce_eq_cast v c diverging (.prim .I32) rfl rfl]
    simp [TypeChecker.coerce.cast, TypeChecker.coerce.type_of, hd, Ty.subtype, Ty.isNoRet]
  constructor
  · simp [MatchExpr.infer, MatchExpr.check, MatchExpr.check.loop, harg, hdi, hnc]
  · simp [MatchExpr.infer, MatchExpr.check, MatchExpr.check.loop, harg, hni, hdc]

/-- Witness of C35: `match x { _ => a, _ => b }` for paths `x: i32`, `a: !` and `b: i32`, with
patterns whose check reports nothing, and the same with the arms exchanged. -/
theorem match_arms_order_dependent_witness :
    MatchExpr.infer (Expr.virt 1) ⟨0, []⟩ ⟨0, 9⟩ (.path ⟨1, 2⟩ (some (.prim .I32)) 5)
      [⟨fun checker _ => checker, .path ⟨3, 4⟩ (some .noRet) 6⟩,
       ⟨fun checker _ => checker, .path ⟨7, 8⟩ (some (.prim .I32)) 7⟩] =
      some (.typeError, .path ⟨1, 2⟩ (some (.prim .I32)) 5,
        [⟨fun checker _ => checker, .path ⟨3, 4⟩ (some .noRet) 6⟩,
         ⟨fun checker _ => checker, .path ⟨7, 8⟩ (some (.prim .I32)) 7⟩],
        ⟨1, [⟨.error, ⟨7, 8⟩, .expected_type_got_type .noRet (.prim .I32)⟩]⟩) ∧
    MatchExpr.infer (Expr.virt 1) ⟨0, []⟩ ⟨0, 9⟩ (.path ⟨1, 2⟩ (some (.prim .I32)) 5)
      [⟨fun checker _ => checker, .path ⟨7, 8⟩ (some (.prim .I32)) 7⟩,
       ⟨fun checker _ => checker, .path ⟨3, 4⟩ (some .noRet) 6⟩] =
      some (.prim .I32, .path ⟨1, 2⟩ (some (.prim .I32)) 5,
        [⟨fun checker _ => checker, .path ⟨7, 8⟩ (some (.prim .I32)) 7⟩,
         ⟨fun checker _ => checker,
          ImplicitCastExpr.mk ⟨3, 4⟩ (.path ⟨3, 4⟩ (some .noRet) 6) (.prim .I32)⟩],
        ⟨0, []⟩) :=
  match_arms_order_dependent (Expr.virt 1) ⟨0, []⟩ ⟨0, 9⟩ (.path ⟨1, 2⟩ (some (.prim .I32)) 5)
    (.prim .I32) (.path ⟨1, 2⟩ (some (.prim .I32)) 5) ⟨0, []⟩ (fun checker _ => checker)
    (fun checker _ => checker) (.path ⟨3, 4⟩ (some .noRet) 6)
    (.path ⟨7, 8⟩ (some (.prim .I32)) 7) rfl rfl rfl

/-! ## Lemmas on casts -/

theorem is_int_type_not_ptr (type : Ty) (h : is_int_type type = true) : type.isPtr = false := by
  cases type <;> simp_all [is_int_type, Ty.isPtr]

theorem is_float_type_not_ptr (type : Ty) (h : is_float_type type = true) :
    type.isPtr = false := by
  cases type <;> simp_all [is_float_type, Ty.isPtr]

theorem is_float_type_not_int (type : Ty) (h : is_float_type type = true) :
    is_int_type type = false := by
  cases type with
  | prim tag => cases tag <;> simp_all [is_float_type, is_int_type]
  | _ => simp_all [is_float_type, is_int_type]

/-- The casts between different types that `CastExpr::infer` lets through. -/
theorem CastExpr.infer.allowed_iff (type expected : Ty) :
    CastExpr.infer.allowed type expected = true ↔
      (expected.isPtr = true ∧ (type.isPtr = true ∨ is_int_type type = true)) ∨
      (is_int_type expected = true ∧
        (type.isPtr = true ∨ is_int_type type = true ∨ is_float_type type = true)) ∨
      (is_float_type expected = true ∧
        (is_int_type type = true ∨ is_float_type type = true)) := by
  have h1 := is_int_type_not_ptr expected
  have h2 := is_float_type_not_ptr expected
  have h3 := is_float_type_not_int expected
  unfold CastExpr.infer.allowed
  cases hp : expected.isPtr <;> cases hi : is_int_type expected <;>
    cases hf : is_float_type expected <;> simp_all

/-! ## Claim on casts -/

/-- Counterexample to C38 as stated: the cast to `i32` of an operand whose type is `TypeError`
is not accepted and returns `TypeError`, but no invalid-cast error is reported. -/
theorem cast_type_error_counterexample :
    CastExpr.infer (Expr.virt 1) (fun checker => (.prim .I32, checker)) ⟨0, []⟩ ⟨0, 9⟩
      (.path ⟨1, 2⟩ (some .typeError) 5) =
      some (.typeError, .path ⟨1, 2⟩ (some .typeError) 5, ⟨0, []⟩) :=
  rfl

/-- Claim C38, amended: `CastExpr::infer` from the type `S` of the operand to the type `T` of
the annotation.  When `S` is `T` it warns that the types are identical and returns `T`.  When
they differ it returns `T` without a report if and only if `T` is a pointer and `S` a pointer or
an integer, or `T` is an integer and `S` a pointer, an integer or a floating-point number, or `T`
is a floating-point number and `S` an integer or a floating-point number; otherwise it returns
`TypeError`, and reports `invalid cast` only when neither `S` nor `T` contains `TypeError`.  The
casts let through between different types are symmetric, and `Bool` is never the source nor the
target of one. -/
theorem cast_spec (v : Virt) (infer_type : TypeChecker → Ty × TypeChecker)
    (checker : TypeChecker) (loc : Loc) (expr : Expr) (S : Ty) (expr1 : Expr)
    (checker1 : TypeChecker)
    (h : TypeChecker.deref v (infer_type checker).2 expr = some (S, expr1, checker1)) :
    (S = (infer_type checker).1 →
      CastExpr.infer v infer_type checker loc expr =
        some ((infer_type checker).1, expr1, checker1.warn loc .identical_cast)) ∧
    (S ≠ (infer_type checker).1 →
      (((infer_type checker).1.isPtr = true ∧ (S.isPtr = true ∨ is_int_type S = true)) ∨
        (is_int_type (infer_type checker).1 = true ∧
          (S.isPtr = true ∨ is_int_type S = true ∨ is_float_type S = true)) ∨
        (is_float_type (infer_type checker).1 = true ∧
          (is_int_type S = true ∨ is_float_type S = true))) →
      CastExpr.infer v infer_type checker loc expr =
        some ((infer_type checker).1, expr1, checker1)) ∧
    (S ≠ (infer_type checker).1 →
      ¬(((infer_type checker).1.isPtr = true ∧ (S.isPtr = true ∨ is_int_type S = true)) ∨
        (is_int_type (infer_type checker).1 = true ∧
          (S.isPtr = true ∨ is_int_type S = true ∨ is_float_type S = true)) ∨
        (is_float_type (infer_type checker).1 = true ∧
          (is_int_type S = true ∨ is_float_type S = true))) →
      CastExpr.infer v infer_type checker loc expr =
        some (.typeError, expr1,
          if S.contains .typeError = false ∧ (infer_type checker).1.contains .typeError = false
          then checker1.error loc (.invalid_cast S (infer_type checker).1)
          else checker1)) ∧
    (∀ A B : Ty, CastExpr.infer.allowed A B = CastExpr.infer.allowed B A) ∧
    (∀ A : Ty, CastExpr.infer.allowed (.prim .Bool) A = false ∧
      CastExpr.infer.allowed A (.prim .Bool) = false) := by
  refine ⟨?_, ?_, ?_, ?_, ?_⟩
  · intro heq
    simp [CastExpr.infer, h, heq]
  · intro hne hok
    have ha := (CastExpr.infer.allowed_iff S (infer_type checker).1).2 hok
    simp [CastExpr.infer, h, hne, ha]
  · intro hne hbad
    have ha : CastExpr.infer.allowed S (infer_type checker).1 = false := by
      rw [Bool.eq_false_iff]
      exact fun hc => hbad ((CastExpr.infer.allowed_iff S (infer_type checker).1).1 hc)
    simp only [CastExpr.infer, h, hne, ha, if_false, Bool.false_eq_true,
      TypeChecker.invalid_cast, TypeChecker.should_report_error]
    by_cases h1 : S.contains .typeError = false <;>
      by_cases h2 : (infer_type checker).1.contains .typeError = false <;>
      simp_all
  · intro A B
    rw [Bool.eq_iff_iff, CastExpr.infer.allowed_iff, CastExpr.infer.allowed_iff]
    tauto
  · intro A
    constructor
    · rw [Bool.eq_false_iff]
      intro hc
      rw [CastExpr.infer.allowed_iff] at hc
      simp [Ty.isPtr, is_int_type, is_float_type] at hc
    · rw [Bool.eq_false_iff]
      intro hc
      rw [CastExpr.infer.allowed_iff] at hc
      simp [Ty.isPtr, is_int_type, is_float_type] at hc

/-- Witness of C38: the cast of a path of type `&u8` to `u64`, and the cast of a path of type
`bool` to `i32`, which is reported. -/
theorem cast_spec_witness :
    CastExpr.infer (Expr.virt 1) (fun checker => (.prim .U64, checker)) ⟨0, []⟩ ⟨0, 9⟩
      (.path ⟨1, 2⟩ (some (.ptr (.prim .U8) false 0)) 5) =
      some (.prim .U64, .path ⟨1, 2⟩ (some (.ptr (.prim .U8) false 0)) 5, ⟨0, []⟩) ∧
    CastExpr.infer (Expr.virt 1) (fun checker => (.prim .I32, checker)) ⟨0, []⟩ ⟨0, 9⟩
      (.path ⟨1, 2⟩ (some (.prim .Bool)) 5) =
      some (.typeError, .path ⟨1, 2⟩ (some (.prim .Bool)) 5,
        if Ty.contains (.prim .Bool) .typeError = false ∧
            Ty.contains (.prim .I32) .typeError = false
        then TypeChecker.error ⟨0, []⟩ ⟨0, 9⟩ (.invalid_cast (.prim .Bool) (.prim .I32))
        else ⟨0, []⟩) :=
  ⟨(cast_spec (Expr.virt 1) (fun checker => (.prim .U64, checker)) ⟨0, []⟩ ⟨0, 9⟩
      (.path ⟨1, 2⟩ (some (.ptr (.prim .U8) false 0)) 5) (.ptr (.prim .U8) false 0)
      (.path ⟨1, 2⟩ (some (.ptr (.prim .U8) false 0)) 5) ⟨0, []⟩ rfl).2.1 (by decide)
      (Or.inr (Or.inl ⟨rfl, Or.inl rfl⟩)),
   (cast_spec (Expr.virt 1) (fun checker => (.prim .I32, checker)) ⟨0, []⟩ ⟨0, 9⟩
      (.path ⟨1, 2⟩ (some (.prim .Bool)) 5) (.prim .Bool)
      (.path ⟨1, 2⟩ (some (.prim .Bool)) 5) ⟨0, []⟩ rfl).2.2.1 (by decide) (by decide)⟩

/-! ## Lemmas on the constructors of tuple-like structures -/

theorem Path.infer.tuple_args_none (decls : Decls) (fuel : Nat) :
    ∀ members : List Ty, Path.infer.tuple_args decls fuel none members = some members := by
  intro members
  induction members with
  | nil => rfl
  | cons member members ih => simp [Path.infer.tuple_args, member_type, ih]

theorem Path.infer.tuple_args_app (decls : Decls) (fuel : Nat) (obj : Nat) (type_args : List Ty)
    (params : List (Option Ty)) (map : List (Ty × Ty))
    (hparams : decls.type_params obj = some params)
    (hmap : Ty.replace_map params type_args = some map) :
    ∀ members : List Ty, (∀ m ∈ members, sizeOf m ≤ fuel ∧ m.wellFormed = true) →
      Path.infer.tuple_args decls fuel (some (.typeApp (.struct obj) type_args)) members =
        some (members.map (Ty.subst map)) := by
  intro members
  induction members with
  | nil => intro _; rfl
  | cons member members ih =>
    intro h
    have hm := h member (List.mem_cons_self _ _)
    have hr := Ty.replace_eq_subst decls map fuel member hm.1 hm.2
    simp [Path.infer.tuple_args, member_type, Ty.app_member_type, hparams, hmap, hr,
      ih (fun m hmem => h m (List.mem_cons_of_mem _ hmem))]

/-! ## Claim on the constructors of tuple-like structures -/

/-- Claim C36: for a constructor reference where a value is expected, on a tuple-like struct
type `S` with the members `m1..mn`, the statement of `Path::infer` gives the path the type `S` if
`n = 0`, `fn m1 -> S` if `n = 1` and `fn (m1, .., mn) -> S` if `n ≥ 2`, and marks it as a value
in the three cases.  On an application `S[args]` the same holds with `S[args]` in the place of
`S` and the members with the type arguments substituted for the type parameters of `S`, as soon
as the depth allowed to `replace` covers the size of the members. -/
theorem ctor_as_function (decls : Decls) (is_tuple_like : Nat → Bool) (fuel : Nat) (obj : Nat)
    (is_value : Bool) (h : is_tuple_like obj = true) :
    (decls.members obj = [] →
      Path.infer.ctor decls is_tuple_like fuel true true (.struct obj) is_value =
        some (.struct obj, true)) ∧
    (∀ m, decls.members obj = [m] →
      Path.infer.ctor decls is_tuple_like fuel true true (.struct obj) is_value =
        some (.fn m (.struct obj), true)) ∧
    (∀ m1 m2 ms, decls.members obj = m1 :: m2 :: ms →
      Path.infer.ctor decls is_tuple_like fuel true true (.struct obj) is_value =
        some (.fn (.tuple (m1 :: m2 :: ms)) (.struct obj), true)) ∧
    (∀ (type_args : List Ty) (params : List (Option Ty)) (map : List (Ty × Ty)),
      decls.type_params obj = some params →
      Ty.replace_map params type_args = some map →
      (∀ m ∈ decls.members obj, sizeOf m ≤ fuel ∧ m.wellFormed = true) →
      (decls.members obj = [] →
        Path.infer.ctor decls is_tuple_like fuel true true (.typeApp (.struct obj) type_args)
          is_value = some (.typeApp (.struct obj) type_args, true)) ∧
      (∀ m, decls.members obj = [m] →
        Path.infer.ctor decls is_tuple_like fuel true true (.typeApp (.struct obj) type_args)
          is_value = some (.fn (Ty.subst map m) (.typeApp (.struct obj) type_args), true)) ∧
      (∀ m1 m2 ms, decls.members obj = m1 :: m2 :: ms →
        Path.infer.ctor decls is_tuple_like fuel true true (.typeApp (.struct obj) type_args)
          is_value =
          some (.fn (.tuple (Ty.subst map m1 :: Ty.subst map m2 :: ms.map (Ty.subst map)))
            (.typeApp (.struct obj) type_args), true))) := by
  refine ⟨?_, ?_, ?_, ?_⟩
  · intro hm
    simp [Path.infer.ctor, match_app_struct, h, hm]
  · intro m hm
    simp [Path.infer.ctor, match_app_struct, h, hm, Path.infer.tuple_args_none]
  · intro m1 m2 ms hm
    simp [Path.infer.ctor, match_app_struct, h, hm, Path.infer.tuple_args_none]
  · intro type_args params map hparams hmap hfuel
    have ht := Path.infer.tuple_args_app decls fuel obj type_args params map hparams hmap
      (decls.members obj) hfuel
    refine ⟨?_, ?_, ?_⟩
    · intro hm
      simp [Path.infer.ctor, match_app_struct, h, hm]
    · intro m hm
      rw [hm] at ht
      simp [Path.infer.ctor, match_app_struct, h, hm, ht]
    · intro m1 m2 ms hm
      rw [hm] at ht
      simp [Path.infer.ctor, match_app_struct, h, hm, ht]

/-- Witness of C36 on `struct U`, `struct W(i32)` and `struct P[T](T, &T)`: the constructors
have the types `U`, `fn i32 -> W` and, for `P[i32]`, `fn (i32, &i32) -> P[i32]`. -/
theorem ctor_as_function_witness :
    Path.infer.ctor Scenario.tuple_like_structs (fun _ => true) 10 true true (.struct 0) false =
      some (.struct 0, true) ∧
    Path.infer.ctor Scenario.tuple_like_structs (fun _ => true) 10 true true (.struct 1) false =
      some (.fn (.prim .I32) (.struct 1), true) ∧
    Path.infer.ctor Scenario.tuple_like_structs (fun _ => true) 10 true true
      (.typeApp (.struct 2) [.prim .I32]) false =
      some (.fn (.tuple [.prim .I32, .ptr (.prim .I32) false 0])
        (.typeApp (.struct 2) [.prim .I32]), true) :=
  ⟨(ctor_as_function Scenario.tuple_like_structs (fun _ => true) 10 0 false rfl).1 rfl,
   (ctor_as_function Scenario.tuple_like_structs (fun _ => true) 10 1 false rfl).2.1
      (.prim .I32) rfl,
   ((ctor_as_function Scenario.tuple_like_structs (fun _ => true) 10 2 false rfl).2.2.2
      [.prim .I32] [some (.typeVar 3)] [(.typeVar 3, .prim .I32)] rfl rfl
      (by decide)).2.2 (.typeVar 3) (.ptr (.typeVar 3) false 0) [] rfl⟩

/-! ## Lemmas on the pattern-shape predicates of `ast.h` -/

mutual
theorem ast.Expr.valid_of_only_identifiers :
    ∀ e : ast.Expr, e.only_identifiers = true → e.is_valid_pattern = true
  | .IdExpr _ _, _ => rfl
  | .LiteralExpr _ _, _ => rfl
  | .TupleExpr _ args, h => by
    simp only [ast.Expr.only_identifiers, ast.Expr.is_valid_pattern] at h ⊢
    exact ast.Expr.valid_of_only_identifiers_all args h
  | .LambdaExpr _ _ _, h => by simp [ast.Expr.only_identifiers] at h
  | .BlockExpr _ _, h => by simp [ast.Expr.only_identifiers] at h
  | .DeclExpr _ _, h => by simp [ast.Expr.only_identifiers] at h
  | .CallExpr _ _ _, h => by simp [ast.Expr.only_identifiers] at h
  | .ErrorExpr _, h => by simp [ast.Expr.only_identifiers] at h
theorem ast.Expr.valid_of_only_identifiers_all :
    ∀ args : List ast.Expr, ast.Expr.only_identifiers.if_all args = true →
      ast.Expr.is_valid_pattern.if_all args = true
  | [], _ => rfl
  | e :: args, h => by
    simp only [ast.Expr.only_identifiers.if_all, ast.Expr.is_valid_pattern.if_all,
      Bool.and_eq_true] at h ⊢
    exact ⟨ast.Expr.valid_of_only_identifiers e h.1,
      ast.Expr.valid_of_only_identifiers_all args h.2⟩
end

mutual
theorem ast.Expr.no_evaluation_of_valid :
    ∀ e : ast.Expr, e.is_valid_pattern = true → e.needs_evaluation = false
  | .IdExpr _ _, _ => rfl
  | .LiteralExpr _ _, _ => rfl
  | .TupleExpr _ args, h => by
    simp only [ast.Expr.needs_evaluation, ast.Expr.is_valid_pattern] at h ⊢
    exact ast.Expr.no_evaluation_of_valid_all args h
  | .LambdaExpr _ _ _, _ => rfl
  | .BlockExpr _ _, h => by simp [ast.Expr.is_valid_pattern] at h
  | .DeclExpr _ _, h => by simp [ast.Expr.is_valid_pattern] at h
  | .CallExpr _ _ _, h => by simp [ast.Expr.is_valid_pattern] at h
  | .ErrorExpr _, h => by simp [ast.Expr.is_valid_pattern] at h
theorem ast.Expr.no_evaluation_of_valid_all :
    ∀ args : List ast.Expr, ast.Expr.is_valid_pattern.if_all args = true →
      ast.Expr.needs_evaluation.if_any args = false
  | [], _ => rfl
  | e :: args, h => by
    simp only [ast.Expr.needs_evaluation.if_any, ast.Expr.is_valid_pattern.if_all,
      Bool.and_eq_true, Bool.or_eq_false_iff] at h ⊢
    exact ⟨ast.Expr.no_evaluation_of_valid e h.1,
      ast.Expr.no_evaluation_of_valid_all args h.2⟩
end

/-! ## Claim on the pattern-shape predicates of `ast.h` -/

/-- Claim C40: for every expression `e` of the AST of `ast.h`, `only_identifiers(e)` implies
`is_valid_pattern(e)`, which implies that `needs_evaluation(e)` is false; hence, for every
pattern `p`, `is_binder(p)` implies `is_valid(p)`. -/
theorem pattern_predicates_nested (e : ast.Expr) (p : ast.Ptrn) :
    (e.only_identifiers = true → e.is_valid_pattern = true) ∧
    (e.is_valid_pattern = true → e.needs_evaluation = false) ∧
    (p.is_binder = true → p.is_valid = true) := by
  refine ⟨ast.Expr.valid_of_only_identifiers e, ast.Expr.no_evaluation_of_valid e, ?_⟩
  cases p with
  | mk expr => exact ast.Expr.valid_of_only_identifiers expr

/-- Witness of C40: the tuple `(x, (y, z))` of identifiers, taken as an expression and as a
pattern, is a valid pattern that needs no evaluation. -/
theorem pattern_predicates_nested_witness :
    (ast.Expr.TupleExpr ⟨0, 9⟩ [.IdExpr ⟨1, 2⟩ "x",
        .TupleExpr ⟨3, 8⟩ [.IdExpr ⟨4, 5⟩ "y", .IdExpr ⟨6, 7⟩ "z"]]).is_valid_pattern = true ∧
    (ast.Expr.TupleExpr ⟨0, 9⟩ [.IdExpr ⟨1, 2⟩ "x",
        .TupleExpr ⟨3, 8⟩ [.IdExpr ⟨4, 5⟩ "y", .IdExpr ⟨6, 7⟩ "z"]]).needs_evaluation = false ∧
    (ast.Ptrn.mk (.TupleExpr ⟨0, 9⟩ [.IdExpr ⟨1, 2⟩ "x",
        .TupleExpr ⟨3, 8⟩ [.IdExpr ⟨4, 5⟩ "y", .IdExpr ⟨6, 7⟩ "z"]])).is_valid = true :=
  ⟨(pattern_predicates_nested
      (.TupleExpr ⟨0, 9⟩ [.IdExpr ⟨1, 2⟩ "x",
        .TupleExpr ⟨3, 8⟩ [.IdExpr ⟨4, 5⟩ "y", .IdExpr ⟨6, 7⟩ "z"]])
      (.mk (.ErrorExpr ⟨0, 0⟩))).1 rfl,
   (pattern_predicates_nested
      (.TupleExpr ⟨0, 9⟩ [.IdExpr ⟨1, 2⟩ "x",
        .TupleExpr ⟨3, 8⟩ [.IdExpr ⟨4, 5⟩ "y", .IdExpr ⟨6, 7⟩ "z"]])
      (.mk (.ErrorExpr ⟨0, 0⟩))).2.1 rfl,
   (pattern_predicates_nested (.ErrorExpr ⟨0, 0⟩)
      (.mk (.TupleExpr ⟨0, 9⟩ [.IdExpr ⟨1, 2⟩ "x",
        .TupleExpr ⟨3, 8⟩ [.IdExpr ⟨4, 5⟩ "y", .IdExpr ⟨6, 7⟩ "z"]]))).2.2 rfl⟩

end Artic
